import Mathlib

/-!
# gorm-dao: record-access layer over a relational store

A shallow embedding of the repository code (the root package `dao`, files `src/*.go`, and its
successor, the sub-package `src/dao/*.go`) together with the properties proved about it.

Conventions of the embedding

* a Go `error` is an `Option Err` (`none` is the nil error);
* effects (storage calls, hook dispatches, stats samples, log lines) are recorded, in order, in a
  list of `Event`s returned next to the result of every operation;
* the storage layer (gorm), the clock and the formatting of operands by package `fmt` are
  collaborators of the code: they are parameters of the definitions.
-/

set_option autoImplicit false

namespace GormDao

/-! ## Error values -/

/-- Errors raised below the repository: the sentinels of gorm and database/sql, the driver
error `*pq.Error` (with the fields the code reads) and any other plain error carrying a text
(`errors.New`). -/
inductive BaseErr where
  | ErrRecordNotFound
  | ErrNoRows
  | pq (Code : String) (Constraint : String) (Message : String)
  | text (msg : String)
  deriving DecidableEq, Repr

/-- Key and value of one `*merryErr` node (package merry): the captured stack, a message or an
HTTP status code. -/
inductive MerryVal where
  | stack
  | message (msg : String)
  | httpCode (code : Int)
  deriving DecidableEq, Repr

/-- Error values.
* `base`: an error raised below the repository;
* `gormErrors`: a `gorm.Errors` collection;
* `withMessage cause msg`: the result of `errors.Wrap(cause, msg)` / `errors.Wrapf` of
  github.com/pkg/errors (a `withStack` around a `withMessage`);
* `merryErr err v`: a `*merryErr` node of github.com/ansel1/merry holding one key/value on top
  of `err`. -/
inductive Err where
  | base (b : BaseErr)
  | gormErrors (es : List BaseErr)
  | withMessage (cause : Err) (msg : String)
  | merryErr (err : Err) (v : MerryVal)
  deriving DecidableEq, Repr

/-- Text of a base error (`Error()`). -/
def BaseErr.Error : BaseErr → String
  | .ErrRecordNotFound => "record not found"
  | .ErrNoRows => "sql: no rows in result set"
  | .pq _ _ msg => "pq: " ++ msg
  | .text msg => msg

/-- The function `merry.Unwrap` as merry implements it up to v1.5.1: strips every `*merryErr`
node (a loop of type assertions on `*merryErr`) and returns the innermost underlying error;
wrappers of other packages are not looked through. The repository pins no version of merry;
`merryUnwrapChain` below is the function of the later versions. -/
def merryUnwrap : Err → Err
  | .merryErr err _ => merryUnwrap err
  | e => e

/-- The function `merry.Unwrap` as merry implements it from v1.6.0 on: it calls `errors.Unwrap`
until it finds the deepest error, and so looks through the merry nodes and through every wrapper
that has an `Unwrap` method. The wrappers of pkg/errors have one from v0.9.0 on; `pkgUnwrap`
tells whether they do. -/
def merryUnwrapChain (pkgUnwrap : Bool) : Err → Err
  | .merryErr err _ => merryUnwrapChain pkgUnwrap err
  | .withMessage cause msg =>
    if pkgUnwrap then merryUnwrapChain pkgUnwrap cause else .withMessage cause msg
  | e => e

/-- Pair `(Error(), merry.Unwrap(e).Error())` of an error. For a `*merryErr` the text is the
outermost message value when it is set and not empty, else the text of the unwrapped error; a
pkg/errors wrapper prints `msg: cause`; a `gorm.Errors` joins its members with `"; "`. -/
def Err.texts : Err → String × String
  | .base b => (b.Error, b.Error)
  | .gormErrors es => ("; ".intercalate (es.map BaseErr.Error), "; ".intercalate (es.map BaseErr.Error))
  | .withMessage cause msg => (msg ++ ": " ++ (Err.texts cause).1, msg ++ ": " ++ (Err.texts cause).1)
  | .merryErr err v =>
    match v with
    | .message m => (if m = "" then (Err.texts err).2 else m, (Err.texts err).2)
    | _ => Err.texts err

/-- The method `Error()` of an error value. -/
def Err.Error (e : Err) : String := e.texts.1

/-- The method `Cause()` chain followed by `errors.Cause` of pkg/errors, on a non-nil error: a
pkg/errors wrapper yields the cause of what it wraps; a `*merryErr` implements `Cause()` and
reports the cause attached with `WithCause`, which this code never attaches, hence nil (were
the chain to stop at the merry node instead, gorm would classify the result the same way: it is
not the record-not-found sentinel); any other error is its own cause. -/
def Err.Cause : Err → Option Err
  | .withMessage cause _ => Err.Cause cause
  | .merryErr _ _ => none
  | e => some e

/-- The function `errors.Cause` of pkg/errors. -/
def errorsCause (err : Option Err) : Option Err := err.bind Err.Cause

/-- The function `errors.Wrap(err, msg)` (and `errors.Wrapf` with the message already rendered):
nil stays nil. -/
def errorsWrap (err : Option Err) (msg : String) : Option Err :=
  err.map (fun e => Err.withMessage e msg)

/-- The function `errors.New` / `errors.Errorf` with the message already rendered. -/
def errorsNew (msg : String) : Err := .base (.text msg)

/-- The function `gorm.IsRecordNotFoundError`: true of the sentinel `gorm.ErrRecordNotFound` and
of a `gorm.Errors` collection that contains it. -/
def gormIsRecordNotFoundError : Option Err → Bool
  | some (.gormErrors es) => es.any (fun e => decide (e = BaseErr.ErrRecordNotFound))
  | some (.base .ErrRecordNotFound) => true
  | _ => false

/-- The function `merry.Wrap`: nil stays nil, a `*merryErr` is returned as it is, any other
error gets one node holding the captured stack. -/
def merryWrap : Option Err → Option Err
  | none => none
  | some (.merryErr err v) => some (.merryErr err v)
  | some e => some (.merryErr e .stack)

/-- The function `merry.New`: a plain error wrapped in a stack node. -/
def merryNew (msg : String) : Err := .merryErr (.base (.text msg)) .stack

/-- The method `Appendf` of a merry error with the appended text already rendered: a message
node `current text: appended`. On a nil receiver the result is nil. -/
def merryAppend (err : Option Err) (msg : String) : Option Err :=
  err.map (fun e => Err.merryErr e (.message (e.Error ++ ": " ++ msg)))

/-- The method `WithHTTPCode` of a merry error. -/
def merryWithHTTPCode (err : Option Err) (code : Int) : Option Err :=
  err.map (fun e => Err.merryErr e (.httpCode code))

/-- Lookup of the HTTP code in the node chain (`merry.Value(e, httpCode)`): the outermost
one. -/
def merryValueHTTPCode : Err → Option Int
  | .merryErr _ (.httpCode code) => some code
  | .merryErr err _ => merryValueHTTPCode err
  | _ => none

/-- The function `merry.HTTPCode`: 200 for nil, the attached code, 500 when none (or 0) is
attached. -/
def merryHTTPCode : Option Err → Int
  | none => 200
  | some e =>
    match merryValueHTTPCode e with
    | some code => if code = 0 then 500 else code
    | none => 500

/-- Status codes of net/http used by the code. -/
def StatusInternalServerError : Int := 500

/-- Status code `http.StatusNotFound`. -/
def StatusNotFound : Int := 404

/-! ## Values, records and the storage layer -/

/-- Identities (`uuid.UUID`), as 128-bit numbers: byte 0 is the most significant one. -/
abbrev UUID := Nat

/-- The nil identity `uuid.Nil`: all bytes zero. -/
def uuidNil : UUID := 0

/-- The value `uuid.NewV4` builds from 16 random bytes `r`: the version nibble of byte 6 is
forced to 4 and the two top bits of byte 8 to the RFC 4122 variant. -/
def NewUUIDV4 (r : Nat) : UUID :=
  let x := r % 2 ^ 128
  let b6 := x / 2 ^ 72 % 256
  let b8 := x / 2 ^ 56 % 256
  x - b6 * 2 ^ 72 - b8 * 2 ^ 56 + (b6 % 16 + 64) * 2 ^ 72 + (b8 % 64 + 128) * 2 ^ 56

/-- One hexadecimal digit. -/
def hexDigit (n : Nat) : Char := Nat.digitChar (n % 16)

/-- The canonical text of an identity (`uuid.UUID.String`): 32 hexadecimal digits in groups of
8, 4, 4, 4 and 12 separated by dashes. -/
def uuidString (u : UUID) : String :=
  let ds : List Char := (List.range 32).map (fun i => hexDigit (u / 16 ^ (31 - i)))
  String.mk (ds.take 8 ++ ['-'] ++ (ds.drop 8).take 4 ++ ['-'] ++ (ds.drop 12).take 4 ++ ['-'] ++
    (ds.drop 16).take 4 ++ ['-'] ++ ds.drop 20)

/-- Operands handed to the repository as `interface{}`: column values and query parameters.
Only values compared by content are modelled (strings, integers, booleans, identities, instants
as nanoseconds), together with `exprValue`, the struct `ExprValue` wraps a value in, and
`sqlExpr`, the result of `gorm.Expr(sql, f)` for a float64 `f` given by its bit pattern. -/
inductive Value where
  | str (s : String)
  | int (i : Int)
  | bool (b : Bool)
  | uuid (u : UUID)
  | time (t : Int)
  | exprValue (val : Value)
  | sqlExpr (sql : String) (float64bits : Nat)
  deriving DecidableEq, Repr

/-- Rendering, by package fmt, of operands whose textual form the code does not fix:
`verbs format` is `fmt.Sprintf(format)` for a format that contains a percent sign and gets no
operand; `goSyntax vs` is the `%#v` form of a list of values; `quote s` is `strconv.Quote(s)`;
`sharpU b` is the `%#U` form of the rune with code `b`. -/
structure Fmt where
  verbs : String → String
  goSyntax : List Value → String
  quote : String → String
  sharpU : Nat → String

/-- The call `fmt.Sprintf(format)` without operands: a format without a percent sign is
rendered verbatim. -/
def Sprintf0 (fmt : Fmt) (format : String) : String :=
  if '%' ∈ format.toList then fmt.verbs format else format

/-- A Go `map[string]interface{}` that is not nil, as an association list with at most one
entry per key; a map that may be nil is an `Option ColMap`. -/
abbrev ColMap := List (String × Value)

/-- The assignment `m[k] = v`. -/
def ColMap.set (m : ColMap) (k : String) (v : Value) : ColMap :=
  if m.any (fun p => decide (p.1 = k)) then
    m.map (fun p => if p.1 = k then (k, v) else p)
  else m ++ [(k, v)]

/-- The test `_, has := m[k]`. -/
def ColMap.has (m : ColMap) (k : String) : Bool := m.any (fun p => decide (p.1 = k))

/-- A record (`Model`): a struct embedding `BaseModel`. `typeName` is what `%T` prints for it,
`ID` the identity column and `fields` the other columns. -/
structure Model where
  typeName : String
  ID : UUID
  fields : ColMap
  deriving DecidableEq, Repr

/-- The method `BaseModel.GetID`. -/
def Model.GetID (bm : Model) : UUID := bm.ID

/-- The method `BaseModel.GenerateID`, on the random bytes `r` read by `uuid.NewV4`. -/
def Model.GenerateID (bm : Model) (r : Nat) : Model := { bm with ID := NewUUIDV4 r }

/-- The method `BaseModel.IsIDNil`. -/
def Model.IsIDNil (bm : Model) : Bool := decide (bm.GetID = uuidNil)

/-- A run-time panic of Go: a nil pointer dereference, or the hashing of a map key whose dynamic
type (a slice, a map or a function) cannot be hashed. -/
inductive Panic where
  | nilPointerDereference
  | unhashableKey
  deriving DecidableEq, Repr

/-- A value handed to `FilterIn` as `interface{}`, with what makes its fate as a key of the map
`valuesMap`: the values of the types Go compares by content (an `ExprValue` struct is compared
by its one field); the pointer `gorm.Expr` returns, which is compared by its address `addr`,
whatever it points to; a float64 NaN, which is equal to no key, itself included; and a slice such
as `[]byte`, which cannot be hashed. -/
inductive Operand where
  | str (s : String)
  | int (i : Int)
  | bool (b : Bool)
  | uuid (u : UUID)
  | time (t : Int)
  | exprValue (val : Operand)
  | sqlExpr (addr : Nat) (sql : String) (float64bits : Nat)
  | float64NaN
  | bytes (bs : List Nat)
  deriving DecidableEq, Repr

/-- Whether the map access `valuesMap[val]` can hash the key: not a slice, and not a struct that
holds one. -/
def Operand.hashable : Operand → Bool
  | .bytes _ => false
  | .exprValue val => val.hashable
  | _ => true

/-- Whether two hashable interface values are the same key of a map (the operator `==` of Go on
interface values): the same dynamic type and equal values; pointers are equal when their
addresses are, and a NaN is equal to nothing. -/
def Operand.sameKey : Operand → Operand → Bool
  | .str a, .str b => decide (a = b)
  | .int a, .int b => decide (a = b)
  | .bool a, .bool b => decide (a = b)
  | .uuid a, .uuid b => decide (a = b)
  | .time a, .time b => decide (a = b)
  | .exprValue a, .exprValue b => Operand.sameKey a b
  | .sqlExpr a _ _, .sqlExpr b _ _ => decide (a = b)
  | _, _ => false

/-- The interface value that a `Value` of a type compared by content stands for. The result of
`gorm.Expr` is a pointer, of which `Value` does not record the address: it has none. -/
def Value.toOperand : Value → Option Operand
  | .str s => some (.str s)
  | .int i => some (.int i)
  | .bool b => some (.bool b)
  | .uuid u => some (.uuid u)
  | .time t => some (.time t)
  | .exprValue val => (Value.toOperand val).map Operand.exprValue
  | .sqlExpr _ _ => none

/-- Whether a value is of a type that Go compares by content: every value but the result of
`gorm.Expr` and an `ExprValue` around it. -/
def Value.byContent (v : Value) : Bool := (Value.toOperand v).isSome

/-- An argument of the interface type `Model`: the nil interface value, a nil pointer of a
record type (an interface value that holds a type and is therefore not equal to nil), or a
pointer to a record. `typeName` is what `%T` prints. -/
inductive Record where
  | nilInterface
  | nilPointer (typeName : String)
  | pointer (m : Model)
  deriving DecidableEq, Repr

/-- The call `m.IsIDNil()` on an interface value. The methods of `BaseModel` have pointer
receivers and read the field `ID` through the pointer: on a nil pointer, as on the nil interface,
the call panics. -/
def Record.IsIDNil : Record → Except Panic Bool
  | .pointer m => .ok m.IsIDNil
  | .nilPointer _ => .error .nilPointerDereference
  | .nilInterface => .error .nilPointerDereference

/-- A column accessor (`ColumnInfo`): the column name and value it returns when called. -/
abbrev ColumnInfo := String × Value

/-- What `prepareDb`, `Offset` and `Limit` configure on a gorm handle before a query runs. -/
structure Scope where
  orders : List String
  unscoped : Bool
  offset : Option Int
  limit : Option Int
  deriving DecidableEq, Repr

/-- The target of `All`: a value of some type (`%T`), pointer or not. -/
structure Target where
  typeName : String
  isPtr : Bool
  deriving DecidableEq, Repr

/-- Calls that reach the storage layer (gorm), with their arguments.
* `Update m cols`: `db.Model(m).Update(cols)`;
* `Delete m`: `db.Unscoped().Delete(m)`;
* `Create m`, `Save m`: `db.Create(m)`, `db.Save(m)`;
* `First s target whr`: `db.First(target, whr...)` on the handle configured as `s`;
* `Count s sample whr`: `db.Model(sample).Where(whr[0], whr[1:]...).Count(&count)`;
* `Find s target whr`: `db.Find(target, whr...)`;
* `Rows s model whr`: `db.Model(model).Where(whr[0], whr[1:]...).Rows()`. -/
inductive Call where
  | Update (m : Model) (cols : Option ColMap)
  | Delete (m : Model)
  | Create (m : Model)
  | Save (m : Model)
  | First (s : Scope) (target : Model) (whr : List Value)
  | Count (s : Scope) (sample : Model) (whr : List Value)
  | Find (s : Scope) (target : Target) (whr : List Value)
  | Rows (s : Scope) (model : Option Model) (whr : List Value)
  deriving DecidableEq, Repr

/-- What the code reads from the `*gorm.DB` a storage call returns: the error, the number of
affected rows, the number `Count` stored and the records a fetch wrote into its target. -/
structure DB where
  Error : Option Err
  RowsAffected : Int
  count : Int
  loaded : List Model
  deriving DecidableEq, Repr

/-- The storage layer as seen by the repository (`masterGormDb`): the flag set by
`BlockGlobalUpdate` and the answer the store gives to each call. -/
structure Gorm where
  HasBlockGlobalUpdate : Bool
  exec : Call → DB

/-- The hook kinds `DbHook` of `src/dao/dao.go`. -/
inductive DbHook where
  | BeforeCreate
  | AfterCreate
  | BeforeUpdate
  | AfterUpdate
  | AfterDelete
  deriving DecidableEq, Repr

/-- Observable effects of an operation, in the order they happen.
* `storage c`: the call `c` reached the storage layer;
* `hook h ty`: `executeHookListeners` dispatched hook `h` for a record of type `ty`;
* `beforeCreateOrUpdate ty`: the method `BeforeCreateOrUpdate` of a record of type `ty` ran;
* `generateID`: the method `GenerateID` of the record ran;
* `stats label`: one sample was handed to the stats collector under `label`;
* `log level msg`: one line was handed to the logger. -/
inductive Event where
  | storage (c : Call)
  | hook (h : DbHook) (ty : String)
  | beforeCreateOrUpdate (ty : String)
  | generateID
  | stats (label : String)
  | log (level : String) (msg : String)
  deriving DecidableEq, Repr

/-- Whether an event is a call to the storage layer. -/
def Event.isStorage : Event → Bool
  | .storage _ => true
  | _ => false

/-- Whether an event is a hook run (a listener dispatch or a `BeforeCreateOrUpdate` call). -/
def Event.isHook : Event → Bool
  | .hook _ _ => true
  | .beforeCreateOrUpdate _ => true
  | _ => false

/-- Result of an operation: the error it returns, the value it leaves behind (the record as
the caller sees it afterwards) and the effects it had. -/
structure Outcome (α : Type) where
  err : Option Err
  value : α
  trace : List Event

/-! ## The root package (`src/dao.go`) -/

namespace RootPkg

/-- The optional capability `BeforeCreateOrUpdate` of record types: for the types that
implement it, the method, which may change the record and returns the derived columns (a map
that may be nil, in the order the `range` loop visits it). -/
structure Types where
  BeforeCreateOrUpdate : String → Option (Model → Model × Option ColMap)

/-- The struct `Dao` of `src/dao.go`: the storage handle and the messages registered for unique
indexes. Logger and stats collector are represented by the events they receive. -/
structure Dao where
  masterGormDb : Gorm
  userMsgsByUniqueIndexes : String → Option String

/-- The function `IsRecordNotFound` of `src/dao.go`. -/
def IsRecordNotFound (err : Option Err) : Bool :=
  gormIsRecordNotFoundError (errorsCause err)

/-- The method `hookBeforeSaveOrUpdate`: runs the capability when the record has it and, when
both maps are not nil, copies every derived column into `updateCols`, logging a warning for
each key already present. -/
def hookBeforeSaveOrUpdate (ty : Types) (m : Model) (updateCols : Option ColMap) :
    Model × Option ColMap × List Event :=
  match ty.BeforeCreateOrUpdate m.typeName with
  | none => (m, updateCols, [])
  | some b =>
    match updateCols, (b m).2 with
    | some cols, some custom =>
      let r := custom.foldl
        (fun (acc : ColMap × List Event) (kv : String × Value) =>
          (acc.1.set kv.1 kv.2,
            if acc.1.has kv.1 then acc.2 ++ [Event.log "warning" ("overwriting column " ++ kv.1)]
            else acc.2))
        (cols, [])
      ((b m).1, some r.1, [Event.beforeCreateOrUpdate m.typeName] ++ r.2)
    | _, _ => ((b m).1, updateCols, [Event.beforeCreateOrUpdate m.typeName])

/-- The method `assertIDValid` of `src/dao.go`. -/
def assertIDValid (m : Model) : Option Err :=
  if m.GetID = uuidNil then some (errorsNew "id nil") else none

/-- The method `extractUniqueMessages` of `src/dao.go`. -/
def extractUniqueMessages (d : Dao) (err : Option Err) : Option Err × List Event :=
  match err with
  | none => (none, [Event.log "warning" "err nil"])
  | some e =>
    match e with
    | .base (.pq code constraint _) =>
      if code = "23505" then
        let err1 := errorsWrap (some e) ("constraint: " ++ constraint)
        match d.userMsgsByUniqueIndexes constraint with
        | some msg => (errorsWrap err1 msg, [])
        | none => (errorsWrap err1 "extracting unique messages", [])
      else (errorsWrap (some e) "extracting unique messages", [])
    | _ => (errorsWrap (some e) "extracting unique messages", [])

/-- The method `DeprecatedUpdateColumns` of `src/dao.go`. -/
def DeprecatedUpdateColumns (ty : Types) (d : Dao) (model : Model) (cols : Option ColMap) :
    Outcome Model :=
  match assertIDValid model with
  | some err => ⟨some err, model, []⟩
  | none =>
    let stats := [Event.stats ("updating " ++ model.typeName)]
    let h := hookBeforeSaveOrUpdate ty model cols
    if !d.masterGormDb.HasBlockGlobalUpdate then
      ⟨some (errorsNew "no global updates allowed"), h.1, h.2.2 ++ stats⟩
    else
      let q := d.masterGormDb.exec (.Update h.1 h.2.1)
      match q.Error with
      | some err =>
        let r := extractUniqueMessages d (some err)
        ⟨r.1, h.1, h.2.2 ++ [Event.storage (.Update h.1 h.2.1)] ++ r.2 ++ stats⟩
      | none =>
        if q.RowsAffected > 1 then
          ⟨some (errorsNew "!"), h.1,
            h.2.2 ++ [Event.storage (.Update h.1 h.2.1),
              Event.log "critical" ("Expected 1 update, got " ++ toString q.RowsAffected)] ++ stats⟩
        else
          ⟨none, h.1, h.2.2 ++ [Event.storage (.Update h.1 h.2.1)] ++ stats⟩

/-- The method `DeprecatedUpdateColumn` of `src/dao.go`. -/
def DeprecatedUpdateColumn (ty : Types) (d : Dao) (model : Model) (col : String) (val : Value) :
    Outcome Model :=
  DeprecatedUpdateColumns ty d model (some [(col, val)])

/-- The method `IncrColumn` of `src/dao.go`; `incr` is the bit pattern of the float64
increment. -/
def IncrColumn (ty : Types) (d : Dao) (model : Model) (col : String) (incr : Nat) :
    Outcome Model :=
  match assertIDValid model with
  | some err => ⟨some err, model, []⟩
  | none => DeprecatedUpdateColumn ty d model col (.sqlExpr (col ++ "+?") incr)

/-- The method `UpdateColumns` of `src/dao.go`. -/
def UpdateColumns (ty : Types) (d : Dao) (model : Model) (ci : List ColumnInfo) :
    Outcome Model :=
  let vals : ColMap := ci.foldl (fun vals kv => vals.set kv.1 kv.2) []
  DeprecatedUpdateColumns ty d model (some vals)

/-- The method `HardDelete` of `src/dao.go`. -/
def HardDelete (d : Dao) (m : Model) : Outcome Model :=
  match assertIDValid m with
  | some err => ⟨some err, m, []⟩
  | none =>
    let stats := [Event.stats ("hard deleting " ++ m.typeName)]
    let q := d.masterGormDb.exec (.Delete m)
    match q.Error with
    | some err =>
      ⟨errorsWrap (some err) ("deleting " ++ m.typeName), m, [Event.storage (.Delete m)] ++ stats⟩
    | none =>
      if q.RowsAffected > 1 then
        ⟨some (errorsNew ("Expected 1 update, got " ++ toString q.RowsAffected)), m,
          [Event.storage (.Delete m),
            Event.log "critical" ("Expected 1 update, got " ++ toString q.RowsAffected)] ++ stats⟩
      else ⟨none, m, [Event.storage (.Delete m)] ++ stats⟩

/-- The method `Delete` of `src/dao.go`; `deletedAt` and `updatedAt` are the two readings of
`time.Now()` that fill the column map. -/
def Delete (ty : Types) (d : Dao) (m : Model) (deletedAt updatedAt : Int) : Outcome Model :=
  match assertIDValid m with
  | some err => ⟨some err, m, []⟩
  | none =>
    let r := DeprecatedUpdateColumns ty d m
      (some [("deleted_at", Value.time deletedAt), ("updated_at", Value.time updatedAt)])
    ⟨r.err, r.value, r.trace ++ [Event.stats ("deleting " ++ m.typeName)]⟩

/-- The method `Create` of `src/dao.go` on an argument that is the nil interface value (`none`)
or a pointer to a record; `rand` is the random bytes `GenerateID` draws. The argument that is a
nil pointer is covered by `Dao.Create` below. -/
def Create (ty : Types) (d : Dao) (m : Option Model) (rand : Nat) : Outcome (Option Model) :=
  match m with
  | none => ⟨some (errorsNew "nil model"), none, []⟩
  | some m =>
    if !m.IsIDNil then
      ⟨some (errorsNew ("inserting an existing object, " ++ m.typeName ++ " with " ++
        uuidString m.GetID)), some m, []⟩
    else
      let stats := [Event.stats ("creating " ++ m.typeName)]
      let m1 := m.GenerateID rand
      let h := hookBeforeSaveOrUpdate ty m1 none
      let q := d.masterGormDb.exec (.Create h.1)
      match q.Error with
      | some err =>
        let r := extractUniqueMessages d (some err)
        ⟨r.1, some h.1, [Event.generateID] ++ h.2.2 ++ [Event.storage (.Create h.1)] ++ r.2 ++ stats⟩
      | none => ⟨none, some h.1, [Event.generateID] ++ h.2.2 ++ [Event.storage (.Create h.1)] ++ stats⟩

/-- The method `Create` of `src/dao.go` on every argument of the interface type `Model`. The
test `m == nil` holds for the nil interface value only; on a nil pointer the next statement,
the call `m.IsIDNil()`, panics; on a pointer to a record the method goes on as `Create` above. -/
def Dao.Create (ty : Types) (d : Dao) (m : Record) (rand : Nat) :
    Except Panic (Outcome (Option Model)) :=
  if m = Record.nilInterface then .ok ⟨some (errorsNew "nil model"), none, []⟩
  else
    match m.IsIDNil, m with
    | .ok _, .pointer r => .ok (RootPkg.Create ty d (some r) rand)
    | .ok _, _ => .error .nilPointerDereference
    | .error p, _ => .error p

end RootPkg

/-! ## The sub-package `src/dao` : repository -/

namespace DaoPkg

/-- The struct `HookCtx`; `Fields` may be the nil map. -/
structure HookCtx where
  Fields : Option ColMap
  AllFields : Bool
  Vars : ColMap
  hook : DbHook

/-- The method `HookCtx.HasField`. -/
def HookCtx.HasField (hctx : HookCtx) (fld : String) : Bool :=
  if hctx.AllFields then true
  else
    match hctx.Fields with
    | some fields => fields.has fld
    | none => false

/-- A listener (`ListenerFunc`, or the method `DbHook` of the interface `Listener`), by what it
leaves behind: the record and the hook context after it ran. -/
abbrev ListenerFunc := DbHook → Model → HookCtx → Model × HookCtx

/-- The optional capability `Listener` of record types: the method `DbHook` of the types that
implement it. -/
structure Types where
  Listener : String → Option ListenerFunc

/-- The struct `Dao` of `src/dao/dao.go`: the storage handle, the messages registered for
unique indexes and the listeners registered per record type. Logger and stats collector are
represented by the events they receive. -/
structure Dao where
  masterGormDb : Gorm
  userMsgsByUniqueIndexes : String → Option String
  modelListeners : String → List ListenerFunc

/-- The function `IsRecordNotFound` of `src/dao/dao.go`, linked with merry up to v1.5.1. -/
def IsRecordNotFound (err : Option Err) : Bool :=
  gormIsRecordNotFoundError (errorsCause (err.map merryUnwrap))

/-- The function `IsRecordNotFound` of `src/dao/dao.go` over the implementation `unwrap` of
`merry.Unwrap` that the linked version of merry provides: `merryUnwrap` up to v1.5.1, which
gives `IsRecordNotFound` above, and `merryUnwrapChain` from v1.6.0 on. -/
def IsRecordNotFoundWith (unwrap : Err → Err) (err : Option Err) : Bool :=
  gormIsRecordNotFoundError (errorsCause (err.map unwrap))

/-- The function `IsUniqueConstraintError` of `src/dao/dao.go`. -/
def IsUniqueConstraintError (err : Option Err) : Bool :=
  match err.map merryUnwrap with
  | some (.base (.pq code _ _)) => decide (code = "23505")
  | _ => false

/-- The method `newHookCtx`. -/
def newHookCtx (cols : Option ColMap) (allFields : Bool) : HookCtx :=
  ⟨cols, allFields, [], DbHook.BeforeCreate⟩

/-- The method `executeHookListeners`: stamps the hook kind, replaces a nil `Fields` by an
empty map, runs the method `DbHook` of the record when it has one and then every listener
registered for the type of the record, in registration order. -/
def executeHookListeners (ty : Types) (d : Dao) (m : Model) (hook : DbHook) (hctx : HookCtx) :
    Model × HookCtx × List Event :=
  let hctx1 : HookCtx := ⟨some (hctx.Fields.getD []), hctx.AllFields, hctx.Vars, hook⟩
  let s1 : Model × HookCtx :=
    match ty.Listener m.typeName with
    | some lstnr => lstnr hook m hctx1
    | none => (m, hctx1)
  let s2 := (d.modelListeners m.typeName).foldl (fun s lstnr => lstnr hook s.1 s.2) s1
  (s2.1, s2.2, [Event.hook hook m.typeName])

/-- The method `assertIDValid` of `src/dao/dao.go`. -/
def assertIDValid (m : Model) : Option Err :=
  if m.GetID = uuidNil then some (merryNew "id nil") else none

/-- The method `extractUniqueMessages` of `src/dao/dao.go`. -/
def extractUniqueMessages (fmt : Fmt) (d : Dao) (err : Option Err) : Option Err × List Event :=
  match err with
  | none => (none, [Event.log "warning" "err nil"])
  | some e =>
    match e with
    | .base (.pq code constraint _) =>
      if code = "23505" then
        let err1 := merryAppend (merryWrap (some e)) ("constraint: " ++ constraint)
        match d.userMsgsByUniqueIndexes constraint with
        | some msg => (merryAppend (merryWrap err1) (Sprintf0 fmt msg), [])
        | none => (merryWrap err1, [])
      else (merryWrap (some e), [])
    | _ => (merryWrap (some e), [])

/-- The method `UpdateColumnValues`. The map `cols` is the one the hook context carries, so
the entries the before-update listeners leave in `Fields` are the entries of the map handed to
the update; a nil `cols` stays nil. -/
def UpdateColumnValues (fmt : Fmt) (ty : Types) (d : Dao) (model : Model) (cols : Option ColMap) :
    Outcome Model :=
  match assertIDValid model with
  | some err => ⟨some err, model, []⟩
  | none =>
    let stats := [Event.stats ("updating " ++ model.typeName)]
    let h := executeHookListeners ty d model .BeforeUpdate (newHookCtx cols false)
    let cols1 : Option ColMap := cols.map (fun c => h.2.1.Fields.getD c)
    if !d.masterGormDb.HasBlockGlobalUpdate then
      ⟨some (merryNew "no global updates allowed"), h.1, h.2.2 ++ stats⟩
    else
      let q := d.masterGormDb.exec (.Update h.1 cols1)
      match q.Error with
      | some err =>
        let r := extractUniqueMessages fmt d (some err)
        ⟨r.1, h.1, h.2.2 ++ [Event.storage (.Update h.1 cols1)] ++ r.2 ++ stats⟩
      | none =>
        if q.RowsAffected > 1 then
          ⟨some (merryNew "!"), h.1,
            h.2.2 ++ [Event.storage (.Update h.1 cols1),
              Event.log "critical" ("Expected 1 update, got " ++ toString q.RowsAffected)] ++ stats⟩
        else
          let a := executeHookListeners ty d h.1 .AfterUpdate h.2.1
          ⟨none, a.1, h.2.2 ++ [Event.storage (.Update h.1 cols1)] ++ a.2.2 ++ stats⟩

/-- The method `UpdateColumns` of `src/dao/dao.go`. -/
def UpdateColumns (fmt : Fmt) (ty : Types) (d : Dao) (model : Model) (ci : List ColumnInfo) :
    Outcome Model :=
  let vals : ColMap := ci.foldl (fun vals kv => vals.set kv.1 kv.2) []
  UpdateColumnValues fmt ty d model (some vals)

/-- The method `Delete` of `src/dao/dao.go`. -/
def Delete (ty : Types) (d : Dao) (m : Model) : Outcome Model :=
  match assertIDValid m with
  | some err => ⟨some err, m, []⟩
  | none =>
    let stats := [Event.stats ("hard deleting " ++ m.typeName)]
    let q := d.masterGormDb.exec (.Delete m)
    match q.Error with
    | some err =>
      ⟨merryAppend (merryWrap (some err)) ("deleting " ++ m.typeName), m,
        [Event.storage (.Delete m)] ++ stats⟩
    | none =>
      if q.RowsAffected > 1 then
        ⟨some (merryNew ("Expected 1 update, got " ++ toString q.RowsAffected)), m,
          [Event.storage (.Delete m),
            Event.log "critical" ("Expected 1 update, got " ++ toString q.RowsAffected)] ++ stats⟩
      else
        let a := executeHookListeners ty d m .AfterDelete (newHookCtx none false)
        ⟨none, a.1, [Event.storage (.Delete m)] ++ a.2.2 ++ stats⟩

/-- The method `Create` of `src/dao/dao.go` on an argument that is the nil interface value
(`none`) or a pointer to a record; `rand` is the random bytes `GenerateID` draws. The argument
that is a nil pointer is covered by `Dao.Create` below. -/
def Create (fmt : Fmt) (ty : Types) (d : Dao) (m : Option Model) (rand : Nat) :
    Outcome (Option Model) :=
  match m with
  | none => ⟨some (merryNew "nil model"), none, []⟩
  | some m =>
    if !m.IsIDNil then
      ⟨some (merryNew ("inserting an existing object, " ++ m.typeName ++ " with " ++
        uuidString m.GetID)), some m, []⟩
    else
      let stats := [Event.stats ("creating " ++ m.typeName)]
      let h := executeHookListeners ty d (m.GenerateID rand) .BeforeCreate (newHookCtx none true)
      let q := d.masterGormDb.exec (.Create h.1)
      match q.Error with
      | some err =>
        let r := extractUniqueMessages fmt d (some err)
        ⟨r.1, some h.1,
          [Event.generateID] ++ h.2.2 ++ [Event.storage (.Create h.1)] ++ r.2 ++ stats⟩
      | none =>
        let a := executeHookListeners ty d h.1 .AfterCreate h.2.1
        ⟨none, some a.1,
          [Event.generateID] ++ h.2.2 ++ [Event.storage (.Create h.1)] ++ a.2.2 ++ stats⟩

/-- The method `CreateOrUpdateColumns` on an argument that is the nil interface value (`none`)
or a pointer to a record. The argument that is a nil pointer is covered by
`Dao.CreateOrUpdateColumns` below. -/
def CreateOrUpdateColumns (fmt : Fmt) (ty : Types) (d : Dao) (m : Option Model)
    (ci : List ColumnInfo) (rand : Nat) : Outcome (Option Model) :=
  match m with
  | none => ⟨some (merryNew "nil model"), none, []⟩
  | some m =>
    if m.IsIDNil then Create fmt ty d (some m) rand
    else
      let r := UpdateColumns fmt ty d m ci
      ⟨r.err, some r.value, r.trace⟩

/-- The method `CreateOrUpdate` on an argument that is the nil interface value (`none`) or a
pointer to a record. The argument that is a nil pointer is covered by `Dao.CreateOrUpdate`
below. -/
def CreateOrUpdate (fmt : Fmt) (ty : Types) (d : Dao) (m : Option Model) (rand : Nat) :
    Outcome (Option Model) :=
  match m with
  | none => ⟨some (merryNew "nil model"), none, []⟩
  | some m =>
    if m.IsIDNil then Create fmt ty d (some m) rand
    else
      let stats := [Event.stats ("updating " ++ m.typeName)]
      let h := executeHookListeners ty d m .BeforeUpdate (newHookCtx none true)
      let q := d.masterGormDb.exec (.Save h.1)
      match q.Error with
      | some err =>
        ⟨merryAppend (merryWrap (some err)) ("saving " ++ m.typeName), some h.1,
          h.2.2 ++ [Event.storage (.Save h.1)] ++ stats⟩
      | none =>
        let a := executeHookListeners ty d h.1 .AfterUpdate h.2.1
        ⟨none, some a.1, h.2.2 ++ [Event.storage (.Save h.1)] ++ a.2.2 ++ stats⟩

/-- The method `Create` of `src/dao/dao.go` on every argument of the interface type `Model`. The
test `m == nil` holds for the nil interface value only; on a nil pointer the next statement,
the call `m.IsIDNil()`, panics; on a pointer to a record the method goes on as `Create` above. -/
def Dao.Create (fmt : Fmt) (ty : Types) (d : Dao) (m : Record) (rand : Nat) :
    Except Panic (Outcome (Option Model)) :=
  if m = Record.nilInterface then .ok ⟨some (merryNew "nil model"), none, []⟩
  else
    match m.IsIDNil, m with
    | .ok _, .pointer r => .ok (DaoPkg.Create fmt ty d (some r) rand)
    | .ok _, _ => .error .nilPointerDereference
    | .error p, _ => .error p

/-- The method `CreateOrUpdateColumns` on every argument of the interface type `Model`: the test
`m == nil`, then the call `m.IsIDNil()`, which panics on a nil pointer; on a pointer to a record
the method goes on as `CreateOrUpdateColumns` above. -/
def Dao.CreateOrUpdateColumns (fmt : Fmt) (ty : Types) (d : Dao) (m : Record)
    (ci : List ColumnInfo) (rand : Nat) : Except Panic (Outcome (Option Model)) :=
  if m = Record.nilInterface then .ok ⟨some (merryNew "nil model"), none, []⟩
  else
    match m.IsIDNil, m with
    | .ok _, .pointer r => .ok (DaoPkg.CreateOrUpdateColumns fmt ty d (some r) ci rand)
    | .ok _, _ => .error .nilPointerDereference
    | .error p, _ => .error p

/-- The method `CreateOrUpdate` on every argument of the interface type `Model`: the test
`m == nil`, then the call `m.IsIDNil()`, which panics on a nil pointer; on a pointer to a record
the method goes on as `CreateOrUpdate` above. -/
def Dao.CreateOrUpdate (fmt : Fmt) (ty : Types) (d : Dao) (m : Record) (rand : Nat) :
    Except Panic (Outcome (Option Model)) :=
  if m = Record.nilInterface then .ok ⟨some (merryNew "nil model"), none, []⟩
  else
    match m.IsIDNil, m with
    | .ok _, .pointer r => .ok (DaoPkg.CreateOrUpdate fmt ty d (some r) rand)
    | .ok _, _ => .error .nilPointerDereference
    | .error p, _ => .error p

end DaoPkg

/-! ## Strings and numbers of the Go library used by the query builder -/

/-- The call `strings.Count(s, "?")`. -/
def countPlaceholders (s : String) : Nat := s.toList.count '?'

/-- The function `strings.Repeat`. -/
def stringsRepeat (s : String) : Nat → String
  | 0 => ""
  | n + 1 => s ++ stringsRepeat s n

/-- The function `strings.Trim`: drops the leading and trailing characters that belong to
`cutset`. -/
def stringsTrim (s cutset : String) : String :=
  String.mk ((s.toList.dropWhile (fun c => decide (c ∈ cutset.toList))).reverse.dropWhile
    (fun c => decide (c ∈ cutset.toList))).reverse

/-- The function `strings.Join`. -/
def stringsJoin (elems : List String) (sep : String) : String := sep.intercalate elems

/-- Splitting a character list at every occurrence of `c`. -/
def splitChars (c : Char) : List Char → List (List Char)
  | [] => [[]]
  | x :: xs =>
    if x = c then [] :: splitChars c xs
    else
      match splitChars c xs with
      | [] => [[x]]
      | h :: t => (x :: h) :: t

/-- The call `strings.Split(s, "&")`. -/
def splitAmp (s : String) : List String := (splitChars '&' s.toList).map String.mk

/-- The predicate `unicode.IsSpace`. -/
def isSpace (c : Char) : Bool :=
  c.toNat ∈ [0x09, 0x0A, 0x0B, 0x0C, 0x0D, 0x20, 0x85, 0xA0, 0x1680, 0x2028, 0x2029, 0x202F,
    0x205F, 0x3000] || (0x2000 ≤ c.toNat && c.toNat ≤ 0x200A)

/-- The function `strings.TrimSpace`. -/
def stringsTrimSpace (s : String) : String :=
  String.mk ((s.toList.dropWhile isSpace).reverse.dropWhile isSpace).reverse

/-- Value of a string of decimal digits; `none` when it is empty or holds another character. -/
def parseDigits (cs : List Char) : Option Nat :=
  if cs = [] then none
  else cs.foldl
    (fun acc c => acc.bind (fun n => if c.isDigit then some (n * 10 + (c.toNat - 48)) else none))
    (some 0)

/-- The call `strconv.ParseInt(s, 10, 64)`: the number and whether an error is returned. A
syntax error gives 0, a value out of the int64 range gives the nearest bound. -/
def ParseInt (s : String) : Int × Bool :=
  let cs := s.toList
  let neg := cs.head? = some '-'
  let ds := if cs.head? = some '-' ∨ cs.head? = some '+' then cs.tail else cs
  match parseDigits ds with
  | none => (0, true)
  | some un =>
    if !neg && un ≥ 2 ^ 63 then (2 ^ 63 - 1, true)
    else if neg && un > 2 ^ 63 then (-(2 ^ 63), true)
    else (if neg then -(un : Int) else (un : Int), false)

/-- Wrap-around of a Go `int` (64 bits) after an arithmetic operation. -/
def wrapInt (x : Int) : Int := (x + 2 ^ 63) % 2 ^ 64 - 2 ^ 63

/-- The constant `math.MaxInt32`. -/
def MaxInt32 : Int := 2147483647

/-! ## The sub-package `src/dao` : query builder -/

namespace DaoPkg

/-- The constant `defaultPageSize`. -/
def defaultPageSize : Int := 50

/-- The struct `Query` of `src/dao/dao_query.go`, without the collaborators it holds (storage
handle, logger, context, stats collector). -/
structure Query where
  err : Option Err
  pageNo : Int
  pageSize : Int
  includeDeleted : Bool
  logStr : List String
  expressions : List String
  values : List Value
  orderBy : List String
  deriving DecidableEq, Repr

/-- The method `Dao.Query`: a fresh query. -/
def newQuery : Query := ⟨none, 0, 0, false, [], [], [], []⟩

/-- The method `IncludeDeleted`. -/
def Query.IncludeDeleted (q : Query) : Query := { q with includeDeleted := true }

/-- The method `appendFilterExpressionAndValues`. -/
def Query.appendFilterExpressionAndValues (fmt : Fmt) (q : Query) (descr expression : String)
    (values : List Value) : Query :=
  { q with
    err :=
      if countPlaceholders expression ≠ values.length then
        merryAppend (some (merryNew "invalid expression placeholders count"))
          ("'" ++ expression ++ "' params: " ++ fmt.goSyntax values)
      else q.err
    logStr := q.logStr ++ [descr ++ expression]
    expressions := if expression ≠ "" then q.expressions ++ [expression] else q.expressions
    values := q.values ++ values }

/-- The method `FilterRawExpression`. -/
def Query.FilterRawExpression (fmt : Fmt) (q : Query) (expression : String) (values : List Value) :
    Query :=
  q.appendFilterExpressionAndValues fmt "filter" expression values

/-- The method `Filter`. -/
def Query.Filter (fmt : Fmt) (q : Query) (column operation : String) (value : Value) : Query :=
  q.appendFilterExpressionAndValues fmt "filter" (column ++ operation ++ "?") [value]

/-- The method `FilterIsNotNull`. -/
def Query.FilterIsNotNull (fmt : Fmt) (q : Query) (column : String) : Query :=
  q.appendFilterExpressionAndValues fmt "not_null" (column ++ " is not null") []

/-- The loop of `FilterIn` on values of the types that Go compares by content: the state is the
slice `uniqValues` and the key set of the map `valuesMap`; a value is appended when the map does
not hold it yet. -/
def uniqLoop (values : List Value) : List Value × List Value :=
  values.foldl
    (fun (st : List Value × List Value) val =>
      if val ∈ st.2 then st else (st.1 ++ [val], val :: st.2))
    ([], [])

/-- The method `FilterIn` on values of the types that Go compares by content
(`Value.byContent`); `filterInCall` below covers every interface value. -/
def Query.FilterIn (fmt : Fmt) (q : Query) (column : String) (values : List Value) : Query :=
  let uniqValues := (uniqLoop values).1
  q.appendFilterExpressionAndValues fmt "filter-in"
    (column ++ " in (" ++ stringsTrim (stringsRepeat "?," uniqValues.length) "," ++ ")")
    uniqValues

/-- The loop of `FilterIn` on every list of interface values, from the state `st` (the slice
`uniqValues` and the keys of the map `valuesMap`): the lookup `valuesMap[val]` panics on a key
that cannot be hashed; a value is appended, and stored as a key, when the map holds no key equal
to it. -/
def filterInLoop : List Operand → List Operand × List Operand →
    Except Panic (List Operand × List Operand)
  | [], st => .ok st
  | val :: rest, st =>
    if val.hashable then
      if st.2.any (fun k => k.sameKey val) then filterInLoop rest st
      else filterInLoop rest (st.1 ++ [val], val :: st.2)
    else .error .unhashableKey

/-- The body of `FilterIn` up to its call of `appendFilterExpressionAndValues`, on every list of
interface values: the expression and the values it hands over, or the panic of the loop. -/
def filterInCall (column : String) (values : List Operand) :
    Except Panic (String × List Operand) :=
  match filterInLoop values ([], []) with
  | .ok st =>
    .ok (column ++ " in (" ++ stringsTrim (stringsRepeat "?," st.1.length) "," ++ ")", st.1)
  | .error p => .error p

/-- The method `FilterInStrings`. -/
def Query.FilterInStrings (fmt : Fmt) (q : Query) (column : String) (valuesStrs : List String) :
    Query :=
  q.FilterIn fmt column (valuesStrs.map Value.str)

/-- The method `prepareExpr`: an `exprValue` part becomes a placeholder and a parameter, a
string part is copied; for a part of another type the code prints the variable `val` of the
failed string assertion, which is the empty string. Every part is followed by a blank. -/
def prepareExpr (expr : List Value) : String × List Value :=
  expr.foldl
    (fun (st : String × List Value) part =>
      match part with
      | .exprValue val => (st.1 ++ "?" ++ " ", st.2 ++ [val])
      | .str val => (st.1 ++ val ++ " ", st.2)
      | _ => (st.1 ++ "" ++ " ", st.2))
    ("", [])

/-- The method `FilterExpr`. -/
def Query.FilterExpr (fmt : Fmt) (q : Query) (expr : List Value) : Query :=
  q.FilterRawExpression fmt (prepareExpr expr).1 (prepareExpr expr).2

/-- The tokens `FulltextSearch` keeps: every value split on `&`, trimmed, empty ones dropped. -/
def cleanedValues (values : List String) : List String :=
  values.foldl
    (fun acc val =>
      (splitAmp val).foldl
        (fun acc2 val2 => if stringsTrimSpace val2 ≠ "" then acc2 ++ [stringsTrimSpace val2] else acc2)
        acc)
    []

/-- The parts `FulltextSearch` assembles before handing them to `FilterExpr`. -/
def fulltextExpr (columns values : List String) : List Value :=
  let expr : List Value := columns.enum.foldl
    (fun (expr : List Value) nc =>
      (if nc.1 > 0 then expr ++ [Value.str ", ' ', "] else expr) ++ [Value.str nc.2])
    [Value.str "to_tsvector(concat("]
  expr ++ [Value.str ")) @@ ", Value.str "to_tsquery(",
    Value.exprValue (Value.str (stringsJoin (cleanedValues values) " & ")), Value.str ")"]

/-- The method `FulltextSearch`. -/
def Query.FulltextSearch (fmt : Fmt) (q : Query) (columns values : List String) : Query :=
  q.FilterExpr fmt (fulltextExpr columns values)

/-- The method `WithPageNo`. -/
def Query.WithPageNo (q : Query) (n : Int) : Query :=
  { q with logStr := q.logStr ++ ["page:" ++ toString n], pageNo := n }

/-- The method `WithPageNoString`: the parse error is dropped. -/
def Query.WithPageNoString (q : Query) (s : String) : Query :=
  q.WithPageNo (ParseInt s).1

/-- The method `WithStringPageNo`. -/
def Query.WithStringPageNo (fmt : Fmt) (q : Query) (n : String) : Query :=
  if n = "" then { q with pageNo := 0 }
  else if (ParseInt n).2 then
    { q with
      err := merryAppend
        (merryWrap (some (.base (.text ("strconv.ParseInt: parsing " ++ fmt.quote n ++ ": " ++
          (if parseDigits (if n.toList.head? = some '-' ∨ n.toList.head? = some '+'
              then n.toList.tail else n.toList) = none
            then "invalid syntax" else "value out of range"))))))
        ("invalid page: " ++ n) }
  else { q with pageNo := (ParseInt n).1 }

/-- The method `WithPageSize`. -/
def Query.WithPageSize (q : Query) (s : Int) : Query :=
  { q with logStr := q.logStr ++ ["page-size:" ++ toString s], pageSize := s }

/-- The method `WithMaxIntPageSize`. -/
def Query.WithMaxIntPageSize (q : Query) : Query := q.WithPageSize MaxInt32

/-- The method `WithDefaultPageSize`. -/
def Query.WithDefaultPageSize (q : Query) : Query := q.WithPageSize defaultPageSize

/-- The method `OrderByRawExpression`. -/
def Query.OrderByRawExpression (fmt : Fmt) (q : Query) (expression : String)
    (values : List Value) : Query :=
  { q with
    err :=
      if countPlaceholders expression ≠ values.length then
        merryAppend (some (merryNew "invalid expression placeholders count"))
          ("'" ++ expression ++ "' params: " ++ fmt.goSyntax values)
      else q.err
    orderBy := q.orderBy ++ [expression]
    values := q.values ++ values
    logStr := q.logStr ++ ["order_by:" ++ expression] }

/-- The method `OrderByExpression`. -/
def Query.OrderByExpression (fmt : Fmt) (q : Query) (expr : List Value) : Query :=
  q.OrderByRawExpression fmt (prepareExpr expr).1 (prepareExpr expr).2

/-- The method `OrderByAsc`. -/
def Query.OrderByAsc (fmt : Fmt) (q : Query) (column : String) : Query :=
  q.OrderByRawExpression fmt (column ++ " asc") []

/-- The method `OrderByDesc`. -/
def Query.OrderByDesc (fmt : Fmt) (q : Query) (column : String) : Query :=
  q.OrderByRawExpression fmt (column ++ " desc") []

/-- The method `whereExpressionAndValues`: the predicate text followed by the parameters. -/
def Query.whereExpressionAndValues (q : Query) : List Value :=
  let expr := q.expressions.foldl
    (fun (expr : String) e =>
      (if expr.length > 0 then expr ++ " and " else expr) ++ (" (" ++ e ++ ") "))
    ""
  [Value.str expr] ++ q.values

/-- The method `getLogStr`. -/
def Query.getLogStr (q : Query) : String := stringsJoin q.logStr " "

/-- The method `prepareDb`: a fresh handle with the orderings and, when deleted rows are
included, no soft-delete scope. -/
def Query.prepareDb (q : Query) : Scope := ⟨q.orderBy, q.includeDeleted, none, none⟩

/-- Result of a terminal operation of the query builder: what it returns (`err`, `value`), the
query as the call leaves it and the effects it had. -/
structure Terminal (α : Type) where
  err : Option Err
  value : α
  query : Query
  trace : List Event

/-- The method `Count`. -/
def Query.Count (fmt : Fmt) (g : Gorm) (q : Query) (sample : Model) : Terminal Int :=
  match q.err with
  | some err => ⟨some err, 0, q, []⟩
  | none =>
    let q1 : Query := { q with logStr := q.logStr ++ ["count:" ++ sample.typeName] }
    let whr := q1.whereExpressionAndValues
    let stats := [Event.stats (Sprintf0 fmt q1.getLogStr)]
    let call := Call.Count q1.prepareDb sample whr
    match (g.exec call).Error with
    | some err =>
      ⟨merryAppend (merryWrap (some err)) ("counting " ++ sample.typeName), 0, q1,
        [Event.storage call] ++ stats⟩
    | none => ⟨none, (g.exec call).count, q1, [Event.storage call] ++ stats⟩

/-- The method `First`. -/
def Query.First (fmt : Fmt) (g : Gorm) (q : Query) (target : Model) : Terminal Unit :=
  match q.err with
  | some err => ⟨some err, (), q, []⟩
  | none =>
    let q1 : Query := { q with logStr := q.logStr ++ ["first:" ++ target.typeName] }
    let whr := q1.whereExpressionAndValues
    let stats := [Event.stats (Sprintf0 fmt q1.getLogStr)]
    let call := Call.First q1.prepareDb target whr
    match (g.exec call).Error with
    | some err =>
      let code := if IsRecordNotFound (some err) then StatusNotFound else StatusInternalServerError
      ⟨merryWithHTTPCode
          (merryAppend (merryWrap (some err)) ("error getting first " ++ target.typeName)) code,
        (), q1, [Event.storage call] ++ stats⟩
    | none => ⟨none, (), q1, [Event.storage call] ++ stats⟩

/-- What `%T` prints for a target that may be the nil interface. -/
def targetTypeName : Option Target → String
  | some t => t.typeName
  | none => "<nil>"

/-- What `%T` prints for a record that may be the nil interface. -/
def modelTypeName : Option Model → String
  | some m => m.typeName
  | none => "<nil>"

/-- The `*gorm.DB` handle `allDb` returns: how it is configured and what it holds after the
calls already made on it. -/
structure Handle where
  scope : Scope
  model : Option Model
  whr : List Value
  db : DB

/-- The method `allDb`. With a target the fetch runs at once (`Find`); with a model the handle
is only configured and the fetch runs when its rows are asked for. -/
def Query.allDb (fmt : Fmt) (g : Gorm) (q : Query) (model : Option Model)
    (target : Option Target) : Terminal (Option Handle) :=
  match q.err with
  | some err => ⟨some err, none, q, []⟩
  | none =>
    let whr := q.whereExpressionAndValues
    let q1 : Query :=
      { q with
        logStr :=
          if q.logStr.length = 0 then q.logStr ++ ["all:" ++ targetTypeName target]
          else q.logStr ++ [targetTypeName target] }
    let stats := [Event.stats (Sprintf0 fmt q1.getLogStr)]
    let q2 : Query := if q1.pageSize = 0 then { q1 with pageSize := defaultPageSize } else q1
    let db : Scope :=
      if q2.pageNo > 0 then { q2.prepareDb with offset := some (wrapInt (q2.pageNo * q2.pageSize)) }
      else q2.prepareDb
    match model, target with
    | none, some t =>
      if !t.isPtr then
        ⟨merryAppend (some (merryNew "must be pointer")) ("found " ++ t.typeName), none, q2, stats⟩
      else
        let scope : Scope := { db with limit := some q2.pageSize }
        ⟨none, some ⟨scope, none, whr, g.exec (.Find scope t whr)⟩, q2,
          [Event.storage (.Find scope t whr)] ++ stats⟩
    | some m, none =>
      ⟨none, some ⟨{ db with limit := some q2.pageSize }, some m, whr, ⟨none, 0, 0, []⟩⟩, q2, stats⟩
    | _, _ =>
      ⟨merryAppend (some (merryNew "invalid model and target"))
          ("Model " ++ modelTypeName model ++ ", target: " ++ targetTypeName target),
        none, q2, stats⟩

/-- The method `AllIterator`: the rows of the iterator it returns, when it returns one. -/
def Query.AllIterator (fmt : Fmt) (g : Gorm) (q : Query) (m : Option Model) :
    Terminal (Option (List Model)) :=
  let r := q.allDb fmt g m none
  match r.err, r.value with
  | some err, _ => ⟨some err, none, r.query, r.trace⟩
  | none, none => ⟨none, none, r.query, r.trace⟩
  | none, some db =>
    let call := Call.Rows db.scope db.model db.whr
    match (g.exec call).Error with
    | some err => ⟨some err, none, r.query, r.trace ++ [Event.storage call]⟩
    | none => ⟨none, some (g.exec call).loaded, r.query, r.trace ++ [Event.storage call]⟩

/-- The method `All`: the records written into the target. -/
def Query.All (fmt : Fmt) (g : Gorm) (q : Query) (target : Option Target) :
    Terminal (List Model) :=
  let r := q.allDb fmt g none target
  match r.err, r.value with
  | some err, _ => ⟨some err, [], r.query, r.trace⟩
  | none, none => ⟨none, [], r.query, r.trace⟩
  | none, some db =>
    match db.db.Error with
    | some err =>
      if err ≠ .base .ErrNoRows then
        ⟨merryAppend (merryWrap (some err)) ("getting " ++ targetTypeName target), db.db.loaded,
          r.query, r.trace⟩
      else ⟨none, db.db.loaded, r.query, r.trace⟩
    | none => ⟨none, db.db.loaded, r.query, r.trace⟩

/-- The method `AllWithPageFull`. -/
def Query.AllWithPageFull (fmt : Fmt) (g : Gorm) (q : Query) (target : Option Target) :
    Terminal Bool :=
  let q0 : Query := if q.pageSize = 0 then { q with pageSize := defaultPageSize } else q
  let r := q0.All fmt g target
  match r.err with
  | some err => ⟨some err, false, r.query, r.trace⟩
  | none => ⟨none, decide ((r.value.length : Int) ≥ r.query.pageSize), r.query, r.trace⟩

/-- One call of a fluent method of the query builder, with its arguments. -/
inductive BuilderOp where
  | IncludeDeleted
  | FilterRawExpression (expression : String) (values : List Value)
  | Filter (column operation : String) (value : Value)
  | FilterInStrings (column : String) (valuesStrs : List String)
  | FilterIsNotNull (column : String)
  | FilterIn (column : String) (values : List Value)
  | FilterExpr (expr : List Value)
  | FulltextSearch (columns values : List String)
  | WithPageNoString (s : String)
  | WithStringPageNo (n : String)
  | WithPageNo (n : Int)
  | WithMaxIntPageSize
  | WithPageSize (s : Int)
  | WithDefaultPageSize
  | OrderByRawExpression (expression : String) (values : List Value)
  | OrderByExpression (expr : List Value)
  | OrderByAsc (column : String)
  | OrderByDesc (column : String)

/-- Applying one builder call to a query. -/
def BuilderOp.apply (fmt : Fmt) (q : Query) : BuilderOp → Query
  | .IncludeDeleted => q.IncludeDeleted
  | .FilterRawExpression expression values => q.FilterRawExpression fmt expression values
  | .Filter column operation value => q.Filter fmt column operation value
  | .FilterInStrings column valuesStrs => q.FilterInStrings fmt column valuesStrs
  | .FilterIsNotNull column => q.FilterIsNotNull fmt column
  | .FilterIn column values => q.FilterIn fmt column values
  | .FilterExpr expr => q.FilterExpr fmt expr
  | .FulltextSearch columns values => q.FulltextSearch fmt columns values
  | .WithPageNoString s => q.WithPageNoString s
  | .WithStringPageNo n => q.WithStringPageNo fmt n
  | .WithPageNo n => q.WithPageNo n
  | .WithMaxIntPageSize => q.WithMaxIntPageSize
  | .WithPageSize s => q.WithPageSize s
  | .WithDefaultPageSize => q.WithDefaultPageSize
  | .OrderByRawExpression expression values => q.OrderByRawExpression fmt expression values
  | .OrderByExpression expr => q.OrderByExpression fmt expr
  | .OrderByAsc column => q.OrderByAsc fmt column
  | .OrderByDesc column => q.OrderByDesc fmt column

/-- Applying a sequence of builder calls, first to last. -/
def applyOps (fmt : Fmt) (q : Query) (ops : List BuilderOp) : Query :=
  ops.foldl (BuilderOp.apply fmt) q

/-- The fragment and the parameters a builder call hands to `strings.Count` and `len`, when it
appends a filter or order fragment: the expression and the values that are compared. -/
def BuilderOp.fragment : BuilderOp → Option (String × List Value)
  | .FilterRawExpression expression values => some (expression, values)
  | .Filter column operation value => some (column ++ operation ++ "?", [value])
  | .FilterInStrings column valuesStrs =>
    some (column ++ " in (" ++
      stringsTrim (stringsRepeat "?," (uniqLoop (valuesStrs.map Value.str)).1.length) "," ++ ")",
      (uniqLoop (valuesStrs.map Value.str)).1)
  | .FilterIsNotNull column => some (column ++ " is not null", [])
  | .FilterIn column values =>
    some (column ++ " in (" ++ stringsTrim (stringsRepeat "?," (uniqLoop values).1.length) "," ++
      ")", (uniqLoop values).1)
  | .FilterExpr expr => some (prepareExpr expr)
  | .FulltextSearch columns values => some (prepareExpr (fulltextExpr columns values))
  | .OrderByRawExpression expression values => some (expression, values)
  | .OrderByExpression expr => some (prepareExpr expr)
  | .OrderByAsc column => some (column ++ " asc", [])
  | .OrderByDesc column => some (column ++ " desc", [])
  | _ => none

end DaoPkg

/-! ## The root package : query builder (`src/dao_helpers.go`) -/

namespace RootPkg

/-- The struct `queryExpression`: a fragment and the values given with it. -/
structure queryExpression where
  expression : String
  values : List Value
  deriving DecidableEq, Repr

/-- The struct `Query` of `src/dao_helpers.go`, without the collaborators it holds; `logStr` is
the text of the buffer. -/
structure Query where
  pageSize : Int
  includeDeleted : Bool
  logStr : String
  filters : List queryExpression
  orderBy : List String
  deriving DecidableEq, Repr

/-- The method `Dao.Query` of `src/dao.go`: a fresh query. -/
def newQuery : Query := ⟨0, false, "", [], []⟩

/-- The method `FilterExpression`. -/
def Query.FilterExpression (q : Query) (expression : String) (values : List Value) : Query :=
  { q with
    filters := q.filters ++ [⟨expression, values⟩]
    logStr := q.logStr ++ " " ++ expression }

/-- The method `Filter` of `src/dao_helpers.go`. -/
def Query.Filter (q : Query) (column operation : String) (value : Value) : Query :=
  { q with
    filters := q.filters ++ [⟨column ++ operation ++ "?", [value]⟩]
    logStr := q.logStr ++ " " ++ (column ++ operation) }

/-- An element of the `[]interface{}` that `whereExpressionAndValues` of `src/dao_helpers.go`
returns: a single value, or a slice of values held as one element. -/
inductive Arg where
  | val (v : Value)
  | slice (vs : List Value)
  deriving DecidableEq, Repr

/-- The method `whereExpressionAndValues` of `src/dao_helpers.go`: the predicate text, then one
element per filter, the slice of its values (`append(params, e.values)`). -/
def Query.whereExpressionAndValues (q : Query) : List Arg :=
  let st := q.filters.foldl
    (fun (st : String × List Arg) e =>
      ((if st.1.length > 0 then st.1 ++ " and " else st.1) ++ (" (" ++ e.expression ++ ") "),
        st.2 ++ [Arg.slice e.values]))
    ("", [])
  [Arg.val (Value.str st.1)] ++ st.2

end RootPkg

/-! ## The root package : cursor (`src/dao_cursor.go`) -/

/-- The bytes of a character in a Go string (UTF-8). -/
def utf8Bytes (c : Char) : List Nat :=
  if c.toNat < 0x80 then [c.toNat]
  else if c.toNat < 0x800 then [0xC0 + c.toNat / 64, 0x80 + c.toNat % 64]
  else if c.toNat < 0x10000 then
    [0xE0 + c.toNat / 4096, 0x80 + c.toNat / 64 % 64, 0x80 + c.toNat % 64]
  else [0xF0 + c.toNat / 262144, 0x80 + c.toNat / 4096 % 64, 0x80 + c.toNat / 64 % 64,
    0x80 + c.toNat % 64]

/-- The conversion `[]byte(s)`. -/
def goBytes (s : String) : List Nat := s.toList.flatMap utf8Bytes

/-- The conversion `string(bytes)`, each byte shown as the character of that code. -/
def bytesToString (bs : List Nat) : String := String.mk (bs.map Char.ofNat)

/-- What `%d` prints for an `int`. -/
def formatInt (i : Int) : String :=
  if i < 0 then String.mk ('-' :: Nat.toDigits 10 i.natAbs) else String.mk (Nat.toDigits 10 i.natAbs)

/-- The function `hex.EncodeToString`: two lower-case hexadecimal digits per byte. -/
def hexEncodeToString (bs : List Nat) : String :=
  String.mk (bs.flatMap (fun b => [hexDigit (b / 16), hexDigit b]))

/-- The value of a hexadecimal digit given by its byte (either case), if it is one. -/
def fromHexChar (b : Nat) : Option Nat :=
  if 48 ≤ b ∧ b ≤ 57 then some (b - 48)
  else if 97 ≤ b ∧ b ≤ 102 then some (b - 97 + 10)
  else if 65 ≤ b ∧ b ≤ 70 then some (b - 65 + 10)
  else none

/-- The function `hex.DecodeString` on the bytes of its argument: the bytes, or the error: the
first byte that is not a hexadecimal digit (`InvalidByteError`), else the odd length
(`ErrLength`). -/
def hexDecode (fmt : Fmt) : List Nat → Except BaseErr (List Nat)
  | [] => .ok []
  | [p] =>
    if fromHexChar p = none then .error (.text ("encoding/hex: invalid byte: " ++ fmt.sharpU p))
    else .error (.text "encoding/hex: odd length hex string")
  | p :: q :: rest =>
    match fromHexChar p, fromHexChar q with
    | none, _ => .error (.text ("encoding/hex: invalid byte: " ++ fmt.sharpU p))
    | some _, none => .error (.text ("encoding/hex: invalid byte: " ++ fmt.sharpU q))
    | some a, some b =>
      match hexDecode fmt rest with
      | .ok bs => .ok ((a * 16 + b) :: bs)
      | .error e => .error e

/-- The call `strconv.ParseInt(s, 10, bitSize)`: the number and whether an error is returned. A
syntax error gives 0, a value out of the range of `bitSize` bits gives the nearest bound. -/
def ParseIntBits (s : String) (bitSize : Nat) : Int × Bool :=
  let cs := s.toList
  let neg := cs.head? = some '-'
  let ds := if cs.head? = some '-' ∨ cs.head? = some '+' then cs.tail else cs
  match parseDigits ds with
  | none => (0, true)
  | some un =>
    if !neg && un ≥ 2 ^ (bitSize - 1) then (2 ^ (bitSize - 1) - 1, true)
    else if neg && un > 2 ^ (bitSize - 1) then (-(2 ^ (bitSize - 1)), true)
    else (if neg then -(un : Int) else (un : Int), false)

/-- The text of the `*strconv.NumError` that `strconv.ParseInt` returns for `s`. -/
def parseIntError (fmt : Fmt) (s : String) : Err :=
  .base (.text ("strconv.ParseInt: parsing " ++ fmt.quote s ++ ": " ++
    (if parseDigits (if s.toList.head? = some '-' ∨ s.toList.head? = some '+'
        then s.toList.tail else s.toList) = none
      then "invalid syntax" else "value out of range")))

namespace RootPkg

/-- The constant `DefaultCursorLimit`. -/
def DefaultCursorLimit : Int := 1000

/-- The constant `DefaultPageSize` of `src/dao_cursor.go`. -/
def DefaultPageSize : Int := 20

/-- The struct `Cursor`; a `*Cursor` that may be nil is an `Option Cursor`. -/
structure Cursor where
  limit : Int
  offset : Int
  deriving DecidableEq, Repr

/-- The function `NewCursor`. -/
def NewCursor (limit offset : Int) : Cursor := ⟨limit, offset⟩

/-- The function `NewFirstPageCursor`. -/
def NewFirstPageCursor : Cursor := ⟨DefaultPageSize, 0⟩

/-- The method `NextPage`. -/
def Cursor.NextPage : Option Cursor → Cursor
  | none => NewFirstPageCursor
  | some c => NewCursor (wrapInt (c.offset + c.limit)) c.limit

/-- The method `Limit`. -/
def Cursor.Limit : Option Cursor → Int
  | none => DefaultCursorLimit
  | some c => c.limit

/-- The method `Offset`. -/
def Cursor.Offset : Option Cursor → Int
  | none => 0
  | some c => c.offset

/-- The method `Serialize`. -/
def Cursor.Serialize : Option Cursor → String
  | none => ""
  | some c =>
    hexEncodeToString
      (goBytes (formatInt (Cursor.Limit (some c)) ++ ":" ++ formatInt (Cursor.Offset (some c))))

/-- The method `Unserialize` on a receiver that is not nil: the cursor it leaves and the error
it returns. -/
def Cursor.Unserialize (fmt : Fmt) (c : Cursor) (serialized : String) : Cursor × Option Err :=
  let c1 : Cursor := if serialized = "" then ⟨DefaultCursorLimit, 0⟩ else c
  match hexDecode fmt (goBytes serialized) with
  | .error err => (c1, errorsWrap (some (.base err)) ("serialized=" ++ serialized))
  | .ok bytes =>
    let parts := (splitChars ':' (bytesToString bytes).toList).map String.mk
    if parts.length ≠ 2 then
      (c1, some (errorsNew ("Invalid cursor unserialized=" ++ bytesToString bytes)))
    else if (ParseIntBits (parts.headD "") 32).2 then
      (c1, errorsWrap (some (parseIntError fmt (parts.headD "")))
        ("unserialized=" ++ bytesToString bytes))
    else if (ParseIntBits (parts.tail.headD "") 32).2 then
      (c1, errorsWrap (some (parseIntError fmt (parts.tail.headD "")))
        ("unserialized=" ++ bytesToString bytes))
    else (⟨(ParseIntBits (parts.headD "") 32).1, (ParseIntBits (parts.tail.headD "") 32).1⟩, none)

end RootPkg

/-! ## Stats collectors (`src/dao/stats/stats_collector.go` and `src/stats.go`) -/

/-- The struct `queryStat` (`dbQueryStat` in `src/stats.go`, where the descriptor field is
called `query`): durations are `time.Duration` values, in nanoseconds. -/
structure queryStat where
  queryDescriptor : String
  count : Int
  min : Int
  max : Int
  sum : Int
  avg : Int
  deriving DecidableEq, Repr

/-- The struct `dbSnapshot`: one sample. -/
structure dbSnapshot where
  query : String
  d : Int
  deriving DecidableEq, Repr

/-- The zero value of `queryStat`, which a map lookup gives for a descriptor it does not hold. -/
def queryStat.zero : queryStat := ⟨"", 0, 0, 0, 0, 0⟩

/-- The map `stats`, as an association list with at most one entry per descriptor, in the order
in which a `range` loop visits it. -/
abbrev StatsTable := List (String × queryStat)

/-- The lookup `s.stats[k]`. -/
def StatsTable.get (t : StatsTable) (k : String) : queryStat :=
  match t.find? (fun p => decide (p.1 = k)) with
  | some p => p.2
  | none => queryStat.zero

/-- The assignment `s.stats[k] = v`. -/
def StatsTable.set (t : StatsTable) (k : String) (v : queryStat) : StatsTable :=
  if t.any (fun p => decide (p.1 = k)) then
    t.map (fun p => if p.1 = k then (k, v) else p)
  else t ++ [(k, v)]

/-- The aggregate update of both consuming loops (the statements between the lookup and the
store, the same in both files): the count goes up by one, the duration is added to the sum
(a 64-bit addition), the average is the sum divided by the count (the division of Go, which
truncates), and the maximum and the minimum are replaced when they are 0 or beaten. The count
is an `int` that cannot reach 2^63 and is not wrapped. -/
def recordSample (curr : queryStat) (st : dbSnapshot) : queryStat :=
  ⟨st.query, curr.count + 1,
    if curr.min = 0 ∨ st.d < curr.min then st.d else curr.min,
    if curr.max = 0 ∨ st.d > curr.max then st.d else curr.max,
    wrapInt (curr.sum + st.d),
    Int.tdiv (wrapInt (curr.sum + st.d)) (curr.count + 1)⟩

/-- The call `sort.Sort` on a list of aggregates, whose `Less` compares the averages: the list in
non-decreasing order of average. Go leaves the order among equal averages open; the order of an
insertion sort is taken. -/
def sortByAvg (list : List queryStat) : List queryStat :=
  list.insertionSort (fun a b => a.avg ≤ b.avg)

/-- Output of a stats collector: a line on standard error or a text on standard output. -/
inductive Output where
  | stderr (line : String)
  | stdout (text : String)
  deriving DecidableEq, Repr

/-- What `%50s` prints for a text: blanks in front up to the width of 50 characters. -/
def pad50 (s : String) : String := String.mk (List.replicate (50 - s.length) ' ') ++ s

namespace StatsPkg

/-- The struct `StatsCollector` of `src/dao/stats/stats_collector.go`, without its lock and
channel. -/
structure StatsCollector where
  title : String
  top : Int
  stats : StatsTable
  LastReport : String
  deriving DecidableEq, Repr

/-- The state `NewStatsCollector` builds; `toUpper` is `strings.ToUpper`. -/
def NewStatsCollector (toUpper : String → String) (title : String) (top : Int) :
    StatsCollector :=
  ⟨toUpper title, top, [], ""⟩

/-- The method `Reset`. -/
def StatsCollector.Reset (s : StatsCollector) : StatsCollector := { s with stats := [] }

/-- The loop of `PrintStatsAndReset` over the sorted list walked from its end (`xs` is what is
left to walk, `count` the number of lines written so far): the aggregates whose lines are
written, in order. A line is written, the counter goes up, and the loop stops once the counter
is above `top`. -/
def printLoop (top : Int) : Int → List queryStat → List queryStat
  | _, [] => []
  | count, x :: rest => if count + 1 > top then [x] else x :: printLoop top (count + 1) rest

/-- The aggregates whose lines `PrintStatsAndReset` writes, in order. -/
def printedStats (top : Int) (t : StatsTable) : List queryStat :=
  printLoop top 0 (sortByAvg (t.map (fun p => p.2))).reverse

/-- One line of the report; `fd` is `formatDuration`. -/
def reportLine (fd : Int → String) (q : queryStat) : String :=
  pad50 (fd q.avg ++ "/" ++ fd q.min ++ "/" ++ fd q.max ++ "/n=" ++ toString q.count) ++ "  " ++
    q.queryDescriptor ++ "\n"

/-- The method `PrintStatsAndReset`: the collector it leaves and what it prints; `fd` is
`formatDuration`. -/
def StatsCollector.PrintStatsAndReset (fd : Int → String) (s : StatsCollector) :
    StatsCollector × List Output :=
  let header := s.title ++ " " ++ " (avg/min/max/count):" ++ "\n"
  let report :=
    if s.stats.length = 0 then header ++ "empty" ++ "\n"
    else header ++ String.join ((printedStats s.top s.stats).map (reportLine fd))
  (({ s with LastReport := report } : StatsCollector).Reset, [Output.stdout (report ++ "\n")])

/-- One turn of the consuming loop of `NewStatsCollector`, for the sample `st`. -/
def StatsCollector.consume (fd : Int → String) (s : StatsCollector) (st : dbSnapshot) :
    StatsCollector × List Output :=
  let warn : List Output :=
    if s.stats.length > 500 then
      [Output.stderr ("too many queries " ++ toString s.stats.length ++ "\n")]
    else []
  let cleaned : StatsCollector × List Output :=
    if s.stats.length > 1000 then
      ({ (s.PrintStatsAndReset fd).1 with stats := [] },
        [Output.stderr ("too many queries " ++ toString s.stats.length ++ " => cleaning" ++ "\n")]
          ++ (s.PrintStatsAndReset fd).2)
    else (s, [])
  ({ cleaned.1 with
      stats := cleaned.1.stats.set st.query (recordSample (cleaned.1.stats.get st.query) st) },
    warn ++ cleaned.2)

/-- One step of the collector: the consuming loop takes a sample, or the periodic reporter
prints and resets. -/
inductive Step where
  | sample (st : dbSnapshot)
  | report
  deriving DecidableEq, Repr

/-- The collector after one step. -/
def StatsCollector.step (fd : Int → String) (s : StatsCollector) : Step → StatsCollector
  | .sample st => (s.consume fd st).1
  | .report => (s.PrintStatsAndReset fd).1

/-- The collector after a sequence of steps. -/
def StatsCollector.run (fd : Int → String) (s : StatsCollector) (steps : List Step) :
    StatsCollector :=
  steps.foldl (StatsCollector.step fd) s

end StatsPkg

namespace RootPkg

/-- The struct `stdoutDbStatsCollector` of `src/stats.go`, without its lock and channel. -/
structure stdoutDbStatsCollector where
  stats : StatsTable
  deriving DecidableEq, Repr

/-- The state `newStdoutStatsCollector` builds. -/
def newStdoutStatsCollector : stdoutDbStatsCollector := ⟨[]⟩

/-- The loop of `PrintDbStats` over the sorted list walked from its end (`xs` is what is left to
walk, `i` the index of its head in the sorted list of length `len`): the aggregates whose lines
are written, in order. The loop goes on while `i >= 0 && i > len - count`. -/
def printDbLoop (len count : Int) : Int → List queryStat → List queryStat
  | _, [] => []
  | i, x :: rest =>
    if i ≥ 0 ∧ i > len - count then x :: printDbLoop len count (i - 1) rest else []

/-- The aggregates whose lines `PrintDbStats(count)` writes, in order. -/
def printedDbStats (count : Int) (t : StatsTable) : List queryStat :=
  printDbLoop t.length count (t.length - 1) (sortByAvg (t.map (fun p => p.2))).reverse

/-- One entry of the report of `PrintDbStats`; `ds` is `time.Duration.String`. -/
def dbReportLine (ds : Int → String) (q : queryStat) : String :=
  q.queryDescriptor ++ "\n\tavg/min/max " ++ ds q.avg ++ "/" ++ ds q.min ++ "/" ++ ds q.max ++
    ", n=" ++ toString q.count ++ "\n"

/-- The method `PrintDbStats`: what it prints. -/
def stdoutDbStatsCollector.PrintDbStats (ds : Int → String) (s : stdoutDbStatsCollector)
    (count : Int) : List Output :=
  [Output.stdout ("SLOWEST QUERIES:\n" ++
    String.join ((printedDbStats count s.stats).map (dbReportLine ds)) ++ "\n")]

/-- One turn of the consuming loop of `newStdoutStatsCollector`, for the sample `st`. -/
def stdoutDbStatsCollector.consume (ds : Int → String) (s : stdoutDbStatsCollector)
    (st : dbSnapshot) : stdoutDbStatsCollector × List Output :=
  let warn : List Output :=
    if s.stats.length > 500 then
      [Output.stderr ("too many log queries " ++ toString s.stats.length ++ "\n")]
    else []
  let cleaned : stdoutDbStatsCollector × List Output :=
    if s.stats.length > 1000 then
      (⟨[]⟩,
        [Output.stderr ("too many log queries " ++ toString s.stats.length ++ " => cleaning" ++
          "\n")] ++ s.PrintDbStats ds 500)
    else (s, [])
  (⟨cleaned.1.stats.set st.query (recordSample (cleaned.1.stats.get st.query) st)⟩,
    warn ++ cleaned.2)

/-- The collector of the root package after a sequence of samples; its periodic reporter only
prints. -/
def stdoutDbStatsCollector.run (ds : Int → String) (s : stdoutDbStatsCollector)
    (samples : List dbSnapshot) : stdoutDbStatsCollector :=
  samples.foldl (fun s st => (s.consume ds st).1) s

end RootPkg

/-! ## The sub-package `src/dao` : loading by identity -/

namespace DaoPkg

/-- The method `Load`: the fetch of the record with the identity of `m`. The sample of `Load`
is handed to the stats collector when the method returns, after the one of `First`. -/
def Load (fmt : Fmt) (d : Dao) (m : Model) : Outcome Unit :=
  if m.IsIDNil then ⟨some (merryNew ("nil id " ++ m.typeName)), (), []⟩
  else
    let r := (newQuery.Filter fmt "id" "=" (Value.uuid m.GetID)).First fmt d.masterGormDb m
    ⟨r.err, (), r.trace ++ [Event.stats ("loading " ++ m.typeName)]⟩

/-- The method `ByID`. -/
def ByID (fmt : Fmt) (d : Dao) (m : Model) (id : UUID) : Outcome Unit :=
  if uuidNil = id then ⟨some (merryNew ("nil id " ++ m.typeName)), (), []⟩
  else
    let r := (newQuery.Filter fmt "id" "=" (Value.uuid id)).First fmt d.masterGormDb m
    ⟨r.err, (), r.trace ++ [Event.stats ("getting " ++ m.typeName)]⟩

/-- The method `GetDeletedByID`. -/
def GetDeletedByID (fmt : Fmt) (d : Dao) (m : Model) (id : UUID) : Outcome Unit :=
  if uuidNil = id then ⟨some (merryNew ("nil id " ++ m.typeName)), (), []⟩
  else
    let r := (newQuery.IncludeDeleted.Filter fmt "id" "=" (Value.uuid id)).First fmt
      d.masterGormDb m
    ⟨r.err, (), r.trace ++ [Event.stats ("getting " ++ m.typeName)]⟩

/-- The method `ByStringID`; `FromString` is `uuid.FromString`, which gives the identity a
text encodes or the text of its error. -/
def ByStringID (fmt : Fmt) (FromString : String → Except String UUID) (d : Dao) (m : Model)
    (strID : String) : Outcome Unit :=
  if strID = "" then ⟨some (merryNew ("model=" ++ m.typeName ++ ", id empty")), (), []⟩
  else
    match FromString strID with
    | .error msg => ⟨merryAppend (merryWrap (some (.base (.text msg)))) ("id=" ++ strID), (), []⟩
    | .ok id => ByID fmt d m id

end DaoPkg

/-! ## Stats collector : the caller and the consuming goroutine -/

namespace StatsPkg

/-- The capacity of the channel `statsCh`: `make(chan dbSnapshot)` makes an unbuffered
channel. -/
def statsChCapacity : Nat := 0

/-- Where the consuming goroutine of `NewStatsCollector` stands: at the receive of
`for st := range s.statsCh`, or in the body of the loop with the sample it received. -/
inductive Consumer where
  | receiving
  | holding (st : dbSnapshot)
  deriving DecidableEq, Repr

/-- A collector at work: its state, where its consuming goroutine stands, the samples that wait
in the buffer of the channel and what has been printed. -/
structure Running where
  collector : StatsCollector
  consumer : Consumer
  buffered : List dbSnapshot
  out : List Output
  deriving DecidableEq, Repr

/-- The send `s.statsCh <- dbSnapshot{query, d}` that ends `AddStats`: it completes when the
consuming goroutine is at its receive, which then holds the sample, or when the buffer of the
channel has room; otherwise (`none`) the caller stays blocked at the send. -/
def Running.AddStats (r : Running) (st : dbSnapshot) : Option Running :=
  match r.consumer with
  | .receiving => some { r with consumer := .holding st }
  | .holding _ =>
    if r.buffered.length < statsChCapacity then some { r with buffered := r.buffered ++ [st] }
    else none

/-- The consuming goroutine runs the body of its loop for the sample it holds, the forced report
included, and comes back to the receive, where it takes the next buffered sample if there is
one. -/
def Running.work (fd : Int → String) (r : Running) : Running :=
  match r.consumer with
  | .receiving => r
  | .holding st =>
    { collector := (r.collector.consume fd st).1
      consumer :=
        match r.buffered with
        | [] => .receiving
        | b :: _ => .holding b
      buffered := r.buffered.tail
      out := r.out ++ (r.collector.consume fd st).2 }

end StatsPkg

/-! ## Sample collaborators and records -/

/-- A rendering for package fmt: verbs are left as they are, a value list prints as a fixed
text, a string is quoted without escapes, a rune prints as a fixed text. -/
def sampleFmt : Fmt :=
  ⟨fun s => s, fun _ => "[]interface {}{...}", fun s => "\"" ++ s ++ "\"", fun _ => "U+FFFD"⟩

/-- A store that blocks global updates and answers every call with the given error and number
of affected rows. -/
def sampleGorm (err : Option Err) (rows : Int) : Gorm := ⟨true, fun _ => ⟨err, rows, 0, []⟩⟩

/-- A stored user record (identity 7). -/
def sampleUser : Model := ⟨"*models.User", 7, [("name", Value.str "ann")]⟩

/-- A user record that has no identity yet. -/
def sampleNewUser : Model := ⟨"*models.User", uuidNil, [("name", Value.str "ann")]⟩

/-- The driver error of a unique violation on the index `idx_email`. -/
def sampleUniqueViolation : Err := .base (.pq "23505" "idx_email" "duplicate key")

/-- The registry that holds the message `email taken` for the index `idx_email`. -/
def sampleMsgs : String → Option String :=
  fun index => if index = "idx_email" then some "email taken" else none

/-- Record types without optional capabilities (root package). -/
def RootPkg.sampleTypes : RootPkg.Types := ⟨fun _ => none⟩

/-- A repository of the root package over `sampleGorm`. -/
def RootPkg.sampleDao (err : Option Err) (rows : Int) : RootPkg.Dao :=
  ⟨sampleGorm err rows, sampleMsgs⟩

/-- Record types without optional capabilities (sub-package). -/
def DaoPkg.sampleTypes : DaoPkg.Types := ⟨fun _ => none⟩

/-- A repository of the sub-package over `sampleGorm`, without registered listeners. -/
def DaoPkg.sampleDao (err : Option Err) (rows : Int) : DaoPkg.Dao :=
  ⟨sampleGorm err rows, sampleMsgs, fun _ => []⟩

/-! ## Contracts read off an outcome -/

/-- The contract of a single-row update, read off the outcome `r` of a call made against the
store `g`: exactly one call reached the store, an update; when the store answers it with more
than one affected row the outcome carries an error and no after-update hook was dispatched;
when the store answers it with no error and at most one affected row the outcome carries no
error. -/
def SingleRowUpdate (g : Gorm) (r : Outcome Model) : Prop :=
  ∃ m1 cols1, r.trace.filter Event.isStorage = [Event.storage (.Update m1 cols1)] ∧
    ((g.exec (.Update m1 cols1)).RowsAffected > 1 →
      r.err ≠ none ∧ ∀ t, Event.hook .AfterUpdate t ∉ r.trace) ∧
    ((g.exec (.Update m1 cols1)).Error = none → (g.exec (.Update m1 cols1)).RowsAffected ≤ 1 →
      r.err = none)

/-- The contract of a logical delete, read off the outcome `r`: exactly one call reached the
store, an update (hence no physical delete), and its column map holds both `deleted_at` and
`updated_at`. -/
def SoftDeleteUpdate (r : Outcome Model) : Prop :=
  ∃ m1 cols, r.trace.filter Event.isStorage = [Event.storage (.Update m1 (some cols))] ∧
    cols.has "deleted_at" = true ∧ cols.has "updated_at" = true

/-- The contract of a physical delete of the record `m`, read off the outcome `r` of a call made
against the store `g`: exactly one call reached the store, the unscoped delete of `m`; when the
store answers it with more than one affected row the outcome carries an error and no
after-delete hook was dispatched; when it answers with no error and at most one affected row
the outcome carries no error. -/
def HardDeleteCall (g : Gorm) (m : Model) (r : Outcome Model) : Prop :=
  r.trace.filter Event.isStorage = [Event.storage (.Delete m)] ∧
    ((g.exec (.Delete m)).RowsAffected > 1 →
      r.err ≠ none ∧ ∀ t, Event.hook .AfterDelete t ∉ r.trace) ∧
    ((g.exec (.Delete m)).Error = none → (g.exec (.Delete m)).RowsAffected ≤ 1 → r.err = none)

/-- The wrapping contract of an operation, read off its events `trace` and the error `err` it
returns, for calls made against the store `g`: whenever a call of the trace was answered by the
store with an error `e` (other than those `except` singles out), the operation returns a non-nil
error whose innermost error, below the merry nodes, is that of `e`; and when a context `ctx` is
expected, its text is the text of `e`, a colon and `ctx`. -/
def WrapsStorageError (g : Gorm) (trace : List Event) (err : Option Err) (ctx : Option String)
    (except : Err → Bool) : Prop :=
  ∀ c e, Event.storage c ∈ trace → (g.exec c).Error = some e → except e = false →
    ∃ w, err = some w ∧ merryUnwrap w = merryUnwrap e ∧
      ∀ s, ctx = some s → w.Error = e.Error ++ ": " ++ s

/-- A target for `All`: a pointer to a slice of users. -/
def sampleTarget : Target := ⟨"*[]models.User", true⟩

/-- One wrapping layer put on top of an error: `errors.Wrap(err, msg)` (or `errors.Wrapf`) of
pkg/errors, `merry.Wrap(err).Appendf(msg)` or `merry.Wrap(err).WithHTTPCode(code)`. -/
inductive Layer where
  | errorsWrap (msg : String)
  | merryAppendf (msg : String)
  | merryWithHTTPCode (code : Int)
  deriving DecidableEq, Repr

/-- Putting one layer on an error. -/
def Layer.apply : Layer → Option Err → Option Err
  | .errorsWrap msg, err => GormDao.errorsWrap err msg
  | .merryAppendf msg, err => GormDao.merryAppend (GormDao.merryWrap err) msg
  | .merryWithHTTPCode code, err => GormDao.merryWithHTTPCode (GormDao.merryWrap err) code

/-- Whether a layer is one of package merry. -/
def Layer.isMerry : Layer → Bool
  | .errorsWrap _ => false
  | _ => true

/-- Putting layers on an error, the head of the list first (innermost). -/
def wrapLayers (layers : List Layer) (err : Option Err) : Option Err :=
  layers.foldl (fun e l => l.apply e) err

/-- Whether an error is a raw one, as raised below the repository: not a wrapper. -/
def Err.isRaw : Err → Bool
  | .base _ => true
  | .gormErrors _ => true
  | _ => false

/-- A poisoned query: it holds a recorded error, and every terminal operation (`First`, `Count`,
`All`, `AllIterator`, and `AllWithPageFull` on top of `All`) called on it against the store `g`
returns an error and has no effect, so no call reaches the store. -/
def DaoPkg.Poisoned (fmt : Fmt) (g : Gorm) (q : DaoPkg.Query) : Prop :=
  q.err ≠ none ∧
  ∀ (m : Model) (mo : Option Model) (target : Option Target),
    (q.First fmt g m).err ≠ none ∧ (q.First fmt g m).trace = [] ∧
    (q.Count fmt g m).err ≠ none ∧ (q.Count fmt g m).trace = [] ∧
    (q.All fmt g target).err ≠ none ∧ (q.All fmt g target).trace = [] ∧
    (q.AllIterator fmt g mo).err ≠ none ∧ (q.AllIterator fmt g mo).trace = [] ∧
    (q.AllWithPageFull fmt g target).err ≠ none ∧ (q.AllWithPageFull fmt g target).trace = []

/-- Specification of the placeholder list of `FilterIn`: `k` placeholders separated by commas
(the empty text, `?`, `?,?`, ...). -/
def placeholderList : Nat → String
  | 0 => ""
  | 1 => "?"
  | n + 2 => "?," ++ placeholderList (n + 1)

/-- Specification of the parameters of `FilterIn`: the distinct values of a list, in the order
of their first occurrence. -/
def firstOccurrences : List Value → List Value
  | [] => []
  | v :: vs => v :: (firstOccurrences vs).filter (fun x => decide (x ≠ v))

/-- The characters of `strings.Repeat("?,", n)`. -/
def repeatedPlaceholders : Nat → List Char
  | 0 => []
  | n + 1 => '?' :: ',' :: repeatedPlaceholders n

/-- Specification of the compiled predicate: every fragment between ` (` and `) `, in order,
joined with ` and `. -/
def joinedPredicate (fragments : List String) : String :=
  " and ".intercalate (fragments.map (fun e => " (" ++ e ++ ") "))

/-- Appending a sequence of filter fragments `(descr, expression, values)` to a query of the
sub-package, first to last. -/
def DaoPkg.appendFragments (fmt : Fmt) (q : DaoPkg.Query)
    (fs : List (String × String × List Value)) : DaoPkg.Query :=
  fs.foldl (fun q f => q.appendFilterExpressionAndValues fmt f.1 f.2.1 f.2.2) q

/-- The loop of `parseDigits`. -/
def parseStep (acc : Option Nat) (c : Char) : Option Nat :=
  acc.bind (fun n => if c.isDigit then some (n * 10 + (c.toNat - 48)) else none)

/-- The characters of what `%d` prints for an `int`. -/
def intChars (i : Int) : List Char :=
  if i < 0 then '-' :: Nat.toDigits 10 i.natAbs else Nat.toDigits 10 i.natAbs

/-- A character of a decimal number: a digit or the minus sign. -/
def isNumberChar (c : Char) : Prop := (48 ≤ c.toNat ∧ c.toNat ≤ 57) ∨ c = '-'

/-- The durations of the samples of the descriptor `k`, in the order of their arrival. -/
def durationsOf (k : String) (samples : List dbSnapshot) : List Int :=
  (samples.filter (fun st => decide (st.query = k))).map (fun st => st.d)

/-- No forced reset along a run of a consuming loop: every sample of `samples` arrives while the
table holds at most 1000 descriptors, so that no turn of the loop `f` empties it (`tbl` reads the
table of a collector). -/
def withinLimitAlong {σ : Type} (tbl : σ → StatsTable) (f : σ → dbSnapshot → σ) :
    σ → List dbSnapshot → Bool
  | _, [] => true
  | s, st :: rest => decide ((tbl s).length ≤ 1000) && withinLimitAlong tbl f (f s st) rest

/-- No reset while the collector of the sub-package consumes `samples`: no report step is among
them, and no sample finds more than 1000 descriptors. -/
def StatsPkg.StatsCollector.noReset (fd : Int → String) (s : StatsPkg.StatsCollector)
    (samples : List dbSnapshot) : Bool :=
  withinLimitAlong (fun s => s.stats) (fun s st => (s.consume fd st).1) s samples

/-- No reset while the collector of the root package consumes `samples`: no sample finds more
than 1000 descriptors. -/
def RootPkg.stdoutDbStatsCollector.noReset (ds : Int → String)
    (s : RootPkg.stdoutDbStatsCollector) (samples : List dbSnapshot) : Bool :=
  withinLimitAlong (fun s => s.stats) (fun s st => (s.consume ds st).1) s samples

/-- The descriptors a table tracks. -/
def StatsTable.keys (t : StatsTable) : List String := t.map (fun p => p.1)

/-- A table that tracks the 1001 descriptors `0`, ..., `1000`, each sampled once with 1ns. -/
def sampleFullTable : StatsTable :=
  (List.range 1001).map (fun i => (toString i, (⟨toString i, 1, 1, 1, 1, 1⟩ : queryStat)))

/-- Three aggregates, of the averages 5ns, 7ns and 6ns. -/
def sampleThreeAggregates : StatsTable :=
  [("a", ⟨"a", 1, 5, 5, 5, 5⟩), ("b", ⟨"b", 1, 7, 7, 7, 7⟩), ("c", ⟨"c", 1, 6, 6, 6, 6⟩)]

/-- The page of `rows` a handle with the offset and the limit of `scope` selects: the rows after
the offset, as many as the limit allows (all of them without a limit or with a negative
one). -/
def pageOf (rows : List Model) (scope : Scope) : List Model :=
  let rest := rows.drop (scope.offset.getD 0).toNat
  match scope.limit with
  | some l => if l < 0 then rest else rest.take l.toNat
  | none => rest

/-- A store that holds `rows` and answers every fetch with the page its handle selects. -/
def pagingGorm (rows : List Model) : Gorm :=
  ⟨true, fun c =>
    match c with
    | .Find scope _ _ => ⟨none, 0, 0, pageOf rows scope⟩
    | _ => ⟨none, 0, 0, []⟩⟩

/-- One hundred stored user records, of the identities 1 to 100. -/
def sampleHundredUsers : List Model :=
  (List.range 100).map (fun i => (⟨"models.User", i + 1, []⟩ : Model))

/-- The rows a table with the live rows `live` and the soft-deleted rows `deleted` selects for a
handle: the live rows, followed by the soft-deleted ones when the handle is unscoped, in stored
order, or in the reverse order when the handle carries the one ordering `id desc`. -/
def tableRows (live deleted : List Model) (scope : Scope) : List Model :=
  let rows := if scope.unscoped then live ++ deleted else live
  if scope.orders = ["id desc"] then rows.reverse else rows

/-- A store with ordering and soft deletion over such a table: it answers a fetch with the page
that the offset and the limit of the handle select among the rows selected for the handle. -/
def tableGorm (live deleted : List Model) : Gorm :=
  ⟨true, fun c =>
    match c with
    | .Find scope _ _ => ⟨none, 0, 0, pageOf (tableRows live deleted scope) scope⟩
    | _ => ⟨none, 0, 0, []⟩⟩

/-- The effective page size of a query: the configured one, or the default when none is set. -/
def DaoPkg.effectivePageSize (q : DaoPkg.Query) : Int :=
  if q.pageSize = 0 then DaoPkg.defaultPageSize else q.pageSize

/-- The handle a paged fetch is expected to run on: the orderings and the soft-delete scope of
the query, the effective page size as limit and, from page 1 on, the page number times the
effective page size (a 64-bit product) as offset. -/
def DaoPkg.pageScope (q : DaoPkg.Query) : Scope :=
  ⟨q.orderBy, q.includeDeleted,
    if q.pageNo > 0 then some (wrapInt (q.pageNo * DaoPkg.effectivePageSize q)) else none,
    some (DaoPkg.effectivePageSize q)⟩

/-- A store that answers a fetch with no more rows than a non-negative limit of its handle. -/
def RespectsLimit (g : Gorm) : Prop :=
  ∀ (scope : Scope) (t : Target) (whr : List Value) (l : Int),
    scope.limit = some l → 0 ≤ l → ((g.exec (.Find scope t whr)).loaded.length : Int) ≤ l

/-- Specification of the tokens of a full-text search: every value split on `&`, each piece
trimmed, the empty ones dropped, in order. -/
def searchTokens (values : List String) : List String :=
  ((values.flatMap splitAmp).map stringsTrimSpace).filter (fun t => decide (t ≠ ""))

/-- Specification of the column list of a full-text fragment: the columns, each followed by a
blank, separated by the SQL text `, ' ', ` and a blank. -/
def fulltextColumns : List String → String
  | [] => ""
  | [c] => c ++ " "
  | c :: c2 :: rest => c ++ " " ++ (", ' ', " ++ " ") ++ fulltextColumns (c2 :: rest)

/-- Specification of the fragment of a full-text search: `to_tsvector(concat(` the columns
`)) @@ to_tsquery(?)`, every part followed by a blank. -/
def fulltextFragment (columns : List String) : String :=
  "to_tsvector(concat( " ++ fulltextColumns columns ++ ")) @@  to_tsquery( ? ) "

/-- The parts `FulltextSearch` puts between the opening and the closing of `concat`: the
columns, with the separator in front of every column but the first. -/
def columnParts : List String → List Value
  | [] => []
  | c :: rest => Value.str c :: rest.flatMap (fun c2 => [Value.str ", ' ', ", Value.str c2])

/-- The lookup `v, ok := m[k]`: the value of the column `k`, when the map holds it. -/
def ColMap.get? (m : ColMap) (k : String) : Option Value :=
  (m.find? (fun p => decide (p.1 = k))).map (fun p => p.2)

/-- The warning the before-save hook logs for a column that collides. -/
def overwriteWarning (k : String) : Event := Event.log "warning" ("overwriting column " ++ k)

/-- A record type with the before-save capability: it returns the derived column `name`. -/
def RootPkg.sampleHookTypes : RootPkg.Types :=
  ⟨fun _ => some (fun m => (m, some [("name", Value.str "ann lee")]))⟩

/-- The phases of a mutation that its events show: a dispatch of the listeners of a hook, or a
call to the store. -/
inductive Phase where
  | hook (h : DbHook)
  | storage
  deriving DecidableEq, Repr

/-- The phase an event belongs to, when it is a hook dispatch or a storage call. -/
def Event.phase : Event → Option Phase
  | .hook h _ => some (.hook h)
  | .storage _ => some .storage
  | _ => none

/-- The phases of a trace, in order. -/
def phases (trace : List Event) : List Phase := trace.filterMap Event.phase

/-- A parser of identities that knows two encodings, the one of the identity 7 and the one of
the nil identity, and rejects every other text. -/
def sampleFromString : String → Except String UUID :=
  fun s =>
    if s = "00000000-0000-0000-0000-000000000007" then .ok 7
    else if s = "00000000-0000-0000-0000-000000000000" then .ok uuidNil
    else .error "uuid: incorrect UUID length"

/-- Whether an event is a sample handed to the stats collector. -/
def Event.isStats : Event → Bool
  | .stats _ => true
  | _ => false

/-- The placeholders a query holds: those of its filter expressions and those of its
orderings. -/
def DaoPkg.placeholdersOf (q : DaoPkg.Query) : Nat :=
  (q.expressions.map countPlaceholders).sum + (q.orderBy.map countPlaceholders).sum

/-- Specification of the text of tokens joined in order with ` & `: nothing for no token, the
token for one, and the first token, ` & ` and the joined rest for more. -/
def joinedWithAmpersand : List String → String
  | [] => ""
  | [t] => t
  | t :: t2 :: rest => t ++ " & " ++ joinedWithAmpersand (t2 :: rest)

/-! ## Identity guard and single-row updates -/

/-- C1: on a record whose identity is the nil UUID, `UpdateColumns`, `DeprecatedUpdateColumns`,
`IncrColumn`, `Delete` and `HardDelete` of the root package and `UpdateColumns`,
`UpdateColumnValues` and `Delete` of the sub-package return the error `id nil`, leave the record
as it is and have no effect at all: no storage call, no hook run, not even a stats sample. -/
theorem nil_identity_rejected_without_effects (fmt : Fmt) (tyR : RootPkg.Types)
    (dR : RootPkg.Dao) (ty : DaoPkg.Types) (d : DaoPkg.Dao) (m : Model) (ci : List ColumnInfo)
    (cols : Option ColMap) (col : String) (incr : Nat) (deletedAt updatedAt : Int)
    (h : m.GetID = uuidNil) :
    RootPkg.UpdateColumns tyR dR m ci = ⟨some (errorsNew "id nil"), m, []⟩ ∧
    RootPkg.DeprecatedUpdateColumns tyR dR m cols = ⟨some (errorsNew "id nil"), m, []⟩ ∧
    RootPkg.IncrColumn tyR dR m col incr = ⟨some (errorsNew "id nil"), m, []⟩ ∧
    RootPkg.Delete tyR dR m deletedAt updatedAt = ⟨some (errorsNew "id nil"), m, []⟩ ∧
    RootPkg.HardDelete dR m = ⟨some (errorsNew "id nil"), m, []⟩ ∧
    DaoPkg.UpdateColumns fmt ty d m ci = ⟨some (merryNew "id nil"), m, []⟩ ∧
    DaoPkg.UpdateColumnValues fmt ty d m cols = ⟨some (merryNew "id nil"), m, []⟩ ∧
    DaoPkg.Delete ty d m = ⟨some (merryNew "id nil"), m, []⟩ ∧
    (errorsNew "id nil").Error = "id nil" ∧ (merryNew "id nil").Error = "id nil" := by
  refine ⟨?_, ?_, ?_, ?_, ?_, ?_, ?_, ?_, by decide, by decide⟩ <;>
    simp [RootPkg.UpdateColumns, RootPkg.DeprecatedUpdateColumns, RootPkg.IncrColumn,
      RootPkg.Delete, RootPkg.HardDelete, RootPkg.assertIDValid, DaoPkg.UpdateColumns,
      DaoPkg.UpdateColumnValues, DaoPkg.Delete, DaoPkg.assertIDValid, h]

/-- C1, instance: a user record without identity, column `name`, a store that would report 5
affected rows. -/
theorem nil_identity_rejected_without_effects_witness :
    sampleNewUser.GetID = uuidNil ∧
    (RootPkg.HardDelete (RootPkg.sampleDao none 5) sampleNewUser).trace = [] ∧
    (DaoPkg.UpdateColumnValues sampleFmt DaoPkg.sampleTypes (DaoPkg.sampleDao none 5) sampleNewUser
      (some [("name", Value.str "bob")])).trace = [] :=
  have h := nil_identity_rejected_without_effects sampleFmt RootPkg.sampleTypes
    (RootPkg.sampleDao none 5) DaoPkg.sampleTypes (DaoPkg.sampleDao none 5) sampleNewUser
    [("name", Value.str "bob")] (some [("name", Value.str "bob")]) "name" 0 1 2 (by decide)
  ⟨by decide, by rw [h.2.2.2.2.1], by rw [h.2.2.2.2.2.2.1]⟩

/-- The classifier of the root package never returns nil for a non-nil error and logs
nothing for it. -/
theorem RootPkg.extractUniqueMessages_root_some (d : RootPkg.Dao) (e : Err) :
    (RootPkg.extractUniqueMessages d (some e)).1 ≠ none ∧
    (RootPkg.extractUniqueMessages d (some e)).2 = [] := by
  unfold RootPkg.extractUniqueMessages
  split
  · simp_all
  · rename_i e1 heq
    split <;> (try split) <;> (try split) <;> simp [errorsWrap]

/-- The classifier of the sub-package never returns nil for a non-nil error and logs nothing
for it. -/
theorem DaoPkg.extractUniqueMessages_some (fmt : Fmt) (d : DaoPkg.Dao) (e : Err) :
    (DaoPkg.extractUniqueMessages fmt d (some e)).1 ≠ none ∧
    (DaoPkg.extractUniqueMessages fmt d (some e)).2 = [] := by
  unfold DaoPkg.extractUniqueMessages
  split
  · simp_all
  · rename_i e1 heq
    split <;> (try split) <;> (try split) <;>
      first
        | (cases e1 <;> simp [merryWrap, merryAppend])
        | simp [merryWrap, merryAppend]

/-- A hook dispatch leaves exactly one event, the dispatch itself. -/
theorem DaoPkg.executeHookListeners_trace (ty : DaoPkg.Types) (d : DaoPkg.Dao) (m : Model)
    (hook : DbHook) (hctx : DaoPkg.HookCtx) :
    (DaoPkg.executeHookListeners ty d m hook hctx).2.2 = [Event.hook hook m.typeName] := rfl

/-- The merge loop of the before-save hook only adds log lines to the events. -/
theorem RootPkg.merge_only_logs (custom : ColMap) (acc : ColMap × List Event)
    (hacc : ∀ e ∈ acc.2, ∃ l msg, e = Event.log l msg) :
    ∀ e ∈ (custom.foldl
        (fun (acc : ColMap × List Event) (kv : String × Value) =>
          (acc.1.set kv.1 kv.2,
            if acc.1.has kv.1 then acc.2 ++ [Event.log "warning" ("overwriting column " ++ kv.1)]
            else acc.2))
        acc).2, ∃ l msg, e = Event.log l msg := by
  induction custom generalizing acc with
  | nil => simpa using hacc
  | cons kv rest ih =>
    simp only [List.foldl_cons]
    apply ih
    intro e he
    dsimp only at he
    split at he
    · rcases List.mem_append.mp he with h1 | h1
      · exact hacc e h1
      · simp only [List.mem_singleton] at h1
        exact ⟨_, _, h1⟩
    · exact hacc e he

/-- The before-save hook of the root package reaches neither the store nor a listener
dispatch: its events are one `beforeCreateOrUpdate` mark at most, followed by log lines. -/
theorem RootPkg.hookBeforeSaveOrUpdate_events (ty : RootPkg.Types) (m : Model)
    (cols : Option ColMap) :
    ∀ e ∈ (RootPkg.hookBeforeSaveOrUpdate ty m cols).2.2,
      e = Event.beforeCreateOrUpdate m.typeName ∨ ∃ l msg, e = Event.log l msg := by
  intro e he
  unfold RootPkg.hookBeforeSaveOrUpdate at he
  split at he
  · simp at he
  · split at he
    · simp only [List.singleton_append, List.mem_cons] at he
      rcases he with h1 | h1
      · exact Or.inl h1
      · exact Or.inr (RootPkg.merge_only_logs _ _ (by simp) e h1)
    · simp only [List.mem_singleton] at he
      exact Or.inl he

/-- The before-save hook of the root package makes no storage call. -/
theorem RootPkg.hookBeforeSaveOrUpdate_no_storage (ty : RootPkg.Types) (m : Model)
    (cols : Option ColMap) :
    (RootPkg.hookBeforeSaveOrUpdate ty m cols).2.2.filter Event.isStorage = [] := by
  rw [List.filter_eq_nil_iff]
  intro e he
  rcases RootPkg.hookBeforeSaveOrUpdate_events ty m cols e he with h | ⟨l, msg, h⟩ <;>
    simp [h, Event.isStorage]

/-- `UpdateColumnValues` of the sub-package meets the single-row update contract. -/
theorem DaoPkg.UpdateColumnValues_singleRow (fmt : Fmt) (ty : DaoPkg.Types) (d : DaoPkg.Dao)
    (model : Model) (cols : Option ColMap) (hid : model.GetID ≠ uuidNil)
    (hblk : d.masterGormDb.HasBlockGlobalUpdate = true) :
    SingleRowUpdate d.masterGormDb (DaoPkg.UpdateColumnValues fmt ty d model cols) := by
  refine ⟨(DaoPkg.executeHookListeners ty d model .BeforeUpdate (DaoPkg.newHookCtx cols false)).1,
    cols.map (fun c => (DaoPkg.executeHookListeners ty d model .BeforeUpdate
      (DaoPkg.newHookCtx cols false)).2.1.Fields.getD c), ?_⟩
  have hx := DaoPkg.extractUniqueMessages_some fmt d
  simp only [DaoPkg.UpdateColumnValues, DaoPkg.assertIDValid, hid, hblk, if_false,
    Bool.not_true, Bool.false_eq_true, DaoPkg.executeHookListeners_trace]
  cases hq : (d.masterGormDb.exec (Call.Update _ _)).Error with
  | some e =>
    simp [hq, Event.isStorage, (hx e).1, (hx e).2]
  | none =>
    by_cases hr : (d.masterGormDb.exec (Call.Update
        (DaoPkg.executeHookListeners ty d model .BeforeUpdate (DaoPkg.newHookCtx cols false)).1
        (cols.map (fun c => (DaoPkg.executeHookListeners ty d model .BeforeUpdate
          (DaoPkg.newHookCtx cols false)).2.1.Fields.getD c)))).RowsAffected > 1
    · simp [hq, hr, Event.isStorage, merryNew]
    · simp [hq, hr, Event.isStorage]

/-- The before-save hook of the root package dispatches no listener. -/
theorem RootPkg.hookBeforeSaveOrUpdate_no_dispatch (ty : RootPkg.Types) (m : Model)
    (cols : Option ColMap) (h : DbHook) (t : String) :
    Event.hook h t ∉ (RootPkg.hookBeforeSaveOrUpdate ty m cols).2.2 := by
  intro he
  rcases RootPkg.hookBeforeSaveOrUpdate_events ty m cols _ he with h1 | ⟨l, msg, h1⟩ <;>
    simp at h1

/-- `DeprecatedUpdateColumns` of the root package meets the single-row update contract. -/
theorem RootPkg.DeprecatedUpdateColumns_singleRow (ty : RootPkg.Types) (d : RootPkg.Dao)
    (model : Model) (cols : Option ColMap) (hid : model.GetID ≠ uuidNil)
    (hblk : d.masterGormDb.HasBlockGlobalUpdate = true) :
    SingleRowUpdate d.masterGormDb (RootPkg.DeprecatedUpdateColumns ty d model cols) := by
  refine ⟨(RootPkg.hookBeforeSaveOrUpdate ty model cols).1,
    (RootPkg.hookBeforeSaveOrUpdate ty model cols).2.1, ?_⟩
  have hx := RootPkg.extractUniqueMessages_root_some d
  have hs := RootPkg.hookBeforeSaveOrUpdate_no_storage ty model cols
  have hd := RootPkg.hookBeforeSaveOrUpdate_no_dispatch ty model cols
  simp only [RootPkg.DeprecatedUpdateColumns, RootPkg.assertIDValid, hid, hblk, if_false,
    Bool.not_true, Bool.false_eq_true]
  cases hq : (d.masterGormDb.exec (Call.Update _ _)).Error with
  | some e =>
    simp [hq, Event.isStorage, (hx e).1, (hx e).2, hs, hd]
  | none =>
    by_cases hr : (d.masterGormDb.exec (Call.Update (RootPkg.hookBeforeSaveOrUpdate ty model cols).1
        (RootPkg.hookBeforeSaveOrUpdate ty model cols).2.1)).RowsAffected > 1
    · simp [hq, hr, Event.isStorage, errorsNew, hs, hd]
    · simp [hq, hr, Event.isStorage, hs]

/-- C2: every single-row update issued by `UpdateColumnValues` and `UpdateColumns` of the
sub-package, and by `DeprecatedUpdateColumns` and `UpdateColumns` of the root package, on a
record with a non-nil identity (the store blocking global updates, as `initDb` sets it up)
reaches the store with exactly one update; if the store reports more than one affected row the
call returns an error and no after-update hook is dispatched; if the store reports no error
and at most one affected row the call returns nil. -/
theorem single_row_update_more_than_one_row_fails (fmt : Fmt) (tyR : RootPkg.Types)
    (dR : RootPkg.Dao) (ty : DaoPkg.Types) (d : DaoPkg.Dao) (model : Model)
    (cols : Option ColMap) (ci : List ColumnInfo) (hid : model.GetID ≠ uuidNil)
    (hblk : d.masterGormDb.HasBlockGlobalUpdate = true)
    (hblkR : dR.masterGormDb.HasBlockGlobalUpdate = true) :
    SingleRowUpdate d.masterGormDb (DaoPkg.UpdateColumnValues fmt ty d model cols) ∧
    SingleRowUpdate d.masterGormDb (DaoPkg.UpdateColumns fmt ty d model ci) ∧
    SingleRowUpdate dR.masterGormDb (RootPkg.DeprecatedUpdateColumns tyR dR model cols) ∧
    SingleRowUpdate dR.masterGormDb (RootPkg.UpdateColumns tyR dR model ci) :=
  ⟨DaoPkg.UpdateColumnValues_singleRow fmt ty d model cols hid hblk,
    DaoPkg.UpdateColumnValues_singleRow fmt ty d model _ hid hblk,
    RootPkg.DeprecatedUpdateColumns_singleRow tyR dR model cols hid hblkR,
    RootPkg.DeprecatedUpdateColumns_singleRow tyR dR model _ hid hblkR⟩

/-- C2, instance: updating the name of the stored user against a store that reports three
affected rows. -/
theorem single_row_update_more_than_one_row_fails_witness :
    sampleUser.GetID ≠ uuidNil ∧
    SingleRowUpdate (sampleGorm none 3)
      (DaoPkg.UpdateColumnValues sampleFmt DaoPkg.sampleTypes (DaoPkg.sampleDao none 3) sampleUser
        (some [("name", Value.str "bob")])) :=
  ⟨by decide,
    (single_row_update_more_than_one_row_fails sampleFmt RootPkg.sampleTypes
      (RootPkg.sampleDao none 3) DaoPkg.sampleTypes (DaoPkg.sampleDao none 3) sampleUser
      (some [("name", Value.str "bob")]) [("name", Value.str "bob")] (by decide) rfl rfl).1⟩

/-- The sample update against a store reporting three rows returns the error `!`, after one
update and without an after-update dispatch. -/
theorem DaoPkg.sample_update_three_rows :
    ((DaoPkg.UpdateColumnValues sampleFmt DaoPkg.sampleTypes (DaoPkg.sampleDao none 3) sampleUser
        (some [("name", Value.str "bob")])).err.map Err.Error = some "!") ∧
    (DaoPkg.UpdateColumnValues sampleFmt DaoPkg.sampleTypes (DaoPkg.sampleDao none 3) sampleUser
        (some [("name", Value.str "bob")])).trace =
      [Event.hook .BeforeUpdate "*models.User",
        Event.storage (.Update sampleUser (some [("name", Value.str "bob")])),
        Event.log "critical" "Expected 1 update, got 3",
        Event.stats "updating *models.User"] := by
  decide

/-! ## Create -/

/-- C3: what the code does. `Create`, in both packages, compares its argument with nil and then
calls `IsIDNil` on it. For the nil interface value it returns the error `nil model`, and for a
record that has a non-nil identity the error `inserting an existing object`; both times it has
no effect at all (no storage call, no hook, no identity generation, no stats sample) and hands
the record back unchanged, identity included. A record that is a nil pointer is not equal to nil
as an interface value: for it `Create` returns no error, the call `m.IsIDNil()` panics with a
nil pointer dereference. -/
theorem create_panics_on_nil_pointer_record (fmt : Fmt) (tyR : RootPkg.Types)
    (dR : RootPkg.Dao) (ty : DaoPkg.Types) (d : DaoPkg.Dao) (rand : Nat) :
    (∀ typeName : String,
      DaoPkg.Dao.Create fmt ty d (.nilPointer typeName) rand =
        .error Panic.nilPointerDereference ∧
      RootPkg.Dao.Create tyR dR (.nilPointer typeName) rand =
        .error Panic.nilPointerDereference) ∧
    DaoPkg.Dao.Create fmt ty d .nilInterface rand =
      .ok ⟨some (merryNew "nil model"), none, []⟩ ∧
    RootPkg.Dao.Create tyR dR .nilInterface rand =
      .ok ⟨some (errorsNew "nil model"), none, []⟩ ∧
    (∀ m : Model, m.IsIDNil = false →
      DaoPkg.Dao.Create fmt ty d (.pointer m) rand =
        .ok ⟨some (merryNew ("inserting an existing object, " ++ m.typeName ++ " with " ++
          uuidString m.GetID)), some m, []⟩ ∧
      RootPkg.Dao.Create tyR dR (.pointer m) rand =
        .ok ⟨some (errorsNew ("inserting an existing object, " ++ m.typeName ++ " with " ++
          uuidString m.GetID)), some m, []⟩) ∧
    (∀ m : Model,
      DaoPkg.Dao.Create fmt ty d (.pointer m) rand = .ok (DaoPkg.Create fmt ty d (some m) rand) ∧
      RootPkg.Dao.Create tyR dR (.pointer m) rand = .ok (RootPkg.Create tyR dR (some m) rand)) := by
  refine ⟨fun _ => ⟨rfl, rfl⟩, rfl, rfl, fun m h => ?_, fun m => ⟨rfl, rfl⟩⟩
  have h1 : DaoPkg.Create fmt ty d (some m) rand =
      ⟨some (merryNew ("inserting an existing object, " ++ m.typeName ++ " with " ++
        uuidString m.GetID)), some m, []⟩ := by
    simp [DaoPkg.Create, h]
  have h2 : RootPkg.Create tyR dR (some m) rand =
      ⟨some (errorsNew ("inserting an existing object, " ++ m.typeName ++ " with " ++
        uuidString m.GetID)), some m, []⟩ := by
    simp [RootPkg.Create, h]
  rw [← h1, ← h2]
  exact ⟨rfl, rfl⟩

/-- C3, instances: creating a nil `*models.User` panics in both packages, and creating the
stored user (identity 7) again is rejected without effect. -/
theorem create_panics_on_nil_pointer_record_witness :
    DaoPkg.Dao.Create sampleFmt DaoPkg.sampleTypes (DaoPkg.sampleDao none 1)
      (.nilPointer "*models.User") 99 = .error Panic.nilPointerDereference ∧
    RootPkg.Dao.Create RootPkg.sampleTypes (RootPkg.sampleDao none 1)
      (.nilPointer "*models.User") 99 = .error Panic.nilPointerDereference ∧
    sampleUser.IsIDNil = false ∧
    DaoPkg.Dao.Create sampleFmt DaoPkg.sampleTypes (DaoPkg.sampleDao none 1)
      (.pointer sampleUser) 99 =
      .ok ⟨some (merryNew ("inserting an existing object, " ++ sampleUser.typeName ++ " with " ++
        uuidString sampleUser.GetID)), some sampleUser, []⟩ ∧
    "inserting an existing object, " ++ sampleUser.typeName ++ " with " ++
        uuidString sampleUser.GetID =
      "inserting an existing object, *models.User with 00000000-0000-0000-0000-000000000007" :=
  ⟨((create_panics_on_nil_pointer_record sampleFmt RootPkg.sampleTypes
      (RootPkg.sampleDao none 1) DaoPkg.sampleTypes (DaoPkg.sampleDao none 1) 99).1
      "*models.User").1,
    ((create_panics_on_nil_pointer_record sampleFmt RootPkg.sampleTypes
      (RootPkg.sampleDao none 1) DaoPkg.sampleTypes (DaoPkg.sampleDao none 1) 99).1
      "*models.User").2,
    by decide,
    ((create_panics_on_nil_pointer_record sampleFmt RootPkg.sampleTypes
      (RootPkg.sampleDao none 1) DaoPkg.sampleTypes (DaoPkg.sampleDao none 1) 99).2.2.2.1
      sampleUser (by decide)).1,
    by decide⟩

/-! ## Delete -/

/-- An assignment keeps the keys a map already has. -/
theorem ColMap.has_set (m : ColMap) (k k1 : String) (v : Value) (h : ColMap.has m k1 = true) :
    ColMap.has (ColMap.set m k v) k1 = true := by
  unfold ColMap.has at h ⊢
  unfold ColMap.set
  rw [List.any_eq_true] at h
  obtain ⟨p, hp, hk⟩ := h
  split
  · rw [List.any_eq_true]
    by_cases hpk : p.1 = k
    · exact ⟨(k, v), List.mem_map.mpr ⟨p, hp, by simp [hpk]⟩, by simpa [hpk] using hk⟩
    · exact ⟨p, List.mem_map.mpr ⟨p, hp, by simp [hpk]⟩, hk⟩
  · rw [List.any_eq_true]
    exact ⟨p, List.mem_append_left _ hp, hk⟩

/-- The merge loop of the before-save hook keeps the keys the map already has. -/
theorem RootPkg.merge_keeps_keys (custom : ColMap) (acc : ColMap × List Event) (k1 : String)
    (h : ColMap.has acc.1 k1 = true) :
    ColMap.has (custom.foldl
        (fun (acc : ColMap × List Event) (kv : String × Value) =>
          (acc.1.set kv.1 kv.2,
            if acc.1.has kv.1 then acc.2 ++ [Event.log "warning" ("overwriting column " ++ kv.1)]
            else acc.2))
        acc).1 k1 = true := by
  induction custom generalizing acc with
  | nil => simpa using h
  | cons kv rest ih =>
    simp only [List.foldl_cons]
    exact ih _ (ColMap.has_set _ _ _ _ h)

/-- The before-save hook of the root package hands on a map that is not nil and still holds
every key of the map it was given. -/
theorem RootPkg.hookBeforeSaveOrUpdate_keeps_keys (ty : RootPkg.Types) (m : Model)
    (cols : ColMap) :
    ∃ cols1, (RootPkg.hookBeforeSaveOrUpdate ty m (some cols)).2.1 = some cols1 ∧
      ∀ k, ColMap.has cols k = true → ColMap.has cols1 k = true := by
  unfold RootPkg.hookBeforeSaveOrUpdate
  split
  · exact ⟨cols, rfl, fun _ h => h⟩
  · split
    · rename_i c1 custom hc heq
      simp only [Option.some.injEq] at hc
      subst hc
      exact ⟨_, rfl, fun k hk => RootPkg.merge_keeps_keys _ _ k hk⟩
    · exact ⟨cols, rfl, fun _ h => h⟩

/-- The one storage call of an accepted `DeprecatedUpdateColumns`: the update of the record and
column map that the before-save hook hands on. -/
theorem RootPkg.DeprecatedUpdateColumns_storage (ty : RootPkg.Types) (d : RootPkg.Dao)
    (model : Model) (cols : Option ColMap) (hid : model.GetID ≠ uuidNil)
    (hblk : d.masterGormDb.HasBlockGlobalUpdate = true) :
    (RootPkg.DeprecatedUpdateColumns ty d model cols).trace.filter Event.isStorage =
      [Event.storage (.Update (RootPkg.hookBeforeSaveOrUpdate ty model cols).1
        (RootPkg.hookBeforeSaveOrUpdate ty model cols).2.1)] := by
  have hx := RootPkg.extractUniqueMessages_root_some d
  have hs := RootPkg.hookBeforeSaveOrUpdate_no_storage ty model cols
  simp only [RootPkg.DeprecatedUpdateColumns, RootPkg.assertIDValid, hid, hblk, if_false,
    Bool.not_true, Bool.false_eq_true]
  cases hq : (d.masterGormDb.exec (Call.Update _ _)).Error with
  | some e => simp [hq, Event.isStorage, (hx e).2, hs]
  | none =>
    by_cases hr : (d.masterGormDb.exec (Call.Update (RootPkg.hookBeforeSaveOrUpdate ty model cols).1
        (RootPkg.hookBeforeSaveOrUpdate ty model cols).2.1)).RowsAffected > 1
    · simp [hq, hr, Event.isStorage, hs]
    · simp [hq, hr, Event.isStorage, hs]

/-- `Delete` of the root package is a logical delete that goes through the single-row update
path. -/
theorem RootPkg.Delete_soft (ty : RootPkg.Types) (d : RootPkg.Dao) (m : Model)
    (deletedAt updatedAt : Int) (hid : m.GetID ≠ uuidNil)
    (hblk : d.masterGormDb.HasBlockGlobalUpdate = true) :
    SoftDeleteUpdate (RootPkg.Delete ty d m deletedAt updatedAt) ∧
    SingleRowUpdate d.masterGormDb (RootPkg.Delete ty d m deletedAt updatedAt) := by
  have hdel : RootPkg.Delete ty d m deletedAt updatedAt =
      ⟨(RootPkg.DeprecatedUpdateColumns ty d m (some [("deleted_at", Value.time deletedAt),
          ("updated_at", Value.time updatedAt)])).err,
        (RootPkg.DeprecatedUpdateColumns ty d m (some [("deleted_at", Value.time deletedAt),
          ("updated_at", Value.time updatedAt)])).value,
        (RootPkg.DeprecatedUpdateColumns ty d m (some [("deleted_at", Value.time deletedAt),
          ("updated_at", Value.time updatedAt)])).trace ++
          [Event.stats ("deleting " ++ m.typeName)]⟩ := by
    simp [RootPkg.Delete, RootPkg.assertIDValid, hid]
  have hst := RootPkg.DeprecatedUpdateColumns_storage ty d m (some [("deleted_at",
    Value.time deletedAt), ("updated_at", Value.time updatedAt)]) hid hblk
  obtain ⟨cols1, hc1, hkeys⟩ := RootPkg.hookBeforeSaveOrUpdate_keeps_keys ty m
    [("deleted_at", Value.time deletedAt), ("updated_at", Value.time updatedAt)]
  obtain ⟨m1, c1, h1, h2, h3⟩ := RootPkg.DeprecatedUpdateColumns_singleRow ty d m
    (some [("deleted_at", Value.time deletedAt), ("updated_at", Value.time updatedAt)]) hid hblk
  constructor
  · refine ⟨(RootPkg.hookBeforeSaveOrUpdate ty m (some [("deleted_at", Value.time deletedAt),
      ("updated_at", Value.time updatedAt)])).1, cols1, ?_, hkeys _ (by simp [ColMap.has]),
      hkeys _ (by simp [ColMap.has])⟩
    rw [hdel]
    simp only [List.filter_append, hst, hc1]
    simp [Event.isStorage]
  · refine ⟨m1, c1, ?_, ?_, ?_⟩
    · rw [hdel]
      simp only [List.filter_append, h1]
      simp [Event.isStorage]
    · intro hr
      rw [hdel]
      refine ⟨(h2 hr).1, ?_⟩
      intro t ht
      rcases List.mem_append.mp ht with h | h
      · exact (h2 hr).2 t h
      · simp at h
    · intro he hr
      rw [hdel]
      exact h3 he hr

/-- `Delete` of the sub-package removes the row physically, behind the identity guard and the
row check. -/
theorem DaoPkg.Delete_hard (ty : DaoPkg.Types) (d : DaoPkg.Dao) (m : Model)
    (hid : m.GetID ≠ uuidNil) :
    HardDeleteCall d.masterGormDb m (DaoPkg.Delete ty d m) := by
  unfold HardDeleteCall
  simp only [DaoPkg.Delete, DaoPkg.assertIDValid, hid, if_false,
    DaoPkg.executeHookListeners_trace]
  cases hq : (d.masterGormDb.exec (Call.Delete m)).Error with
  | some e => cases e <;> simp [Event.isStorage, merryAppend, merryWrap]
  | none =>
    by_cases hr : (d.masterGormDb.exec (Call.Delete m)).RowsAffected > 1
    · simp [hr, Event.isStorage, merryNew]
    · simp [hr, Event.isStorage]

/-- C4 as stated fails for `Delete` of the sub-package: deleting the stored user makes no
update; the one call that reaches the store is the unscoped physical delete. -/
theorem delete_of_subpackage_is_physical :
    (DaoPkg.Delete DaoPkg.sampleTypes (DaoPkg.sampleDao none 1) sampleUser).trace.filter
        Event.isStorage = [Event.storage (.Delete sampleUser)] ∧
    (DaoPkg.Delete DaoPkg.sampleTypes (DaoPkg.sampleDao none 1) sampleUser).err = none ∧
    ¬ SoftDeleteUpdate (DaoPkg.Delete DaoPkg.sampleTypes (DaoPkg.sampleDao none 1) sampleUser) := by
  have h : (DaoPkg.Delete DaoPkg.sampleTypes (DaoPkg.sampleDao none 1) sampleUser).trace.filter
      Event.isStorage = [Event.storage (.Delete sampleUser)] := by decide
  refine ⟨h, by decide, ?_⟩
  rintro ⟨m1, cols, h1, -, -⟩
  rw [h] at h1
  simp at h1

/-- C4, amended: `Delete` of the root package on a record with a non-nil identity (the store
blocking global updates) never removes the row physically: the one call that reaches the
store is a column update, made through `DeprecatedUpdateColumns`, whose column map holds both
`deleted_at` and `updated_at`, and the more-than-one-row check of the update path applies to
it. `Delete` of the sub-package makes exactly one call too, the unscoped physical delete of the
record, with the same row check. Both reject a nil identity without any effect. -/
theorem delete_soft_in_root_physical_in_subpackage (tyR : RootPkg.Types) (dR : RootPkg.Dao)
    (ty : DaoPkg.Types) (d : DaoPkg.Dao) (m : Model) (deletedAt updatedAt : Int)
    (hblkR : dR.masterGormDb.HasBlockGlobalUpdate = true) :
    (m.GetID ≠ uuidNil →
      SoftDeleteUpdate (RootPkg.Delete tyR dR m deletedAt updatedAt) ∧
      SingleRowUpdate dR.masterGormDb (RootPkg.Delete tyR dR m deletedAt updatedAt) ∧
      HardDeleteCall d.masterGormDb m (DaoPkg.Delete ty d m)) ∧
    (m.GetID = uuidNil →
      (RootPkg.Delete tyR dR m deletedAt updatedAt).err ≠ none ∧
      (RootPkg.Delete tyR dR m deletedAt updatedAt).trace = [] ∧
      (DaoPkg.Delete ty d m).err ≠ none ∧ (DaoPkg.Delete ty d m).trace = []) := by
  constructor
  · intro hid
    exact ⟨(RootPkg.Delete_soft tyR dR m deletedAt updatedAt hid hblkR).1,
      (RootPkg.Delete_soft tyR dR m deletedAt updatedAt hid hblkR).2,
      DaoPkg.Delete_hard ty d m hid⟩
  · intro hid
    simp [RootPkg.Delete, RootPkg.assertIDValid, DaoPkg.Delete, DaoPkg.assertIDValid, hid]

/-- C4, instance: deleting the stored user at the instants 10 and 11 against a store that reports
one affected row. -/
theorem delete_soft_in_root_physical_in_subpackage_witness :
    sampleUser.GetID ≠ uuidNil ∧
    SoftDeleteUpdate (RootPkg.Delete RootPkg.sampleTypes (RootPkg.sampleDao none 1) sampleUser 10 11) ∧
    (RootPkg.Delete RootPkg.sampleTypes (RootPkg.sampleDao none 1) sampleUser 10 11).trace =
      [Event.storage (.Update sampleUser
          (some [("deleted_at", Value.time 10), ("updated_at", Value.time 11)])),
        Event.stats "updating *models.User", Event.stats "deleting *models.User"] :=
  ⟨by decide,
    ((delete_soft_in_root_physical_in_subpackage RootPkg.sampleTypes (RootPkg.sampleDao none 1)
      DaoPkg.sampleTypes (DaoPkg.sampleDao none 1) sampleUser 10 11 rfl).1 (by decide)).1,
    by decide⟩

/-! ## Error classifier -/

/-- A text with `": "` in the middle is not empty. -/
theorem append_colon_ne_empty (a b : String) : a ++ ": " ++ b ≠ "" := by
  intro h
  have hl := congrArg String.length h
  simp only [String.length_append] at hl
  have h2 : (": " : String).length = 2 := by decide
  have h0 : ("" : String).length = 0 := by decide
  omega

/-- The text of an error after `Appendf`: the text before, a colon and the appended text. -/
theorem merry_node_Error (e : Err) (msg : String) :
    (Err.merryErr e (.message (e.Error ++ ": " ++ msg))).Error = e.Error ++ ": " ++ msg := by
  simp [Err.Error, Err.texts, append_colon_ne_empty]

/-- A stack node does not change the text of an error. -/
theorem merry_stack_Error (e : Err) : (Err.merryErr e .stack).Error = e.Error := by
  simp [Err.Error, Err.texts]

/-- C5 as stated fails: for the index `idx_email` registered with `email taken`, the text of the
error the classifier returns is not `email taken`; it is the registered message after the
driver text and the constraint name in the sub-package, and before them in the root package. -/
theorem registered_message_is_not_the_whole_text :
    ((DaoPkg.extractUniqueMessages sampleFmt (DaoPkg.sampleDao none 0)
        (some sampleUniqueViolation)).1.map Err.Error
      = some "pq: duplicate key: constraint: idx_email: email taken") ∧
    ((RootPkg.extractUniqueMessages (RootPkg.sampleDao none 0)
        (some sampleUniqueViolation)).1.map Err.Error
      = some "email taken: constraint: idx_email: pq: duplicate key") ∧
    ((DaoPkg.extractUniqueMessages sampleFmt (DaoPkg.sampleDao none 0)
        (some sampleUniqueViolation)).1.map Err.Error ≠ some "email taken") ∧
    ((RootPkg.extractUniqueMessages (RootPkg.sampleDao none 0)
        (some sampleUniqueViolation)).1.map Err.Error ≠ some "email taken") := by
  decide

/-- C5, amended: for a driver error with the unique-violation code 23505 whose constraint name
is registered with a message, the classifier returns an error that preserves the driver error
as its cause and whose text contains the registered message next to the driver text and the
constraint name: in the sub-package `driver text: constraint: name: message` (the message is
used as a format, so it appears verbatim when it has no percent sign), in the root package
`message: constraint: name: driver text`. -/
theorem registered_message_is_part_of_the_text (fmt : Fmt) (d : DaoPkg.Dao) (dR : RootPkg.Dao)
    (constraint message msg : String) (hreg : d.userMsgsByUniqueIndexes constraint = some msg)
    (hregR : dR.userMsgsByUniqueIndexes constraint = some msg) :
    (∃ r, (DaoPkg.extractUniqueMessages fmt d (some (.base (.pq "23505" constraint message)))).1
        = some r ∧
      r.Error = "pq: " ++ message ++ ": constraint: " ++ constraint ++ ": " ++ Sprintf0 fmt msg ∧
      ('%' ∉ msg.toList → r.Error =
        "pq: " ++ message ++ ": constraint: " ++ constraint ++ ": " ++ msg) ∧
      merryUnwrap r = .base (.pq "23505" constraint message) ∧
      DaoPkg.IsUniqueConstraintError (some r) = true) ∧
    (∃ r, (RootPkg.extractUniqueMessages dR (some (.base (.pq "23505" constraint message)))).1
        = some r ∧
      r.Error = msg ++ ": constraint: " ++ constraint ++ ": pq: " ++ message ∧
      errorsCause (some r) = some (.base (.pq "23505" constraint message))) := by
  constructor
  · refine ⟨_, by simp [DaoPkg.extractUniqueMessages, hreg, merryWrap, merryAppend]; rfl, ?_, ?_,
      ?_, ?_⟩
    · rw [merry_node_Error, merry_node_Error, merry_stack_Error]
      simp only [Err.Error, Err.texts, BaseErr.Error]
      apply String.ext
      simp [String.data_append]
    · intro hp
      have hp1 : '%' ∉ msg.data := hp
      rw [merry_node_Error, merry_node_Error, merry_stack_Error]
      simp only [Err.Error, Err.texts, BaseErr.Error, Sprintf0, String.toList, hp1, if_false]
      apply String.ext
      simp [String.data_append]
    · simp [merryUnwrap]
    · simp [DaoPkg.IsUniqueConstraintError, merryUnwrap]
  · refine ⟨_, by simp [RootPkg.extractUniqueMessages, hregR, errorsWrap]; rfl, ?_, ?_⟩
    · simp only [Err.Error, Err.texts, BaseErr.Error]
      apply String.ext
      simp [String.data_append]
    · simp [errorsCause, Err.Cause]

/-- C5, instance: the index `idx_email` registered with `email taken`. -/
theorem registered_message_is_part_of_the_text_witness :
    sampleMsgs "idx_email" = some "email taken" ∧
    ∃ r, (DaoPkg.extractUniqueMessages sampleFmt (DaoPkg.sampleDao none 0)
        (some (.base (.pq "23505" "idx_email" "duplicate key")))).1 = some r ∧
      r.Error = "pq: " ++ "duplicate key" ++ ": constraint: " ++ "idx_email" ++ ": " ++
        "email taken" :=
  have h := (registered_message_is_part_of_the_text sampleFmt (DaoPkg.sampleDao none 0)
    (RootPkg.sampleDao none 0) "idx_email" "duplicate key" "email taken" (by decide)
    (by decide)).1
  ⟨by decide, h.choose, h.choose_spec.1, h.choose_spec.2.2.1 (by decide)⟩

/-- The function `merry.Wrap` keeps the innermost error and the text. -/
theorem merryWrap_some (e : Err) :
    ∃ w, merryWrap (some e) = some w ∧ merryUnwrap w = merryUnwrap e ∧ w.Error = e.Error := by
  cases e with
  | merryErr err v => exact ⟨_, rfl, rfl, rfl⟩
  | base b => exact ⟨_, rfl, rfl, merry_stack_Error _⟩
  | gormErrors es => exact ⟨_, rfl, rfl, merry_stack_Error _⟩
  | withMessage c m => exact ⟨_, rfl, rfl, merry_stack_Error _⟩

/-- The chain `merry.Wrap(e).Appendf(ctx)` keeps the innermost error and prints the text of `e`,
a colon and the context. -/
theorem merryWrap_Appendf (e : Err) (ctx : String) :
    ∃ w, merryAppend (merryWrap (some e)) ctx = some w ∧ merryUnwrap w = merryUnwrap e ∧
      w.Error = e.Error ++ ": " ++ ctx := by
  obtain ⟨w0, h0, h1, h2⟩ := merryWrap_some e
  refine ⟨Err.merryErr w0 (.message (w0.Error ++ ": " ++ ctx)), by simp [h0, merryAppend], ?_, ?_⟩
  · simpa [merryUnwrap] using h1
  · rw [merry_node_Error, h2]

/-- The classifier of the sub-package returns an error whose innermost error is the one it was
given. -/
theorem DaoPkg.extractUniqueMessages_unwrap (fmt : Fmt) (d : DaoPkg.Dao) (e : Err) :
    ∃ w, (DaoPkg.extractUniqueMessages fmt d (some e)).1 = some w ∧
      merryUnwrap w = merryUnwrap e := by
  obtain ⟨w0, h0, h1, -⟩ := merryWrap_some e
  unfold DaoPkg.extractUniqueMessages
  split
  · simp_all
  · rename_i e1 heq
    simp only [Option.some.injEq] at heq
    subst heq
    split
    · split
      · split
        · exact ⟨_, rfl, rfl⟩
        · exact ⟨_, rfl, rfl⟩
      · exact ⟨_, rfl, rfl⟩
    · exact ⟨w0, h0, h1⟩

/-- `Create` of the sub-package wraps the error of its storage call. -/
theorem DaoPkg.Create_wraps (fmt : Fmt) (ty : DaoPkg.Types) (d : DaoPkg.Dao) (m : Option Model)
    (rand : Nat) :
    WrapsStorageError d.masterGormDb (DaoPkg.Create fmt ty d m rand).trace
      (DaoPkg.Create fmt ty d m rand).err none (fun _ => false) := by
  intro c e hc he _
  cases m with
  | none => simp [DaoPkg.Create] at hc
  | some m =>
    by_cases hid : m.IsIDNil = true
    · simp only [DaoPkg.Create, hid, Bool.not_true, Bool.false_eq_true, if_false,
        DaoPkg.executeHookListeners_trace] at hc ⊢
      cases hq : (d.masterGormDb.exec (Call.Create _)).Error with
      | some e1 =>
        simp only [hq, (DaoPkg.extractUniqueMessages_some fmt d e1).2] at hc ⊢
        simp at hc
        subst hc
        rw [hq] at he
        simp only [Option.some.injEq] at he
        subst he
        obtain ⟨w, hw1, hw2⟩ := DaoPkg.extractUniqueMessages_unwrap fmt d e1
        exact ⟨w, hw1, hw2, by simp⟩
      | none =>
        simp only [hq] at hc
        simp at hc
        subst hc
        rw [hq] at he
        simp at he
    · simp [DaoPkg.Create, hid] at hc

/-- `UpdateColumnValues` of the sub-package wraps the error of its storage call. -/
theorem DaoPkg.UpdateColumnValues_wraps (fmt : Fmt) (ty : DaoPkg.Types) (d : DaoPkg.Dao)
    (m : Model) (cols : Option ColMap) :
    WrapsStorageError d.masterGormDb (DaoPkg.UpdateColumnValues fmt ty d m cols).trace
      (DaoPkg.UpdateColumnValues fmt ty d m cols).err none (fun _ => false) := by
  intro c e hc he _
  by_cases hid : m.GetID = uuidNil
  · simp [DaoPkg.UpdateColumnValues, DaoPkg.assertIDValid, hid] at hc
  · by_cases hblk : d.masterGormDb.HasBlockGlobalUpdate = true
    · simp only [DaoPkg.UpdateColumnValues, DaoPkg.assertIDValid, hid, hblk, Bool.not_true,
        Bool.false_eq_true, if_false, DaoPkg.executeHookListeners_trace] at hc ⊢
      cases hq : (d.masterGormDb.exec (Call.Update _ _)).Error with
      | some e1 =>
        simp only [hq, (DaoPkg.extractUniqueMessages_some fmt d e1).2] at hc ⊢
        simp at hc
        subst hc
        rw [hq] at he
        simp only [Option.some.injEq] at he
        subst he
        obtain ⟨w, hw1, hw2⟩ := DaoPkg.extractUniqueMessages_unwrap fmt d e1
        exact ⟨w, hw1, hw2, by simp⟩
      | none =>
        simp only [hq] at hc
        split at hc <;>
        · simp at hc
          subst hc
          rw [hq] at he
          simp at he
    · simp [DaoPkg.UpdateColumnValues, DaoPkg.assertIDValid, hid, hblk,
        DaoPkg.executeHookListeners_trace] at hc

/-- `CreateOrUpdate` wraps the error of its storage call; on the save path the text names the
operation and the record type. -/
theorem DaoPkg.CreateOrUpdate_wraps (fmt : Fmt) (ty : DaoPkg.Types) (d : DaoPkg.Dao)
    (m : Model) (rand : Nat) :
    WrapsStorageError d.masterGormDb (DaoPkg.CreateOrUpdate fmt ty d (some m) rand).trace
      (DaoPkg.CreateOrUpdate fmt ty d (some m) rand).err
      (if m.IsIDNil then none else some ("saving " ++ m.typeName)) (fun _ => false) := by
  by_cases hid : m.IsIDNil = true
  · have h := DaoPkg.Create_wraps fmt ty d (some m) rand
    simpa [DaoPkg.CreateOrUpdate, hid] using h
  · intro c e hc he _
    simp only [DaoPkg.CreateOrUpdate, hid, if_false, DaoPkg.executeHookListeners_trace] at hc ⊢
    cases hq : (d.masterGormDb.exec (Call.Save _)).Error with
    | some e1 =>
      simp only [hq] at hc ⊢
      simp at hc
      subst hc
      rw [hq] at he
      simp only [Option.some.injEq] at he
      subst he
      obtain ⟨w, hw1, hw2, hw3⟩ := merryWrap_Appendf e1 ("saving " ++ m.typeName)
      refine ⟨w, hw1, hw2, ?_⟩
      intro s hs
      simp at hs
      rw [← hs, hw3]
    | none =>
      simp only [hq] at hc
      simp at hc
      subst hc
      rw [hq] at he
      simp at he

/-- `Delete` of the sub-package wraps the error of its storage call and names the operation
and the record type. -/
theorem DaoPkg.Delete_wraps (ty : DaoPkg.Types) (d : DaoPkg.Dao) (m : Model) :
    WrapsStorageError d.masterGormDb (DaoPkg.Delete ty d m).trace (DaoPkg.Delete ty d m).err
      (some ("deleting " ++ m.typeName)) (fun _ => false) := by
  intro c e hc he _
  by_cases hid : m.GetID = uuidNil
  · simp [DaoPkg.Delete, DaoPkg.assertIDValid, hid] at hc
  · simp only [DaoPkg.Delete, DaoPkg.assertIDValid, hid, if_false,
      DaoPkg.executeHookListeners_trace] at hc ⊢
    cases hq : (d.masterGormDb.exec (Call.Delete m)).Error with
    | some e1 =>
      simp only [hq] at hc ⊢
      simp at hc
      subst hc
      rw [hq] at he
      simp only [Option.some.injEq] at he
      subst he
      obtain ⟨w, hw1, hw2, hw3⟩ := merryWrap_Appendf e1 ("deleting " ++ m.typeName)
      exact ⟨w, hw1, hw2, by intro s hs; simp only [Option.some.injEq] at hs; rw [← hs, hw3]⟩
    | none =>
      simp only [hq] at hc
      split at hc <;>
      · simp at hc
        subst hc
        rw [hq] at he
        simp at he

/-- `Count` wraps the error of its storage call and names the operation and the record type. -/
theorem DaoPkg.Count_wraps (fmt : Fmt) (g : Gorm) (q : DaoPkg.Query) (sample : Model) :
    WrapsStorageError g (q.Count fmt g sample).trace (q.Count fmt g sample).err
      (some ("counting " ++ sample.typeName)) (fun _ => false) := by
  intro c e hc he _
  cases hqe : q.err with
  | some e0 => simp [DaoPkg.Query.Count, hqe] at hc
  | none =>
    simp only [DaoPkg.Query.Count, hqe] at hc ⊢
    cases hq : (g.exec (Call.Count _ _ _)).Error with
    | some e1 =>
      simp only [hq] at hc ⊢
      simp at hc
      subst hc
      rw [hq] at he
      simp only [Option.some.injEq] at he
      subst he
      obtain ⟨w, hw1, hw2, hw3⟩ := merryWrap_Appendf e1 ("counting " ++ sample.typeName)
      refine ⟨w, hw1, hw2, ?_⟩
      intro s hs
      simp at hs
      rw [← hs, hw3]
    | none =>
      simp only [hq] at hc
      simp at hc
      subst hc
      rw [hq] at he
      simp at he

/-- `First` wraps the error of its storage call and names the operation and the record type. -/
theorem DaoPkg.First_wraps (fmt : Fmt) (g : Gorm) (q : DaoPkg.Query) (target : Model) :
    WrapsStorageError g (q.First fmt g target).trace (q.First fmt g target).err
      (some ("error getting first " ++ target.typeName)) (fun _ => false) := by
  intro c e hc he _
  cases hqe : q.err with
  | some e0 => simp [DaoPkg.Query.First, hqe] at hc
  | none =>
    simp only [DaoPkg.Query.First, hqe] at hc ⊢
    cases hq : (g.exec (Call.First _ _ _)).Error with
    | some e1 =>
      simp only [hq] at hc ⊢
      simp at hc
      subst hc
      rw [hq] at he
      simp only [Option.some.injEq] at he
      subst he
      obtain ⟨w, hw1, hw2, hw3⟩ := merryWrap_Appendf e1 ("error getting first " ++ target.typeName)
      refine ⟨Err.merryErr w (.httpCode _), by rw [hw1]; rfl, by simpa [merryUnwrap] using hw2, ?_⟩
      intro s hs
      simp at hs
      rw [← hs, ← hw3]
      simp [Err.Error, Err.texts]
    | none =>
      simp only [hq] at hc
      simp at hc
      subst hc
      rw [hq] at he
      simp at he

/-- With a pointer target and no recorded error, `allDb` runs the fetch at once: it makes one
`Find` call and returns the handle that holds the answer. -/
theorem DaoPkg.allDb_target (fmt : Fmt) (g : Gorm) (q : DaoPkg.Query) (t : Target)
    (hqe : q.err = none) (hp : t.isPtr = true) :
    ∃ scope q2 label, q.allDb fmt g none (some t) =
      ⟨none, some ⟨scope, none, q.whereExpressionAndValues,
          g.exec (.Find scope t q.whereExpressionAndValues)⟩, q2,
        [Event.storage (.Find scope t q.whereExpressionAndValues), Event.stats label]⟩ := by
  simp only [DaoPkg.Query.allDb, hqe, hp, Bool.not_true, Bool.false_eq_true, if_false]
  exact ⟨_, _, _, rfl⟩

/-- `All` wraps the error of its storage call, unless it is `sql.ErrNoRows`, and names the
operation and the type of the target. -/
theorem DaoPkg.All_wraps (fmt : Fmt) (g : Gorm) (q : DaoPkg.Query) (target : Option Target) :
    WrapsStorageError g (q.All fmt g target).trace (q.All fmt g target).err
      (some ("getting " ++ DaoPkg.targetTypeName target))
      (fun e => decide (e = .base .ErrNoRows)) := by
  intro c e hc he hex
  simp only [decide_eq_false_iff_not] at hex
  cases hqe : q.err with
  | some e0 => simp [DaoPkg.Query.All, DaoPkg.Query.allDb, hqe] at hc
  | none =>
    cases target with
    | none => simp [DaoPkg.Query.All, DaoPkg.Query.allDb, hqe, merryAppend] at hc
    | some t =>
      by_cases hp : t.isPtr = true
      · obtain ⟨scope, q2, label, hall⟩ := DaoPkg.allDb_target fmt g q t hqe hp
        simp only [DaoPkg.Query.All, hall] at hc ⊢
        have hc1 : c = Call.Find scope t q.whereExpressionAndValues := by
          cases hq : (g.exec (Call.Find scope t q.whereExpressionAndValues)).Error with
          | none => simpa [hq] using hc
          | some e1 =>
            by_cases h1 : e1 = .base .ErrNoRows
            · simpa [hq, h1] using hc
            · simpa [hq, h1] using hc
        subst hc1
        simp only [he, hex, ne_eq, not_false_eq_true, if_true]
        obtain ⟨w, hw1, hw2, hw3⟩ := merryWrap_Appendf e ("getting " ++ t.typeName)
        refine ⟨w, hw1, hw2, ?_⟩
        intro s hs
        simp [DaoPkg.targetTypeName] at hs
        rw [← hs, hw3]
      · simp [DaoPkg.Query.All, DaoPkg.Query.allDb, hqe, hp, merryAppend] at hc

/-- `All` returns nil when the store answers the fetch with `sql.ErrNoRows`. -/
theorem DaoPkg.All_ErrNoRows (fmt : Fmt) (g : Gorm) (q : DaoPkg.Query) (t : Target)
    (hqe : q.err = none) (hp : t.isPtr = true)
    (hno : ∀ c, (g.exec c).Error = some (.base .ErrNoRows)) :
    (q.All fmt g (some t)).err = none := by
  obtain ⟨scope, q2, label, hall⟩ := DaoPkg.allDb_target fmt g q t hqe hp
  simp [DaoPkg.Query.All, hall, hno]

/-- C6 as stated fails in two places. `All` turns the storage error `sql.ErrNoRows` into a nil
result although its fetch reached the store and failed; and `Create`, which hands a storage
error to the classifier, returns it with no operation or record-type context: for the storage
error `connection refused` the returned text is `connection refused`. -/
theorem all_drops_ErrNoRows_and_create_adds_no_context :
    (DaoPkg.Query.All sampleFmt (sampleGorm (some (.base .ErrNoRows)) 0) DaoPkg.newQuery
      (some sampleTarget)).err = none ∧
    (DaoPkg.Query.All sampleFmt (sampleGorm (some (.base .ErrNoRows)) 0) DaoPkg.newQuery
      (some sampleTarget)).trace =
        [Event.storage (.Find ⟨[], false, none, some 50⟩ sampleTarget [Value.str ""]),
          Event.stats "all:*[]models.User"] ∧
    (DaoPkg.Create sampleFmt DaoPkg.sampleTypes
      (DaoPkg.sampleDao (some (.base (.text "connection refused"))) 0) (some sampleNewUser)
      99).err.map Err.Error = some "connection refused" := by
  decide

/-- C6, amended: for every non-nil error with which the store answers the storage call of
`Create`, `UpdateColumnValues`, `CreateOrUpdate`, `Delete`, `First`, `Count` or `All`, the
operation returns a non-nil error that wraps the original one (it is the innermost error below
the merry nodes), except that `All` returns nil for `sql.ErrNoRows`. The text names the
operation and the record type for `CreateOrUpdate` on its save path (`saving T`), `Delete`
(`deleting T`), `First` (`error getting first T`), `Count` (`counting T`) and `All`
(`getting T`); `Create` and `UpdateColumnValues` pass the error through the classifier, which
adds no such context. -/
theorem storage_errors_are_wrapped (fmt : Fmt) (ty : DaoPkg.Types) (d : DaoPkg.Dao)
    (m : Model) (mo : Option Model) (cols : Option ColMap) (rand : Nat) (q : DaoPkg.Query)
    (target : Option Target) (t : Target) :
    WrapsStorageError d.masterGormDb (DaoPkg.Create fmt ty d mo rand).trace
      (DaoPkg.Create fmt ty d mo rand).err none (fun _ => false) ∧
    WrapsStorageError d.masterGormDb (DaoPkg.UpdateColumnValues fmt ty d m cols).trace
      (DaoPkg.UpdateColumnValues fmt ty d m cols).err none (fun _ => false) ∧
    WrapsStorageError d.masterGormDb (DaoPkg.CreateOrUpdate fmt ty d (some m) rand).trace
      (DaoPkg.CreateOrUpdate fmt ty d (some m) rand).err
      (if m.IsIDNil then none else some ("saving " ++ m.typeName)) (fun _ => false) ∧
    WrapsStorageError d.masterGormDb (DaoPkg.Delete ty d m).trace (DaoPkg.Delete ty d m).err
      (some ("deleting " ++ m.typeName)) (fun _ => false) ∧
    WrapsStorageError d.masterGormDb (q.First fmt d.masterGormDb m).trace
      (q.First fmt d.masterGormDb m).err (some ("error getting first " ++ m.typeName))
      (fun _ => false) ∧
    WrapsStorageError d.masterGormDb (q.Count fmt d.masterGormDb m).trace
      (q.Count fmt d.masterGormDb m).err (some ("counting " ++ m.typeName)) (fun _ => false) ∧
    WrapsStorageError d.masterGormDb (q.All fmt d.masterGormDb target).trace
      (q.All fmt d.masterGormDb target).err (some ("getting " ++ DaoPkg.targetTypeName target))
      (fun e => decide (e = .base .ErrNoRows)) ∧
    (q.err = none → t.isPtr = true →
      (∀ c, (d.masterGormDb.exec c).Error = some (.base .ErrNoRows)) →
      (q.All fmt d.masterGormDb (some t)).err = none) :=
  ⟨DaoPkg.Create_wraps fmt ty d mo rand, DaoPkg.UpdateColumnValues_wraps fmt ty d m cols,
    DaoPkg.CreateOrUpdate_wraps fmt ty d m rand, DaoPkg.Delete_wraps ty d m,
    DaoPkg.First_wraps fmt d.masterGormDb q m, DaoPkg.Count_wraps fmt d.masterGormDb q m,
    DaoPkg.All_wraps fmt d.masterGormDb q target,
    DaoPkg.All_ErrNoRows fmt d.masterGormDb q t⟩

/-- C6, instance: deleting the stored user against a store that answers `connection refused`
returns an error with the text `connection refused: deleting *models.User` around the original
error. -/
theorem storage_errors_are_wrapped_witness :
    ∃ w, (DaoPkg.Delete DaoPkg.sampleTypes
        (DaoPkg.sampleDao (some (.base (.text "connection refused"))) 0) sampleUser).err = some w ∧
      merryUnwrap w = merryUnwrap (.base (.text "connection refused")) ∧
      ∀ s, some ("deleting " ++ sampleUser.typeName) = some s →
        w.Error = (Err.base (.text "connection refused")).Error ++ ": " ++ s :=
  (storage_errors_are_wrapped sampleFmt DaoPkg.sampleTypes
    (DaoPkg.sampleDao (some (.base (.text "connection refused"))) 0) sampleUser none none 0
    DaoPkg.newQuery none sampleTarget).2.2.2.1 (.Delete sampleUser)
    (.base (.text "connection refused")) (by decide) rfl rfl

/-! ## Not-found classification -/

/-- Layers of pkg/errors keep the cause and put no merry node on top. -/
theorem wrapLayers_errors (inner : List Layer) (hin : ∀ l ∈ inner, l.isMerry = false) (w : Err)
    (hw : merryUnwrap w = w) :
    ∃ w1, wrapLayers inner (some w) = some w1 ∧ Err.Cause w1 = Err.Cause w ∧
      merryUnwrap w1 = w1 := by
  induction inner generalizing w with
  | nil => exact ⟨w, rfl, rfl, hw⟩
  | cons l rest ih =>
    have hl := hin l (List.mem_cons_self _ _)
    cases l with
    | errorsWrap msg =>
      obtain ⟨w1, h1, h2, h3⟩ := ih (fun x hx => hin x (List.mem_cons_of_mem _ hx))
        (Err.withMessage w msg) rfl
      exact ⟨w1, by simpa [wrapLayers, Layer.apply, errorsWrap] using h1, by simpa [Err.Cause] using h2,
        h3⟩
    | merryAppendf msg => simp [Layer.isMerry] at hl
    | merryWithHTTPCode code => simp [Layer.isMerry] at hl

/-- Layers of merry keep the innermost error below the merry nodes. -/
theorem wrapLayers_merry (outer : List Layer) (hout : ∀ l ∈ outer, l.isMerry = true) (w : Err) :
    ∃ w1, wrapLayers outer (some w) = some w1 ∧ merryUnwrap w1 = merryUnwrap w := by
  induction outer generalizing w with
  | nil => exact ⟨w, rfl, rfl⟩
  | cons l rest ih =>
    have hl := hout l (List.mem_cons_self _ _)
    obtain ⟨w0, h0, h1, -⟩ := merryWrap_some w
    cases l with
    | errorsWrap msg => simp [Layer.isMerry] at hl
    | merryAppendf msg =>
      obtain ⟨w1, h2, h3⟩ := ih (fun x hx => hout x (List.mem_cons_of_mem _ hx))
        (Err.merryErr w0 (.message (w0.Error ++ ": " ++ msg)))
      refine ⟨w1, ?_, ?_⟩
      · simpa [wrapLayers, Layer.apply, merryAppend, h0] using h2
      · rw [h3]
        simpa [merryUnwrap] using h1
    | merryWithHTTPCode code =>
      obtain ⟨w1, h2, h3⟩ := ih (fun x hx => hout x (List.mem_cons_of_mem _ hx))
        (Err.merryErr w0 (.httpCode code))
      refine ⟨w1, ?_, ?_⟩
      · simpa [wrapLayers, Layer.apply, merryWithHTTPCode, h0] using h2
      · rw [h3]
        simpa [merryUnwrap] using h1

/-- A raw error is its own cause and carries no merry node. -/
theorem Err.raw_cause (e : Err) (he : e.isRaw = true) :
    Err.Cause e = some e ∧ merryUnwrap e = e := by
  cases e <;> simp [Err.isRaw] at he <;> exact ⟨rfl, rfl⟩

/-- Without `Unwrap` methods on the wrappers of pkg/errors, the later `merry.Unwrap` is the
earlier one. -/
theorem merryUnwrapChain_false (e : Err) : merryUnwrapChain false e = merryUnwrap e := by
  induction e with
  | base b => rfl
  | gormErrors es => rfl
  | withMessage c m _ => rfl
  | merryErr err v ih => simpa [merryUnwrapChain, merryUnwrap] using ih

/-- The function `merry.Wrap` keeps the deepest error. -/
theorem merryWrap_chain (e : Err) :
    ∃ w, merryWrap (some e) = some w ∧ merryUnwrapChain true w = merryUnwrapChain true e := by
  cases e with
  | merryErr err v => exact ⟨_, rfl, rfl⟩
  | base b => exact ⟨_, rfl, rfl⟩
  | gormErrors es => exact ⟨_, rfl, rfl⟩
  | withMessage c m => exact ⟨_, rfl, rfl⟩

/-- Layers of any kind, in any order, keep the deepest error. -/
theorem wrapLayers_chain (layers : List Layer) (w : Err) :
    ∃ w1, wrapLayers layers (some w) = some w1 ∧
      merryUnwrapChain true w1 = merryUnwrapChain true w := by
  induction layers generalizing w with
  | nil => exact ⟨w, rfl, rfl⟩
  | cons l rest ih =>
    obtain ⟨w0, h0, h1⟩ := merryWrap_chain w
    cases l with
    | errorsWrap msg =>
      obtain ⟨w1, h2, h3⟩ := ih (Err.withMessage w msg)
      refine ⟨w1, ?_, ?_⟩
      · simpa [wrapLayers, Layer.apply, errorsWrap] using h2
      · rw [h3]
        simp [merryUnwrapChain]
    | merryAppendf msg =>
      obtain ⟨w1, h2, h3⟩ := ih (Err.merryErr w0 (.message (w0.Error ++ ": " ++ msg)))
      refine ⟨w1, ?_, ?_⟩
      · simpa [wrapLayers, Layer.apply, merryAppend, h0] using h2
      · rw [h3]
        simpa [merryUnwrapChain] using h1
    | merryWithHTTPCode code =>
      obtain ⟨w1, h2, h3⟩ := ih (Err.merryErr w0 (.httpCode code))
      refine ⟨w1, ?_, ?_⟩
      · simpa [wrapLayers, Layer.apply, merryWithHTTPCode, h0] using h2
      · rw [h3]
        simpa [merryUnwrapChain] using h1

/-- C7 as stated fails, whatever the versions of the libraries: `IsRecordNotFound` of the root
package calls `errors.Cause` only, which does not look through a merry node. Under a single
merry layer around `gorm.ErrRecordNotFound` it is false, while the wrapped error is the
record-not-found error of the storage layer. (`errors.Cause` ends at the nil cause the merry
node reports; were it to end at the merry node itself, the result would be the same, as gorm
does not classify that node as record-not-found: the last conjunct.) -/
theorem root_classifier_misses_not_found_under_merry :
    RootPkg.IsRecordNotFound
      (wrapLayers [Layer.merryAppendf "error getting first *models.User"]
        (some (.base .ErrRecordNotFound))) = false ∧
    gormIsRecordNotFoundError (some (.base .ErrRecordNotFound)) = true ∧
    errorsCause (wrapLayers [Layer.merryAppendf "error getting first *models.User"]
        (some (.base .ErrRecordNotFound))) = none ∧
    gormIsRecordNotFoundError
      (wrapLayers [Layer.merryAppendf "error getting first *models.User"]
        (some (.base .ErrRecordNotFound))) = false := by
  decide

/-- C7, amended: for every raw error `e` (one raised below the repository, not a wrapper), any
number of pkg/errors layers (`errors.Wrap`, `errors.Wrapf`) put on it and any number of merry
layers (`merry.Wrap` with appended context or HTTP code) put on top of those,
`IsRecordNotFound` of the sub-package gives the wrapped error the classification gorm gives
`e`, with `merry.Unwrap` of merry up to v1.5.1 as with the one of v1.6.0 and later;
with merry from v1.6.0 and pkg/errors from v0.9.0 on it does so under layers in any order, which
with merry up to v1.5.1 it does not; `IsRecordNotFound` of the root package does so under
pkg/errors layers. The classification gorm gives `e` is true exactly when `e` is
`gorm.ErrRecordNotFound` or a `gorm.Errors` collection that holds it. -/
theorem not_found_classification_survives_layered_wrapping (e : Err)
    (inner outer layers : List Layer)
    (he : e.isRaw = true) (hin : ∀ l ∈ inner, l.isMerry = false)
    (hout : ∀ l ∈ outer, l.isMerry = true) :
    DaoPkg.IsRecordNotFound (wrapLayers (inner ++ outer) (some e)) =
      gormIsRecordNotFoundError (some e) ∧
    DaoPkg.IsRecordNotFoundWith merryUnwrap (wrapLayers (inner ++ outer) (some e)) =
      gormIsRecordNotFoundError (some e) ∧
    (∀ pkgUnwrap : Bool,
      DaoPkg.IsRecordNotFoundWith (merryUnwrapChain pkgUnwrap)
        (wrapLayers (inner ++ outer) (some e)) = gormIsRecordNotFoundError (some e)) ∧
    DaoPkg.IsRecordNotFoundWith (merryUnwrapChain true) (wrapLayers layers (some e)) =
      gormIsRecordNotFoundError (some e) ∧
    RootPkg.IsRecordNotFound (wrapLayers inner (some e)) = gormIsRecordNotFoundError (some e) ∧
    (gormIsRecordNotFoundError (some e) = true ↔
      e = .base .ErrRecordNotFound ∨
        ∃ es, e = .gormErrors es ∧ BaseErr.ErrRecordNotFound ∈ es) ∧
    DaoPkg.IsRecordNotFoundWith merryUnwrap
      (wrapLayers [Layer.merryAppendf "error getting first *models.User",
        Layer.errorsWrap "handler"] (some (.base .ErrRecordNotFound))) = false := by
  obtain ⟨hc, hu⟩ := Err.raw_cause e he
  obtain ⟨w1, h1, h2, h3⟩ := wrapLayers_errors inner hin e hu
  obtain ⟨w2, h4, h5⟩ := wrapLayers_merry outer hout w1
  have hw : wrapLayers (inner ++ outer) (some e) = some w2 := by
    unfold wrapLayers at h1 h4 ⊢
    rw [List.foldl_append, h1, h4]
  have hold : DaoPkg.IsRecordNotFound (wrapLayers (inner ++ outer) (some e)) =
      gormIsRecordNotFoundError (some e) := by
    rw [hw]
    simp [DaoPkg.IsRecordNotFound, errorsCause, h5, h3, h2, hc]
  have hraw : merryUnwrapChain true e = e := by
    cases e <;> simp [Err.isRaw] at he <;> rfl
  have hany : ∀ ls : List Layer,
      DaoPkg.IsRecordNotFoundWith (merryUnwrapChain true) (wrapLayers ls (some e)) =
        gormIsRecordNotFoundError (some e) := by
    intro ls
    obtain ⟨w3, h6, h7⟩ := wrapLayers_chain ls e
    rw [h6]
    simp [DaoPkg.IsRecordNotFoundWith, errorsCause, h7, hraw, hc]
  refine ⟨hold, hold, ?_, hany layers, ?_, ?_, by decide⟩
  · intro pkgUnwrap
    cases pkgUnwrap with
    | true => exact hany (inner ++ outer)
    | false =>
      have hf : merryUnwrapChain false = merryUnwrap := funext merryUnwrapChain_false
      rw [hf]
      exact hold
  · rw [h1]
    simp [RootPkg.IsRecordNotFound, errorsCause, h2, hc]
  · cases e with
    | base b => cases b <;> simp [gormIsRecordNotFoundError]
    | gormErrors es => simp [gormIsRecordNotFoundError]
    | withMessage c m => simp [Err.isRaw] at he
    | merryErr err v => simp [Err.isRaw] at he

/-- C7, instance: `gorm.ErrRecordNotFound` under one pkg/errors layer and two merry layers is
classified as not found by the sub-package with every version of merry, and so it is with a
pkg/errors layer on top of a merry layer when the later versions are linked. -/
theorem not_found_classification_survives_layered_wrapping_witness :
    DaoPkg.IsRecordNotFound
      (wrapLayers ([Layer.errorsWrap "query"] ++
          [Layer.merryAppendf "error getting first *models.User", Layer.merryWithHTTPCode 404])
        (some (.base .ErrRecordNotFound))) =
      gormIsRecordNotFoundError (some (.base .ErrRecordNotFound)) ∧
    gormIsRecordNotFoundError (some (.base .ErrRecordNotFound)) = true ∧
    DaoPkg.IsRecordNotFoundWith (merryUnwrapChain true)
      (wrapLayers [Layer.merryAppendf "error getting first *models.User",
        Layer.errorsWrap "handler"] (some (.base .ErrRecordNotFound))) =
      gormIsRecordNotFoundError (some (.base .ErrRecordNotFound)) :=
  ⟨(not_found_classification_survives_layered_wrapping (.base .ErrRecordNotFound)
      [Layer.errorsWrap "query"]
      [Layer.merryAppendf "error getting first *models.User", Layer.merryWithHTTPCode 404]
      [Layer.merryAppendf "error getting first *models.User", Layer.errorsWrap "handler"]
      rfl (by decide) (by decide)).1,
    by decide,
    (not_found_classification_survives_layered_wrapping (.base .ErrRecordNotFound)
      [Layer.errorsWrap "query"]
      [Layer.merryAppendf "error getting first *models.User", Layer.merryWithHTTPCode 404]
      [Layer.merryAppendf "error getting first *models.User", Layer.errorsWrap "handler"]
      rfl (by decide) (by decide)).2.2.2.1⟩

/-- The not-found classification of the sub-package ignores the merry nodes put on an error. -/
theorem DaoPkg.IsRecordNotFound_merry (w e : Err) (h : merryUnwrap w = merryUnwrap e) :
    DaoPkg.IsRecordNotFound (some w) = DaoPkg.IsRecordNotFound (some e) := by
  simp [DaoPkg.IsRecordNotFound, h]

/-- C8: `First` on a query without recorded error makes exactly one call to the store, the
fetch. When the fetch succeeds it returns nil. When the store reports no matching row
(`gorm.ErrRecordNotFound`, or any raw error gorm classifies as record-not-found) it returns a
non-nil error of which `IsRecordNotFound` is true and that carries the code 404. For every
other raw storage error it returns a non-nil error of which `IsRecordNotFound` is false and
that carries the code 500. -/
theorem first_maps_no_row_to_not_found (fmt : Fmt) (g : Gorm) (q : DaoPkg.Query) (target : Model)
    (hq : q.err = none) :
    ∃ c, (q.First fmt g target).trace.filter Event.isStorage = [Event.storage c] ∧
      ((g.exec c).Error = none → (q.First fmt g target).err = none) ∧
      ((g.exec c).Error = some (.base .ErrRecordNotFound) →
        DaoPkg.IsRecordNotFound (q.First fmt g target).err = true ∧
        merryHTTPCode (q.First fmt g target).err = StatusNotFound) ∧
      (∀ e, (g.exec c).Error = some e → e.isRaw = true →
        (q.First fmt g target).err ≠ none ∧
        DaoPkg.IsRecordNotFound (q.First fmt g target).err = gormIsRecordNotFoundError (some e) ∧
        merryHTTPCode (q.First fmt g target).err =
          if gormIsRecordNotFoundError (some e) then StatusNotFound
          else StatusInternalServerError) ∧
      (∀ b, b ≠ BaseErr.ErrRecordNotFound → (g.exec c).Error = some (.base b) →
        DaoPkg.IsRecordNotFound (q.First fmt g target).err = false ∧
        merryHTTPCode (q.First fmt g target).err = StatusInternalServerError) := by
  obtain ⟨qerr, pageNo, pageSize, includeDeleted, logStr, expressions, values, orderBy⟩ := q
  simp only at hq
  subst hq
  have key : ∀ c e, (g.exec c).Error = some e → e.isRaw = true →
      merryWithHTTPCode (merryAppend (merryWrap (some e)) ("error getting first " ++ target.typeName))
        (if DaoPkg.IsRecordNotFound (some e) then StatusNotFound else StatusInternalServerError) ≠ none ∧
      DaoPkg.IsRecordNotFound (merryWithHTTPCode
        (merryAppend (merryWrap (some e)) ("error getting first " ++ target.typeName))
        (if DaoPkg.IsRecordNotFound (some e) then StatusNotFound else StatusInternalServerError))
        = gormIsRecordNotFoundError (some e) ∧
      merryHTTPCode (merryWithHTTPCode
        (merryAppend (merryWrap (some e)) ("error getting first " ++ target.typeName))
        (if DaoPkg.IsRecordNotFound (some e) then StatusNotFound else StatusInternalServerError))
        = if gormIsRecordNotFoundError (some e) then StatusNotFound
          else StatusInternalServerError := by
    intro c e _ hraw
    obtain ⟨hc, hu⟩ := Err.raw_cause e hraw
    have hcls : DaoPkg.IsRecordNotFound (some e) = gormIsRecordNotFoundError (some e) := by
      simp [DaoPkg.IsRecordNotFound, errorsCause, hu, hc]
    obtain ⟨w, hw1, hw2, -⟩ := merryWrap_Appendf e ("error getting first " ++ target.typeName)
    rw [hw1, hcls]
    refine ⟨by simp [merryWithHTTPCode], ?_, ?_⟩
    · rw [← hcls]
      exact DaoPkg.IsRecordNotFound_merry _ _ (by simpa [merryUnwrap] using hw2)
    · by_cases hg : gormIsRecordNotFoundError (some e) = true <;>
        simp [merryWithHTTPCode, merryHTTPCode, merryValueHTTPCode, hg, StatusNotFound,
          StatusInternalServerError]
  refine ⟨Call.First
    (⟨none, pageNo, pageSize, includeDeleted, logStr ++ ["first:" ++ target.typeName], expressions,
      values, orderBy⟩ : DaoPkg.Query).prepareDb target
    (⟨none, pageNo, pageSize, includeDeleted, logStr ++ ["first:" ++ target.typeName], expressions,
      values, orderBy⟩ : DaoPkg.Query).whereExpressionAndValues, ?_, ?_, ?_, ?_, ?_⟩
  · simp only [DaoPkg.Query.First]
    split <;> simp [Event.isStorage]
  · intro h
    simp only [DaoPkg.Query.First]
    simp [h]
  · intro h
    have k := key _ _ h rfl
    simp only [DaoPkg.Query.First]
    simp only [h]
    exact ⟨by simpa [gormIsRecordNotFoundError] using k.2.1,
      by simpa [gormIsRecordNotFoundError] using k.2.2⟩
  · intro e h hraw
    have k := key _ _ h hraw
    simp only [DaoPkg.Query.First]
    simp only [h]
    exact k
  · intro b hb h
    have k := key _ _ h rfl
    have hg : gormIsRecordNotFoundError (some (.base b)) = false := by
      cases b <;> simp [gormIsRecordNotFoundError] at hb ⊢
    simp only [DaoPkg.Query.First]
    simp only [h]
    exact ⟨by simpa [hg] using k.2.1, by simpa [hg] using k.2.2⟩

/-- C8, instance: a fetch by name on a fresh query against a store that reports no matching
row. -/
theorem first_maps_no_row_to_not_found_witness :
    (DaoPkg.newQuery.Filter sampleFmt "name" "=" (Value.str "zed")).err = none ∧
    DaoPkg.IsRecordNotFound ((DaoPkg.newQuery.Filter sampleFmt "name" "=" (Value.str "zed")).First
      sampleFmt (sampleGorm (some (.base .ErrRecordNotFound)) 0) sampleNewUser).err = true ∧
    merryHTTPCode ((DaoPkg.newQuery.Filter sampleFmt "name" "=" (Value.str "zed")).First
      sampleFmt (sampleGorm (some (.base .ErrRecordNotFound)) 0) sampleNewUser).err = 404 :=
  have h := first_maps_no_row_to_not_found sampleFmt (sampleGorm (some (.base .ErrRecordNotFound)) 0)
    (DaoPkg.newQuery.Filter sampleFmt "name" "=" (Value.str "zed")) sampleNewUser (by decide)
  ⟨by decide, (h.choose_spec.2.2.1 rfl).1, (h.choose_spec.2.2.1 rfl).2⟩

/-! ## Query builder -/

/-- The fragment of a builder call is what the call hands to the placeholder check: the call is
an append of that fragment as a filter, or as an ordering. -/
theorem DaoPkg.fragment_is_checked (fmt : Fmt) (q : DaoPkg.Query) (op : DaoPkg.BuilderOp)
    (expression : String) (values : List Value) (h : op.fragment = some (expression, values)) :
    (∃ descr, op.apply fmt q = q.appendFilterExpressionAndValues fmt descr expression values) ∨
    op.apply fmt q = q.OrderByRawExpression fmt expression values := by
  cases op <;> simp only [DaoPkg.BuilderOp.fragment] at h <;>
    first
      | exact Option.noConfusion h
      | (have hx := Option.some.inj h
         have h1 := (congrArg Prod.fst hx).symm
         have h2 := (congrArg Prod.snd hx).symm
         dsimp only at h1 h2
         subst h1
         subst h2
         first
           | exact Or.inl ⟨_, rfl⟩
           | exact Or.inr rfl)

/-- A fragment whose placeholders do not match its parameters records an error at once. -/
theorem DaoPkg.mismatch_recorded (fmt : Fmt) (q : DaoPkg.Query) (op : DaoPkg.BuilderOp)
    (expression : String) (values : List Value) (h : op.fragment = some (expression, values))
    (hmis : countPlaceholders expression ≠ values.length) : (op.apply fmt q).err ≠ none := by
  rcases DaoPkg.fragment_is_checked fmt q op expression values h with ⟨descr, h1⟩ | h1
  · rw [h1]
    simp [DaoPkg.Query.appendFilterExpressionAndValues, hmis, merryAppend]
  · rw [h1]
    simp [DaoPkg.Query.OrderByRawExpression, hmis, merryAppend]

/-- Appending a filter fragment never clears a recorded error. -/
theorem DaoPkg.appendFilter_keeps_err (fmt : Fmt) (q : DaoPkg.Query) (descr expression : String)
    (values : List Value) (h : q.err ≠ none) :
    (q.appendFilterExpressionAndValues fmt descr expression values).err ≠ none := by
  unfold DaoPkg.Query.appendFilterExpressionAndValues
  dsimp only
  split
  · simp [merryAppend]
  · exact h

/-- Appending an ordering never clears a recorded error. -/
theorem DaoPkg.orderBy_keeps_err (fmt : Fmt) (q : DaoPkg.Query) (expression : String)
    (values : List Value) (h : q.err ≠ none) :
    (q.OrderByRawExpression fmt expression values).err ≠ none := by
  unfold DaoPkg.Query.OrderByRawExpression
  dsimp only
  split
  · simp [merryAppend]
  · exact h

/-- No builder call clears a recorded error. -/
theorem DaoPkg.apply_keeps_err (fmt : Fmt) (q : DaoPkg.Query) (op : DaoPkg.BuilderOp)
    (h : q.err ≠ none) : (op.apply fmt q).err ≠ none := by
  cases op with
  | IncludeDeleted => exact h
  | FilterRawExpression e vs => exact DaoPkg.appendFilter_keeps_err fmt q _ _ _ h
  | Filter c o v => exact DaoPkg.appendFilter_keeps_err fmt q _ _ _ h
  | FilterInStrings c vs => exact DaoPkg.appendFilter_keeps_err fmt q _ _ _ h
  | FilterIsNotNull c => exact DaoPkg.appendFilter_keeps_err fmt q _ _ _ h
  | FilterIn c vs => exact DaoPkg.appendFilter_keeps_err fmt q _ _ _ h
  | FilterExpr e => exact DaoPkg.appendFilter_keeps_err fmt q _ _ _ h
  | FulltextSearch cs vs => exact DaoPkg.appendFilter_keeps_err fmt q _ _ _ h
  | WithPageNoString s => exact h
  | WithStringPageNo n =>
    simp only [DaoPkg.BuilderOp.apply, DaoPkg.Query.WithStringPageNo]
    split
    · exact h
    · split
      · simp [merryAppend, merryWrap]
      · exact h
  | WithPageNo n => exact h
  | WithMaxIntPageSize => exact h
  | WithPageSize s => exact h
  | WithDefaultPageSize => exact h
  | OrderByRawExpression e vs => exact DaoPkg.orderBy_keeps_err fmt q _ _ h
  | OrderByExpression e => exact DaoPkg.orderBy_keeps_err fmt q _ _ h
  | OrderByAsc c => exact DaoPkg.orderBy_keeps_err fmt q _ _ h
  | OrderByDesc c => exact DaoPkg.orderBy_keeps_err fmt q _ _ h

/-- No sequence of builder calls clears a recorded error. -/
theorem DaoPkg.applyOps_keeps_err (fmt : Fmt) (ops : List DaoPkg.BuilderOp) (q : DaoPkg.Query)
    (h : q.err ≠ none) : (DaoPkg.applyOps fmt q ops).err ≠ none := by
  induction ops generalizing q with
  | nil => exact h
  | cons op rest ih => exact ih _ (DaoPkg.apply_keeps_err fmt q op h)

/-- On a query with a recorded error `First`, `Count`, `All` and `AllIterator` return that
error and have no effect. -/
theorem DaoPkg.terminals_of_poisoned (fmt : Fmt) (g : Gorm) (q : DaoPkg.Query) (m : Model)
    (mo : Option Model) (target : Option Target) (h : q.err ≠ none) :
    (q.First fmt g m).err = q.err ∧ (q.First fmt g m).trace = [] ∧
    (q.Count fmt g m).err = q.err ∧ (q.Count fmt g m).trace = [] ∧
    (q.All fmt g target).err = q.err ∧ (q.All fmt g target).trace = [] ∧
    (q.AllIterator fmt g mo).err = q.err ∧ (q.AllIterator fmt g mo).trace = [] := by
  cases hq : q.err with
  | none => exact absurd hq h
  | some e =>
    simp [DaoPkg.Query.First, DaoPkg.Query.Count, DaoPkg.Query.All, DaoPkg.Query.AllIterator,
      DaoPkg.Query.allDb, hq]

/-- On a query with a recorded error `AllWithPageFull` returns an error and has no effect. -/
theorem DaoPkg.pageFull_of_poisoned (fmt : Fmt) (g : Gorm) (q : DaoPkg.Query)
    (target : Option Target) (h : q.err ≠ none) :
    (q.AllWithPageFull fmt g target).err ≠ none ∧ (q.AllWithPageFull fmt g target).trace = [] := by
  have h0 : (if q.pageSize = 0 then { q with pageSize := DaoPkg.defaultPageSize } else q).err
      ≠ none := by
    split <;> exact h
  obtain ⟨-, -, -, -, h1, h2, -, -⟩ := DaoPkg.terminals_of_poisoned fmt g _ ⟨"", 0, []⟩ none target h0
  unfold DaoPkg.Query.AllWithPageFull
  dsimp only
  split
  · exact ⟨by simp, h2⟩
  · rename_i heq
    rw [h1] at heq
    exact absurd heq h0

/-- C9: in every sequence of builder calls `pre`, `op`, `post` where `op` appends a filter or
order fragment whose number of `?` placeholders differs from the number of parameters it
supplies, the mismatch is recorded by `op` itself (the query holds an error right after it),
and after the whole sequence, whatever `post` is, the query is poisoned: `First`, `Count`, `All`
and `AllIterator` return an error without any call to the store. -/
theorem mismatched_fragment_poisons_the_query (fmt : Fmt) (g : Gorm) (q0 : DaoPkg.Query)
    (pre post : List DaoPkg.BuilderOp) (op : DaoPkg.BuilderOp) (expression : String)
    (values : List Value) (hfrag : op.fragment = some (expression, values))
    (hmis : countPlaceholders expression ≠ values.length) :
    (op.apply fmt (DaoPkg.applyOps fmt q0 pre)).err ≠ none ∧
    DaoPkg.Poisoned fmt g (DaoPkg.applyOps fmt q0 (pre ++ op :: post)) := by
  have h1 := DaoPkg.mismatch_recorded fmt (DaoPkg.applyOps fmt q0 pre) op expression values hfrag
    hmis
  have h2 : (DaoPkg.applyOps fmt q0 (pre ++ op :: post)).err ≠ none := by
    have : DaoPkg.applyOps fmt q0 (pre ++ op :: post) =
        DaoPkg.applyOps fmt (op.apply fmt (DaoPkg.applyOps fmt q0 pre)) post := by
      simp [DaoPkg.applyOps, List.foldl_append]
    rw [this]
    exact DaoPkg.applyOps_keeps_err fmt post _ h1
  refine ⟨h1, h2, ?_⟩
  intro m mo target
  obtain ⟨a1, a2, a3, a4, a5, a6, a7, a8⟩ := DaoPkg.terminals_of_poisoned fmt g _ m mo target h2
  obtain ⟨b1, b2⟩ := DaoPkg.pageFull_of_poisoned fmt g _ target h2
  exact ⟨a1 ▸ h2, a2, a3 ▸ h2, a4, a5 ▸ h2, a6, a7 ▸ h2, a8, b1, b2⟩

/-- C9, instance: a raw filter with two placeholders and one parameter, between a well-formed
filter and an ordering with a page size. -/
theorem mismatched_fragment_poisons_the_query_witness :
    countPlaceholders "age > ? and age < ?" ≠ [Value.int 18].length ∧
    DaoPkg.Poisoned sampleFmt (sampleGorm none 1)
      (DaoPkg.applyOps sampleFmt DaoPkg.newQuery
        ([DaoPkg.BuilderOp.Filter "name" "=" (Value.str "ann")] ++
          DaoPkg.BuilderOp.FilterRawExpression "age > ? and age < ?" [Value.int 18] ::
          [DaoPkg.BuilderOp.OrderByAsc "name", DaoPkg.BuilderOp.WithPageSize 10])) :=
  ⟨by decide,
    (mismatched_fragment_poisons_the_query sampleFmt (sampleGorm none 1) DaoPkg.newQuery
      [DaoPkg.BuilderOp.Filter "name" "=" (Value.str "ann")]
      [DaoPkg.BuilderOp.OrderByAsc "name", DaoPkg.BuilderOp.WithPageSize 10]
      (DaoPkg.BuilderOp.FilterRawExpression "age > ? and age < ?" [Value.int 18])
      "age > ? and age < ?" [Value.int 18] rfl (by decide)).2⟩

/-- The loop of `FilterIn`, started from any state whose map holds exactly the values of the
slice, appends the first occurrences of the values that the slice does not hold yet. -/
theorem DaoPkg.uniqLoop_from (vs acc keys : List Value) (hk : ∀ x, x ∈ keys ↔ x ∈ acc) :
    (vs.foldl
      (fun (st : List Value × List Value) val =>
        if val ∈ st.2 then st else (st.1 ++ [val], val :: st.2))
      (acc, keys)).1 = acc ++ (firstOccurrences vs).filter (fun x => decide (x ∉ acc)) := by
  induction vs generalizing acc keys with
  | nil => simp [firstOccurrences]
  | cons v vs ih =>
    simp only [List.foldl_cons]
    by_cases hv : v ∈ keys
    · have hva : v ∈ acc := (hk v).mp hv
      simp only [hv, if_true]
      rw [ih acc keys hk]
      congr 1
      simp only [firstOccurrences, List.filter_cons, hva, not_true_eq_false, decide_False,
        Bool.false_eq_true, if_false, List.filter_filter]
      apply List.filter_congr
      intro x _
      by_cases hx : x ∈ acc
      · simp [hx]
      · have : x ≠ v := fun h => hx (h ▸ hva)
        simp [hx, this]
    · have hva : v ∉ acc := fun h => hv ((hk v).mpr h)
      simp only [hv, if_false]
      rw [ih (acc ++ [v]) (v :: keys) (by
        intro x
        simp only [List.mem_cons, List.mem_append, List.mem_singleton, hk x]
        tauto)]
      simp only [firstOccurrences, List.filter_cons, hva, not_false_eq_true, decide_True, if_true,
        List.filter_filter, List.append_assoc, List.singleton_append]
      congr 2
      apply List.filter_congr
      intro x _
      by_cases hx : x ∈ acc <;> by_cases hxv : x = v <;> simp [hx, hxv]

/-- The slice `uniqValues` that `FilterIn` builds holds the first occurrences of the values. -/
theorem DaoPkg.uniqLoop_eq (values : List Value) :
    (DaoPkg.uniqLoop values).1 = firstOccurrences values := by
  have h := DaoPkg.uniqLoop_from values [] [] (by simp)
  simpa [DaoPkg.uniqLoop] using h

/-- Membership in the first occurrences. -/
theorem mem_firstOccurrences (values : List Value) (x : Value) :
    x ∈ firstOccurrences values ↔ x ∈ values := by
  induction values with
  | nil => simp [firstOccurrences]
  | cons v vs ih =>
    simp only [firstOccurrences, List.mem_cons, List.mem_filter, ih, decide_eq_true_eq]
    by_cases hxv : x = v <;> simp [hxv]

/-- The first occurrences hold no value twice. -/
theorem nodup_firstOccurrences (values : List Value) : (firstOccurrences values).Nodup := by
  induction values with
  | nil => simp [firstOccurrences]
  | cons v vs ih =>
    simp only [firstOccurrences, List.nodup_cons]
    exact ⟨by simp [List.mem_filter], ih.filter _⟩

/-- The number of first occurrences is the number of distinct values. -/
theorem length_firstOccurrences (values : List Value) :
    (firstOccurrences values).length = values.toFinset.card := by
  rw [← List.toFinset_card_of_nodup (nodup_firstOccurrences values)]
  congr 1
  ext x
  simp [mem_firstOccurrences]

/-- The characters of `strings.Repeat("?,", n)`. -/
theorem stringsRepeat_toList (n : Nat) :
    (stringsRepeat "?," n).toList = repeatedPlaceholders n := by
  induction n with
  | zero => rfl
  | succ n ih =>
    simp only [stringsRepeat, repeatedPlaceholders, String.toList, String.data_append] at ih ⊢
    rw [ih]
    rfl

/-- Repeating once more adds a placeholder and a comma at the end. -/
theorem repeatedPlaceholders_succ (n : Nat) :
    repeatedPlaceholders (n + 1) = repeatedPlaceholders n ++ ['?', ','] := by
  induction n with
  | zero => rfl
  | succ n ih =>
    calc repeatedPlaceholders (n + 1 + 1)
        = '?' :: ',' :: repeatedPlaceholders (n + 1) := rfl
      _ = '?' :: ',' :: (repeatedPlaceholders n ++ ['?', ',']) := by rw [ih]
      _ = repeatedPlaceholders (n + 1) ++ ['?', ','] := rfl

/-- The placeholder list of `k + 1` placeholders: `k` times `?,` and a last `?`. -/
theorem placeholderList_succ (n : Nat) :
    placeholderList (n + 1) = String.mk (repeatedPlaceholders n ++ ['?']) := by
  induction n with
  | zero => rfl
  | succ n ih =>
    show "?," ++ placeholderList (n + 1) = _
    rw [ih]
    rfl

/-- Trimming the commas off `strings.Repeat("?,", k)` leaves the list of `k` placeholders. -/
theorem stringsTrim_repeat (k : Nat) :
    stringsTrim (stringsRepeat "?," k) "," = placeholderList k := by
  cases k with
  | zero => rfl
  | succ n =>
    have h1 : (stringsRepeat "?," (n + 1)).toList = '?' :: ',' :: repeatedPlaceholders n :=
      stringsRepeat_toList (n + 1)
    have h2 : ('?' :: ',' :: repeatedPlaceholders n).reverse =
        ',' :: '?' :: (repeatedPlaceholders n).reverse := by
      have := repeatedPlaceholders_succ n
      simp only [repeatedPlaceholders] at this
      rw [this]
      simp
    have hq : decide ('?' ∈ (",": String).toList) = false := by decide
    have hc : decide (',' ∈ (",": String).toList) = true := by decide
    unfold stringsTrim
    rw [h1, List.dropWhile_cons, hq]
    simp only [Bool.false_eq_true, if_false]
    rw [h2, List.dropWhile_cons, hc]
    simp only [if_true]
    rw [List.dropWhile_cons, hq]
    simp only [Bool.false_eq_true, if_false]
    rw [placeholderList_succ]
    simp

/-- The list of `k` placeholders holds `k` question marks. -/
theorem countPlaceholders_placeholderList (k : Nat) :
    countPlaceholders (placeholderList k) = k := by
  have hr : ∀ n, (repeatedPlaceholders n).count '?' = n := by
    intro n
    induction n with
    | zero => rfl
    | succ n ih => simp [repeatedPlaceholders, ih]
  cases k with
  | zero => rfl
  | succ n =>
    rw [placeholderList_succ]
    simp [countPlaceholders, hr]

/-- The interface value of an `ExprValue` struct is the struct around the interface value of
its field. -/
theorem Value.toOperand_exprValue (val : Value) (x : Operand)
    (h : Value.toOperand (.exprValue val) = some x) :
    ∃ y, Value.toOperand val = some y ∧ x = Operand.exprValue y := by
  rw [Value.toOperand] at h
  cases hv : Value.toOperand val with
  | none => rw [hv] at h; simp at h
  | some y =>
    rw [hv] at h
    have h2 : some (Operand.exprValue y) = some x := h
    exact ⟨y, rfl, (Option.some.inj h2).symm⟩

/-- The interface value of a value compared by content can be hashed. -/
theorem Value.toOperand_hashable (a : Value) (x : Operand) (h : Value.toOperand a = some x) :
    x.hashable = true := by
  induction a generalizing x with
  | str s => simp [Value.toOperand] at h; subst h; rfl
  | int i => simp [Value.toOperand] at h; subst h; rfl
  | bool b => simp [Value.toOperand] at h; subst h; rfl
  | uuid u => simp [Value.toOperand] at h; subst h; rfl
  | time t => simp [Value.toOperand] at h; subst h; rfl
  | exprValue val ih =>
    obtain ⟨y, hy, hx⟩ := Value.toOperand_exprValue val x h
    subst hx
    simpa [Operand.hashable] using ih y hy
  | sqlExpr sql f => simp [Value.toOperand] at h

/-- The interface values of two values compared by content are the same key exactly when the
values are equal. -/
theorem Value.toOperand_sameKey (a b : Value) (x y : Operand) (ha : Value.toOperand a = some x)
    (hb : Value.toOperand b = some y) : x.sameKey y = decide (a = b) := by
  induction a generalizing b x y with
  | exprValue val ih =>
    obtain ⟨x1, hx1, hx⟩ := Value.toOperand_exprValue val x ha
    subst hx
    cases b with
    | exprValue val2 =>
      obtain ⟨y1, hy1, hy⟩ := Value.toOperand_exprValue val2 y hb
      subst hy
      simp only [Operand.sameKey, ih val2 x1 y1 hx1 hy1, Value.exprValue.injEq]
    | sqlExpr sql f => simp [Value.toOperand] at hb
    | str s => simp [Value.toOperand] at hb; subst hb; simp [Operand.sameKey]
    | int i => simp [Value.toOperand] at hb; subst hb; simp [Operand.sameKey]
    | bool b => simp [Value.toOperand] at hb; subst hb; simp [Operand.sameKey]
    | uuid u => simp [Value.toOperand] at hb; subst hb; simp [Operand.sameKey]
    | time t => simp [Value.toOperand] at hb; subst hb; simp [Operand.sameKey]
  | sqlExpr sql f => simp [Value.toOperand] at ha
  | str s =>
    simp [Value.toOperand] at ha; subst ha
    cases b
    case exprValue val2 =>
      obtain ⟨y1, _, hy⟩ := Value.toOperand_exprValue val2 y hb
      subst hy
      simp [Operand.sameKey]
    all_goals (simp [Value.toOperand] at hb <;> (try subst hb) <;> simp [Operand.sameKey])
  | int i =>
    simp [Value.toOperand] at ha; subst ha
    cases b
    case exprValue val2 =>
      obtain ⟨y1, _, hy⟩ := Value.toOperand_exprValue val2 y hb
      subst hy
      simp [Operand.sameKey]
    all_goals (simp [Value.toOperand] at hb <;> (try subst hb) <;> simp [Operand.sameKey])
  | bool b0 =>
    simp [Value.toOperand] at ha; subst ha
    cases b
    case exprValue val2 =>
      obtain ⟨y1, _, hy⟩ := Value.toOperand_exprValue val2 y hb
      subst hy
      simp [Operand.sameKey]
    all_goals (simp [Value.toOperand] at hb <;> (try subst hb) <;> simp [Operand.sameKey])
  | uuid u =>
    simp [Value.toOperand] at ha; subst ha
    cases b
    case exprValue val2 =>
      obtain ⟨y1, _, hy⟩ := Value.toOperand_exprValue val2 y hb
      subst hy
      simp [Operand.sameKey]
    all_goals (simp [Value.toOperand] at hb <;> (try subst hb) <;> simp [Operand.sameKey])
  | time t =>
    simp [Value.toOperand] at ha; subst ha
    cases b
    case exprValue val2 =>
      obtain ⟨y1, _, hy⟩ := Value.toOperand_exprValue val2 y hb
      subst hy
      simp [Operand.sameKey]
    all_goals (simp [Value.toOperand] at hb <;> (try subst hb) <;> simp [Operand.sameKey])

/-- On values compared by content the loop of `FilterIn` on interface values does not panic and
goes as the loop on values does. -/
theorem DaoPkg.filterInLoop_from (values acc keys : List Value)
    (hv : ∀ v ∈ values, v.byContent = true) (hk : ∀ v ∈ keys, v.byContent = true) :
    DaoPkg.filterInLoop (values.filterMap Value.toOperand)
        (acc.filterMap Value.toOperand, keys.filterMap Value.toOperand) =
      .ok ((values.foldl
          (fun (st : List Value × List Value) val =>
            if val ∈ st.2 then st else (st.1 ++ [val], val :: st.2))
          (acc, keys)).1.filterMap Value.toOperand,
        (values.foldl
          (fun (st : List Value × List Value) val =>
            if val ∈ st.2 then st else (st.1 ++ [val], val :: st.2))
          (acc, keys)).2.filterMap Value.toOperand) := by
  induction values generalizing acc keys with
  | nil => rfl
  | cons v rest ih =>
    have hvc := hv v (List.mem_cons_self v rest)
    have hrest : ∀ x ∈ rest, x.byContent = true := fun x hx => hv x (List.mem_cons_of_mem v hx)
    obtain ⟨o, ho⟩ := Option.isSome_iff_exists.mp hvc
    have hany : (keys.filterMap Value.toOperand).any (fun k => k.sameKey o) = decide (v ∈ keys) := by
      rw [Bool.eq_iff_iff]
      simp only [List.any_eq_true, List.mem_filterMap, decide_eq_true_eq]
      constructor
      · rintro ⟨k, ⟨w, hw, hwk⟩, hs⟩
        rw [Value.toOperand_sameKey w v k o hwk ho] at hs
        simp only [decide_eq_true_eq] at hs
        exact hs ▸ hw
      · intro hmem
        refine ⟨o, ⟨v, hmem, ho⟩, ?_⟩
        rw [Value.toOperand_sameKey v v o o ho ho]
        simp
    simp only [List.filterMap_cons, ho, DaoPkg.filterInLoop, Value.toOperand_hashable v o ho,
      if_true, hany, List.foldl_cons, decide_eq_true_eq]
    by_cases hmem : v ∈ keys
    · simp only [hmem, if_true]
      exact ih acc keys hrest hk
    · simp only [hmem, if_false]
      have := ih (acc ++ [v]) (v :: keys) hrest (by
        intro x hx
        rcases List.mem_cons.mp hx with h | h
        · exact h ▸ hvc
        · exact hk x h)
      simpa [List.filterMap_append, List.filterMap_cons, ho] using this

/-- C10 as stated fails: the loop of `FilterIn` uses its values as keys of a map. A value that
cannot be hashed, such as a `[]byte`, alone or inside an `ExprValue`, makes the lookup panic, so
that `FilterIn` appends nothing. And the keys are compared as Go compares interface values: two
results of `gorm.Expr` of one content are two pointers and are both kept, and a float64 NaN is
kept at every occurrence. -/
theorem filterIn_panics_on_unhashable_value :
    DaoPkg.filterInCall "code" [.str "a", .bytes [1, 2]] = .error Panic.unhashableKey ∧
    DaoPkg.filterInCall "code" [.exprValue (.bytes [1, 2])] = .error Panic.unhashableKey ∧
    DaoPkg.filterInCall "seen" [.sqlExpr 1 "now()" 0, .sqlExpr 2 "now()" 0] =
      .ok ("seen in (?,?)", [.sqlExpr 1 "now()" 0, .sqlExpr 2 "now()" 0]) ∧
    DaoPkg.filterInCall "seen" [.sqlExpr 1 "now()" 0, .sqlExpr 1 "now()" 0] =
      .ok ("seen in (?)", [.sqlExpr 1 "now()" 0]) ∧
    DaoPkg.filterInCall "score" [.float64NaN, .float64NaN] =
      .ok ("score in (?,?)", [.float64NaN, .float64NaN]) :=
  ⟨rfl, rfl, rfl, rfl, rfl⟩

/-- C10, amended: for every column and every list of values of the types that Go compares by
content (strings, integers, booleans, identities, instants, and `ExprValue` structs around such
values), `FilterIn` does not panic and appends, as one filter fragment, the text `column in (`
followed by `k` placeholders separated by commas and `)`, with the parameter list made of the
`k` distinct input values in the order of their first occurrence, where `k` is the number of
distinct input values; the parameter list has no duplicate and the placeholder list holds
exactly `k` question marks. -/
theorem filterIn_deduplicates_values (fmt : Fmt) (q : DaoPkg.Query) (column : String)
    (values : List Value) (h : ∀ v ∈ values, v.byContent = true) :
    DaoPkg.filterInCall column (values.filterMap Value.toOperand) =
      .ok (column ++ " in (" ++ placeholderList (firstOccurrences values).length ++ ")",
        (firstOccurrences values).filterMap Value.toOperand) ∧
    (values.filterMap Value.toOperand).length = values.length ∧
    ((firstOccurrences values).filterMap Value.toOperand).length =
      (firstOccurrences values).length ∧
    q.FilterIn fmt column values =
      q.appendFilterExpressionAndValues fmt "filter-in"
        (column ++ " in (" ++ placeholderList (firstOccurrences values).length ++ ")")
        (firstOccurrences values) ∧
    (q.FilterIn fmt column values).expressions =
      q.expressions ++ [column ++ " in (" ++ placeholderList (firstOccurrences values).length ++ ")"] ∧
    (q.FilterIn fmt column values).values = q.values ++ firstOccurrences values ∧
    (firstOccurrences values).Nodup ∧
    (∀ v, v ∈ firstOccurrences values ↔ v ∈ values) ∧
    (firstOccurrences values).length = values.toFinset.card ∧
    countPlaceholders (placeholderList (firstOccurrences values).length) =
      (firstOccurrences values).length := by
  have hne : ∀ (c t : String), c ++ " in (" ++ t ++ ")" ≠ "" := by
    intro c t h
    have hl := congrArg String.length h
    simp only [String.length_append] at hl
    have h2 : (" in (" : String).length = 5 := by decide
    have h0 : ("" : String).length = 0 := by decide
    omega
  have heq : q.FilterIn fmt column values =
      q.appendFilterExpressionAndValues fmt "filter-in"
        (column ++ " in (" ++ placeholderList (firstOccurrences values).length ++ ")")
        (firstOccurrences values) := by
    simp only [DaoPkg.Query.FilterIn, DaoPkg.uniqLoop_eq, stringsTrim_repeat]
  have hlen : ∀ l : List Value, (∀ v ∈ l, v.byContent = true) →
      (l.filterMap Value.toOperand).length = l.length := by
    intro l hl
    induction l with
    | nil => rfl
    | cons v rest ih =>
      obtain ⟨o, ho⟩ := Option.isSome_iff_exists.mp (hl v (List.mem_cons_self v rest))
      simp only [List.filterMap_cons, ho, List.length_cons]
      rw [ih (fun x hx => hl x (List.mem_cons_of_mem v hx))]
  have hfo : ∀ v ∈ firstOccurrences values, v.byContent = true :=
    fun v hv => h v ((mem_firstOccurrences values v).mp hv)
  have hloop := DaoPkg.filterInLoop_from values [] [] h (by simp)
  have hu := DaoPkg.uniqLoop_eq values
  unfold DaoPkg.uniqLoop at hu
  simp only [List.filterMap_nil] at hloop
  refine ⟨?_, hlen values h, hlen _ hfo, heq, ?_, ?_, nodup_firstOccurrences values,
    mem_firstOccurrences values, length_firstOccurrences values,
    countPlaceholders_placeholderList _⟩
  · simp only [DaoPkg.filterInCall, hloop, hu, hlen _ hfo, stringsTrim_repeat]
  · rw [heq]
    simp [DaoPkg.Query.appendFilterExpressionAndValues, hne]
  · rw [heq]
    simp [DaoPkg.Query.appendFilterExpressionAndValues]

/-- C10, an instance: `FilterIn("code", "a", "a", "b")` on a fresh query gives the fragment
`code in (?,?)` with the parameters `a`, `b`, and no error. -/
theorem filterIn_deduplicates_values_witness :
    (∀ v ∈ [Value.str "a", Value.str "a", Value.str "b"], v.byContent = true) ∧
    firstOccurrences [Value.str "a", Value.str "a", Value.str "b"] =
      [Value.str "a", Value.str "b"] ∧
    "code" ++ " in (" ++ placeholderList
        (firstOccurrences [Value.str "a", Value.str "a", Value.str "b"]).length ++ ")" =
      "code in (?,?)" ∧
    (DaoPkg.newQuery.FilterIn sampleFmt "code"
        [Value.str "a", Value.str "a", Value.str "b"]).expressions =
      DaoPkg.newQuery.expressions ++ ["code" ++ " in (" ++ placeholderList
        (firstOccurrences [Value.str "a", Value.str "a", Value.str "b"]).length ++ ")"] ∧
    (DaoPkg.newQuery.FilterIn sampleFmt "code"
        [Value.str "a", Value.str "a", Value.str "b"]).values =
      DaoPkg.newQuery.values ++ firstOccurrences [Value.str "a", Value.str "a", Value.str "b"] ∧
    (DaoPkg.newQuery.FilterIn sampleFmt "code"
        [Value.str "a", Value.str "a", Value.str "b"]).expressions = ["code in (?,?)"] ∧
    (DaoPkg.newQuery.FilterIn sampleFmt "code"
        [Value.str "a", Value.str "a", Value.str "b"]).values = [Value.str "a", Value.str "b"] ∧
    (DaoPkg.newQuery.FilterIn sampleFmt "code"
        [Value.str "a", Value.str "a", Value.str "b"]).err = none ∧
    DaoPkg.filterInCall "code" [.str "a", .str "a", .str "b"] =
      .ok ("code in (?,?)", [.str "a", .str "b"]) :=
  ⟨by decide, by decide, by decide,
    (filterIn_deduplicates_values sampleFmt DaoPkg.newQuery "code"
      [Value.str "a", Value.str "a", Value.str "b"] (by decide)).2.2.2.2.1,
    (filterIn_deduplicates_values sampleFmt DaoPkg.newQuery "code"
      [Value.str "a", Value.str "a", Value.str "b"] (by decide)).2.2.2.2.2.1,
    by decide, by decide, by decide, rfl⟩

/-! ## Compilation of the filter fragments -/

/-- From a predicate text that is not empty, the loop of `whereExpressionAndValues` goes on as
the joining with ` and ` does. -/
theorem whereLoop_from (es : List String) (acc : String) (hacc : acc.length > 0) :
    es.foldl
      (fun (expr : String) e =>
        (if expr.length > 0 then expr ++ " and " else expr) ++ (" (" ++ e ++ ") "))
      acc = String.intercalate.go acc " and " (es.map (fun e => " (" ++ e ++ ") ")) := by
  induction es generalizing acc with
  | nil => rfl
  | cons e rest ih =>
    simp only [List.foldl_cons, List.map_cons, String.intercalate.go, hacc, if_true]
    apply ih
    simp only [String.length_append]
    omega

/-- The loop of `whereExpressionAndValues` builds the joined predicate. -/
theorem whereLoop_eq (es : List String) :
    es.foldl
      (fun (expr : String) e =>
        (if expr.length > 0 then expr ++ " and " else expr) ++ (" (" ++ e ++ ") "))
      "" = joinedPredicate es := by
  cases es with
  | nil => rfl
  | cons e rest =>
    have h0 : ¬ (("" : String).length > 0) := by decide
    simp only [List.foldl_cons, h0, if_false, joinedPredicate, List.map_cons, String.intercalate]
    have he : ("" : String) ++ (" (" ++ e ++ ") ") = " (" ++ e ++ ") " := by
      apply String.ext
      simp [String.data_append]
    rw [he]
    apply whereLoop_from
    simp only [String.length_append]
    have : (" (" : String).length = 2 := by decide
    omega

/-- What a sequence of appended fragments leaves in a query: the non-empty expressions and all
the values, in append order. -/
theorem DaoPkg.appendFragments_fields (fmt : Fmt) (fs : List (String × String × List Value))
    (q : DaoPkg.Query) :
    (DaoPkg.appendFragments fmt q fs).expressions =
      q.expressions ++ (fs.map (fun f => f.2.1)).filter (fun e => decide (e ≠ "")) ∧
    (DaoPkg.appendFragments fmt q fs).values = q.values ++ (fs.map (fun f => f.2.2)).flatten := by
  induction fs generalizing q with
  | nil => simp [DaoPkg.appendFragments]
  | cons f rest ih =>
    have h := ih (q.appendFilterExpressionAndValues fmt f.1 f.2.1 f.2.2)
    simp only [DaoPkg.appendFragments, List.foldl_cons] at h ⊢
    rw [h.1, h.2]
    by_cases hf : f.2.1 = ""
    · simp [DaoPkg.Query.appendFilterExpressionAndValues, hf, List.filter_cons]
    · simp [DaoPkg.Query.appendFilterExpressionAndValues, hf, List.filter_cons]

/-- C11: in the sub-package, for every sequence of filter fragments appended to a fresh query,
`whereExpressionAndValues` returns the predicate made of every non-empty fragment, each wrapped
in parentheses, in append order and joined with `and`, followed by all the parameters in append
order; with no fragments the predicate is the empty text and there is no parameter. In the root
package the same method does not: for the one fragment `age between ? and ?` given with the
values 18 and 30 it returns the predicate followed by a single element, the slice of both
values, instead of the two positional parameters; and an empty fragment is wrapped too. -/
theorem where_compiles_fragments_in_order_but_root_groups_values :
    (∀ (fmt : Fmt) (fs : List (String × String × List Value)),
      (DaoPkg.appendFragments fmt DaoPkg.newQuery fs).whereExpressionAndValues =
        [Value.str (joinedPredicate ((fs.map (fun f => f.2.1)).filter (fun e => decide (e ≠ ""))))]
          ++ (fs.map (fun f => f.2.2)).flatten) ∧
    (∀ q : DaoPkg.Query, q.whereExpressionAndValues =
      [Value.str (joinedPredicate q.expressions)] ++ q.values) ∧
    DaoPkg.newQuery.whereExpressionAndValues = [Value.str ""] ∧
    joinedPredicate ["a=?", "b in (?,?)"] = " (a=?)  and  (b in (?,?)) " ∧
    (RootPkg.newQuery.FilterExpression "age between ? and ?"
        [Value.int 18, Value.int 30]).whereExpressionAndValues =
      [RootPkg.Arg.val (Value.str " (age between ? and ?) "),
        RootPkg.Arg.slice [Value.int 18, Value.int 30]] ∧
    (RootPkg.newQuery.FilterExpression "" []).whereExpressionAndValues =
      [RootPkg.Arg.val (Value.str " () "), RootPkg.Arg.slice []] := by
  refine ⟨?_, ?_, by decide, by decide, by decide, by decide⟩
  · intro fmt fs
    obtain ⟨h1, h2⟩ := DaoPkg.appendFragments_fields fmt fs DaoPkg.newQuery
    simp only [DaoPkg.Query.whereExpressionAndValues, whereLoop_eq, h1, h2]
    simp [DaoPkg.newQuery]
  · intro q
    simp only [DaoPkg.Query.whereExpressionAndValues, whereLoop_eq]

/-! ## CreateOrUpdate -/

/-- C12: what the code does. Both methods compare their argument with nil and then call
`IsIDNil` on it. For a pointer to a record, `CreateOrUpdateColumns` is `Create` (same result,
same record left behind, same effects) when the identity of the record is nil, and
`UpdateColumns` with the same setters otherwise; `CreateOrUpdate` is `Create` when the identity
is nil, and otherwise makes exactly one storage call, the save of the full record as the
before-update listeners leave it. For the nil interface value both return the error `nil model`
without any effect. A record that is a nil pointer is not equal to nil as an interface value:
for it neither method returns an error, the call `m.IsIDNil()` panics with a nil pointer
dereference. -/
theorem createOrUpdate_panics_on_nil_pointer_record (fmt : Fmt) (ty : DaoPkg.Types)
    (d : DaoPkg.Dao) (m : Model) (ci : List ColumnInfo) (rand : Nat) :
    (∀ typeName : String,
      DaoPkg.Dao.CreateOrUpdateColumns fmt ty d (.nilPointer typeName) ci rand =
        .error Panic.nilPointerDereference ∧
      DaoPkg.Dao.CreateOrUpdate fmt ty d (.nilPointer typeName) rand =
        .error Panic.nilPointerDereference) ∧
    DaoPkg.Dao.CreateOrUpdateColumns fmt ty d .nilInterface ci rand =
      .ok ⟨some (merryNew "nil model"), none, []⟩ ∧
    DaoPkg.Dao.CreateOrUpdate fmt ty d .nilInterface rand =
      .ok ⟨some (merryNew "nil model"), none, []⟩ ∧
    (m.IsIDNil = true →
      DaoPkg.Dao.CreateOrUpdateColumns fmt ty d (.pointer m) ci rand =
        DaoPkg.Dao.Create fmt ty d (.pointer m) rand ∧
      DaoPkg.Dao.CreateOrUpdate fmt ty d (.pointer m) rand =
        DaoPkg.Dao.Create fmt ty d (.pointer m) rand) ∧
    (m.IsIDNil = false →
      DaoPkg.Dao.CreateOrUpdateColumns fmt ty d (.pointer m) ci rand =
        .ok ⟨(DaoPkg.UpdateColumns fmt ty d m ci).err,
          some (DaoPkg.UpdateColumns fmt ty d m ci).value,
          (DaoPkg.UpdateColumns fmt ty d m ci).trace⟩ ∧
      DaoPkg.Dao.CreateOrUpdate fmt ty d (.pointer m) rand =
        .ok (DaoPkg.CreateOrUpdate fmt ty d (some m) rand) ∧
      (DaoPkg.CreateOrUpdate fmt ty d (some m) rand).trace.filter Event.isStorage =
        [Event.storage (.Save (DaoPkg.executeHookListeners ty d m .BeforeUpdate
          (DaoPkg.newHookCtx none true)).1)] ∧
      ((d.masterGormDb.exec (.Save (DaoPkg.executeHookListeners ty d m .BeforeUpdate
          (DaoPkg.newHookCtx none true)).1)).Error = none →
        (DaoPkg.CreateOrUpdate fmt ty d (some m) rand).err = none)) := by
  refine ⟨fun _ => ⟨rfl, rfl⟩, rfl, rfl, ?_, ?_⟩
  · intro h
    have h1 : DaoPkg.CreateOrUpdateColumns fmt ty d (some m) ci rand =
        DaoPkg.Create fmt ty d (some m) rand := by
      simp [DaoPkg.CreateOrUpdateColumns, h]
    have h2 : DaoPkg.CreateOrUpdate fmt ty d (some m) rand =
        DaoPkg.Create fmt ty d (some m) rand := by
      simp [DaoPkg.CreateOrUpdate, h]
    refine ⟨?_, ?_⟩
    · show Except.ok (DaoPkg.CreateOrUpdateColumns fmt ty d (some m) ci rand) =
        Except.ok (DaoPkg.Create fmt ty d (some m) rand)
      rw [h1]
    · show Except.ok (DaoPkg.CreateOrUpdate fmt ty d (some m) rand) =
        Except.ok (DaoPkg.Create fmt ty d (some m) rand)
      rw [h2]
  · intro h
    refine ⟨?_, rfl, ?_, ?_⟩
    · have h1 : DaoPkg.CreateOrUpdateColumns fmt ty d (some m) ci rand =
          ⟨(DaoPkg.UpdateColumns fmt ty d m ci).err,
            some (DaoPkg.UpdateColumns fmt ty d m ci).value,
            (DaoPkg.UpdateColumns fmt ty d m ci).trace⟩ := by
        simp [DaoPkg.CreateOrUpdateColumns, h]
      rw [← h1]
      rfl
    · simp only [DaoPkg.CreateOrUpdate, h, Bool.false_eq_true, if_false,
        DaoPkg.executeHookListeners_trace]
      split <;> simp [Event.isStorage]
    · intro he
      simp only [DaoPkg.CreateOrUpdate, h, Bool.false_eq_true, if_false]
      simp [he]

/-- C12, instances: a nil `*models.User` makes both methods panic, the stored user (identity 7)
goes to the update path, the new user to `Create`. -/
theorem createOrUpdate_panics_on_nil_pointer_record_witness :
    DaoPkg.Dao.CreateOrUpdate sampleFmt DaoPkg.sampleTypes (DaoPkg.sampleDao none 1)
      (.nilPointer "*models.User") 5 = .error Panic.nilPointerDereference ∧
    DaoPkg.Dao.CreateOrUpdateColumns sampleFmt DaoPkg.sampleTypes (DaoPkg.sampleDao none 1)
      (.nilPointer "*models.User") [("name", Value.str "bob")] 5 =
      .error Panic.nilPointerDereference ∧
    sampleUser.IsIDNil = false ∧ sampleNewUser.IsIDNil = true ∧
    (DaoPkg.CreateOrUpdate sampleFmt DaoPkg.sampleTypes (DaoPkg.sampleDao none 1) (some sampleUser)
      5).trace.filter Event.isStorage = [Event.storage (.Save sampleUser)] ∧
    DaoPkg.Dao.CreateOrUpdateColumns sampleFmt DaoPkg.sampleTypes (DaoPkg.sampleDao none 1)
      (.pointer sampleNewUser) [("name", Value.str "bob")] 5 =
      DaoPkg.Dao.Create sampleFmt DaoPkg.sampleTypes (DaoPkg.sampleDao none 1)
        (.pointer sampleNewUser) 5 :=
  ⟨((createOrUpdate_panics_on_nil_pointer_record sampleFmt DaoPkg.sampleTypes
      (DaoPkg.sampleDao none 1) sampleUser [("name", Value.str "bob")] 5).1 "*models.User").2,
    ((createOrUpdate_panics_on_nil_pointer_record sampleFmt DaoPkg.sampleTypes
      (DaoPkg.sampleDao none 1) sampleUser [("name", Value.str "bob")] 5).1 "*models.User").1,
    by decide, by decide,
    ((createOrUpdate_panics_on_nil_pointer_record sampleFmt DaoPkg.sampleTypes
      (DaoPkg.sampleDao none 1) sampleUser [("name", Value.str "bob")] 5).2.2.2.2
      (by decide)).2.2.1,
    ((createOrUpdate_panics_on_nil_pointer_record sampleFmt DaoPkg.sampleTypes
      (DaoPkg.sampleDao none 1) sampleNewUser [("name", Value.str "bob")] 5).2.2.2.1
      (by decide)).1⟩

/-! ## Cursor -/

/-- A decimal digit character has the code 48 plus its value. -/
theorem digitChar_toNat (k : Nat) (hk : k < 10) : (Nat.digitChar k).toNat = 48 + k := by
  interval_cases k <;> rfl

/-- The characters `Nat.toDigitsCore` puts in front of `ds` are decimal digits. -/
theorem toDigitsCore_chars (fuel n : Nat) (ds : List Char) (P : Char → Prop)
    (hd : ∀ k, k < 10 → P (Nat.digitChar k)) (hds : ∀ c ∈ ds, P c) :
    ∀ c ∈ Nat.toDigitsCore 10 fuel n ds, P c := by
  induction fuel generalizing n ds with
  | zero => simpa [Nat.toDigitsCore] using hds
  | succ fuel ih =>
    have hcons : ∀ c ∈ Nat.digitChar (n % 10) :: ds, P c := by
      intro c hc
      rcases List.mem_cons.mp hc with h | h
      · rw [h]
        exact hd _ (Nat.mod_lt _ (by decide))
      · exact hds c h
    simp only [Nat.toDigitsCore]
    split
    · exact hcons
    · exact ih _ _ hcons

/-- Reading a decimal digit character adds its value. -/
theorem parseStep_digit (a k : Nat) (hk : k < 10) :
    parseStep (some a) (Nat.digitChar k) = some (a * 10 + k) := by
  interval_cases k <;> simp [parseStep, Nat.digitChar, Char.isDigit]

/-- Reading the digits that `Nat.toDigitsCore` writes for `n` gives `n`. -/
theorem parse_toDigitsCore (fuel n : Nat) (ds : List Char) (hf : n < fuel) :
    (Nat.toDigitsCore 10 fuel n ds).foldl parseStep (some 0) = ds.foldl parseStep (some n) := by
  induction fuel generalizing n ds with
  | zero => omega
  | succ fuel ih =>
    simp only [Nat.toDigitsCore]
    split
    · rename_i h0
      have hn : n % 10 = n := Nat.mod_eq_of_lt (by omega)
      simp only [List.foldl_cons, parseStep_digit 0 (n % 10) (Nat.mod_lt _ (by decide))]
      simp [hn]
    · rename_i h0
      rw [ih (n / 10) _ (by omega)]
      simp only [List.foldl_cons, parseStep_digit (n / 10) (n % 10) (Nat.mod_lt _ (by decide))]
      congr 2
      omega

/-- The digits written for a number are not the empty text. -/
theorem toDigitsCore_ne_nil (fuel n : Nat) (ds : List Char) (h : ds ≠ [] ∨ fuel > 0) :
    Nat.toDigitsCore 10 fuel n ds ≠ [] := by
  induction fuel generalizing n ds with
  | zero =>
    rcases h with h | h
    · simpa [Nat.toDigitsCore] using h
    · omega
  | succ fuel ih =>
    simp only [Nat.toDigitsCore]
    split
    · simp
    · exact ih _ _ (Or.inl (by simp))

/-- Parsing the decimal digits of a number gives the number back. -/
theorem parseDigits_toDigits (n : Nat) : parseDigits (Nat.toDigits 10 n) = some n := by
  have hne : Nat.toDigits 10 n ≠ [] := toDigitsCore_ne_nil _ _ _ (Or.inr (by omega))
  have h := parse_toDigitsCore (n + 1) n [] (by omega)
  simp only [parseDigits, hne, if_false]
  exact h

/-- What `%d` prints is made of the characters `intChars`. -/
theorem formatInt_eq (i : Int) : formatInt i = String.mk (intChars i) := by
  unfold formatInt intChars
  split <;> rfl

/-- The digits of a number are digit characters. -/
theorem toDigits_chars (n : Nat) : ∀ c ∈ Nat.toDigits 10 n, 48 ≤ c.toNat ∧ c.toNat ≤ 57 := by
  apply toDigitsCore_chars _ _ _ (fun c => 48 ≤ c.toNat ∧ c.toNat ≤ 57)
  · intro k hk
    rw [digitChar_toNat k hk]
    omega
  · simp

/-- What `%d` prints is made of digits and the minus sign. -/
theorem intChars_chars (i : Int) : ∀ c ∈ intChars i, isNumberChar c := by
  intro c hc
  unfold intChars at hc
  split at hc
  · rcases List.mem_cons.mp hc with h | h
    · exact Or.inr h
    · exact Or.inl (toDigits_chars _ c h)
  · exact Or.inl (toDigits_chars _ c hc)

/-- A number character is an ASCII character other than the colon. -/
theorem isNumberChar_ascii (c : Char) (h : isNumberChar c) : c.toNat < 128 ∧ c ≠ ':' := by
  rcases h with ⟨h1, h2⟩ | h
  · refine ⟨by omega, ?_⟩
    intro hc
    rw [hc] at h1 h2
    revert h2
    decide
  · rw [h]
    exact ⟨by decide, by decide⟩

/-- Parsing what `%d` prints for a number of the 32-bit range gives the number back. -/
theorem ParseIntBits_intChars (i : Int) (hlo : -(2 ^ 31) ≤ i) (hhi : i < 2 ^ 31) :
    ParseIntBits (String.mk (intChars i)) 32 = (i, false) := by
  have hp := parseDigits_toDigits i.natAbs
  have hne : Nat.toDigits 10 i.natAbs ≠ [] := toDigitsCore_ne_nil _ _ _ (Or.inr (by omega))
  obtain ⟨d, rest, hd⟩ := List.exists_cons_of_ne_nil hne
  have hdig := toDigits_chars i.natAbs d (by rw [hd]; exact List.mem_cons_self _ _)
  have hd1 : d ≠ '-' := by
    intro hc
    rw [hc] at hdig
    revert hdig
    decide
  have hd2 : d ≠ '+' := by
    intro hc
    rw [hc] at hdig
    revert hdig
    decide
  unfold ParseIntBits intChars
  by_cases hneg : i < 0
  · simp only [hneg, if_true, String.toList, List.head?_cons, true_or, List.tail_cons, hp]
    have h1 : ¬ (i.natAbs > 2 ^ (32 - 1)) := by
      have : (2 : Int) ^ 31 = 2147483648 := by norm_num
      have h2 : (2 : Nat) ^ (32 - 1) = 2147483648 := by norm_num
      omega
    simp only [decide_True, Bool.not_true, Bool.false_and, Bool.true_and, h1, decide_False,
      Bool.false_eq_true, if_false, if_true]
    congr 1
    omega
  · simp only [hneg, if_false, String.toList, hd, List.head?_cons, Option.some.injEq, hd1, hd2,
      or_self]
    rw [← hd, hp]
    have h1 : ¬ (i.natAbs ≥ 2 ^ (32 - 1)) := by
      have : (2 : Int) ^ 31 = 2147483648 := by norm_num
      have h2 : (2 : Nat) ^ (32 - 1) = 2147483648 := by norm_num
      omega
    simp only [decide_False, Bool.not_false, Bool.true_and, h1, Bool.false_eq_true, if_false,
      Bool.false_and]
    congr 1
    omega

/-- Splitting a text that does not hold the separator gives the text alone. -/
theorem splitChars_of_not_mem (c : Char) (xs : List Char) (h : c ∉ xs) :
    splitChars c xs = [xs] := by
  induction xs with
  | nil => rfl
  | cons x rest ih =>
    have hx : x ≠ c := fun e => h (e ▸ List.mem_cons_self _ _)
    have hr : c ∉ rest := fun e => h (List.mem_cons_of_mem _ e)
    simp [splitChars, hx, ih hr]

/-- Splitting two texts joined by the separator, neither of which holds it, gives both. -/
theorem splitChars_pair (c : Char) (a b : List Char) (ha : c ∉ a) (hb : c ∉ b) :
    splitChars c (a ++ c :: b) = [a, b] := by
  induction a with
  | nil => simp [splitChars, splitChars_of_not_mem c b hb]
  | cons x rest ih =>
    have hx : x ≠ c := fun e => ha (e ▸ List.mem_cons_self _ _)
    have hr : c ∉ rest := fun e => ha (List.mem_cons_of_mem _ e)
    simp [splitChars, hx, ih hr]

/-- The bytes of an ASCII text are the codes of its characters. -/
theorem goBytes_ascii (cs : List Char) (h : ∀ c ∈ cs, c.toNat < 128) :
    goBytes (String.mk cs) = cs.map Char.toNat := by
  unfold goBytes
  simp only [String.toList]
  induction cs with
  | nil => rfl
  | cons c rest ih =>
    have hc : c.toNat < 128 := h c (List.mem_cons_self _ _)
    have hr := ih (fun x hx => h x (List.mem_cons_of_mem _ hx))
    simp only [List.flatMap_cons, List.map_cons, hr]
    simp [utf8Bytes, hc]

/-- Reading back the bytes of a text gives the text. -/
theorem bytesToString_codes (cs : List Char) :
    bytesToString (cs.map Char.toNat) = String.mk cs := by
  unfold bytesToString
  congr 1
  induction cs with
  | nil => rfl
  | cons c rest ih => simp [ih]

/-- A hexadecimal digit character is an ASCII character that decodes to its value. -/
theorem hexDigit_decodes (k : Nat) :
    (hexDigit k).toNat < 128 ∧ fromHexChar (hexDigit k).toNat = some (k % 16) := by
  unfold hexDigit
  have hk : k % 16 < 16 := Nat.mod_lt _ (by decide)
  generalize k % 16 = j at hk
  interval_cases j <;> exact ⟨by decide, by decide⟩

/-- Decoding the pairs of hexadecimal digits of a list of bytes gives the bytes back. -/
theorem hexDecode_pairs (fmt : Fmt) (bs : List Nat) (h : ∀ b ∈ bs, b < 256) :
    hexDecode fmt (bs.flatMap (fun b => [(hexDigit (b / 16)).toNat, (hexDigit b).toNat])) =
      .ok bs := by
  induction bs with
  | nil => rfl
  | cons b rest ih =>
    have hb : b < 256 := h b (List.mem_cons_self _ _)
    have hr := ih (fun x hx => h x (List.mem_cons_of_mem _ hx))
    have hv : b / 16 % 16 * 16 + b % 16 = b := by omega
    rw [List.flatMap_cons]
    show hexDecode fmt ((hexDigit (b / 16)).toNat :: (hexDigit b).toNat ::
      rest.flatMap (fun b => [(hexDigit (b / 16)).toNat, (hexDigit b).toNat])) = _
    simp only [hexDecode, (hexDigit_decodes (b / 16)).2, (hexDigit_decodes b).2, hr, hv]

/-- Decoding the hexadecimal text of a list of bytes gives the bytes back. -/
theorem hexDecode_encode (fmt : Fmt) (bs : List Nat) (h : ∀ b ∈ bs, b < 256) :
    hexDecode fmt (goBytes (hexEncodeToString bs)) = .ok bs := by
  have hg : goBytes (hexEncodeToString bs) =
      bs.flatMap (fun b => [(hexDigit (b / 16)).toNat, (hexDigit b).toNat]) := by
    unfold hexEncodeToString
    rw [goBytes_ascii]
    · clear h
      induction bs with
      | nil => rfl
      | cons b rest ih => simp [List.flatMap_cons, ih]
    · intro c hc
      simp only [List.mem_flatMap, List.mem_cons, List.mem_singleton, List.not_mem_nil,
        or_false] at hc
      obtain ⟨b, -, hb | hb⟩ := hc
      · rw [hb]
        exact (hexDigit_decodes _).1
      · rw [hb]
        exact (hexDigit_decodes _).1
  rw [hg]
  exact hexDecode_pairs fmt bs h

/-- C13 as stated fails outside the 32-bit range: `Unserialize` parses both numbers with
`strconv.ParseInt(s, 10, 32)`, so for the cursor with limit 2147483648 and offset 0 it returns
an error on the output of `Serialize` and leaves the receiver as it was. -/
theorem cursor_roundtrip_fails_beyond_int32 :
    (RootPkg.Cursor.Unserialize sampleFmt ⟨5, 5⟩
      (RootPkg.Cursor.Serialize (some ⟨2147483648, 0⟩))).2.map Err.Error =
        some ("unserialized=2147483648:0: strconv.ParseInt: parsing " ++
          "\"2147483648\": value out of range") ∧
    (RootPkg.Cursor.Unserialize sampleFmt ⟨5, 5⟩
      (RootPkg.Cursor.Serialize (some ⟨2147483648, 0⟩))).1 = ⟨5, 5⟩ := by
  decide

/-- C13, amended: for every cursor whose limit and offset lie in the 32-bit range
(from -2^31 to 2^31 - 1), `Unserialize` applied to the output of `Serialize` returns no error
and leaves a cursor with the identical limit and offset, whatever the receiver held before. -/
theorem cursor_roundtrip_within_int32 (fmt : Fmt) (c0 : RootPkg.Cursor) (l o : Int)
    (hl : -(2 ^ 31) ≤ l ∧ l < 2 ^ 31) (ho : -(2 ^ 31) ≤ o ∧ o < 2 ^ 31) :
    RootPkg.Cursor.Unserialize fmt c0 (RootPkg.Cursor.Serialize (some ⟨l, o⟩)) = (⟨l, o⟩, none) := by
  have hT : ∀ c ∈ intChars l ++ ':' :: intChars o, c.toNat < 128 := by
    intro c hc
    rcases List.mem_append.mp hc with h | h
    · exact (isNumberChar_ascii c (intChars_chars l c h)).1
    · rcases List.mem_cons.mp h with h | h
      · rw [h]
        decide
      · exact (isNumberChar_ascii c (intChars_chars o c h)).1
  have htext : formatInt l ++ ":" ++ formatInt o = String.mk (intChars l ++ ':' :: intChars o) := by
    rw [formatInt_eq, formatInt_eq]
    apply String.ext
    simp [String.data_append]
  have hser : RootPkg.Cursor.Serialize (some ⟨l, o⟩) =
      hexEncodeToString ((intChars l ++ ':' :: intChars o).map Char.toNat) := by
    simp only [RootPkg.Cursor.Serialize, RootPkg.Cursor.Limit, RootPkg.Cursor.Offset, htext,
      goBytes_ascii _ hT]
  have hne : hexEncodeToString ((intChars l ++ ':' :: intChars o).map Char.toNat) ≠ "" := by
    intro h
    have h2 := congrArg String.length h
    cases hi : intChars l with
    | nil => simp [hexEncodeToString, hi] at h2
    | cons a r => simp [hexEncodeToString, hi] at h2
  have hdec := hexDecode_encode fmt ((intChars l ++ ':' :: intChars o).map Char.toNat) (by
    intro b hb
    obtain ⟨c, hc, rfl⟩ := List.mem_map.mp hb
    have := hT c hc
    omega)
  have hsplit : splitChars ':' (intChars l ++ ':' :: intChars o) = [intChars l, intChars o] :=
    splitChars_pair ':' _ _
      (fun h => (isNumberChar_ascii _ (intChars_chars l _ h)).2 rfl)
      (fun h => (isNumberChar_ascii _ (intChars_chars o _ h)).2 rfl)
  rw [hser]
  simp only [RootPkg.Cursor.Unserialize, hne, if_false, hdec, bytesToString_codes, String.toList,
    hsplit, List.map_cons, List.map_nil, List.length_cons, List.length_nil, List.headD_cons,
    List.tail_cons, ParseIntBits_intChars l hl.1 hl.2, ParseIntBits_intChars o ho.1 ho.2]
  simp

/-- C13, instance: the round trip of the cursor with limit 1000 and offset 2000. -/
theorem cursor_roundtrip_within_int32_witness :
    (-(2 ^ 31) ≤ (1000 : Int) ∧ (1000 : Int) < 2 ^ 31) ∧
    RootPkg.Cursor.Serialize (some ⟨1000, 2000⟩) = "313030303a32303030" ∧
    RootPkg.Cursor.Unserialize sampleFmt ⟨5, 5⟩ (RootPkg.Cursor.Serialize (some ⟨1000, 2000⟩)) =
      (⟨1000, 2000⟩, none) :=
  ⟨by decide, by decide,
    cursor_roundtrip_within_int32 sampleFmt ⟨5, 5⟩ 1000 2000 (by decide) (by decide)⟩

/-- C14: what the code does. `NextPage` hands `offset + limit` to `NewCursor` as the limit and
the old limit as the offset: from the cursor with limit 20 and offset 40 it returns the cursor
with limit 60 and offset 20, where advancing by one page would give limit 20 and offset 60. In
general the new limit is the old offset plus the old limit and the new offset is the old
limit. -/
theorem nextPage_swaps_limit_and_offset :
    RootPkg.Cursor.NextPage (some (RootPkg.NewCursor 20 40)) = ⟨60, 20⟩ ∧
    RootPkg.Cursor.NextPage (some (RootPkg.NewCursor 20 40)) ≠ ⟨20, 60⟩ ∧
    (∀ c : RootPkg.Cursor, (RootPkg.Cursor.NextPage (some c)).limit = wrapInt (c.offset + c.limit) ∧
      (RootPkg.Cursor.NextPage (some c)).offset = c.limit) := by
  refine ⟨by decide, by decide, ?_⟩
  intro c
  exact ⟨rfl, rfl⟩

/-- C15: what the code does. `Unserialize` applied to the empty text sets the limit to
`DefaultCursorLimit` and the offset to 0 but does not return there: the empty text decodes to
no bytes, which split into one part instead of two, and the call returns the error
`Invalid cursor unserialized=`. -/
theorem unserialize_empty_sets_defaults_but_fails (fmt : Fmt) (c : RootPkg.Cursor) :
    RootPkg.Cursor.Unserialize fmt c "" =
      (⟨RootPkg.DefaultCursorLimit, 0⟩, some (errorsNew "Invalid cursor unserialized=")) ∧
    RootPkg.DefaultCursorLimit = 1000 ∧
    (errorsNew "Invalid cursor unserialized=").Error = "Invalid cursor unserialized=" := by
  refine ⟨?_, rfl, by decide⟩
  rfl

/-! ## Stats : the table -/

theorem wrapInt_wrapInt_add (a b : Int) : wrapInt (wrapInt a + b) = wrapInt (a + b) := by
  unfold wrapInt
  omega

/-- A number in the signed 64-bit range is its own wrap-around. -/
theorem wrapInt_of_int64 (x : Int) (h1 : -(2 ^ 63) ≤ x) (h2 : x < 2 ^ 63) : wrapInt x = x := by
  unfold wrapInt
  omega

/-- An assignment keeps the descriptors of the table and adds the assigned one at the end when
it is new. -/
theorem StatsTable.keys_set (t : StatsTable) (k : String) (v : queryStat) :
    (t.set k v).keys = if k ∈ t.keys then t.keys else t.keys ++ [k] := by
  unfold StatsTable.set StatsTable.keys
  by_cases h : k ∈ t.map (fun p => p.1)
  · have hany : t.any (fun p => decide (p.1 = k)) = true := by
      simp only [List.mem_map] at h
      obtain ⟨p, hp, hk⟩ := h
      simp only [List.any_eq_true, decide_eq_true_eq]
      exact ⟨p, hp, hk⟩
    rw [if_pos hany, if_pos h, List.map_map]
    apply List.map_congr_left
    intro p _
    by_cases hp : p.1 = k
    · simp [hp]
    · simp [hp]
  · have hany : ¬ t.any (fun p => decide (p.1 = k)) = true := by
      intro hc
      simp only [List.any_eq_true, decide_eq_true_eq] at hc
      obtain ⟨p, hp, hk⟩ := hc
      exact h (List.mem_map.mpr ⟨p, hp, hk⟩)
    rw [if_neg hany, if_neg h]
    simp

/-- A table has one descriptor per entry. -/
theorem StatsTable.length_keys (t : StatsTable) : t.keys.length = t.length := by
  simp [StatsTable.keys]

/-- An assignment adds at most one entry. -/
theorem StatsTable.length_set_le (t : StatsTable) (k : String) (v : queryStat) :
    (t.set k v).length ≤ t.length + 1 := by
  rw [← StatsTable.length_keys, StatsTable.keys_set, ← StatsTable.length_keys t]
  split
  · omega
  · simp

/-- An assignment keeps every descriptor tracked once. -/
theorem StatsTable.nodup_set (t : StatsTable) (k : String) (v : queryStat)
    (h : t.keys.Nodup) : (t.set k v).keys.Nodup := by
  rw [StatsTable.keys_set]
  split
  · exact h
  · rename_i hk
    exact List.Nodup.append h (List.nodup_singleton k) (by simpa using hk)

/-- After the replacement of the entries of `k`, the lookup of `k` finds the new aggregate. -/
theorem find_key_map_same (t : StatsTable) (k : String) (v : queryStat)
    (h : t.any (fun p => decide (p.1 = k)) = true) :
    (t.map (fun p => if p.1 = k then (k, v) else p)).find? (fun p => decide (p.1 = k)) =
      some (k, v) := by
  induction t with
  | nil => simp at h
  | cons p rest ih =>
    by_cases hp : p.1 = k
    · simp [List.find?_cons, hp]
    · have hrest : rest.any (fun p => decide (p.1 = k)) = true := by
        simpa [hp] using h
      rw [List.map_cons, if_neg hp, List.find?_cons]
      simp only [hp, decide_False]
      exact ih hrest

/-- The replacement of the entries of `k` does not change the lookup of another descriptor. -/
theorem find_key_map_other (t : StatsTable) (k k2 : String) (v : queryStat) (h : k2 ≠ k) :
    (t.map (fun p => if p.1 = k then (k, v) else p)).find? (fun p => decide (p.1 = k2)) =
      t.find? (fun p => decide (p.1 = k2)) := by
  induction t with
  | nil => rfl
  | cons p rest ih =>
    by_cases hp : p.1 = k
    · have h1 : ¬ k = k2 := fun hc => h hc.symm
      have h2 : ¬ p.1 = k2 := fun hc => h (hc.symm.trans hp)
      rw [List.map_cons, if_pos hp, List.find?_cons, List.find?_cons]
      simp only [h1, h2, decide_False]
      exact ih
    · rw [List.map_cons, if_neg hp, List.find?_cons, List.find?_cons, ih]

/-- The lookup of a descriptor after its assignment gives the assigned aggregate. -/
theorem StatsTable.get_set_same (t : StatsTable) (k : String) (v : queryStat) :
    (t.set k v).get k = v := by
  unfold StatsTable.set StatsTable.get
  by_cases hany : t.any (fun p => decide (p.1 = k)) = true
  · rw [if_pos hany, find_key_map_same t k v hany]
  · rw [if_neg hany, List.find?_append]
    have hnone : t.find? (fun p => decide (p.1 = k)) = none := by
      rw [List.find?_eq_none]
      intro p hp hk
      exact hany (List.any_eq_true.mpr ⟨p, hp, hk⟩)
    rw [hnone]
    simp [List.find?_cons]

/-- The assignment of a descriptor does not change the lookup of another one. -/
theorem StatsTable.get_set_other (t : StatsTable) (k k2 : String) (v : queryStat)
    (h : k2 ≠ k) : (t.set k v).get k2 = t.get k2 := by
  unfold StatsTable.set StatsTable.get
  by_cases hany : t.any (fun p => decide (p.1 = k)) = true
  · rw [if_pos hany, find_key_map_other t k k2 v h]
  · have h1 : ¬ k = k2 := fun hc => h hc.symm
    rw [if_neg hany, List.find?_append]
    simp [List.find?_cons, h1]

/-! ## Stats : one aggregate -/

/-- The count after a run of samples: one more per sample. -/
theorem foldl_recordSample_count (k : String) (ds : List Int) (a : queryStat) :
    (ds.foldl (fun a d => recordSample a ⟨k, d⟩) a).count = a.count + ds.length := by
  induction ds generalizing a with
  | nil => simp
  | cons d ds ih =>
    rw [List.foldl_cons, ih]
    simp only [recordSample, List.length_cons]
    push_cast
    omega

/-- The sum after a run of samples: the total of the durations, wrapped to 64 bits. -/
theorem foldl_recordSample_sum (k : String) (ds : List Int) (a : queryStat)
    (ha : a.sum = wrapInt a.sum) :
    (ds.foldl (fun a d => recordSample a ⟨k, d⟩) a).sum = wrapInt (a.sum + ds.sum) := by
  induction ds generalizing a with
  | nil => simpa using ha
  | cons d ds ih =>
    rw [List.foldl_cons, ih]
    · simp only [recordSample, List.sum_cons]
      rw [wrapInt_wrapInt_add, add_assoc]
    · simp only [recordSample]
      have := wrapInt_wrapInt_add (a.sum + d) 0
      simpa using this.symm

/-- The average after a run of samples: the sum divided by the count. -/
theorem foldl_recordSample_avg (k : String) (ds : List Int) (a : queryStat)
    (ha : a.avg = Int.tdiv a.sum a.count) :
    (ds.foldl (fun a d => recordSample a ⟨k, d⟩) a).avg =
      Int.tdiv (ds.foldl (fun a d => recordSample a ⟨k, d⟩) a).sum
        (ds.foldl (fun a d => recordSample a ⟨k, d⟩) a).count := by
  induction ds generalizing a with
  | nil => simpa using ha
  | cons d ds ih =>
    rw [List.foldl_cons]
    exact ih _ rfl

/-- Minimum and maximum after a run of strictly positive samples that starts from an aggregate
whose minimum and maximum are strictly positive. -/
theorem foldl_recordSample_min_max (k : String) (ds : List Int) (a : queryStat)
    (hmin : 0 < a.min) (hmax : 0 < a.max) (hds : ∀ d ∈ ds, 0 < d) :
    (ds.foldl (fun a d => recordSample a ⟨k, d⟩) a).min = ds.foldl min a.min ∧
    (ds.foldl (fun a d => recordSample a ⟨k, d⟩) a).max = ds.foldl max a.max := by
  induction ds generalizing a with
  | nil => simp
  | cons d ds ih =>
    have hd : 0 < d := hds d (List.mem_cons_self d ds)
    have hmin2 : (recordSample a ⟨k, d⟩).min = min a.min d := by
      simp only [recordSample]
      split
      · rename_i h
        rcases h with h | h
        · omega
        · exact (min_eq_right (le_of_lt h)).symm
      · rename_i h
        push_neg at h
        exact (min_eq_left h.2).symm
    have hmax2 : (recordSample a ⟨k, d⟩).max = max a.max d := by
      simp only [recordSample]
      split
      · rename_i h
        rcases h with h | h
        · omega
        · exact (max_eq_right (le_of_lt h)).symm
      · rename_i h
        push_neg at h
        exact (max_eq_left h.2).symm
    have := ih (recordSample a ⟨k, d⟩) (by rw [hmin2]; exact lt_min hmin hd)
      (by rw [hmax2]; exact lt_max_of_lt_left hmax)
      (fun x hx => hds x (List.mem_cons_of_mem d hx))
    rw [List.foldl_cons, List.foldl_cons, List.foldl_cons, this.1, this.2, hmin2, hmax2]
    exact ⟨rfl, rfl⟩

/-- Minimum and maximum of a fresh aggregate after a non-empty run of strictly positive samples:
the smallest and the largest of them. -/
theorem recordSample_min_max_of_pos (k : String) (d : Int) (ds : List Int)
    (hds : ∀ x ∈ d :: ds, 0 < x) :
    ((d :: ds).foldl (fun a d => recordSample a ⟨k, d⟩) queryStat.zero).min = ds.foldl min d ∧
    ((d :: ds).foldl (fun a d => recordSample a ⟨k, d⟩) queryStat.zero).max = ds.foldl max d := by
  have hd : 0 < d := hds d (List.mem_cons_self d ds)
  have h := foldl_recordSample_min_max k ds (recordSample queryStat.zero ⟨k, d⟩)
    (by simpa [recordSample, queryStat.zero] using hd)
    (by simpa [recordSample, queryStat.zero] using hd)
    (fun x hx => hds x (List.mem_cons_of_mem d hx))
  rw [List.foldl_cons]
  simpa [recordSample, queryStat.zero] using h

/-! ## Stats : the consuming loops -/

/-- Below the limit of 1000 descriptors a turn of the loop of the sub-package stores the
updated aggregate. -/
theorem StatsPkg.consume_stats (fd : Int → String) (s : StatsPkg.StatsCollector)
    (st : dbSnapshot) (h : s.stats.length ≤ 1000) :
    (s.consume fd st).1.stats = s.stats.set st.query (recordSample (s.stats.get st.query) st) := by
  have h2 : ¬ s.stats.length > 1000 := by omega
  simp [StatsPkg.StatsCollector.consume, h2]

/-- Below the limit of 1000 descriptors a turn of the loop of the root package stores the
updated aggregate. -/
theorem RootPkg.consume_root_stats (ds : Int → String) (s : RootPkg.stdoutDbStatsCollector)
    (st : dbSnapshot) (h : s.stats.length ≤ 1000) :
    (s.consume ds st).1.stats = s.stats.set st.query (recordSample (s.stats.get st.query) st) := by
  have h2 : ¬ s.stats.length > 1000 := by omega
  simp [RootPkg.stdoutDbStatsCollector.consume, h2]

/-- A run of samples only, in the sub-package. -/
theorem StatsPkg.run_samples (fd : Int → String) (s : StatsPkg.StatsCollector)
    (samples : List dbSnapshot) :
    s.run fd (samples.map StatsPkg.Step.sample) =
      samples.foldl (fun s st => (s.consume fd st).1) s := by
  simp only [StatsPkg.StatsCollector.run, List.foldl_map]
  rfl

/-- A loop that, below the limit of 1000 descriptors, stores the updated aggregate of the
descriptor of each sample, leaves for every descriptor the aggregate of its own samples, along
every run without forced reset. -/
theorem foldl_samples_get_within {σ : Type} (tbl : σ → StatsTable) (f : σ → dbSnapshot → σ)
    (hf : ∀ s st, (tbl s).length ≤ 1000 →
      tbl (f s st) = (tbl s).set st.query (recordSample ((tbl s).get st.query) st))
    (k : String) (samples : List dbSnapshot) (s : σ)
    (h : withinLimitAlong tbl f s samples = true) :
    (tbl (samples.foldl f s)).get k =
      (durationsOf k samples).foldl (fun a d => recordSample a ⟨k, d⟩) ((tbl s).get k) := by
  induction samples generalizing s with
  | nil => rfl
  | cons st rest ih =>
    simp only [withinLimitAlong, Bool.and_eq_true, decide_eq_true_eq] at h
    have hstep := hf s st h.1
    rw [List.foldl_cons, ih (f s st) h.2, hstep]
    obtain ⟨q, d⟩ := st
    by_cases hq : q = k
    · subst hq
      simp [durationsOf, StatsTable.get_set_same]
    · have hk : k ≠ q := fun hc => hq hc.symm
      simp [durationsOf, hq, StatsTable.get_set_other _ _ _ _ hk]

/-- A run without forced reset has no forced reset along any of its prefixes. -/
theorem withinLimitAlong_take {σ : Type} (tbl : σ → StatsTable) (f : σ → dbSnapshot → σ)
    (samples : List dbSnapshot) (s : σ) (n : Nat)
    (h : withinLimitAlong tbl f s samples = true) :
    withinLimitAlong tbl f s (samples.take n) = true := by
  induction samples generalizing s n with
  | nil => simp [withinLimitAlong]
  | cons st rest ih =>
    cases n with
    | zero => simp [withinLimitAlong]
    | succ n =>
      simp only [withinLimitAlong, Bool.and_eq_true, decide_eq_true_eq] at h
      simp only [List.take_succ_cons, withinLimitAlong, Bool.and_eq_true, decide_eq_true_eq]
      exact ⟨h.1, ih (f s st) n h.2⟩

/-- Samples that cannot bring the table past 1000 descriptors cause no forced reset. -/
theorem withinLimitAlong_of_length {σ : Type} (tbl : σ → StatsTable) (f : σ → dbSnapshot → σ)
    (hf : ∀ s st, (tbl s).length ≤ 1000 →
      tbl (f s st) = (tbl s).set st.query (recordSample ((tbl s).get st.query) st))
    (samples : List dbSnapshot) (s : σ) (h : (tbl s).length + samples.length ≤ 1000) :
    withinLimitAlong tbl f s samples = true := by
  induction samples generalizing s with
  | nil => rfl
  | cons st rest ih =>
    simp only [List.length_cons] at h
    have hstep := hf s st (by omega)
    have hlen : (tbl (f s st)).length + rest.length ≤ 1000 := by
      have := StatsTable.length_set_le (tbl s) st.query (recordSample ((tbl s).get st.query) st)
      rw [hstep]
      omega
    simp only [withinLimitAlong, Bool.and_eq_true, decide_eq_true_eq]
    exact ⟨by omega, ih (f s st) hlen⟩

/-- Samples of a descriptor that the table tracks cause no forced reset when the table is within
1000 descriptors: the table does not grow. -/
theorem withinLimitAlong_of_tracked {σ : Type} (tbl : σ → StatsTable) (f : σ → dbSnapshot → σ)
    (hf : ∀ s st, (tbl s).length ≤ 1000 →
      tbl (f s st) = (tbl s).set st.query (recordSample ((tbl s).get st.query) st))
    (k : String) (samples : List dbSnapshot) (s : σ) (hq : ∀ st ∈ samples, st.query = k)
    (hk : k ∈ (tbl s).keys) (h : (tbl s).length ≤ 1000) :
    withinLimitAlong tbl f s samples = true := by
  induction samples generalizing s with
  | nil => rfl
  | cons st rest ih =>
    have hst : st.query = k := hq st (List.mem_cons_self st rest)
    have hstep := hf s st h
    have hkeys : (tbl (f s st)).keys = (tbl s).keys := by
      rw [hstep, StatsTable.keys_set, hst, if_pos hk]
    have hlen : (tbl (f s st)).length = (tbl s).length := by
      rw [← StatsTable.length_keys, hkeys, StatsTable.length_keys]
    simp only [withinLimitAlong, Bool.and_eq_true, decide_eq_true_eq]
    exact ⟨h, ih (f s st) (fun x hx => hq x (List.mem_cons_of_mem st hx))
      (by rw [hkeys]; exact hk) (by rw [hlen]; exact h)⟩

/-- Samples of one descriptor cause no forced reset when they start while the table has fewer
than 1000 descriptors: the table grows by one descriptor at most. -/
theorem withinLimitAlong_of_one_descriptor {σ : Type} (tbl : σ → StatsTable)
    (f : σ → dbSnapshot → σ)
    (hf : ∀ s st, (tbl s).length ≤ 1000 →
      tbl (f s st) = (tbl s).set st.query (recordSample ((tbl s).get st.query) st))
    (k : String) (samples : List dbSnapshot) (s : σ) (hq : ∀ st ∈ samples, st.query = k)
    (h : (tbl s).length < 1000) :
    withinLimitAlong tbl f s samples = true := by
  cases samples with
  | nil => rfl
  | cons st rest =>
    have hst : st.query = k := hq st (List.mem_cons_self st rest)
    have hstep := hf s st (by omega)
    have hkeys : k ∈ (tbl (f s st)).keys := by
      rw [hstep, StatsTable.keys_set, hst]
      split
      · assumption
      · simp
    have hlen : (tbl (f s st)).length ≤ 1000 := by
      have := StatsTable.length_set_le (tbl s) st.query (recordSample ((tbl s).get st.query) st)
      rw [hstep]
      omega
    simp only [withinLimitAlong, Bool.and_eq_true, decide_eq_true_eq]
    exact ⟨by omega, withinLimitAlong_of_tracked tbl f hf k rest (f s st)
      (fun x hx => hq x (List.mem_cons_of_mem st hx)) hkeys hlen⟩

/-- The durations of a run of equal samples of the descriptor `k`. -/
theorem durationsOf_replicate (k : String) (d : Int) (n : Nat) :
    durationsOf k (List.replicate n ⟨k, d⟩) = List.replicate n d := by
  simp [durationsOf, List.filter_replicate]

/-! ## Stats : count, sum and average -/

/-- C16, as stated, fails: the sum is a 64-bit number of nanoseconds and wraps. Two samples of
the largest duration (what `time.Since` gives for the zero time) for one descriptor leave, in
both collectors, the count 2, the sum -2ns and the average -1ns, while the total of the two
durations is 18446744073709551614ns. -/
theorem running_sum_wraps_at_64_bits :
    ((StatsPkg.NewStatsCollector (fun t => t) "db" 10).run (fun _ => "")
        [.sample ⟨"q", 9223372036854775807⟩, .sample ⟨"q", 9223372036854775807⟩]).stats.get "q" =
      ⟨"q", 2, 9223372036854775807, 9223372036854775807, -2, -1⟩ ∧
    (RootPkg.newStdoutStatsCollector.run (fun _ => "")
        [⟨"q", 9223372036854775807⟩, ⟨"q", 9223372036854775807⟩]).stats.get "q" =
      ⟨"q", 2, 9223372036854775807, 9223372036854775807, -2, -1⟩ ∧
    (durationsOf "q" [⟨"q", 9223372036854775807⟩, ⟨"q", 9223372036854775807⟩]).sum =
      18446744073709551614 ∧
    (((StatsPkg.NewStatsCollector (fun t => t) "db" 10).run (fun _ => "")
        [.sample ⟨"q", 9223372036854775807⟩, .sample ⟨"q", 9223372036854775807⟩]).stats.get
          "q").sum ≠
      (durationsOf "q" [⟨"q", 9223372036854775807⟩, ⟨"q", 9223372036854775807⟩]).sum := by
  decide

/-- C16, amended: in both collectors, for every sequence of samples, of any descriptors, along
which no reset happens, every descriptor that is fresh before the sequence, and every number n,
after the first n samples the aggregate of the descriptor has as count the number of its samples
so far, as sum the total of their durations wrapped to 64 bits, which is the total itself when
the total lies in the signed 64-bit range, and as average the sum divided by the count (the
truncating division). No reset happens along a sequence that cannot bring the table past 1000
descriptors, and in particular along any number of samples of one descriptor that arrive while
the table has fewer than 1000 descriptors. -/
theorem aggregate_counts_sums_and_averages (fd ds : Int → String) (s : StatsPkg.StatsCollector)
    (r : RootPkg.stdoutDbStatsCollector) (k : String) (samples : List dbSnapshot) :
    (s.noReset fd samples = true → s.stats.get k = queryStat.zero → ∀ n : Nat,
      ((s.run fd ((samples.take n).map StatsPkg.Step.sample)).stats.get k).count =
        (durationsOf k (samples.take n)).length ∧
      ((s.run fd ((samples.take n).map StatsPkg.Step.sample)).stats.get k).sum =
        wrapInt (durationsOf k (samples.take n)).sum ∧
      ((s.run fd ((samples.take n).map StatsPkg.Step.sample)).stats.get k).avg =
        Int.tdiv ((s.run fd ((samples.take n).map StatsPkg.Step.sample)).stats.get k).sum
          ((s.run fd ((samples.take n).map StatsPkg.Step.sample)).stats.get k).count ∧
      (-(2 ^ 63) ≤ (durationsOf k (samples.take n)).sum ∧
          (durationsOf k (samples.take n)).sum < 2 ^ 63 →
        ((s.run fd ((samples.take n).map StatsPkg.Step.sample)).stats.get k).sum =
          (durationsOf k (samples.take n)).sum ∧
        ((s.run fd ((samples.take n).map StatsPkg.Step.sample)).stats.get k).avg =
          Int.tdiv (durationsOf k (samples.take n)).sum
            (durationsOf k (samples.take n)).length)) ∧
    (r.noReset ds samples = true → r.stats.get k = queryStat.zero → ∀ n : Nat,
      ((r.run ds (samples.take n)).stats.get k).count = (durationsOf k (samples.take n)).length ∧
      ((r.run ds (samples.take n)).stats.get k).sum =
        wrapInt (durationsOf k (samples.take n)).sum ∧
      ((r.run ds (samples.take n)).stats.get k).avg =
        Int.tdiv ((r.run ds (samples.take n)).stats.get k).sum
          ((r.run ds (samples.take n)).stats.get k).count ∧
      (-(2 ^ 63) ≤ (durationsOf k (samples.take n)).sum ∧
          (durationsOf k (samples.take n)).sum < 2 ^ 63 →
        ((r.run ds (samples.take n)).stats.get k).sum = (durationsOf k (samples.take n)).sum ∧
        ((r.run ds (samples.take n)).stats.get k).avg =
          Int.tdiv (durationsOf k (samples.take n)).sum
            (durationsOf k (samples.take n)).length)) ∧
    (s.stats.length + samples.length ≤ 1000 → s.noReset fd samples = true) ∧
    (r.stats.length + samples.length ≤ 1000 → r.noReset ds samples = true) ∧
    ((∀ st ∈ samples, st.query = k) → s.stats.length < 1000 → s.noReset fd samples = true) ∧
    ((∀ st ∈ samples, st.query = k) → r.stats.length < 1000 → r.noReset ds samples = true) := by
  have key : ∀ (a : queryStat) (l : List dbSnapshot),
      a = (durationsOf k l).foldl (fun a d => recordSample a ⟨k, d⟩) queryStat.zero →
      a.count = (durationsOf k l).length ∧
      a.sum = wrapInt (durationsOf k l).sum ∧
      a.avg = Int.tdiv a.sum a.count ∧
      (-(2 ^ 63) ≤ (durationsOf k l).sum ∧ (durationsOf k l).sum < 2 ^ 63 →
        a.sum = (durationsOf k l).sum ∧
        a.avg = Int.tdiv (durationsOf k l).sum (durationsOf k l).length) := by
    intro a l ha
    have hc := foldl_recordSample_count k (durationsOf k l) queryStat.zero
    have hsm := foldl_recordSample_sum k (durationsOf k l) queryStat.zero (by decide)
    have hav := foldl_recordSample_avg k (durationsOf k l) queryStat.zero (by decide)
    have hz : queryStat.zero.sum + (durationsOf k l).sum = (durationsOf k l).sum := by
      simp [queryStat.zero]
    have hz2 : queryStat.zero.count + ((durationsOf k l).length : Int) =
        (durationsOf k l).length := by
      simp [queryStat.zero]
    rw [hz] at hsm
    rw [hz2] at hc
    rw [← ha] at hc hsm hav
    refine ⟨hc, hsm, hav, fun hr => ?_⟩
    have hsum : a.sum = (durationsOf k l).sum := by
      rw [hsm, wrapInt_of_int64 _ hr.1 hr.2]
    refine ⟨hsum, ?_⟩
    rw [hav, hsum, hc]
  refine ⟨fun hs hsk n => ?_, fun hr hrk n => ?_, fun h => ?_, fun h => ?_, fun hq h => ?_,
    fun hq h => ?_⟩
  · apply key
    rw [StatsPkg.run_samples]
    have := foldl_samples_get_within (fun s => s.stats) (fun s st => (s.consume fd st).1)
      (fun s st hs => StatsPkg.consume_stats fd s st hs) k (samples.take n) s
      (withinLimitAlong_take (fun (s : StatsPkg.StatsCollector) => s.stats)
        (fun s st => (s.consume fd st).1) samples s n hs)
    rw [this, hsk]
  · apply key
    have := foldl_samples_get_within (fun s => s.stats) (fun s st => (s.consume ds st).1)
      (fun s st hs => RootPkg.consume_root_stats ds s st hs) k (samples.take n) r
      (withinLimitAlong_take (fun (s : RootPkg.stdoutDbStatsCollector) => s.stats)
        (fun s st => (s.consume ds st).1) samples r n hr)
    rw [← hrk]
    exact this
  · exact withinLimitAlong_of_length (fun s => s.stats) (fun s st => (s.consume fd st).1)
      (fun s st hs => StatsPkg.consume_stats fd s st hs) samples s h
  · exact withinLimitAlong_of_length (fun s => s.stats) (fun s st => (s.consume ds st).1)
      (fun s st hs => RootPkg.consume_root_stats ds s st hs) samples r h
  · exact withinLimitAlong_of_one_descriptor (fun s => s.stats)
      (fun s st => (s.consume fd st).1)
      (fun s st hs => StatsPkg.consume_stats fd s st hs) k samples s hq h
  · exact withinLimitAlong_of_one_descriptor (fun s => s.stats)
      (fun s st => (s.consume ds st).1)
      (fun s st hs => RootPkg.consume_root_stats ds s st hs) k samples r hq h

/-- C16, two instances. The samples 10ms, 20ms and 30ms for the descriptor `loading User`, given
to fresh collectors, cause no reset and leave the count 3, the sum 60ms and the average 20ms.
And 1001 samples of 1ns for one descriptor, given to a fresh collector, cause no reset and leave
the count 1001. -/
theorem aggregate_counts_sums_and_averages_witness :
    (durationsOf "loading User"
      [⟨"loading User", 10000000⟩, ⟨"loading User", 20000000⟩, ⟨"loading User", 30000000⟩]) =
      [10000000, 20000000, 30000000] ∧
    Int.tdiv ([10000000, 20000000, 30000000] : List Int).sum
      (([10000000, 20000000, 30000000] : List Int).length : Int) = 20000000 ∧
    (StatsPkg.NewStatsCollector (fun t => t) "db" 10).noReset (fun _ => "")
      [⟨"loading User", 10000000⟩, ⟨"loading User", 20000000⟩, ⟨"loading User", 30000000⟩] =
      true ∧
    (((StatsPkg.NewStatsCollector (fun t => t) "db" 10).run (fun _ => "")
        ([⟨"loading User", 10000000⟩, ⟨"loading User", 20000000⟩,
          ⟨"loading User", 30000000⟩].map StatsPkg.Step.sample)).stats.get "loading User") =
      ⟨"loading User", 3, 10000000, 30000000, 60000000, 20000000⟩ ∧
    (((StatsPkg.NewStatsCollector (fun t => t) "db" 10).run (fun _ => "")
        (([⟨"loading User", 10000000⟩, ⟨"loading User", 20000000⟩,
          ⟨"loading User", 30000000⟩].take 3).map StatsPkg.Step.sample)).stats.get
            "loading User").avg =
      Int.tdiv
        (durationsOf "loading User"
          ([⟨"loading User", 10000000⟩, ⟨"loading User", 20000000⟩,
            ⟨"loading User", 30000000⟩].take 3)).sum
        (durationsOf "loading User"
          ([⟨"loading User", 10000000⟩, ⟨"loading User", 20000000⟩,
            ⟨"loading User", 30000000⟩].take 3)).length ∧
    (StatsPkg.NewStatsCollector (fun t => t) "db" 10).noReset (fun _ => "")
      (List.replicate 1001 ⟨"q", 1⟩) = true ∧
    (((StatsPkg.NewStatsCollector (fun t => t) "db" 10).run (fun _ => "")
        (((List.replicate 1001 (⟨"q", 1⟩ : dbSnapshot)).take 1001).map
          StatsPkg.Step.sample)).stats.get "q").count = 1001 :=
  ⟨by decide, by decide, by decide, by decide,
    (((aggregate_counts_sums_and_averages (fun _ => "") (fun _ => "")
      (StatsPkg.NewStatsCollector (fun t => t) "db" 10) RootPkg.newStdoutStatsCollector
      "loading User"
      [⟨"loading User", 10000000⟩, ⟨"loading User", 20000000⟩,
        ⟨"loading User", 30000000⟩]).1 (by decide) (by decide) 3).2.2.2 (by decide)).2,
    (aggregate_counts_sums_and_averages (fun _ => "") (fun _ => "")
      (StatsPkg.NewStatsCollector (fun t => t) "db" 10) RootPkg.newStdoutStatsCollector
      "q" (List.replicate 1001 ⟨"q", 1⟩)).2.2.2.2.1
        (fun st hst => by rw [List.eq_of_mem_replicate hst]) (by decide),
    (((aggregate_counts_sums_and_averages (fun _ => "") (fun _ => "")
      (StatsPkg.NewStatsCollector (fun t => t) "db" 10) RootPkg.newStdoutStatsCollector
      "q" (List.replicate 1001 ⟨"q", 1⟩)).1
        ((aggregate_counts_sums_and_averages (fun _ => "") (fun _ => "")
          (StatsPkg.NewStatsCollector (fun t => t) "db" 10) RootPkg.newStdoutStatsCollector
          "q" (List.replicate 1001 ⟨"q", 1⟩)).2.2.2.2.1
            (fun st hst => by rw [List.eq_of_mem_replicate hst]) (by decide))
        (by decide) 1001).1).trans
      (by rw [List.take_replicate, durationsOf_replicate, List.length_replicate]; rfl)⟩

/-! ## Stats : minimum and maximum -/

/-- C17: what the code does. The minimum and the maximum of an aggregate are replaced when they
are 0, the value of a fresh aggregate, or beaten. A sample of 0ns followed by a sample of 5ns for
the same descriptor therefore leaves the minimum 5ns, where the smallest duration is 0ns; the
maximum, 5ns, is right. The samples 10ms, 20ms and 30ms leave the minimum 10ms and the maximum
30ms. -/
theorem min_forgets_a_zero_duration :
    (∀ fd : Int → String,
      ((StatsPkg.NewStatsCollector (fun t => t) "db" 10).run fd
        [.sample ⟨"q", 0⟩, .sample ⟨"q", 5⟩]).stats.get "q" = ⟨"q", 2, 5, 5, 5, 2⟩) ∧
    (∀ ds : Int → String,
      (RootPkg.newStdoutStatsCollector.run ds [⟨"q", 0⟩, ⟨"q", 5⟩]).stats.get "q" =
        ⟨"q", 2, 5, 5, 5, 2⟩) ∧
    ([0, 5] : List Int).foldl min 0 = 0 ∧
    (∀ fd : Int → String,
      ((StatsPkg.NewStatsCollector (fun t => t) "db" 10).run fd
        [.sample ⟨"loading User", 10000000⟩, .sample ⟨"loading User", 20000000⟩,
          .sample ⟨"loading User", 30000000⟩]).stats.get "loading User" =
        ⟨"loading User", 3, 10000000, 30000000, 60000000, 20000000⟩) ∧
    (∀ (a : queryStat) (st : dbSnapshot),
      (recordSample a st).min = (if a.min = 0 ∨ st.d < a.min then st.d else a.min) ∧
      (recordSample a st).max = (if a.max = 0 ∨ st.d > a.max then st.d else a.max)) := by
  refine ⟨fun _ => ?_, fun _ => ?_, by decide, fun _ => ?_, fun _ _ => ⟨rfl, rfl⟩⟩
  · rfl
  · rfl
  · rfl

/-! ## Stats : the bound on the table -/

/-- Past the limit of 1000 descriptors a turn of the loop of the sub-package starts from the
empty table. -/
theorem StatsPkg.consume_stats_over (fd : Int → String) (s : StatsPkg.StatsCollector)
    (st : dbSnapshot) (h : s.stats.length > 1000) :
    (s.consume fd st).1.stats = [(st.query, recordSample queryStat.zero st)] := by
  simp [StatsPkg.StatsCollector.consume, h, StatsTable.set, StatsTable.get]

/-- Past the limit of 1000 descriptors a turn of the loop of the root package starts from the
empty table. -/
theorem RootPkg.consume_root_stats_over (ds : Int → String)
    (s : RootPkg.stdoutDbStatsCollector) (st : dbSnapshot) (h : s.stats.length > 1000) :
    (s.consume ds st).1.stats = [(st.query, recordSample queryStat.zero st)] := by
  simp [RootPkg.stdoutDbStatsCollector.consume, h, StatsTable.set, StatsTable.get]

/-- A step of the collector of the sub-package keeps the table within 1001 descriptors, each
tracked once. -/
theorem StatsPkg.step_bound (fd : Int → String) (s : StatsPkg.StatsCollector)
    (x : StatsPkg.Step) (h : s.stats.length ≤ 1001 ∧ s.stats.keys.Nodup) :
    (s.step fd x).stats.length ≤ 1001 ∧ (s.step fd x).stats.keys.Nodup := by
  cases x with
  | report =>
    simp [StatsPkg.StatsCollector.step, StatsPkg.StatsCollector.PrintStatsAndReset,
      StatsPkg.StatsCollector.Reset, StatsTable.keys]
  | sample st =>
    simp only [StatsPkg.StatsCollector.step]
    by_cases hover : s.stats.length > 1000
    · rw [StatsPkg.consume_stats_over fd s st hover]
      simp [StatsTable.keys]
    · rw [StatsPkg.consume_stats fd s st (by omega)]
      have := StatsTable.length_set_le s.stats st.query (recordSample (s.stats.get st.query) st)
      exact ⟨by omega, StatsTable.nodup_set _ _ _ h.2⟩

/-- A turn of the loop of the root package keeps the table within 1001 descriptors, each
tracked once. -/
theorem RootPkg.consume_root_bound (ds : Int → String) (s : RootPkg.stdoutDbStatsCollector)
    (st : dbSnapshot) (h : s.stats.length ≤ 1001 ∧ s.stats.keys.Nodup) :
    (s.consume ds st).1.stats.length ≤ 1001 ∧ (s.consume ds st).1.stats.keys.Nodup := by
  by_cases hover : s.stats.length > 1000
  · rw [RootPkg.consume_root_stats_over ds s st hover]
    simp [StatsTable.keys]
  · rw [RootPkg.consume_root_stats ds s st (by omega)]
    have := StatsTable.length_set_le s.stats st.query (recordSample (s.stats.get st.query) st)
    exact ⟨by omega, StatsTable.nodup_set _ _ _ h.2⟩

/-- Any sequence of steps of the collector of the sub-package keeps the table within 1001
descriptors, each tracked once. -/
theorem StatsPkg.run_bound (fd : Int → String) (steps : List StatsPkg.Step)
    (s : StatsPkg.StatsCollector) (h : s.stats.length ≤ 1001 ∧ s.stats.keys.Nodup) :
    (s.run fd steps).stats.length ≤ 1001 ∧ (s.run fd steps).stats.keys.Nodup := by
  induction steps generalizing s with
  | nil => exact h
  | cons x rest ih => exact ih (s.step fd x) (StatsPkg.step_bound fd s x h)

/-- Any sequence of samples keeps the table of the collector of the root package within 1001
descriptors, each tracked once. -/
theorem RootPkg.run_root_bound (ds : Int → String) (samples : List dbSnapshot)
    (s : RootPkg.stdoutDbStatsCollector) (h : s.stats.length ≤ 1001 ∧ s.stats.keys.Nodup) :
    (s.run ds samples).stats.length ≤ 1001 ∧ (s.run ds samples).stats.keys.Nodup := by
  induction samples generalizing s with
  | nil => exact h
  | cons x rest ih => exact ih (s.consume ds x).1 (RootPkg.consume_root_bound ds s x h)

/-- C18: in both collectors, a sample that arrives while more than 1000 descriptors are tracked
makes the loop print its warnings and its report, empty the table and only then record the
sample: the table is left with the one aggregate of that sample alone. Consequently, from a
table of at most 1001 descriptors, each tracked once (the empty table of a new collector is
one), any sequence of samples, and in the sub-package of samples and periodic reports, leaves a
table of at most 1001 descriptors, each tracked once. -/
theorem table_is_emptied_past_1000_and_stays_within_1001 (fd ds : Int → String)
    (s s0 : StatsPkg.StatsCollector) (r r0 : RootPkg.stdoutDbStatsCollector) (st : dbSnapshot)
    (steps : List StatsPkg.Step) (samples : List dbSnapshot)
    (hs : s.stats.length > 1000) (hr : r.stats.length > 1000)
    (hs0 : s0.stats.length ≤ 1001 ∧ s0.stats.keys.Nodup)
    (hr0 : r0.stats.length ≤ 1001 ∧ r0.stats.keys.Nodup) :
    ((s.consume fd st).1.stats = [(st.query, recordSample queryStat.zero st)] ∧
      (s.consume fd st).2 =
        [Output.stderr ("too many queries " ++ toString s.stats.length ++ "\n"),
          Output.stderr ("too many queries " ++ toString s.stats.length ++ " => cleaning" ++ "\n")]
          ++ (s.PrintStatsAndReset fd).2 ∧
      (s.PrintStatsAndReset fd).1.stats = []) ∧
    ((r.consume ds st).1.stats = [(st.query, recordSample queryStat.zero st)] ∧
      (r.consume ds st).2 =
        [Output.stderr ("too many log queries " ++ toString r.stats.length ++ "\n"),
          Output.stderr
            ("too many log queries " ++ toString r.stats.length ++ " => cleaning" ++ "\n")]
          ++ r.PrintDbStats ds 500) ∧
    ((s0.run fd steps).stats.length ≤ 1001 ∧ (s0.run fd steps).stats.keys.Nodup) ∧
    ((r0.run ds samples).stats.length ≤ 1001 ∧ (r0.run ds samples).stats.keys.Nodup) := by
  have hs5 : s.stats.length > 500 := by omega
  have hr5 : r.stats.length > 500 := by omega
  refine ⟨⟨StatsPkg.consume_stats_over fd s st hs, ?_, rfl⟩,
    ⟨RootPkg.consume_root_stats_over ds r st hr, ?_⟩,
    StatsPkg.run_bound fd steps s0 hs0, RootPkg.run_root_bound ds samples r0 hr0⟩
  · simp [StatsPkg.StatsCollector.consume, hs, hs5]
  · simp [RootPkg.stdoutDbStatsCollector.consume, hr, hr5]

/-- C18, an instance: a sample for `q` that arrives at a table of 1001 descriptors leaves the
table with the aggregate of that sample alone, and a new collector stays within 1001
descriptors after two samples and a report. -/
theorem table_is_emptied_past_1000_and_stays_within_1001_witness :
    sampleFullTable.length > 1000 ∧
    ((⟨"DB", 10, sampleFullTable, ""⟩ : StatsPkg.StatsCollector).consume (fun _ => "")
      ⟨"q", 5⟩).1.stats = [("q", ⟨"q", 1, 5, 5, 5, 5⟩)] ∧
    ((⟨sampleFullTable⟩ : RootPkg.stdoutDbStatsCollector).consume (fun _ => "")
      ⟨"q", 5⟩).1.stats = [("q", ⟨"q", 1, 5, 5, 5, 5⟩)] ∧
    (((StatsPkg.NewStatsCollector (fun t => t) "db" 10).run (fun _ => "")
      [.sample ⟨"q", 5⟩, .report, .sample ⟨"p", 7⟩]).stats.length ≤ 1001) :=
  ⟨by simp [sampleFullTable],
    (table_is_emptied_past_1000_and_stays_within_1001 (fun _ => "") (fun _ => "")
      ⟨"DB", 10, sampleFullTable, ""⟩ (StatsPkg.NewStatsCollector (fun t => t) "db" 10)
      ⟨sampleFullTable⟩ RootPkg.newStdoutStatsCollector ⟨"q", 5⟩
      [.sample ⟨"q", 5⟩, .report, .sample ⟨"p", 7⟩] []
      (by simp [sampleFullTable]) (by simp [sampleFullTable])
      ⟨by decide, by decide⟩ ⟨by decide, by decide⟩).1.1,
    (table_is_emptied_past_1000_and_stays_within_1001 (fun _ => "") (fun _ => "")
      ⟨"DB", 10, sampleFullTable, ""⟩ (StatsPkg.NewStatsCollector (fun t => t) "db" 10)
      ⟨sampleFullTable⟩ RootPkg.newStdoutStatsCollector ⟨"q", 5⟩
      [.sample ⟨"q", 5⟩, .report, .sample ⟨"p", 7⟩] []
      (by simp [sampleFullTable]) (by simp [sampleFullTable])
      ⟨by decide, by decide⟩ ⟨by decide, by decide⟩).2.1.1,
    (table_is_emptied_past_1000_and_stays_within_1001 (fun _ => "") (fun _ => "")
      ⟨"DB", 10, sampleFullTable, ""⟩ (StatsPkg.NewStatsCollector (fun t => t) "db" 10)
      ⟨sampleFullTable⟩ RootPkg.newStdoutStatsCollector ⟨"q", 5⟩
      [.sample ⟨"q", 5⟩, .report, .sample ⟨"p", 7⟩] []
      (by simp [sampleFullTable]) (by simp [sampleFullTable])
      ⟨by decide, by decide⟩ ⟨by decide, by decide⟩).2.2.1.1⟩

/-! ## Stats : the report -/

/-- The loop of `PrintStatsAndReset` writes the first `top - count + 1` aggregates it walks. -/
theorem StatsPkg.printLoop_eq_take (top count : Int) (xs : List queryStat) (h : count ≤ top) :
    StatsPkg.printLoop top count xs = xs.take (top - count + 1).toNat := by
  induction xs generalizing count with
  | nil => simp [StatsPkg.printLoop]
  | cons x rest ih =>
    have hn : (top - count + 1).toNat = (top - (count + 1) + 1).toNat + 1 := by omega
    by_cases hc : count + 1 > top
    · have h1 : (top - count + 1).toNat = 1 := by omega
      simp [StatsPkg.printLoop, hc, h1]
    · rw [StatsPkg.printLoop, if_neg hc, ih (count + 1) (by omega), hn, List.take_succ_cons]

/-- The loop of `PrintDbStats` writes the first `i - (len - count)` aggregates it walks. -/
theorem RootPkg.printDbLoop_eq_take (len count i : Int) (xs : List queryStat)
    (h : (xs.length : Int) = i + 1) :
    RootPkg.printDbLoop len count i xs = xs.take (i - (len - count)).toNat := by
  induction xs generalizing i with
  | nil => simp [RootPkg.printDbLoop]
  | cons x rest ih =>
    simp only [List.length_cons] at h
    push_cast at h
    by_cases hc : i ≥ 0 ∧ i > len - count
    · have hn : (i - (len - count)).toNat = (i - 1 - (len - count)).toNat + 1 := by omega
      rw [RootPkg.printDbLoop, if_pos hc, ih (i - 1) (by omega), hn, List.take_succ_cons]
    · have h0 : (i - (len - count)).toNat = 0 := by omega
      rw [RootPkg.printDbLoop, if_neg hc, h0, List.take_zero]

/-- The sorted list of aggregates has the length of the list. -/
theorem sortByAvg_length (list : List queryStat) : (sortByAvg list).length = list.length := by
  simp [sortByAvg, List.length_insertionSort]

/-- Walked from its end, the sorted list of aggregates is in non-increasing order of average. -/
theorem sortByAvg_reverse_descending (list : List queryStat) :
    (sortByAvg list).reverse.Pairwise (fun a b => b.avg ≤ a.avg) := by
  haveI : IsTotal queryStat (fun a b => a.avg ≤ b.avg) := ⟨fun a b => le_total a.avg b.avg⟩
  haveI : IsTrans queryStat (fun a b => a.avg ≤ b.avg) :=
    ⟨fun a b c hab hbc => le_trans hab hbc⟩
  have h := List.sorted_insertionSort (fun a b : queryStat => a.avg ≤ b.avg) list
  rw [List.pairwise_reverse]
  exact h

/-- C19: what the code does. Both reports walk the aggregates from the largest average down, in
non-increasing order of average, but neither writes N lines: `PrintStatsAndReset` of the
sub-package raises its counter after writing a line and stops when the counter is above `top`,
so it writes the first `top + 1` aggregates; `PrintDbStats(count)` of the root package goes on
while the index is above `len - count`, so it writes the first `count - 1`. For three aggregates
of the averages 5ns, 7ns and 6ns and N = 2 the first writes all three lines and the second
one line, where the two largest averages are 7ns and 6ns. -/
theorem report_lists_one_line_more_or_less_than_top :
    (∀ (top : Nat) (t : StatsTable),
      StatsPkg.printedStats top t =
        ((sortByAvg (t.map (fun p => p.2))).reverse).take (top + 1)) ∧
    (∀ (count : Int) (t : StatsTable),
      RootPkg.printedDbStats count t =
        ((sortByAvg (t.map (fun p => p.2))).reverse).take (count - 1).toNat) ∧
    (∀ t : StatsTable,
      ((sortByAvg (t.map (fun p => p.2))).reverse).Pairwise (fun a b => b.avg ≤ a.avg)) ∧
    StatsPkg.printedStats 2 sampleThreeAggregates =
      [⟨"b", 1, 7, 7, 7, 7⟩, ⟨"c", 1, 6, 6, 6, 6⟩, ⟨"a", 1, 5, 5, 5, 5⟩] ∧
    (∀ fd : Int → String,
      ((⟨"DB", 2, sampleThreeAggregates, ""⟩ : StatsPkg.StatsCollector).PrintStatsAndReset fd).1 =
        ⟨"DB", 2, [],
          "DB" ++ " " ++ " (avg/min/max/count):" ++ "\n" ++
            String.join [StatsPkg.reportLine fd ⟨"b", 1, 7, 7, 7, 7⟩,
              StatsPkg.reportLine fd ⟨"c", 1, 6, 6, 6, 6⟩,
              StatsPkg.reportLine fd ⟨"a", 1, 5, 5, 5, 5⟩]⟩) ∧
    RootPkg.printedDbStats 2 sampleThreeAggregates = [⟨"b", 1, 7, 7, 7, 7⟩] ∧
    (∀ ds : Int → String,
      (⟨sampleThreeAggregates⟩ : RootPkg.stdoutDbStatsCollector).PrintDbStats ds 2 =
        [Output.stdout ("SLOWEST QUERIES:\n" ++
          String.join [RootPkg.dbReportLine ds ⟨"b", 1, 7, 7, 7, 7⟩] ++ "\n")]) := by
  refine ⟨?_, ?_, fun t => sortByAvg_reverse_descending _, by decide, fun _ => ?_, by decide,
    fun _ => ?_⟩
  · intro top t
    rw [StatsPkg.printedStats, StatsPkg.printLoop_eq_take _ _ _ (by omega)]
    congr 1
  · intro count t
    rw [RootPkg.printedDbStats, RootPkg.printDbLoop_eq_take]
    · congr 2
      omega
    · simp [sortByAvg_length]
  · have h : StatsPkg.printedStats 2 sampleThreeAggregates =
        [⟨"b", 1, 7, 7, 7, 7⟩, ⟨"c", 1, 6, 6, 6, 6⟩, ⟨"a", 1, 5, 5, 5, 5⟩] := by decide
    have hl : sampleThreeAggregates.length = 3 := rfl
    simp [StatsPkg.StatsCollector.PrintStatsAndReset, StatsPkg.StatsCollector.Reset, h, hl]
  · have h : RootPkg.printedDbStats 2 sampleThreeAggregates = [⟨"b", 1, 7, 7, 7, 7⟩] := by
      decide
    simp [RootPkg.stdoutDbStatsCollector.PrintDbStats, h]

/-! ## Full pages -/

/-- The default page size that `AllWithPageFull` sets is the one `All` would set itself: the
fetch has the same result and the same effects. -/
theorem DaoPkg.All_default_pageSize (fmt : Fmt) (g : Gorm) (q : DaoPkg.Query)
    (target : Option Target) :
    ((if q.pageSize = 0 then { q with pageSize := DaoPkg.defaultPageSize } else q).All fmt g
        target).err = (q.All fmt g target).err ∧
    ((if q.pageSize = 0 then { q with pageSize := DaoPkg.defaultPageSize } else q).All fmt g
        target).value = (q.All fmt g target).value ∧
    ((if q.pageSize = 0 then { q with pageSize := DaoPkg.defaultPageSize } else q).All fmt g
        target).trace = (q.All fmt g target).trace := by
  by_cases h : q.pageSize = 0
  · obtain ⟨e, pn, ps, incl, ls, ex, vs, ob⟩ := q
    simp only at h
    subst h
    cases e with
    | some err => simp [DaoPkg.Query.All, DaoPkg.Query.allDb]
    | none =>
      have hq : ((if (⟨none, pn, 0, incl, ls, ex, vs, ob⟩ : DaoPkg.Query).pageSize = 0 then
            { (⟨none, pn, 0, incl, ls, ex, vs, ob⟩ : DaoPkg.Query) with
              pageSize := DaoPkg.defaultPageSize }
          else ⟨none, pn, 0, incl, ls, ex, vs, ob⟩).All fmt g target) =
          (⟨none, pn, 0, incl, ls, ex, vs, ob⟩ : DaoPkg.Query).All fmt g target := by
        simp [DaoPkg.Query.All, DaoPkg.Query.allDb, DaoPkg.defaultPageSize,
          DaoPkg.Query.whereExpressionAndValues, DaoPkg.Query.prepareDb, DaoPkg.Query.getLogStr]
      rw [hq]
      exact ⟨rfl, rfl, rfl⟩
  · rw [if_neg h]
    exact ⟨rfl, rfl, rfl⟩

/-- The method `All` leaves the query as `allDb` leaves it. -/
theorem DaoPkg.All_query (fmt : Fmt) (g : Gorm) (q : DaoPkg.Query) (target : Option Target) :
    (q.All fmt g target).query = (q.allDb fmt g none target).query := by
  simp only [DaoPkg.Query.All]
  repeat' split
  all_goals rfl

/-- The method `allDb` leaves a page size that is set as it is. -/
theorem DaoPkg.allDb_query_pageSize (fmt : Fmt) (g : Gorm) (q : DaoPkg.Query)
    (target : Option Target) (h : q.pageSize ≠ 0) :
    (q.allDb fmt g none target).query.pageSize = q.pageSize := by
  simp only [DaoPkg.Query.allDb, h, if_false]
  repeat' split
  all_goals rfl

/-- The fetch of page 0 of a query without error into a pointer target: one `Find` call whose
handle carries the page size as limit and no offset; when the store answers it without error,
its answer is what `All` returns. -/
theorem DaoPkg.All_page_zero (fmt : Fmt) (g : Gorm) (q : DaoPkg.Query) (t : Target)
    (he : q.err = none) (hn : q.pageNo = 0) (hp : 0 < q.pageSize) (ht : t.isPtr = true) :
    (q.All fmt g (some t)).trace.filter Event.isStorage =
      [Event.storage (.Find ⟨q.orderBy, q.includeDeleted, none, some q.pageSize⟩ t
        q.whereExpressionAndValues)] ∧
    ((g.exec (.Find ⟨q.orderBy, q.includeDeleted, none, some q.pageSize⟩ t
        q.whereExpressionAndValues)).Error = none →
      (q.All fmt g (some t)).err = none ∧
      (q.All fmt g (some t)).value =
        (g.exec (.Find ⟨q.orderBy, q.includeDeleted, none, some q.pageSize⟩ t
          q.whereExpressionAndValues)).loaded) := by
  have hps : q.pageSize ≠ 0 := by omega
  refine ⟨?_, ?_⟩
  · simp [DaoPkg.Query.All, DaoPkg.Query.allDb, he, ht, hps, hn, DaoPkg.Query.prepareDb,
      Event.isStorage]
    split <;> (try split) <;> simp [Event.isStorage]
  · intro h
    simp only [DaoPkg.Query.All, DaoPkg.Query.allDb, he, ht, hps, hn, Bool.not_true,
      Bool.false_eq_true, if_false, DaoPkg.Query.prepareDb, gt_iff_lt, lt_self_iff_false, h]
    exact ⟨trivial, trivial⟩

/-- What `AllWithPageFull` returns, in terms of what `All` returns for the same query. -/
theorem DaoPkg.AllWithPageFull_eq (fmt : Fmt) (g : Gorm) (q : DaoPkg.Query)
    (target : Option Target) :
    (q.AllWithPageFull fmt g target).err = (q.All fmt g target).err ∧
    (q.AllWithPageFull fmt g target).value =
      (match (q.All fmt g target).err with
        | some _ => false
        | none => decide (((q.All fmt g target).value.length : Int) ≥
            (if q.pageSize = 0 then DaoPkg.defaultPageSize else q.pageSize))) := by
  obtain ⟨h1, h2, _⟩ := DaoPkg.All_default_pageSize fmt g q target
  have hne : (if q.pageSize = 0 then { q with pageSize := DaoPkg.defaultPageSize } else q).pageSize
      ≠ 0 := by
    split
    · simp [DaoPkg.defaultPageSize]
    · assumption
  have hps := DaoPkg.allDb_query_pageSize fmt g _ target hne
  rw [← DaoPkg.All_query] at hps
  have heff : (if q.pageSize = 0 then { q with pageSize := DaoPkg.defaultPageSize } else q).pageSize
      = (if q.pageSize = 0 then DaoPkg.defaultPageSize else q.pageSize) := by
    split <;> rfl
  rw [heff] at hps
  simp only [DaoPkg.Query.AllWithPageFull]
  cases hr : (q.All fmt g target).err with
  | some e =>
    rw [hr] at h1
    simp only [h1]
    exact ⟨trivial, trivial⟩
  | none =>
    rw [hr] at h1
    simp only [h1, hps, h2]
    exact ⟨trivial, trivial⟩

/-- C20: `AllWithPageFull` returns the error of `All`; without an error its indication is true
exactly when the number of records `All` fetched is at least the effective page size (the
configured one, or 50 when none is set), and with an error it is false. In particular, for a
query without error on page 0 with the page size p > 0 and a pointer target, `All` makes one
fetch, with the orderings and the soft-delete scope of the query, the limit p and no offset;
when the store answers that fetch without error and with the first p of the rows that match, in
the order asked for, the records fetched are the first p of those rows, the indication is true
exactly when at least p rows match, and then exactly p records are fetched. -/
theorem pageFull_iff_page_size_reached (fmt : Fmt) (g : Gorm) (q : DaoPkg.Query)
    (target : Option Target) :
    (q.AllWithPageFull fmt g target).err = (q.All fmt g target).err ∧
    ((q.All fmt g target).err = none →
      ((q.AllWithPageFull fmt g target).value = true ↔
        ((q.All fmt g target).value.length : Int) ≥
          (if q.pageSize = 0 then DaoPkg.defaultPageSize else q.pageSize))) ∧
    ((q.All fmt g target).err ≠ none → (q.AllWithPageFull fmt g target).value = false) ∧
    (∀ (t : Target) (rows : List Model),
      target = some t → q.err = none → q.pageNo = 0 → 0 < q.pageSize → t.isPtr = true →
      (q.All fmt g target).trace.filter Event.isStorage =
        [Event.storage (.Find ⟨q.orderBy, q.includeDeleted, none, some q.pageSize⟩ t
          q.whereExpressionAndValues)] ∧
      ((g.exec (.Find ⟨q.orderBy, q.includeDeleted, none, some q.pageSize⟩ t
          q.whereExpressionAndValues)).Error = none →
        (g.exec (.Find ⟨q.orderBy, q.includeDeleted, none, some q.pageSize⟩ t
          q.whereExpressionAndValues)).loaded = rows.take q.pageSize.toNat →
        (q.AllWithPageFull fmt g target).err = none ∧
        (q.All fmt g target).value = rows.take q.pageSize.toNat ∧
        ((q.AllWithPageFull fmt g target).value = true ↔ q.pageSize ≤ (rows.length : Int)) ∧
        (q.pageSize ≤ (rows.length : Int) →
          ((q.All fmt g target).value.length : Int) = q.pageSize ∧
          (q.AllWithPageFull fmt g target).value = true))) := by
  obtain ⟨h1, h2⟩ := DaoPkg.AllWithPageFull_eq fmt g q target
  refine ⟨h1, ?_, ?_, ?_⟩
  · intro he
    rw [h2, he]
    simp
  · intro he
    rw [h2]
    cases hr : (q.All fmt g target).err with
    | none => exact absurd hr he
    | some e => rfl
  · intro t rows htgt he hn hp ht
    subst htgt
    obtain ⟨hcall, hans⟩ := DaoPkg.All_page_zero fmt g q t he hn hp ht
    refine ⟨hcall, ?_⟩
    intro herr hrows
    obtain ⟨ha1, ha2⟩ := hans herr
    rw [hrows] at ha2
    have hps : q.pageSize ≠ 0 := by omega
    have hlen : ((rows.take q.pageSize.toNat).length : Int) ≥ q.pageSize ↔
        q.pageSize ≤ (rows.length : Int) := by
      rw [List.length_take]
      omega
    have hfull : (q.AllWithPageFull fmt g (some t)).value = true ↔
        q.pageSize ≤ (rows.length : Int) := by
      rw [h2, ha1, ha2]
      simp only [hps, if_false, decide_eq_true_eq]
      exact hlen
    refine ⟨h1.trans ha1, ha2, hfull, fun hle => ⟨?_, hfull.mpr hle⟩⟩
    rw [ha2, List.length_take]
    omega

/-- C20, an instance: `WithPageSize(25)` with the ordering `id desc` over a store with ordering
and soft deletion that holds one hundred live users and one soft-deleted user. The rows that
match, in the order asked for, are the hundred live users from the last to the first; the fetch
carries the limit 25, 25 records are fetched, without an error, and the page is full. -/
theorem pageFull_iff_page_size_reached_witness :
    ((DaoPkg.newQuery.OrderByDesc sampleFmt "id").WithPageSize 25).orderBy = ["id desc"] ∧
    (sampleHundredUsers.reverse.length : Int) = 100 ∧
    (((DaoPkg.newQuery.OrderByDesc sampleFmt "id").WithPageSize 25).All sampleFmt
      (tableGorm sampleHundredUsers [⟨"models.User", 101, []⟩])
      (some sampleTarget)).trace.filter Event.isStorage =
      [Event.storage (.Find ⟨["id desc"], false, none, some 25⟩ sampleTarget [Value.str ""])] ∧
    (((DaoPkg.newQuery.OrderByDesc sampleFmt "id").WithPageSize 25).All sampleFmt
      (tableGorm sampleHundredUsers [⟨"models.User", 101, []⟩])
      (some sampleTarget)).value.map (fun m => m.ID) =
      (List.range 25).map (fun i => 100 - i) ∧
    (((DaoPkg.newQuery.OrderByDesc sampleFmt "id").WithPageSize 25).AllWithPageFull sampleFmt
      (tableGorm sampleHundredUsers [⟨"models.User", 101, []⟩])
      (some sampleTarget)).err = none ∧
    ((((DaoPkg.newQuery.OrderByDesc sampleFmt "id").WithPageSize 25).All sampleFmt
      (tableGorm sampleHundredUsers [⟨"models.User", 101, []⟩])
      (some sampleTarget)).value.length : Int) =
      ((DaoPkg.newQuery.OrderByDesc sampleFmt "id").WithPageSize 25).pageSize ∧
    ((DaoPkg.newQuery.OrderByDesc sampleFmt "id").WithPageSize 25).pageSize = 25 ∧
    (((DaoPkg.newQuery.OrderByDesc sampleFmt "id").WithPageSize 25).AllWithPageFull sampleFmt
      (tableGorm sampleHundredUsers [⟨"models.User", 101, []⟩])
      (some sampleTarget)).value = true :=
  ⟨by decide, by simp [sampleHundredUsers], by decide, by decide,
    ((((pageFull_iff_page_size_reached sampleFmt
      (tableGorm sampleHundredUsers [⟨"models.User", 101, []⟩])
      ((DaoPkg.newQuery.OrderByDesc sampleFmt "id").WithPageSize 25)
      (some sampleTarget)).2.2.2 sampleTarget sampleHundredUsers.reverse
      rfl (by decide) rfl (by decide) rfl).2 rfl (by decide))).1,
    ((((pageFull_iff_page_size_reached sampleFmt
      (tableGorm sampleHundredUsers [⟨"models.User", 101, []⟩])
      ((DaoPkg.newQuery.OrderByDesc sampleFmt "id").WithPageSize 25)
      (some sampleTarget)).2.2.2 sampleTarget sampleHundredUsers.reverse
      rfl (by decide) rfl (by decide) rfl).2 rfl (by decide)).2.2.2
        (by simp [sampleHundredUsers, DaoPkg.Query.WithPageSize])).1,
    rfl,
    ((((pageFull_iff_page_size_reached sampleFmt
      (tableGorm sampleHundredUsers [⟨"models.User", 101, []⟩])
      ((DaoPkg.newQuery.OrderByDesc sampleFmt "id").WithPageSize 25)
      (some sampleTarget)).2.2.2 sampleTarget sampleHundredUsers.reverse
      rfl (by decide) rfl (by decide) rfl).2 rfl (by decide)).2.2.2
        (by simp [sampleHundredUsers, DaoPkg.Query.WithPageSize])).2⟩

/-! ## Paging -/

/-- With a pointer target and no recorded error, `allDb` runs one fetch, on the expected handle
of the query. -/
theorem DaoPkg.allDb_ptr (fmt : Fmt) (g : Gorm) (q : DaoPkg.Query) (t : Target)
    (he : q.err = none) (ht : t.isPtr = true) :
    (q.allDb fmt g none (some t)).err = none ∧
    (q.allDb fmt g none (some t)).value =
      some ⟨DaoPkg.pageScope q, none, q.whereExpressionAndValues,
        g.exec (.Find (DaoPkg.pageScope q) t q.whereExpressionAndValues)⟩ ∧
    (q.allDb fmt g none (some t)).trace.filter Event.isStorage =
      [Event.storage (.Find (DaoPkg.pageScope q) t q.whereExpressionAndValues)] := by
  by_cases hps : q.pageSize = 0 <;> by_cases hpn : q.pageNo > 0 <;>
    simp [DaoPkg.Query.allDb, he, ht, DaoPkg.pageScope, DaoPkg.effectivePageSize,
      DaoPkg.Query.prepareDb, hps, hpn, Event.isStorage]

/-- With a model and no recorded error, `allDb` reaches no store and returns the expected handle
of the query, set on the model. -/
theorem DaoPkg.allDb_model (fmt : Fmt) (g : Gorm) (q : DaoPkg.Query) (m : Model)
    (he : q.err = none) :
    (q.allDb fmt g (some m) none).err = none ∧
    (q.allDb fmt g (some m) none).value =
      some ⟨DaoPkg.pageScope q, some m, q.whereExpressionAndValues, ⟨none, 0, 0, []⟩⟩ ∧
    (q.allDb fmt g (some m) none).trace.filter Event.isStorage = [] := by
  by_cases hps : q.pageSize = 0 <;> by_cases hpn : q.pageNo > 0 <;>
    simp [DaoPkg.Query.allDb, he, DaoPkg.pageScope, DaoPkg.effectivePageSize,
      DaoPkg.Query.prepareDb, hps, hpn, Event.isStorage]

/-- Without a usable target or model, or with a recorded error, `allDb` reaches no store and
returns an error. -/
theorem DaoPkg.allDb_rejected (fmt : Fmt) (g : Gorm) (q : DaoPkg.Query) (mo : Option Model)
    (target : Option Target)
    (h : q.err ≠ none ∨ (mo = none ∧ target = none) ∨ (mo ≠ none ∧ target ≠ none) ∨
      (mo = none ∧ ∃ t, target = some t ∧ t.isPtr = false)) :
    (q.allDb fmt g mo target).err ≠ none ∧
    (q.allDb fmt g mo target).trace.filter Event.isStorage = [] := by
  cases hqe : q.err with
  | some e => simp [DaoPkg.Query.allDb, hqe]
  | none =>
    rcases h with h | ⟨h1, h2⟩ | ⟨h1, h2⟩ | ⟨h1, t, h2, h3⟩
    · exact absurd hqe h
    · subst h1 h2
      simp [DaoPkg.Query.allDb, hqe, merryAppend, Event.isStorage]
    · cases mo with
      | none => exact absurd rfl h1
      | some m =>
        cases target with
        | none => exact absurd rfl h2
        | some t => simp [DaoPkg.Query.allDb, hqe, merryAppend, Event.isStorage]
    · subst h1 h2
      simp [DaoPkg.Query.allDb, hqe, h3, merryAppend, Event.isStorage]

/-- The storage calls of a trace are those of its storage events. -/
theorem mem_filter_isStorage (trace : List Event) (c : Call) :
    Event.storage c ∈ trace ↔ Event.storage c ∈ trace.filter Event.isStorage := by
  simp [List.mem_filter, Event.isStorage]

/-- The method `All` has the effects of `allDb`. -/
theorem DaoPkg.All_trace (fmt : Fmt) (g : Gorm) (q : DaoPkg.Query) (target : Option Target) :
    (q.All fmt g target).trace = (q.allDb fmt g none target).trace := by
  simp only [DaoPkg.Query.All]
  repeat' split
  all_goals rfl

/-- Every call `All` makes to the store is a fetch on the expected handle of the query, and the
records it returns are those the store gave to that fetch. -/
theorem DaoPkg.All_request (fmt : Fmt) (g : Gorm) (q : DaoPkg.Query) (target : Option Target) :
    (∀ c, Event.storage c ∈ (q.All fmt g target).trace →
      ∃ t, c = .Find (DaoPkg.pageScope q) t q.whereExpressionAndValues) ∧
    ((q.All fmt g target).value = [] ∨
      ∃ t, (q.All fmt g target).value =
        (g.exec (.Find (DaoPkg.pageScope q) t q.whereExpressionAndValues)).loaded) := by
  by_cases hacc : q.err = none ∧ ∃ t, target = some t ∧ t.isPtr = true
  · obtain ⟨he, t, rfl, ht⟩ := hacc
    obtain ⟨h1, h2, h3⟩ := DaoPkg.allDb_ptr fmt g q t he ht
    refine ⟨?_, Or.inr ⟨t, ?_⟩⟩
    · intro c hc
      rw [DaoPkg.All_trace, mem_filter_isStorage, h3] at hc
      simp only [List.mem_singleton, Event.storage.injEq] at hc
      exact ⟨t, hc⟩
    · simp only [DaoPkg.Query.All, h1, h2]
      split
      · split <;> rfl
      · rfl
  · have hrej : q.err ≠ none ∨ ((none : Option Model) = none ∧ target = none) ∨
        ((none : Option Model) ≠ none ∧ target ≠ none) ∨
        ((none : Option Model) = none ∧ ∃ t, target = some t ∧ t.isPtr = false) := by
      by_cases he : q.err = none
      · cases target with
        | none => exact Or.inr (Or.inl ⟨rfl, rfl⟩)
        | some t =>
          cases ht : t.isPtr with
          | true => exact absurd ⟨he, t, rfl, ht⟩ hacc
          | false => exact Or.inr (Or.inr (Or.inr ⟨rfl, t, rfl, ht⟩))
      · exact Or.inl he
    obtain ⟨h1, h2⟩ := DaoPkg.allDb_rejected fmt g q none target hrej
    refine ⟨?_, Or.inl ?_⟩
    · intro c hc
      rw [DaoPkg.All_trace, mem_filter_isStorage, h2] at hc
      simp at hc
    · cases hr : (q.allDb fmt g none target).err with
      | none => exact absurd hr h1
      | some e => simp [DaoPkg.Query.All, hr]

/-- Every call `AllIterator` makes to the store asks for the rows of the expected handle of the
query. -/
theorem DaoPkg.AllIterator_request (fmt : Fmt) (g : Gorm) (q : DaoPkg.Query)
    (mo : Option Model) :
    ∀ c, Event.storage c ∈ (q.AllIterator fmt g mo).trace →
      c = .Rows (DaoPkg.pageScope q) mo q.whereExpressionAndValues := by
  intro c hc
  by_cases hacc : q.err = none ∧ mo ≠ none
  · obtain ⟨he, hm⟩ := hacc
    cases mo with
    | none => exact absurd rfl hm
    | some m =>
      obtain ⟨h1, h2, h3⟩ := DaoPkg.allDb_model fmt g q m he
      have hns : ∀ c, Event.storage c ∉ (q.allDb fmt g (some m) none).trace := by
        intro c hc2
        rw [mem_filter_isStorage, h3] at hc2
        simp at hc2
      simp only [DaoPkg.Query.AllIterator, h1, h2] at hc
      split at hc
      · simp only [List.mem_append, List.mem_singleton, Event.storage.injEq] at hc
        rcases hc with hc | hc
        · exact absurd hc (hns c)
        · exact hc
      · simp only [List.mem_append, List.mem_singleton, Event.storage.injEq] at hc
        rcases hc with hc | hc
        · exact absurd hc (hns c)
        · exact hc
  · have hrej : q.err ≠ none ∨ (mo = none ∧ (none : Option Target) = none) ∨
        (mo ≠ none ∧ (none : Option Target) ≠ none) ∨
        (mo = none ∧ ∃ t, (none : Option Target) = some t ∧ t.isPtr = false) := by
      by_cases he : q.err = none
      · cases mo with
        | none => exact Or.inr (Or.inl ⟨rfl, rfl⟩)
        | some m => exact absurd ⟨he, by simp⟩ hacc
      · exact Or.inl he
    obtain ⟨h1, h2⟩ := DaoPkg.allDb_rejected fmt g q mo none hrej
    cases hr : (q.allDb fmt g mo none).err with
    | none => exact absurd hr h1
    | some e =>
      simp only [DaoPkg.Query.AllIterator, hr] at hc
      rw [mem_filter_isStorage, h2] at hc
      simp at hc

/-- The paging store never answers a fetch with more rows than a non-negative limit. -/
theorem pagingGorm_respects (rows : List Model) : RespectsLimit (pagingGorm rows) := by
  intro scope t whr l hl h0
  have hneg : ¬ l < 0 := by omega
  simp only [pagingGorm, pageOf, hl, hneg, if_false, List.length_take]
  omega

/-- C21, as stated, fails for a negative page size and for a product that leaves 64 bits. With
`WithPageSize(-1)` the one fetch of `All` carries the limit -1, which a store is free to read as
no limit: over one hundred matching rows the paging store returns all one hundred, more than
the effective page size of -1. With page number 2^62 and page size 4 the offset requested is 0,
not 2^64. -/
theorem negative_page_size_fetches_every_row :
    ((DaoPkg.newQuery.WithPageSize (-1)).All sampleFmt (pagingGorm sampleHundredUsers)
        (some sampleTarget)).trace.filter Event.isStorage =
      [Event.storage (.Find ⟨[], false, none, some (-1)⟩ sampleTarget [Value.str ""])] ∧
    ((DaoPkg.newQuery.WithPageSize (-1)).All sampleFmt (pagingGorm sampleHundredUsers)
        (some sampleTarget)).err = none ∧
    ((DaoPkg.newQuery.WithPageSize (-1)).All sampleFmt (pagingGorm sampleHundredUsers)
        (some sampleTarget)).value.length = 100 ∧
    DaoPkg.effectivePageSize (DaoPkg.newQuery.WithPageSize (-1)) = -1 ∧
    (((DaoPkg.newQuery.WithPageNo 4611686018427387904).WithPageSize 4).All sampleFmt
        (pagingGorm sampleHundredUsers) (some sampleTarget)).trace.filter Event.isStorage =
      [Event.storage (.Find ⟨[], false, some 0, some 4⟩ sampleTarget [Value.str ""])] ∧
    (4611686018427387904 : Int) * 4 = 2 ^ 64 := by
  refine ⟨by decide, by decide, by decide, by decide, by decide, by decide⟩

/-- C21, amended: for every query, every call that `All` and `AllIterator` make to the store runs
on a handle whose limit is the configured page size, or 50 when the page size is 0, and whose
offset is the 64-bit product of the page number and that effective page size when the page
number is above 0 (the product itself when it lies in the signed 64-bit range) and absent
otherwise; and they do make that call: `All` for a query without recorded error and a pointer
target, `AllIterator` for a query without recorded error and a model. When the effective page
size is not negative and the store answers a fetch with no more rows than the limit of its
handle, `All` returns no more records than the effective page size. `WithDefaultPageSize` sets
the page size to 50 and `WithMaxIntPageSize` to 2^31 - 1. -/
theorem paged_fetch_requests_limit_and_offset (fmt : Fmt) (g : Gorm) (q : DaoPkg.Query)
    (target : Option Target) (mo : Option Model) :
    (∀ c, Event.storage c ∈ (q.All fmt g target).trace →
      ∃ t, c = .Find
        ⟨q.orderBy, q.includeDeleted,
          if q.pageNo > 0 then
            some (wrapInt (q.pageNo * (if q.pageSize = 0 then 50 else q.pageSize)))
          else none,
          some (if q.pageSize = 0 then 50 else q.pageSize)⟩
        t q.whereExpressionAndValues) ∧
    (∀ c, Event.storage c ∈ (q.AllIterator fmt g mo).trace →
      c = .Rows
        ⟨q.orderBy, q.includeDeleted,
          if q.pageNo > 0 then
            some (wrapInt (q.pageNo * (if q.pageSize = 0 then 50 else q.pageSize)))
          else none,
          some (if q.pageSize = 0 then 50 else q.pageSize)⟩
        mo q.whereExpressionAndValues) ∧
    (∀ t, q.err = none → target = some t → t.isPtr = true →
      (q.All fmt g target).trace.filter Event.isStorage =
        [Event.storage (.Find
          ⟨q.orderBy, q.includeDeleted,
            if q.pageNo > 0 then
              some (wrapInt (q.pageNo * (if q.pageSize = 0 then 50 else q.pageSize)))
            else none,
            some (if q.pageSize = 0 then 50 else q.pageSize)⟩
          t q.whereExpressionAndValues)]) ∧
    (∀ m, q.err = none → mo = some m →
      (q.AllIterator fmt g mo).trace.filter Event.isStorage =
        [Event.storage (.Rows
          ⟨q.orderBy, q.includeDeleted,
            if q.pageNo > 0 then
              some (wrapInt (q.pageNo * (if q.pageSize = 0 then 50 else q.pageSize)))
            else none,
            some (if q.pageSize = 0 then 50 else q.pageSize)⟩
          mo q.whereExpressionAndValues)]) ∧
    (-(2 ^ 63) ≤ q.pageNo * (if q.pageSize = 0 then 50 else q.pageSize) →
      q.pageNo * (if q.pageSize = 0 then 50 else q.pageSize) < 2 ^ 63 →
      wrapInt (q.pageNo * (if q.pageSize = 0 then 50 else q.pageSize)) =
        q.pageNo * (if q.pageSize = 0 then 50 else q.pageSize)) ∧
    (RespectsLimit g → 0 ≤ (if q.pageSize = 0 then 50 else q.pageSize) →
      ((q.All fmt g target).value.length : Int) ≤ (if q.pageSize = 0 then 50 else q.pageSize)) ∧
    q.WithDefaultPageSize.pageSize = 50 ∧
    q.WithMaxIntPageSize.pageSize = 2 ^ 31 - 1 := by
  obtain ⟨h1, h2⟩ := DaoPkg.All_request fmt g q target
  refine ⟨h1, DaoPkg.AllIterator_request fmt g q mo, ?_, ?_,
    fun ha hb => wrapInt_of_int64 _ ha hb, ?_, rfl, ?_⟩
  · intro t he ht hp
    subst ht
    rw [DaoPkg.All_trace]
    exact (DaoPkg.allDb_ptr fmt g q t he hp).2.2
  · intro m he hm
    subst hm
    obtain ⟨a1, a2, a3⟩ := DaoPkg.allDb_model fmt g q m he
    show (q.AllIterator fmt g (some m)).trace.filter Event.isStorage =
      [Event.storage (.Rows (DaoPkg.pageScope q) (some m) q.whereExpressionAndValues)]
    simp only [DaoPkg.Query.AllIterator, a1, a2]
    split <;> simp [List.filter_append, a3, Event.isStorage]
  · intro hg hp
    rcases h2 with h2 | ⟨t, h2⟩
    · rw [h2]
      simpa using hp
    · rw [h2]
      exact hg (DaoPkg.pageScope q) t q.whereExpressionAndValues (DaoPkg.effectivePageSize q)
        rfl hp
  · show MaxInt32 = 2 ^ 31 - 1
    decide

/-- C21, an instance: `WithPageSize(25)` on page 2 over the paging store of one hundred users
makes one fetch, with the limit 25 and the offset 50, and `All` returns no more than 25
records. -/
theorem paged_fetch_requests_limit_and_offset_witness :
    RespectsLimit (pagingGorm sampleHundredUsers) ∧
    (((DaoPkg.newQuery.WithPageSize 25).WithPageNo 2).All sampleFmt
      (pagingGorm sampleHundredUsers) (some sampleTarget)).trace.filter Event.isStorage =
      [Event.storage (.Find ⟨[], false, some 50, some 25⟩ sampleTarget [Value.str ""])] ∧
    ((((DaoPkg.newQuery.WithPageSize 25).WithPageNo 2).All sampleFmt
      (pagingGorm sampleHundredUsers) (some sampleTarget)).value.length : Int) ≤
      (if ((DaoPkg.newQuery.WithPageSize 25).WithPageNo 2).pageSize = 0 then 50
        else ((DaoPkg.newQuery.WithPageSize 25).WithPageNo 2).pageSize) :=
  ⟨pagingGorm_respects sampleHundredUsers, by decide,
    (paged_fetch_requests_limit_and_offset sampleFmt (pagingGorm sampleHundredUsers)
      ((DaoPkg.newQuery.WithPageSize 25).WithPageNo 2) (some sampleTarget) none).2.2.2.2.2.1
      (pagingGorm_respects sampleHundredUsers) (by decide)⟩

/-! ## Full-text search -/

/-- The inner loop of `FulltextSearch` appends the trimmed pieces that are not empty. -/
theorem cleanLoop_eq (pieces : List String) (acc : List String) :
    pieces.foldl
      (fun acc2 val2 => if stringsTrimSpace val2 ≠ "" then acc2 ++ [stringsTrimSpace val2] else acc2)
      acc = acc ++ (pieces.map stringsTrimSpace).filter (fun t => decide (t ≠ "")) := by
  induction pieces generalizing acc with
  | nil => simp
  | cons p rest ih =>
    rw [List.foldl_cons, ih]
    by_cases hp : stringsTrimSpace p = ""
    · simp [hp]
    · simp [hp]

/-- The tokens `FulltextSearch` keeps are the specified ones. -/
theorem cleanedValues_eq (values : List String) :
    DaoPkg.cleanedValues values = searchTokens values := by
  have h : ∀ acc : List String,
      values.foldl
        (fun acc val =>
          (splitAmp val).foldl
            (fun acc2 val2 =>
              if stringsTrimSpace val2 ≠ "" then acc2 ++ [stringsTrimSpace val2] else acc2)
            acc)
        acc = acc ++ searchTokens values := by
    induction values with
    | nil => intro acc; simp [searchTokens]
    | cons v rest ih =>
      intro acc
      rw [List.foldl_cons, ih, cleanLoop_eq]
      simp [searchTokens, List.flatMap_cons]
  simpa [DaoPkg.cleanedValues] using h []

/-- The loop of `prepareExpr`, from any state. -/
theorem prepareLoop_from (expr : List Value) (st : String × List Value) :
    expr.foldl
      (fun (st : String × List Value) part =>
        match part with
        | .exprValue val => (st.1 ++ "?" ++ " ", st.2 ++ [val])
        | .str val => (st.1 ++ val ++ " ", st.2)
        | _ => (st.1 ++ "" ++ " ", st.2))
      st = (st.1 ++ (DaoPkg.prepareExpr expr).1, st.2 ++ (DaoPkg.prepareExpr expr).2) := by
  induction expr using List.reverseRecOn with
  | nil => simp [DaoPkg.prepareExpr]
  | append_singleton xs x ih =>
    simp only [DaoPkg.prepareExpr, List.foldl_append, List.foldl_cons, List.foldl_nil] at ih ⊢
    rw [ih]
    cases x <;> simp [String.append_assoc]

/-- The method `prepareExpr` on two lists of parts, one after the other. -/
theorem prepareExpr_append (xs ys : List Value) :
    DaoPkg.prepareExpr (xs ++ ys) =
      ((DaoPkg.prepareExpr xs).1 ++ (DaoPkg.prepareExpr ys).1,
        (DaoPkg.prepareExpr xs).2 ++ (DaoPkg.prepareExpr ys).2) := by
  have h := prepareLoop_from ys (DaoPkg.prepareExpr xs)
  simp only [DaoPkg.prepareExpr, List.foldl_append] at h ⊢
  exact h

/-- The loop of `FulltextSearch` over the columns, from the second column on: the separator and
the column are appended for each. -/
theorem columnLoop_from (cs : List String) (n : Nat) (hn : n > 0) (acc : List Value) :
    (List.enumFrom n cs).foldl
      (fun (expr : List Value) nc =>
        (if nc.1 > 0 then expr ++ [Value.str ", ' ', "] else expr) ++ [Value.str nc.2])
      acc = acc ++ cs.flatMap (fun c2 => [Value.str ", ' ', ", Value.str c2]) := by
  induction cs generalizing n acc with
  | nil => simp
  | cons c rest ih =>
    rw [List.enumFrom_cons, List.foldl_cons, ih (n + 1) (by omega)]
    simp [hn, List.flatMap_cons]

/-- The loop of `FulltextSearch` over the columns appends the column parts. -/
theorem columnLoop_eq (cs : List String) (acc : List Value) :
    cs.enum.foldl
      (fun (expr : List Value) nc =>
        (if nc.1 > 0 then expr ++ [Value.str ", ' ', "] else expr) ++ [Value.str nc.2])
      acc = acc ++ columnParts cs := by
  cases cs with
  | nil => simp [columnParts, List.enum]
  | cons c rest =>
    rw [List.enum, List.enumFrom_cons, List.foldl_cons, columnLoop_from rest 1 (by omega)]
    simp [columnParts]

/-- The text `prepareExpr` builds from the column parts is the specified column list, and there
is no parameter in it. -/
theorem prepareExpr_columnParts (cs : List String) :
    DaoPkg.prepareExpr (columnParts cs) = (fulltextColumns cs, []) := by
  cases cs with
  | nil => simp [columnParts, fulltextColumns, DaoPkg.prepareExpr]
  | cons c rest =>
    induction rest generalizing c with
    | nil =>
      simp [columnParts, fulltextColumns, DaoPkg.prepareExpr]
    | cons c2 r ih =>
      have h := ih c2
      simp only [columnParts] at h ⊢
      rw [List.flatMap_cons]
      have e : Value.str c :: ([Value.str ", ' ', ", Value.str c2] ++
          r.flatMap (fun c2 => [Value.str ", ' ', ", Value.str c2])) =
          [Value.str c, Value.str ", ' ', "] ++ (Value.str c2 ::
            r.flatMap (fun c2 => [Value.str ", ' ', ", Value.str c2])) := by simp
      rw [e, prepareExpr_append, h]
      simp only [fulltextColumns]
      simp [DaoPkg.prepareExpr, String.append_assoc]

/-- What `prepareExpr` makes of the parts of `FulltextSearch`: the specified fragment and one
parameter, the tokens joined with ` & `. -/
theorem prepareExpr_fulltextExpr (columns values : List String) :
    DaoPkg.prepareExpr (DaoPkg.fulltextExpr columns values) =
      (fulltextFragment columns,
        [Value.str (stringsJoin (DaoPkg.cleanedValues values) " & ")]) := by
  simp only [DaoPkg.fulltextExpr, columnLoop_eq, prepareExpr_append, prepareExpr_columnParts]
  refine Prod.ext ?_ ?_
  · apply String.ext
    simp [DaoPkg.prepareExpr, fulltextFragment, String.data_append]
  · simp [DaoPkg.prepareExpr]

/-- The placeholders of a text made of two. -/
theorem countPlaceholders_append (a b : String) :
    countPlaceholders (a ++ b) = countPlaceholders a + countPlaceholders b := by
  simp [countPlaceholders, String.data_append]

/-- A column list whose columns hold no question mark holds none. -/
theorem countPlaceholders_fulltextColumns (cs : List String)
    (h : ∀ c ∈ cs, countPlaceholders c = 0) : countPlaceholders (fulltextColumns cs) = 0 := by
  cases cs with
  | nil => rfl
  | cons c rest =>
    induction rest generalizing c with
    | nil =>
      have hc := h c (List.mem_cons_self c [])
      simp only [fulltextColumns, countPlaceholders_append, hc]
      rfl
    | cons c2 r ih =>
      have hc := h c (List.mem_cons_self c _)
      have hr := ih c2 (fun x hx => h x (List.mem_cons_of_mem c hx))
      simp only [fulltextColumns, countPlaceholders_append, hc, hr]
      rfl

/-- The fragment of a full-text search over columns without question mark holds exactly one
placeholder. -/
theorem countPlaceholders_fulltextFragment (cs : List String)
    (h : ∀ c ∈ cs, countPlaceholders c = 0) : countPlaceholders (fulltextFragment cs) = 1 := by
  simp only [fulltextFragment, countPlaceholders_append, countPlaceholders_fulltextColumns cs h]
  rfl

/-- The loop of `strings.Join` with the separator ` & `, from the text built so far: every
further element is appended after a separator. -/
theorem intercalate_go_amp (ts : List String) (acc : String) :
    String.intercalate.go acc " & " ts =
      acc ++ (match ts with
        | [] => ""
        | t :: rest => " & " ++ joinedWithAmpersand (t :: rest)) := by
  induction ts generalizing acc with
  | nil => simp [String.intercalate.go]
  | cons t rest ih =>
    rw [String.intercalate.go, ih]
    cases rest with
    | nil => simp [joinedWithAmpersand, String.append_assoc]
    | cons t2 r => simp [joinedWithAmpersand, String.append_assoc]

/-- The call `strings.Join(tokens, " & ")` gives the tokens joined in order with ` & `. -/
theorem stringsJoin_amp (ts : List String) :
    stringsJoin ts " & " = joinedWithAmpersand ts := by
  cases ts with
  | nil => rfl
  | cons t rest =>
    simp only [stringsJoin, String.intercalate]
    rw [intercalate_go_amp]
    cases rest with
    | nil => simp [joinedWithAmpersand]
    | cons t2 r => simp [joinedWithAmpersand, String.append_assoc]

/-- C22: for all columns whose names hold no question mark and all values, `FulltextSearch`
appends to the query exactly one fragment, `to_tsvector(concat(` the columns separated by
`, ' ', ` `)) @@ to_tsquery(?)` with a blank after every part, which holds exactly one
placeholder, and exactly one parameter: the pieces of the values split on `&`, trimmed, without
the empty ones, joined in order with ` & ` (the first token, then ` & ` and the next token for
every further one). The recorded error of the query is left as it was. -/
theorem fulltextSearch_appends_one_fragment (fmt : Fmt) (q : DaoPkg.Query)
    (columns values : List String) (h : ∀ c ∈ columns, '?' ∉ c.toList) :
    (q.FulltextSearch fmt columns values).expressions =
      q.expressions ++ [fulltextFragment columns] ∧
    countPlaceholders (fulltextFragment columns) = 1 ∧
    (q.FulltextSearch fmt columns values).values =
      q.values ++ [Value.str (joinedWithAmpersand (searchTokens values))] ∧
    (q.FulltextSearch fmt columns values).err = q.err ∧
    (q.FulltextSearch fmt columns values).logStr =
      q.logStr ++ ["filter" ++ fulltextFragment columns] ∧
    (q.FulltextSearch fmt columns values).orderBy = q.orderBy := by
  have hc : ∀ c ∈ columns, countPlaceholders c = 0 := by
    intro c hcm
    simp only [countPlaceholders]
    exact List.count_eq_zero.mpr (h c hcm)
  have h1 := countPlaceholders_fulltextFragment columns hc
  have hne : fulltextFragment columns ≠ "" := by
    intro he
    rw [he] at h1
    exact absurd h1 (by decide)
  simp only [DaoPkg.Query.FulltextSearch, DaoPkg.Query.FilterExpr,
    DaoPkg.Query.FilterRawExpression, DaoPkg.Query.appendFilterExpressionAndValues,
    prepareExpr_fulltextExpr, cleanedValues_eq, stringsJoin_amp, h1]
  simp [hne]

/-- C22, an instance: the search of `ann & bob` and of ` & carl ` over the columns `first_name`
and `last_name` appends the one fragment shown and the one parameter `ann & bob & carl`. -/
theorem fulltextSearch_appends_one_fragment_witness :
    (∀ c ∈ ["first_name", "last_name"], '?' ∉ c.toList) ∧
    fulltextFragment ["first_name", "last_name"] =
      "to_tsvector(concat( first_name , ' ',  last_name )) @@  to_tsquery( ? ) " ∧
    searchTokens ["ann & bob", " & carl "] = ["ann", "bob", "carl"] ∧
    joinedWithAmpersand ["ann", "bob", "carl"] = "ann & bob & carl" ∧
    (DaoPkg.newQuery.FulltextSearch sampleFmt ["first_name", "last_name"]
        ["ann & bob", " & carl "]).expressions =
      ["to_tsvector(concat( first_name , ' ',  last_name )) @@  to_tsquery( ? ) "] ∧
    (DaoPkg.newQuery.FulltextSearch sampleFmt ["first_name", "last_name"]
        ["ann & bob", " & carl "]).values = [Value.str "ann & bob & carl"] ∧
    (DaoPkg.newQuery.FulltextSearch sampleFmt ["first_name", "last_name"]
        ["ann & bob", " & carl "]).expressions =
      DaoPkg.newQuery.expressions ++ [fulltextFragment ["first_name", "last_name"]] ∧
    (DaoPkg.newQuery.FulltextSearch sampleFmt ["first_name", "last_name"]
        ["ann & bob", " & carl "]).values =
      DaoPkg.newQuery.values ++
        [Value.str (joinedWithAmpersand (searchTokens ["ann & bob", " & carl "]))] :=
  ⟨by decide, by decide, by decide, by decide, by decide, by decide,
    (fulltextSearch_appends_one_fragment sampleFmt DaoPkg.newQuery ["first_name", "last_name"]
      ["ann & bob", " & carl "] (by decide)).1,
    (fulltextSearch_appends_one_fragment sampleFmt DaoPkg.newQuery ["first_name", "last_name"]
      ["ann & bob", " & carl "] (by decide)).2.2.1⟩

/-! ## Before-save hook -/

/-- After the replacement of the entries of `k`, the lookup of `k` finds the new value. -/
theorem ColMap.find_map_same (m : ColMap) (k : String) (v : Value)
    (h : m.any (fun p => decide (p.1 = k)) = true) :
    (m.map (fun p => if p.1 = k then (k, v) else p)).find? (fun p => decide (p.1 = k)) =
      some (k, v) := by
  induction m with
  | nil => simp at h
  | cons p rest ih =>
    by_cases hp : p.1 = k
    · simp [List.find?_cons, hp]
    · have hrest : rest.any (fun p => decide (p.1 = k)) = true := by
        simpa [hp] using h
      rw [List.map_cons, if_neg hp, List.find?_cons]
      simp only [hp, decide_False]
      exact ih hrest

/-- The replacement of the entries of `k` does not change the lookup of another column. -/
theorem ColMap.find_map_other (m : ColMap) (k k2 : String) (v : Value) (h : k2 ≠ k) :
    (m.map (fun p => if p.1 = k then (k, v) else p)).find? (fun p => decide (p.1 = k2)) =
      m.find? (fun p => decide (p.1 = k2)) := by
  induction m with
  | nil => rfl
  | cons p rest ih =>
    by_cases hp : p.1 = k
    · have h1 : ¬ k = k2 := fun hc => h hc.symm
      have h2 : ¬ p.1 = k2 := fun hc => h (hc.symm.trans hp)
      rw [List.map_cons, if_pos hp, List.find?_cons, List.find?_cons]
      simp only [h1, h2, decide_False]
      exact ih
    · rw [List.map_cons, if_neg hp, List.find?_cons, List.find?_cons, ih]

/-- The lookup of a column after its assignment gives the assigned value. -/
theorem ColMap.get?_set_same (m : ColMap) (k : String) (v : Value) :
    ColMap.get? (ColMap.set m k v) k = some v := by
  unfold ColMap.set ColMap.get?
  by_cases hany : m.any (fun p => decide (p.1 = k)) = true
  · rw [if_pos hany, ColMap.find_map_same m k v hany]
    rfl
  · rw [if_neg hany, List.find?_append]
    have hnone : m.find? (fun p => decide (p.1 = k)) = none := by
      rw [List.find?_eq_none]
      intro p hp hk
      exact hany (List.any_eq_true.mpr ⟨p, hp, hk⟩)
    rw [hnone]
    simp [List.find?_cons]

/-- The assignment of a column does not change the lookup of another one. -/
theorem ColMap.get?_set_other (m : ColMap) (k k2 : String) (v : Value) (h : k2 ≠ k) :
    ColMap.get? (ColMap.set m k v) k2 = ColMap.get? m k2 := by
  unfold ColMap.set ColMap.get?
  by_cases hany : m.any (fun p => decide (p.1 = k)) = true
  · rw [if_pos hany, ColMap.find_map_other m k k2 v h]
  · have h1 : ¬ k = k2 := fun hc => h hc.symm
    rw [if_neg hany, List.find?_append]
    simp [List.find?_cons, h1]

/-- A map holds a column exactly when its lookup finds a value. -/
theorem ColMap.has_eq_isSome (m : ColMap) (k : String) :
    ColMap.has m k = (ColMap.get? m k).isSome := by
  unfold ColMap.has ColMap.get?
  induction m with
  | nil => rfl
  | cons p rest ih =>
    by_cases hp : p.1 = k
    · simp [List.find?_cons, hp]
    · simp only [List.any_cons, hp, decide_False, Bool.false_or, List.find?_cons]
      exact ih

/-- The assignment of a column does not change whether the map holds another one. -/
theorem ColMap.has_set_other (m : ColMap) (k k2 : String) (v : Value) (h : k2 ≠ k) :
    ColMap.has (ColMap.set m k v) k2 = ColMap.has m k2 := by
  rw [ColMap.has_eq_isSome, ColMap.has_eq_isSome, ColMap.get?_set_other m k k2 v h]

/-- The merge loop of the before-save hook, for derived columns with distinct names: every
derived column ends with its derived value, every other column keeps its lookup, and one warning
is added, in order, for each derived column the map held before. -/
theorem RootPkg.merge_result (custom : ColMap) (acc : ColMap × List Event)
    (hnd : (custom.map (fun kv => kv.1)).Nodup) :
    (∀ kv ∈ custom, ColMap.get? (custom.foldl
        (fun (acc : ColMap × List Event) (kv : String × Value) =>
          (acc.1.set kv.1 kv.2,
            if acc.1.has kv.1 then acc.2 ++ [Event.log "warning" ("overwriting column " ++ kv.1)]
            else acc.2))
        acc).1 kv.1 = some kv.2) ∧
    (∀ k, k ∉ custom.map (fun kv => kv.1) → ColMap.get? (custom.foldl
        (fun (acc : ColMap × List Event) (kv : String × Value) =>
          (acc.1.set kv.1 kv.2,
            if acc.1.has kv.1 then acc.2 ++ [Event.log "warning" ("overwriting column " ++ kv.1)]
            else acc.2))
        acc).1 k = ColMap.get? acc.1 k) ∧
    (custom.foldl
        (fun (acc : ColMap × List Event) (kv : String × Value) =>
          (acc.1.set kv.1 kv.2,
            if acc.1.has kv.1 then acc.2 ++ [Event.log "warning" ("overwriting column " ++ kv.1)]
            else acc.2))
        acc).2 =
      acc.2 ++ (custom.filter (fun kv => ColMap.has acc.1 kv.1)).map
        (fun kv => overwriteWarning kv.1) := by
  induction custom generalizing acc with
  | nil => simp
  | cons kv rest ih =>
    simp only [List.map_cons, List.nodup_cons] at hnd
    obtain ⟨hnot, hrest⟩ := hnd
    obtain ⟨ih1, ih2, ih3⟩ := ih
      (acc.1.set kv.1 kv.2,
        if acc.1.has kv.1 then acc.2 ++ [Event.log "warning" ("overwriting column " ++ kv.1)]
        else acc.2) hrest
    rw [List.foldl_cons]
    refine ⟨?_, ?_, ?_⟩
    · intro kv2 hkv2
      rcases List.mem_cons.mp hkv2 with h | h
      · subst h
        rw [ih2 kv2.1 hnot]
        exact ColMap.get?_set_same _ _ _
      · exact ih1 kv2 h
    · intro k hk
      simp only [List.map_cons, List.mem_cons, not_or] at hk
      rw [ih2 k hk.2]
      exact ColMap.get?_set_other _ _ _ _ hk.1
    · rw [ih3]
      have hfilter : rest.filter (fun kv2 => ColMap.has (acc.1.set kv.1 kv.2) kv2.1) =
          rest.filter (fun kv2 => ColMap.has acc.1 kv2.1) := by
        apply List.filter_congr
        intro kv2 hkv2
        have hne : kv2.1 ≠ kv.1 := by
          intro he
          exact hnot (List.mem_map.mpr ⟨kv2, hkv2, he⟩)
        exact ColMap.has_set_other _ _ _ _ hne
      simp only [hfilter, List.filter_cons]
      by_cases hh : ColMap.has acc.1 kv.1 = true
      · simp [hh, overwriteWarning]
      · simp [hh]

/-- C23: for every explicit column map and every record whose type has the before-save
capability, when the capability returns derived columns (a Go map, so with distinct names), the
before-save hook leaves a column map in which every derived column has the derived value, also
when the explicit map held another value for it, and every other column has the lookup it had
in the explicit map; the hook logs one warning for each derived column that the explicit map
already held and for no other; and this map is the one handed to the update. -/
theorem before_save_columns_override_explicit_ones (ty : RootPkg.Types) (d : RootPkg.Dao)
    (m : Model) (cols : ColMap) (b : Model → Model × Option ColMap) (custom : ColMap)
    (hb : ty.BeforeCreateOrUpdate m.typeName = some b) (hc : (b m).2 = some custom)
    (hnd : (custom.map (fun kv => kv.1)).Nodup) :
    ∃ merged, (RootPkg.hookBeforeSaveOrUpdate ty m (some cols)).2.1 = some merged ∧
      (∀ kv ∈ custom, ColMap.get? merged kv.1 = some kv.2) ∧
      (∀ k, k ∉ custom.map (fun kv => kv.1) → ColMap.get? merged k = ColMap.get? cols k) ∧
      (RootPkg.hookBeforeSaveOrUpdate ty m (some cols)).2.2 =
        [Event.beforeCreateOrUpdate m.typeName] ++
          (custom.filter (fun kv => ColMap.has cols kv.1)).map (fun kv => overwriteWarning kv.1) ∧
      (m.GetID ≠ uuidNil → d.masterGormDb.HasBlockGlobalUpdate = true →
        (RootPkg.DeprecatedUpdateColumns ty d m (some cols)).trace.filter Event.isStorage =
          [Event.storage (.Update (b m).1 (some merged))]) := by
  obtain ⟨h1, h2, h3⟩ := RootPkg.merge_result custom (cols, []) hnd
  have hhook : RootPkg.hookBeforeSaveOrUpdate ty m (some cols) =
      ((b m).1,
        some (custom.foldl
          (fun (acc : ColMap × List Event) (kv : String × Value) =>
            (acc.1.set kv.1 kv.2,
              if acc.1.has kv.1 then
                acc.2 ++ [Event.log "warning" ("overwriting column " ++ kv.1)]
              else acc.2))
          (cols, [])).1,
        [Event.beforeCreateOrUpdate m.typeName] ++
          (custom.foldl
            (fun (acc : ColMap × List Event) (kv : String × Value) =>
              (acc.1.set kv.1 kv.2,
                if acc.1.has kv.1 then
                  acc.2 ++ [Event.log "warning" ("overwriting column " ++ kv.1)]
                else acc.2))
            (cols, [])).2) := by
    simp only [RootPkg.hookBeforeSaveOrUpdate, hb, hc]
  refine ⟨_, by rw [hhook], h1, h2, ?_, ?_⟩
  · rw [hhook]
    simp only [h3, List.nil_append]
  · intro hid hblk
    rw [RootPkg.DeprecatedUpdateColumns_storage ty d m (some cols) hid hblk, hhook]

/-- C23, an instance: a record whose capability derives the column `name`, updated with the
explicit columns `name` and `age`. The derived `name` replaces the explicit one, `age` is kept
and one warning is logged, for `name`. -/
theorem before_save_columns_override_explicit_ones_witness :
    RootPkg.hookBeforeSaveOrUpdate RootPkg.sampleHookTypes sampleUser
        (some [("name", Value.str "x"), ("age", Value.int 3)]) =
      (sampleUser, some [("name", Value.str "ann lee"), ("age", Value.int 3)],
        [Event.beforeCreateOrUpdate "*models.User", overwriteWarning "name"]) ∧
    ∃ merged, (RootPkg.hookBeforeSaveOrUpdate RootPkg.sampleHookTypes sampleUser
          (some [("name", Value.str "x"), ("age", Value.int 3)])).2.1 = some merged ∧
      (∀ kv ∈ [("name", Value.str "ann lee")], ColMap.get? merged kv.1 = some kv.2) ∧
      (∀ k, k ∉ [("name", Value.str "ann lee")].map (fun kv => kv.1) →
        ColMap.get? merged k = ColMap.get? [("name", Value.str "x"), ("age", Value.int 3)] k) ∧
      (RootPkg.hookBeforeSaveOrUpdate RootPkg.sampleHookTypes sampleUser
          (some [("name", Value.str "x"), ("age", Value.int 3)])).2.2 =
        [Event.beforeCreateOrUpdate sampleUser.typeName] ++
          ([("name", Value.str "ann lee")].filter
            (fun kv => ColMap.has [("name", Value.str "x"), ("age", Value.int 3)] kv.1)).map
            (fun kv => overwriteWarning kv.1) ∧
      (sampleUser.GetID ≠ uuidNil →
        (RootPkg.sampleDao none 1).masterGormDb.HasBlockGlobalUpdate = true →
        (RootPkg.DeprecatedUpdateColumns RootPkg.sampleHookTypes (RootPkg.sampleDao none 1)
            sampleUser (some [("name", Value.str "x"), ("age", Value.int 3)])).trace.filter
            Event.isStorage =
          [Event.storage (.Update ((fun m : Model =>
            (m, some [("name", Value.str "ann lee")])) sampleUser).1 (some merged))]) :=
  ⟨by decide,
    before_save_columns_override_explicit_ones RootPkg.sampleHookTypes (RootPkg.sampleDao none 1)
      sampleUser [("name", Value.str "x"), ("age", Value.int 3)]
      (fun m => (m, some [("name", Value.str "ann lee")])) [("name", Value.str "ann lee")]
      rfl rfl (by decide)⟩

/-! ## Hook order -/

/-- The phases of an accepted `Create`: the before-create dispatch, the insert and, exactly when
no error is returned, the after-create dispatch; no error is returned exactly when the insert
succeeded. -/
theorem DaoPkg.Create_phases (fmt : Fmt) (ty : DaoPkg.Types) (d : DaoPkg.Dao) (m : Model)
    (rand : Nat) (h : m.IsIDNil = true) :
    ∃ c, (DaoPkg.Create fmt ty d (some m) rand).trace.filter Event.isStorage =
        [Event.storage c] ∧
      phases (DaoPkg.Create fmt ty d (some m) rand).trace =
        [Phase.hook .BeforeCreate, Phase.storage] ++
          (if (DaoPkg.Create fmt ty d (some m) rand).err = none then [Phase.hook .AfterCreate]
            else []) ∧
      ((DaoPkg.Create fmt ty d (some m) rand).err = none ↔
        (d.masterGormDb.exec c).Error = none) := by
  refine ⟨.Create (DaoPkg.executeHookListeners ty d (m.GenerateID rand) .BeforeCreate
    (DaoPkg.newHookCtx none true)).1, ?_⟩
  cases hq : (d.masterGormDb.exec (.Create (DaoPkg.executeHookListeners ty d (m.GenerateID rand)
      .BeforeCreate (DaoPkg.newHookCtx none true)).1)).Error with
  | none =>
    simp [DaoPkg.Create, h, hq, DaoPkg.executeHookListeners_trace, Event.isStorage, phases,
      Event.phase]
  | some e =>
    have he := DaoPkg.extractUniqueMessages_some fmt d e
    simp [DaoPkg.Create, h, hq, DaoPkg.executeHookListeners_trace, Event.isStorage, phases,
      Event.phase, he.1, he.2]

/-- The phases of `CreateOrUpdate` on a record that has an identity: the before-update dispatch,
the save and, exactly when no error is returned, the after-update dispatch; no error is returned
exactly when the save succeeded. -/
theorem DaoPkg.CreateOrUpdate_phases (fmt : Fmt) (ty : DaoPkg.Types) (d : DaoPkg.Dao)
    (m : Model) (rand : Nat) (h : m.IsIDNil = false) :
    ∃ c, (DaoPkg.CreateOrUpdate fmt ty d (some m) rand).trace.filter Event.isStorage =
        [Event.storage c] ∧
      phases (DaoPkg.CreateOrUpdate fmt ty d (some m) rand).trace =
        [Phase.hook .BeforeUpdate, Phase.storage] ++
          (if (DaoPkg.CreateOrUpdate fmt ty d (some m) rand).err = none then
            [Phase.hook .AfterUpdate] else []) ∧
      ((DaoPkg.CreateOrUpdate fmt ty d (some m) rand).err = none ↔
        (d.masterGormDb.exec c).Error = none) := by
  refine ⟨.Save (DaoPkg.executeHookListeners ty d m .BeforeUpdate
    (DaoPkg.newHookCtx none true)).1, ?_⟩
  cases hq : (d.masterGormDb.exec (.Save (DaoPkg.executeHookListeners ty d m .BeforeUpdate
      (DaoPkg.newHookCtx none true)).1)).Error with
  | none =>
    simp [DaoPkg.CreateOrUpdate, h, hq, DaoPkg.executeHookListeners_trace, Event.isStorage,
      phases, Event.phase]
  | some e =>
    obtain ⟨w, hw, _, _⟩ := merryWrap_Appendf e ("saving " ++ m.typeName)
    simp [DaoPkg.CreateOrUpdate, h, hq, DaoPkg.executeHookListeners_trace, Event.isStorage,
      phases, Event.phase, hw]

/-- The phases of an accepted `UpdateColumnValues`. Without the block on global updates: the
before-update dispatch alone, and an error. With it: the before-update dispatch, the update and,
exactly when no error is returned, the after-update dispatch; no error is returned exactly when
the update succeeded and affected at most one row. -/
theorem DaoPkg.UpdateColumnValues_phases (fmt : Fmt) (ty : DaoPkg.Types) (d : DaoPkg.Dao)
    (m : Model) (cols : Option ColMap) (h : m.IsIDNil = false) :
    (d.masterGormDb.HasBlockGlobalUpdate = false →
      phases (DaoPkg.UpdateColumnValues fmt ty d m cols).trace = [Phase.hook .BeforeUpdate] ∧
      (DaoPkg.UpdateColumnValues fmt ty d m cols).err ≠ none) ∧
    (d.masterGormDb.HasBlockGlobalUpdate = true →
      ∃ c, (DaoPkg.UpdateColumnValues fmt ty d m cols).trace.filter Event.isStorage =
          [Event.storage c] ∧
        phases (DaoPkg.UpdateColumnValues fmt ty d m cols).trace =
          [Phase.hook .BeforeUpdate, Phase.storage] ++
            (if (DaoPkg.UpdateColumnValues fmt ty d m cols).err = none then
              [Phase.hook .AfterUpdate] else []) ∧
        ((DaoPkg.UpdateColumnValues fmt ty d m cols).err = none ↔
          ((d.masterGormDb.exec c).Error = none ∧ (d.masterGormDb.exec c).RowsAffected ≤ 1))) := by
  have hid : DaoPkg.assertIDValid m = none := by
    simp only [Model.IsIDNil, decide_eq_false_iff_not] at h
    simp [DaoPkg.assertIDValid, h]
  refine ⟨?_, ?_⟩
  · intro hb
    simp [DaoPkg.UpdateColumnValues, hid, hb, DaoPkg.executeHookListeners_trace, phases,
      Event.phase]
  · intro hb
    refine ⟨.Update (DaoPkg.executeHookListeners ty d m .BeforeUpdate
        (DaoPkg.newHookCtx cols false)).1
      (cols.map (fun c => (DaoPkg.executeHookListeners ty d m .BeforeUpdate
        (DaoPkg.newHookCtx cols false)).2.1.Fields.getD c)), ?_⟩
    cases hq : (d.masterGormDb.exec (.Update (DaoPkg.executeHookListeners ty d m .BeforeUpdate
        (DaoPkg.newHookCtx cols false)).1
      (cols.map (fun c => (DaoPkg.executeHookListeners ty d m .BeforeUpdate
        (DaoPkg.newHookCtx cols false)).2.1.Fields.getD c)))).Error with
    | none =>
      by_cases hr : (d.masterGormDb.exec (.Update (DaoPkg.executeHookListeners ty d m
          .BeforeUpdate (DaoPkg.newHookCtx cols false)).1
        (cols.map (fun c => (DaoPkg.executeHookListeners ty d m .BeforeUpdate
          (DaoPkg.newHookCtx cols false)).2.1.Fields.getD c)))).RowsAffected > 1
      · have hr2 : ¬ (d.masterGormDb.exec (.Update (DaoPkg.executeHookListeners ty d m
            .BeforeUpdate (DaoPkg.newHookCtx cols false)).1
          (cols.map (fun c => (DaoPkg.executeHookListeners ty d m .BeforeUpdate
            (DaoPkg.newHookCtx cols false)).2.1.Fields.getD c)))).RowsAffected ≤ 1 := by omega
        simp [DaoPkg.UpdateColumnValues, hid, hb, hq, hr, hr2,
          DaoPkg.executeHookListeners_trace, Event.isStorage, phases, Event.phase, merryNew]
      · have hr2 : (d.masterGormDb.exec (.Update (DaoPkg.executeHookListeners ty d m
            .BeforeUpdate (DaoPkg.newHookCtx cols false)).1
          (cols.map (fun c => (DaoPkg.executeHookListeners ty d m .BeforeUpdate
            (DaoPkg.newHookCtx cols false)).2.1.Fields.getD c)))).RowsAffected ≤ 1 := by omega
        simp [DaoPkg.UpdateColumnValues, hid, hb, hq, hr, hr2,
          DaoPkg.executeHookListeners_trace, Event.isStorage, phases, Event.phase]
    | some e =>
      have he := DaoPkg.extractUniqueMessages_some fmt d e
      simp [DaoPkg.UpdateColumnValues, hid, hb, hq, DaoPkg.executeHookListeners_trace,
        Event.isStorage, phases, Event.phase, he.1, he.2]

/-- C24, as stated, fails: the after-update listeners do not run whenever the storage call
succeeded. An update that the store answers without error but with three affected rows is
followed by no after-update dispatch: the phases are the before-update dispatch and the update
alone, and the call returns the error `!`. -/
theorem after_update_hook_skipped_though_update_succeeded :
    ((sampleGorm none 3).exec (.Update sampleUser (some [("name", Value.str "bob")]))).Error =
      none ∧
    (DaoPkg.UpdateColumnValues sampleFmt DaoPkg.sampleTypes (DaoPkg.sampleDao none 3) sampleUser
        (some [("name", Value.str "bob")])).trace.filter Event.isStorage =
      [Event.storage (.Update sampleUser (some [("name", Value.str "bob")]))] ∧
    phases (DaoPkg.UpdateColumnValues sampleFmt DaoPkg.sampleTypes (DaoPkg.sampleDao none 3)
        sampleUser (some [("name", Value.str "bob")])).trace =
      [Phase.hook .BeforeUpdate, Phase.storage] ∧
    (DaoPkg.UpdateColumnValues sampleFmt DaoPkg.sampleTypes (DaoPkg.sampleDao none 3) sampleUser
        (some [("name", Value.str "bob")])).err = some (merryNew "!") := by
  decide

/-- C24, amended: in every accepted call of `Create`, `CreateOrUpdate` and `UpdateColumnValues`
the before-hook listeners are dispatched exactly once, before the storage call, which is made at
most once, and the after-hook listeners are dispatched exactly once, after the storage call,
exactly when the call returns no error; for `Create` and `CreateOrUpdate` that is exactly when
the storage call succeeded, for `UpdateColumnValues` exactly when it succeeded and affected at
most one row. `UpdateColumnValues` makes no storage call when global updates are not blocked.
An after-hook is never dispatched for a call that returns an error. -/
theorem hooks_run_once_around_the_storage_call (fmt : Fmt) (ty : DaoPkg.Types) (d : DaoPkg.Dao)
    (m : Model) (cols : Option ColMap) (rand : Nat) :
    (m.IsIDNil = true →
      (∃ c, (DaoPkg.Create fmt ty d (some m) rand).trace.filter Event.isStorage =
          [Event.storage c] ∧
        phases (DaoPkg.Create fmt ty d (some m) rand).trace =
          [Phase.hook .BeforeCreate, Phase.storage] ++
            (if (DaoPkg.Create fmt ty d (some m) rand).err = none then [Phase.hook .AfterCreate]
              else []) ∧
        ((DaoPkg.Create fmt ty d (some m) rand).err = none ↔
          (d.masterGormDb.exec c).Error = none)) ∧
      DaoPkg.CreateOrUpdate fmt ty d (some m) rand = DaoPkg.Create fmt ty d (some m) rand) ∧
    (m.IsIDNil = false →
      (∃ c, (DaoPkg.CreateOrUpdate fmt ty d (some m) rand).trace.filter Event.isStorage =
          [Event.storage c] ∧
        phases (DaoPkg.CreateOrUpdate fmt ty d (some m) rand).trace =
          [Phase.hook .BeforeUpdate, Phase.storage] ++
            (if (DaoPkg.CreateOrUpdate fmt ty d (some m) rand).err = none then
              [Phase.hook .AfterUpdate] else []) ∧
        ((DaoPkg.CreateOrUpdate fmt ty d (some m) rand).err = none ↔
          (d.masterGormDb.exec c).Error = none)) ∧
      (d.masterGormDb.HasBlockGlobalUpdate = false →
        phases (DaoPkg.UpdateColumnValues fmt ty d m cols).trace = [Phase.hook .BeforeUpdate] ∧
        (DaoPkg.UpdateColumnValues fmt ty d m cols).err ≠ none) ∧
      (d.masterGormDb.HasBlockGlobalUpdate = true →
        ∃ c, (DaoPkg.UpdateColumnValues fmt ty d m cols).trace.filter Event.isStorage =
            [Event.storage c] ∧
          phases (DaoPkg.UpdateColumnValues fmt ty d m cols).trace =
            [Phase.hook .BeforeUpdate, Phase.storage] ++
              (if (DaoPkg.UpdateColumnValues fmt ty d m cols).err = none then
                [Phase.hook .AfterUpdate] else []) ∧
          ((DaoPkg.UpdateColumnValues fmt ty d m cols).err = none ↔
            ((d.masterGormDb.exec c).Error = none ∧
              (d.masterGormDb.exec c).RowsAffected ≤ 1)))) := by
  refine ⟨fun h => ⟨DaoPkg.Create_phases fmt ty d m rand h, ?_⟩,
    fun h => ⟨DaoPkg.CreateOrUpdate_phases fmt ty d m rand h,
      (DaoPkg.UpdateColumnValues_phases fmt ty d m cols h).1,
      (DaoPkg.UpdateColumnValues_phases fmt ty d m cols h).2⟩⟩
  simp [DaoPkg.CreateOrUpdate, h]

/-- C24, an instance: the update of the stored sample user, answered with one affected row, and
the insert of the new sample user, answered with an error. -/
theorem hooks_run_once_around_the_storage_call_witness :
    sampleUser.IsIDNil = false ∧ sampleNewUser.IsIDNil = true ∧
    phases (DaoPkg.UpdateColumnValues sampleFmt DaoPkg.sampleTypes (DaoPkg.sampleDao none 1)
        sampleUser (some [("name", Value.str "bob")])).trace =
      [Phase.hook .BeforeUpdate, Phase.storage, Phase.hook .AfterUpdate] ∧
    phases (DaoPkg.Create sampleFmt DaoPkg.sampleTypes
        (DaoPkg.sampleDao (some sampleUniqueViolation) 0) (some sampleNewUser) 5).trace =
      [Phase.hook .BeforeCreate, Phase.storage] ∧
    (∃ c, (DaoPkg.Create sampleFmt DaoPkg.sampleTypes
          (DaoPkg.sampleDao (some sampleUniqueViolation) 0) (some sampleNewUser) 5).trace.filter
          Event.isStorage = [Event.storage c] ∧
      phases (DaoPkg.Create sampleFmt DaoPkg.sampleTypes
          (DaoPkg.sampleDao (some sampleUniqueViolation) 0) (some sampleNewUser) 5).trace =
        [Phase.hook .BeforeCreate, Phase.storage] ++
          (if (DaoPkg.Create sampleFmt DaoPkg.sampleTypes
              (DaoPkg.sampleDao (some sampleUniqueViolation) 0) (some sampleNewUser) 5).err = none
            then [Phase.hook .AfterCreate] else []) ∧
      ((DaoPkg.Create sampleFmt DaoPkg.sampleTypes
          (DaoPkg.sampleDao (some sampleUniqueViolation) 0) (some sampleNewUser) 5).err = none ↔
        ((DaoPkg.sampleDao (some sampleUniqueViolation) 0).masterGormDb.exec c).Error = none)) ∧
    (∃ c, (DaoPkg.CreateOrUpdate sampleFmt DaoPkg.sampleTypes (DaoPkg.sampleDao none 1)
          (some sampleUser) 5).trace.filter Event.isStorage = [Event.storage c] ∧
      phases (DaoPkg.CreateOrUpdate sampleFmt DaoPkg.sampleTypes (DaoPkg.sampleDao none 1)
          (some sampleUser) 5).trace =
        [Phase.hook .BeforeUpdate, Phase.storage] ++
          (if (DaoPkg.CreateOrUpdate sampleFmt DaoPkg.sampleTypes (DaoPkg.sampleDao none 1)
              (some sampleUser) 5).err = none then [Phase.hook .AfterUpdate] else []) ∧
      ((DaoPkg.CreateOrUpdate sampleFmt DaoPkg.sampleTypes (DaoPkg.sampleDao none 1)
          (some sampleUser) 5).err = none ↔
        ((DaoPkg.sampleDao none 1).masterGormDb.exec c).Error = none)) :=
  ⟨by decide, by decide, by decide, by decide,
    ((hooks_run_once_around_the_storage_call sampleFmt DaoPkg.sampleTypes
      (DaoPkg.sampleDao (some sampleUniqueViolation) 0) sampleNewUser none 5).1 (by decide)).1,
    ((hooks_run_once_around_the_storage_call sampleFmt DaoPkg.sampleTypes
      (DaoPkg.sampleDao none 1) sampleUser (some [("name", Value.str "bob")]) 5).2
        (by decide)).1⟩

/-! ## Identity generation -/

/-- A generated identity is never the nil identity: its version nibble is 4. -/
theorem NewUUIDV4_ne_nil (r : Nat) : NewUUIDV4 r ≠ uuidNil := by
  simp only [NewUUIDV4, uuidNil]
  have h : 0 < (r % 2 ^ 128 / 2 ^ 72 % 256 % 16 + 64) * 2 ^ 72 := by positivity
  exact Nat.ne_of_gt (Nat.lt_of_lt_of_le h
    (le_trans (Nat.le_add_left _ _) (Nat.le_add_right _ _)))

/-- The classifier of the sub-package logs nothing for a non-nil error. -/
theorem DaoPkg.extractUniqueMessages_events (fmt : Fmt) (d : DaoPkg.Dao) (e : Err) :
    (DaoPkg.extractUniqueMessages fmt d (some e)).2 = [] :=
  (DaoPkg.extractUniqueMessages_some fmt d e).2

/-- No update regenerates an identity. -/
theorem DaoPkg.UpdateColumnValues_no_generateID (fmt : Fmt) (ty : DaoPkg.Types)
    (d : DaoPkg.Dao) (m : Model) (cols : Option ColMap) :
    Event.generateID ∉ (DaoPkg.UpdateColumnValues fmt ty d m cols).trace := by
  cases hid : DaoPkg.assertIDValid m with
  | some e => simp [DaoPkg.UpdateColumnValues, hid]
  | none =>
    cases hb : d.masterGormDb.HasBlockGlobalUpdate with
    | false => simp [DaoPkg.UpdateColumnValues, hid, hb, DaoPkg.executeHookListeners_trace]
    | true =>
      cases hq : (d.masterGormDb.exec (.Update (DaoPkg.executeHookListeners ty d m
          .BeforeUpdate (DaoPkg.newHookCtx cols false)).1
        (cols.map (fun c => (DaoPkg.executeHookListeners ty d m .BeforeUpdate
          (DaoPkg.newHookCtx cols false)).2.1.Fields.getD c)))).Error with
      | some e =>
        simp [DaoPkg.UpdateColumnValues, hid, hb, hq, DaoPkg.executeHookListeners_trace,
          DaoPkg.extractUniqueMessages_events]
      | none =>
        simp only [DaoPkg.UpdateColumnValues, hid, hb, hq, Bool.not_true, Bool.false_eq_true,
          if_false]
        split <;> simp [DaoPkg.executeHookListeners_trace]

/-- No delete regenerates an identity. -/
theorem DaoPkg.Delete_no_generateID (ty : DaoPkg.Types) (d : DaoPkg.Dao) (m : Model) :
    Event.generateID ∉ (DaoPkg.Delete ty d m).trace := by
  cases hid : DaoPkg.assertIDValid m with
  | some e => simp [DaoPkg.Delete, hid]
  | none =>
    cases hq : (d.masterGormDb.exec (.Delete m)).Error with
    | some e => simp [DaoPkg.Delete, hid, hq]
    | none =>
      simp only [DaoPkg.Delete, hid, hq]
      split <;> simp [DaoPkg.executeHookListeners_trace]

/-- No save of a record that has an identity regenerates it. -/
theorem DaoPkg.CreateOrUpdate_no_generateID (fmt : Fmt) (ty : DaoPkg.Types) (d : DaoPkg.Dao)
    (m : Model) (rand : Nat) (h : m.IsIDNil = false) :
    Event.generateID ∉ (DaoPkg.CreateOrUpdate fmt ty d (some m) rand).trace := by
  cases hq : (d.masterGormDb.exec (.Save (DaoPkg.executeHookListeners ty d m .BeforeUpdate
      (DaoPkg.newHookCtx none true)).1)).Error with
  | some e => simp [DaoPkg.CreateOrUpdate, h, hq, DaoPkg.executeHookListeners_trace]
  | none => simp [DaoPkg.CreateOrUpdate, h, hq, DaoPkg.executeHookListeners_trace]

/-- The events of an accepted `Create`: the identity generation first and once. -/
theorem DaoPkg.Create_generateID (fmt : Fmt) (ty : DaoPkg.Types) (d : DaoPkg.Dao) (m : Model)
    (rand : Nat) (h : m.IsIDNil = true) :
    ∃ rest, (DaoPkg.Create fmt ty d (some m) rand).trace = Event.generateID :: rest ∧
      Event.generateID ∉ rest := by
  cases hq : (d.masterGormDb.exec (.Create (DaoPkg.executeHookListeners ty d (m.GenerateID rand)
      .BeforeCreate (DaoPkg.newHookCtx none true)).1)).Error with
  | some e =>
    simp [DaoPkg.Create, h, hq, DaoPkg.executeHookListeners_trace,
      DaoPkg.extractUniqueMessages_events]
  | none => simp [DaoPkg.Create, h, hq, DaoPkg.executeHookListeners_trace]

/-- C25: the repository runs the identity generation of a record only in `Create`. In an
accepted `Create`, on a record whose identity is nil, it runs exactly once and first, before
every hook dispatch and storage call; a rejected `Create` does not run it; no update, no delete
and no `CreateOrUpdate` of a record that has an identity runs it. When the insert of an accepted
`Create` fails and the listeners left the identity alone, the record is left with the generated
identity, which is not nil, and a second `Create` on it is rejected as an existing object
without any effect. -/
theorem identity_is_generated_once_by_create (fmt : Fmt) (ty : DaoPkg.Types) (d : DaoPkg.Dao)
    (m : Model) (cols : Option ColMap) (ci : List ColumnInfo) (rand rand2 : Nat) :
    (m.IsIDNil = true →
      (∃ rest, (DaoPkg.Create fmt ty d (some m) rand).trace = Event.generateID :: rest ∧
        Event.generateID ∉ rest) ∧
      ((DaoPkg.Create fmt ty d (some m) rand).err ≠ none →
        (DaoPkg.executeHookListeners ty d (m.GenerateID rand) .BeforeCreate
          (DaoPkg.newHookCtx none true)).1.ID = (m.GenerateID rand).ID →
        ∃ m1, (DaoPkg.Create fmt ty d (some m) rand).value = some m1 ∧
          m1.ID = NewUUIDV4 rand ∧ m1.IsIDNil = false ∧
          DaoPkg.Create fmt ty d (some m1) rand2 =
            ⟨some (merryNew ("inserting an existing object, " ++ m1.typeName ++ " with " ++
              uuidString m1.GetID)), some m1, []⟩)) ∧
    (m.IsIDNil = false →
      (DaoPkg.Create fmt ty d (some m) rand).trace = [] ∧
      (DaoPkg.Create fmt ty d (some m) rand).value = some m ∧
      (DaoPkg.Create fmt ty d (some m) rand).err ≠ none ∧
      Event.generateID ∉ (DaoPkg.CreateOrUpdate fmt ty d (some m) rand).trace ∧
      Event.generateID ∉ (DaoPkg.CreateOrUpdateColumns fmt ty d (some m) ci rand).trace) ∧
    (DaoPkg.Create fmt ty d none rand).trace = [] ∧
    Event.generateID ∉ (DaoPkg.UpdateColumnValues fmt ty d m cols).trace ∧
    Event.generateID ∉ (DaoPkg.UpdateColumns fmt ty d m ci).trace ∧
    Event.generateID ∉ (DaoPkg.Delete ty d m).trace := by
  refine ⟨fun h => ⟨DaoPkg.Create_generateID fmt ty d m rand h, ?_⟩, fun h => ?_, rfl,
    DaoPkg.UpdateColumnValues_no_generateID fmt ty d m cols,
    DaoPkg.UpdateColumnValues_no_generateID fmt ty d m _,
    DaoPkg.Delete_no_generateID ty d m⟩
  · intro herr hkeep
    have hid : (DaoPkg.executeHookListeners ty d (m.GenerateID rand) .BeforeCreate
        (DaoPkg.newHookCtx none true)).1.ID = NewUUIDV4 rand := by
      rw [hkeep]
      rfl
    have hnil : (DaoPkg.executeHookListeners ty d (m.GenerateID rand) .BeforeCreate
        (DaoPkg.newHookCtx none true)).1.IsIDNil = false := by
      simp only [Model.IsIDNil, Model.GetID, hid, decide_eq_false_iff_not]
      exact NewUUIDV4_ne_nil rand
    refine ⟨(DaoPkg.executeHookListeners ty d (m.GenerateID rand) .BeforeCreate
        (DaoPkg.newHookCtx none true)).1, ?_, hid, hnil, ?_⟩
    · cases hq : (d.masterGormDb.exec (.Create (DaoPkg.executeHookListeners ty d
          (m.GenerateID rand) .BeforeCreate (DaoPkg.newHookCtx none true)).1)).Error with
      | some e => simp [DaoPkg.Create, h, hq]
      | none =>
        exfalso
        apply herr
        simp [DaoPkg.Create, h, hq]
    · simp [DaoPkg.Create, hnil]
  · refine ⟨by simp [DaoPkg.Create, h], by simp [DaoPkg.Create, h],
      by simp [DaoPkg.Create, h, merryNew],
      DaoPkg.CreateOrUpdate_no_generateID fmt ty d m rand h, ?_⟩
    simp only [DaoPkg.CreateOrUpdateColumns, h, Bool.false_eq_true, if_false]
    exact DaoPkg.UpdateColumnValues_no_generateID fmt ty d m _

/-- C25, an instance: the insert of the new sample user fails on a unique index; the record
keeps the generated identity and the second `Create` is rejected without any effect. -/
theorem identity_is_generated_once_by_create_witness :
    sampleNewUser.IsIDNil = true ∧
    (DaoPkg.Create sampleFmt DaoPkg.sampleTypes (DaoPkg.sampleDao (some sampleUniqueViolation) 0)
      (some sampleNewUser) 5).err ≠ none ∧
    (∃ rest, (DaoPkg.Create sampleFmt DaoPkg.sampleTypes
          (DaoPkg.sampleDao (some sampleUniqueViolation) 0) (some sampleNewUser) 5).trace =
        Event.generateID :: rest ∧ Event.generateID ∉ rest) ∧
    (∃ m1, (DaoPkg.Create sampleFmt DaoPkg.sampleTypes
          (DaoPkg.sampleDao (some sampleUniqueViolation) 0) (some sampleNewUser) 5).value =
        some m1 ∧
      m1.ID = NewUUIDV4 5 ∧ m1.IsIDNil = false ∧
      DaoPkg.Create sampleFmt DaoPkg.sampleTypes
          (DaoPkg.sampleDao (some sampleUniqueViolation) 0) (some m1) 6 =
        ⟨some (merryNew ("inserting an existing object, " ++ m1.typeName ++ " with " ++
          uuidString m1.GetID)), some m1, []⟩) :=
  ⟨by decide, by decide,
    ((identity_is_generated_once_by_create sampleFmt DaoPkg.sampleTypes
      (DaoPkg.sampleDao (some sampleUniqueViolation) 0) sampleNewUser none [] 5 6).1
        (by decide)).1,
    ((identity_is_generated_once_by_create sampleFmt DaoPkg.sampleTypes
      (DaoPkg.sampleDao (some sampleUniqueViolation) 0) sampleNewUser none [] 5 6).1
        (by decide)).2 (by decide) rfl⟩

/-! ## Loading by identity -/

/-- The one storage call of `First` on a query without recorded error: the fetch of the first
row on the handle and with the predicate and parameters of the query. -/
theorem DaoPkg.First_storage (fmt : Fmt) (g : Gorm) (q : DaoPkg.Query) (m : Model)
    (h : q.err = none) :
    (q.First fmt g m).trace.filter Event.isStorage =
      [Event.storage (.First q.prepareDb m q.whereExpressionAndValues)] := by
  cases hq : (g.exec (.First q.prepareDb m q.whereExpressionAndValues)).Error with
  | none =>
    simp [DaoPkg.Query.First, h, DaoPkg.Query.prepareDb, DaoPkg.Query.whereExpressionAndValues,
      Event.isStorage] at hq ⊢
    simp [hq, Event.isStorage]
  | some e =>
    simp [DaoPkg.Query.First, h, DaoPkg.Query.prepareDb, DaoPkg.Query.whereExpressionAndValues,
      Event.isStorage] at hq ⊢
    simp [hq, Event.isStorage]

/-- The query of a lookup by identity: no recorded error, the predicate `id=?` with the identity
as its parameter, and a handle without ordering, offset or limit. -/
theorem DaoPkg.idQuery (fmt : Fmt) (q : DaoPkg.Query) (id : UUID) (he : q.err = none)
    (hx : q.expressions = []) (hv : q.values = []) (ho : q.orderBy = []) :
    (q.Filter fmt "id" "=" (Value.uuid id)).err = none ∧
    (q.Filter fmt "id" "=" (Value.uuid id)).whereExpressionAndValues =
      [Value.str " (id=?) ", Value.uuid id] ∧
    (q.Filter fmt "id" "=" (Value.uuid id)).prepareDb = ⟨[], q.includeDeleted, none, none⟩ := by
  have hc : countPlaceholders "id=?" = 1 := by decide
  have hn : ("id=?" : String) ≠ "" := by decide
  have hj : joinedPredicate ["id=?"] = " (id=?) " := by decide
  refine ⟨?_, ?_, ?_⟩
  · simp [DaoPkg.Query.Filter, DaoPkg.Query.appendFilterExpressionAndValues, hc, he]
  · simp only [DaoPkg.Query.whereExpressionAndValues, whereLoop_eq]
    simp [DaoPkg.Query.Filter, DaoPkg.Query.appendFilterExpressionAndValues, hn, hx, hv, hj]
  · simp [DaoPkg.Query.Filter, DaoPkg.Query.appendFilterExpressionAndValues,
      DaoPkg.Query.prepareDb, ho]

/-- C26: `Load` on a record whose identity is nil, `ByID` and `GetDeletedByID` with the nil
identity, and `ByStringID` with the empty text, with a text that `uuid.FromString` rejects or
with a text that encodes the nil identity, return an error and have no effect at all, so no call
reaches the store. Otherwise each makes exactly one call to the store, the fetch of the first
row for the predicate `id=?` with the identity as its parameter, on a handle without ordering,
offset or limit, `GetDeletedByID` without the soft-delete scope, and returns what that fetch
returns; `ByStringID` is then `ByID` on the decoded identity. -/
theorem lookups_by_identity_guard_and_delegate (fmt : Fmt)
    (FromString : String → Except String UUID) (d : DaoPkg.Dao) (m : Model) (id : UUID)
    (strID : String) :
    (m.IsIDNil = true → (DaoPkg.Load fmt d m).err ≠ none ∧ (DaoPkg.Load fmt d m).trace = []) ∧
    ((DaoPkg.ByID fmt d m uuidNil).err ≠ none ∧ (DaoPkg.ByID fmt d m uuidNil).trace = []) ∧
    ((DaoPkg.GetDeletedByID fmt d m uuidNil).err ≠ none ∧
      (DaoPkg.GetDeletedByID fmt d m uuidNil).trace = []) ∧
    ((DaoPkg.ByStringID fmt FromString d m "").err ≠ none ∧
      (DaoPkg.ByStringID fmt FromString d m "").trace = []) ∧
    (∀ msg, FromString strID = .error msg →
      (DaoPkg.ByStringID fmt FromString d m strID).err ≠ none ∧
      (DaoPkg.ByStringID fmt FromString d m strID).trace = []) ∧
    (FromString strID = .ok uuidNil →
      (DaoPkg.ByStringID fmt FromString d m strID).err ≠ none ∧
      (DaoPkg.ByStringID fmt FromString d m strID).trace = []) ∧
    (m.IsIDNil = false →
      (DaoPkg.Load fmt d m).trace.filter Event.isStorage =
        [Event.storage (.First ⟨[], false, none, none⟩ m
          [Value.str " (id=?) ", Value.uuid m.GetID])] ∧
      (DaoPkg.Load fmt d m).err =
        ((DaoPkg.newQuery.Filter fmt "id" "=" (Value.uuid m.GetID)).First fmt d.masterGormDb
          m).err) ∧
    (id ≠ uuidNil →
      (DaoPkg.ByID fmt d m id).trace.filter Event.isStorage =
        [Event.storage (.First ⟨[], false, none, none⟩ m [Value.str " (id=?) ", Value.uuid id])] ∧
      (DaoPkg.ByID fmt d m id).err =
        ((DaoPkg.newQuery.Filter fmt "id" "=" (Value.uuid id)).First fmt d.masterGormDb m).err ∧
      (DaoPkg.GetDeletedByID fmt d m id).trace.filter Event.isStorage =
        [Event.storage (.First ⟨[], true, none, none⟩ m [Value.str " (id=?) ", Value.uuid id])] ∧
      (DaoPkg.GetDeletedByID fmt d m id).err =
        ((DaoPkg.newQuery.IncludeDeleted.Filter fmt "id" "=" (Value.uuid id)).First fmt
          d.masterGormDb m).err ∧
      (strID ≠ "" → FromString strID = .ok id →
        DaoPkg.ByStringID fmt FromString d m strID = DaoPkg.ByID fmt d m id)) := by
  have hq := fun i => DaoPkg.idQuery fmt DaoPkg.newQuery i rfl rfl rfl rfl
  have hqd := fun i => DaoPkg.idQuery fmt DaoPkg.newQuery.IncludeDeleted i rfl rfl rfl rfl
  refine ⟨?_, ?_, ?_, ?_, ?_, ?_, ?_, ?_⟩
  · intro h
    simp [DaoPkg.Load, h, merryNew]
  · simp [DaoPkg.ByID, merryNew]
  · simp [DaoPkg.GetDeletedByID, merryNew]
  · simp [DaoPkg.ByStringID, merryNew]
  · intro msg hmsg
    obtain ⟨w, hw, _, _⟩ := merryWrap_Appendf (.base (.text msg)) ("id=" ++ strID)
    by_cases hs : strID = ""
    · simp [DaoPkg.ByStringID, hs, merryNew]
    · simp [DaoPkg.ByStringID, hs, hmsg, hw]
  · intro hnil
    by_cases hs : strID = ""
    · simp [DaoPkg.ByStringID, hs, merryNew]
    · simp [DaoPkg.ByStringID, hs, hnil, DaoPkg.ByID, merryNew]
  · intro h
    obtain ⟨h1, h2, h3⟩ := hq m.GetID
    have hf := DaoPkg.First_storage fmt d.masterGormDb _ m h1
    rw [h2, h3] at hf
    simp only [DaoPkg.Load, h, Bool.false_eq_true, if_false, List.filter_append, hf]
    simp [Event.isStorage, DaoPkg.newQuery]
  · intro hid
    have hid2 : ¬ uuidNil = id := fun hc => hid hc.symm
    obtain ⟨h1, h2, h3⟩ := hq id
    obtain ⟨g1, g2, g3⟩ := hqd id
    have hf := DaoPkg.First_storage fmt d.masterGormDb _ m h1
    have gf := DaoPkg.First_storage fmt d.masterGormDb _ m g1
    rw [h2, h3] at hf
    rw [g2, g3] at gf
    refine ⟨?_, ?_, ?_, ?_, ?_⟩
    · simp only [DaoPkg.ByID, hid2, if_false, List.filter_append, hf]
      simp [Event.isStorage, DaoPkg.newQuery]
    · simp [DaoPkg.ByID, hid2]
    · simp only [DaoPkg.GetDeletedByID, hid2, if_false, List.filter_append, gf]
      simp [Event.isStorage, DaoPkg.newQuery, DaoPkg.Query.IncludeDeleted]
    · simp [DaoPkg.GetDeletedByID, hid2]
    · intro hs hok
      simp [DaoPkg.ByStringID, hs, hok]

/-- C26, an instance: the lookups of the stored sample user, and of texts that the sample parser
rejects or decodes to the nil identity. -/
theorem lookups_by_identity_guard_and_delegate_witness :
    sampleUser.IsIDNil = false ∧ (7 : UUID) ≠ uuidNil ∧
    sampleFromString "00000000-0000-0000-0000-000000000007" = .ok 7 ∧
    sampleFromString "00000000-0000-0000-0000-000000000000" = .ok uuidNil ∧
    (DaoPkg.Load sampleFmt (DaoPkg.sampleDao none 1) sampleUser).trace.filter Event.isStorage =
      [Event.storage (.First ⟨[], false, none, none⟩ sampleUser
        [Value.str " (id=?) ", Value.uuid sampleUser.GetID])] ∧
    DaoPkg.ByStringID sampleFmt sampleFromString (DaoPkg.sampleDao none 1) sampleUser
        "00000000-0000-0000-0000-000000000007" =
      DaoPkg.ByID sampleFmt (DaoPkg.sampleDao none 1) sampleUser 7 ∧
    (DaoPkg.ByStringID sampleFmt sampleFromString (DaoPkg.sampleDao none 1) sampleUser
        "00000000-0000-0000-0000-000000000000").trace = [] ∧
    (DaoPkg.ByStringID sampleFmt sampleFromString (DaoPkg.sampleDao none 1) sampleUser
        "seven").trace = [] :=
  ⟨by decide, by decide, rfl, rfl,
    ((lookups_by_identity_guard_and_delegate sampleFmt sampleFromString (DaoPkg.sampleDao none 1)
      sampleUser 7 "00000000-0000-0000-0000-000000000007").2.2.2.2.2.2.1 (by decide)).1,
    ((lookups_by_identity_guard_and_delegate sampleFmt sampleFromString (DaoPkg.sampleDao none 1)
      sampleUser 7 "00000000-0000-0000-0000-000000000007").2.2.2.2.2.2.2 (by decide)).2.2.2.2
        (by decide) rfl,
    ((lookups_by_identity_guard_and_delegate sampleFmt sampleFromString (DaoPkg.sampleDao none 1)
      sampleUser 7 "00000000-0000-0000-0000-000000000000").2.2.2.2.2.1 rfl).2,
    ((lookups_by_identity_guard_and_delegate sampleFmt sampleFromString (DaoPkg.sampleDao none 1)
      sampleUser 7 "seven").2.2.2.2.1 "uuid: incorrect UUID length" rfl).2⟩

/-! ## Stats samples of the operations -/

/-- Without recorded error, `allDb` hands exactly one sample to the stats collector. -/
theorem DaoPkg.allDb_stats (fmt : Fmt) (g : Gorm) (q : DaoPkg.Query) (mo : Option Model)
    (target : Option Target) (he : q.err = none) :
    ∃ label, (q.allDb fmt g mo target).trace.filter Event.isStats = [Event.stats label] := by
  rcases mo with _ | m <;> rcases target with _ | t
  · exact ⟨_, by simp [DaoPkg.Query.allDb, he, Event.isStats]; rfl⟩
  · cases ht : t.isPtr with
    | false => exact ⟨_, by simp [DaoPkg.Query.allDb, he, ht, Event.isStats]; rfl⟩
    | true => exact ⟨_, by simp [DaoPkg.Query.allDb, he, ht, Event.isStats]; rfl⟩
  · exact ⟨_, by simp [DaoPkg.Query.allDb, he, Event.isStats]; rfl⟩
  · exact ⟨_, by simp [DaoPkg.Query.allDb, he, Event.isStats]; rfl⟩

/-- Without recorded error, `First` hands exactly one sample to the stats collector. -/
theorem DaoPkg.First_stats (fmt : Fmt) (g : Gorm) (q : DaoPkg.Query) (m : Model)
    (he : q.err = none) :
    (q.First fmt g m).trace.filter Event.isStats =
      [Event.stats (Sprintf0 fmt
        ({ q with logStr := q.logStr ++ ["first:" ++ m.typeName] } : DaoPkg.Query).getLogStr)] := by
  simp only [DaoPkg.Query.First, he]
  split <;> simp [Event.isStats]

/-- Without recorded error, `Count` hands exactly one sample to the stats collector. -/
theorem DaoPkg.Count_stats (fmt : Fmt) (g : Gorm) (q : DaoPkg.Query) (m : Model)
    (he : q.err = none) :
    (q.Count fmt g m).trace.filter Event.isStats =
      [Event.stats (Sprintf0 fmt
        ({ q with logStr := q.logStr ++ ["count:" ++ m.typeName] } : DaoPkg.Query).getLogStr)] := by
  simp only [DaoPkg.Query.Count, he]
  split <;> simp [Event.isStats]

/-- Without recorded error, `AllIterator` hands exactly one sample to the stats collector. -/
theorem DaoPkg.AllIterator_stats (fmt : Fmt) (g : Gorm) (q : DaoPkg.Query) (mo : Option Model)
    (he : q.err = none) :
    ∃ label, (q.AllIterator fmt g mo).trace.filter Event.isStats = [Event.stats label] := by
  obtain ⟨label, hl⟩ := DaoPkg.allDb_stats fmt g q mo none he
  refine ⟨label, ?_⟩
  simp only [DaoPkg.Query.AllIterator]
  split
  · exact hl
  · exact hl
  · split <;> simp [List.filter_append, hl, Event.isStats]

/-- With a recorded error, the terminal operations hand no sample to the stats collector. -/
theorem DaoPkg.terminals_no_stats (fmt : Fmt) (g : Gorm) (q : DaoPkg.Query) (m : Model)
    (mo : Option Model) (target : Option Target) (he : q.err ≠ none) :
    (q.First fmt g m).trace = [] ∧ (q.Count fmt g m).trace = [] ∧
    (q.All fmt g target).trace = [] ∧ (q.AllIterator fmt g mo).trace = [] := by
  cases hq : q.err with
  | none => exact absurd hq he
  | some e =>
    refine ⟨by simp [DaoPkg.Query.First, hq], by simp [DaoPkg.Query.Count, hq],
      by simp [DaoPkg.Query.All, DaoPkg.Query.allDb, hq],
      by simp [DaoPkg.Query.AllIterator, DaoPkg.Query.allDb, hq]⟩

/-- An accepted `Create` hands exactly one sample to the stats collector. -/
theorem DaoPkg.Create_stats (fmt : Fmt) (ty : DaoPkg.Types) (d : DaoPkg.Dao) (m : Model)
    (rand : Nat) (h : m.IsIDNil = true) :
    (DaoPkg.Create fmt ty d (some m) rand).trace.filter Event.isStats =
      [Event.stats ("creating " ++ m.typeName)] := by
  cases hq : (d.masterGormDb.exec (.Create (DaoPkg.executeHookListeners ty d (m.GenerateID rand)
      .BeforeCreate (DaoPkg.newHookCtx none true)).1)).Error with
  | some e =>
    simp [DaoPkg.Create, h, hq, DaoPkg.executeHookListeners_trace,
      DaoPkg.extractUniqueMessages_events, Event.isStats, List.filter_cons]
  | none =>
    simp [DaoPkg.Create, h, hq, DaoPkg.executeHookListeners_trace, Event.isStats,
      List.filter_cons]

/-- C27, as stated, fails: a call that is rejected before the operation starts hands no sample
to the stats collector. `Create` on the stored sample user, which has an identity, and `First`
on a query whose fragment has a placeholder but no parameter return an error and leave no
event at all. -/
theorem rejected_calls_emit_no_stats_sample :
    (DaoPkg.Create sampleFmt DaoPkg.sampleTypes (DaoPkg.sampleDao none 1) (some sampleUser)
      5).err ≠ none ∧
    (DaoPkg.Create sampleFmt DaoPkg.sampleTypes (DaoPkg.sampleDao none 1) (some sampleUser)
      5).trace.filter Event.isStats = [] ∧
    (DaoPkg.Create sampleFmt DaoPkg.sampleTypes (DaoPkg.sampleDao none 1) none
      5).trace.filter Event.isStats = [] ∧
    ((DaoPkg.newQuery.FilterRawExpression sampleFmt "age > ?" []).First sampleFmt
      (sampleGorm none 1) sampleUser).err ≠ none ∧
    ((DaoPkg.newQuery.FilterRawExpression sampleFmt "age > ?" []).First sampleFmt
      (sampleGorm none 1) sampleUser).trace.filter Event.isStats = [] ∧
    ((DaoPkg.newQuery.FilterRawExpression sampleFmt "age > ?" []).Count sampleFmt
      (sampleGorm none 1) sampleUser).trace.filter Event.isStats = [] ∧
    ((DaoPkg.newQuery.FilterRawExpression sampleFmt "age > ?" []).All sampleFmt
      (sampleGorm none 1) (some sampleTarget)).trace.filter Event.isStats = [] := by
  decide

/-- C27, amended: every accepted call hands exactly one sample to the stats collector, whether
it then succeeds or fails: `Create` on a record whose identity is nil, and `First`, `Count`,
`All` and `AllIterator` on a query without recorded error. A rejected call (`Create` on a nil
record or on a record that has an identity, a terminal operation on a query with a recorded
error) hands none. -/
theorem accepted_calls_emit_one_stats_sample (fmt : Fmt) (ty : DaoPkg.Types) (d : DaoPkg.Dao)
    (g : Gorm) (q : DaoPkg.Query) (m : Model) (mo : Option Model) (target : Option Target)
    (rand : Nat) :
    (m.IsIDNil = true →
      (DaoPkg.Create fmt ty d (some m) rand).trace.filter Event.isStats =
        [Event.stats ("creating " ++ m.typeName)]) ∧
    (m.IsIDNil = false → (DaoPkg.Create fmt ty d (some m) rand).trace = []) ∧
    (DaoPkg.Create fmt ty d none rand).trace = [] ∧
    (q.err = none →
      ((q.First fmt g m).trace.filter Event.isStats).length = 1 ∧
      ((q.Count fmt g m).trace.filter Event.isStats).length = 1 ∧
      ((q.All fmt g target).trace.filter Event.isStats).length = 1 ∧
      ((q.AllIterator fmt g mo).trace.filter Event.isStats).length = 1) ∧
    (q.err ≠ none →
      (q.First fmt g m).trace = [] ∧ (q.Count fmt g m).trace = [] ∧
      (q.All fmt g target).trace = [] ∧ (q.AllIterator fmt g mo).trace = []) := by
  refine ⟨DaoPkg.Create_stats fmt ty d m rand, fun h => by simp [DaoPkg.Create, h], rfl, ?_,
    DaoPkg.terminals_no_stats fmt g q m mo target⟩
  intro he
  obtain ⟨l1, h1⟩ := DaoPkg.allDb_stats fmt g q none target he
  obtain ⟨l2, h2⟩ := DaoPkg.AllIterator_stats fmt g q mo he
  refine ⟨?_, ?_, ?_, ?_⟩
  · rw [DaoPkg.First_stats fmt g q m he]
    rfl
  · rw [DaoPkg.Count_stats fmt g q m he]
    rfl
  · rw [DaoPkg.All_trace, h1]
    rfl
  · rw [h2]
    rfl

/-- C27, an instance: the insert of the new sample user, failing on a unique index, and the
count of a fresh query hand one sample each. -/
theorem accepted_calls_emit_one_stats_sample_witness :
    sampleNewUser.IsIDNil = true ∧ DaoPkg.newQuery.err = none ∧
    (DaoPkg.Create sampleFmt DaoPkg.sampleTypes (DaoPkg.sampleDao (some sampleUniqueViolation) 0)
        (some sampleNewUser) 5).trace.filter Event.isStats =
      [Event.stats ("creating " ++ sampleNewUser.typeName)] ∧
    ((DaoPkg.newQuery.Count sampleFmt (sampleGorm none 1) sampleUser).trace.filter
      Event.isStats).length = 1 :=
  ⟨by decide, by decide,
    (accepted_calls_emit_one_stats_sample sampleFmt DaoPkg.sampleTypes
      (DaoPkg.sampleDao (some sampleUniqueViolation) 0) (sampleGorm none 1) DaoPkg.newQuery
      sampleNewUser none none 5).1 (by decide),
    ((accepted_calls_emit_one_stats_sample sampleFmt DaoPkg.sampleTypes
      (DaoPkg.sampleDao (some sampleUniqueViolation) 0) (sampleGorm none 1) DaoPkg.newQuery
      sampleUser none none 5).2.2.2.1 (by decide)).2.1⟩

/-! ## Query descriptor -/

/-- C28: the text a filter adds to the descriptor of a query does not depend on the value that
goes through its placeholder. For every query, column and operator, `Filter` with two values
leaves the same descriptor, `filter` followed by the column, the operator and `?`; `FilterIn` on
a column with two value lists that hold the same number of distinct values leaves the same
descriptor, `filter-in` followed by the column and the list of placeholders; and the samples
that `First` and `Count` hand to the stats collector for the two queries carry the same
label. -/
theorem descriptor_is_independent_of_parameter_values (fmt : Fmt) (g1 g2 : Gorm)
    (q : DaoPkg.Query) (m : Model) (column operation : String) (v1 v2 : Value)
    (vs1 vs2 : List Value)
    (hn : (firstOccurrences vs1).length = (firstOccurrences vs2).length) :
    (q.Filter fmt column operation v1).logStr = (q.Filter fmt column operation v2).logStr ∧
    (q.Filter fmt column operation v1).logStr =
      q.logStr ++ ["filter" ++ (column ++ operation ++ "?")] ∧
    (q.Filter fmt column operation v1).getLogStr = (q.Filter fmt column operation v2).getLogStr ∧
    (q.FilterIn fmt column vs1).logStr = (q.FilterIn fmt column vs2).logStr ∧
    (q.FilterIn fmt column vs1).logStr =
      q.logStr ++ ["filter-in" ++
        (column ++ " in (" ++ placeholderList (firstOccurrences vs1).length ++ ")")] ∧
    (q.FilterIn fmt column vs1).getLogStr = (q.FilterIn fmt column vs2).getLogStr ∧
    ((q.Filter fmt column operation v1).First fmt g1 m).trace.filter Event.isStats =
      ((q.Filter fmt column operation v2).First fmt g2 m).trace.filter Event.isStats ∧
    ((q.Filter fmt column operation v1).Count fmt g1 m).trace.filter Event.isStats =
      ((q.Filter fmt column operation v2).Count fmt g2 m).trace.filter Event.isStats ∧
    ((q.FilterIn fmt column vs1).First fmt g1 m).trace.filter Event.isStats =
      ((q.FilterIn fmt column vs2).First fmt g2 m).trace.filter Event.isStats := by
  have hf : (q.Filter fmt column operation v1).logStr =
      (q.Filter fmt column operation v2).logStr := rfl
  have hin : (q.FilterIn fmt column vs1).logStr = (q.FilterIn fmt column vs2).logStr := by
    simp only [DaoPkg.Query.FilterIn, DaoPkg.Query.appendFilterExpressionAndValues,
      DaoPkg.uniqLoop_eq, hn]
  have hterm : ∀ qa qb : DaoPkg.Query, qa.logStr = qb.logStr →
      (qa.err = none ↔ qb.err = none) →
      (qa.First fmt g1 m).trace.filter Event.isStats =
        (qb.First fmt g2 m).trace.filter Event.isStats ∧
      (qa.Count fmt g1 m).trace.filter Event.isStats =
        (qb.Count fmt g2 m).trace.filter Event.isStats := by
    intro qa qb hl he
    by_cases ha : qa.err = none
    · have hb := he.mp ha
      rw [DaoPkg.First_stats fmt g1 qa m ha, DaoPkg.First_stats fmt g2 qb m hb,
        DaoPkg.Count_stats fmt g1 qa m ha, DaoPkg.Count_stats fmt g2 qb m hb]
      simp [DaoPkg.Query.getLogStr, hl]
    · have hb : qb.err ≠ none := fun h => ha (he.mpr h)
      obtain ⟨a1, a2, _, _⟩ := DaoPkg.terminals_no_stats fmt g1 qa m none none ha
      obtain ⟨b1, b2, _, _⟩ := DaoPkg.terminals_no_stats fmt g2 qb m none none hb
      rw [a1, a2, b1, b2]
      exact ⟨rfl, rfl⟩
  have hef : (q.Filter fmt column operation v1).err = none ↔
      (q.Filter fmt column operation v2).err = none := by
    simp only [DaoPkg.Query.Filter, DaoPkg.Query.appendFilterExpressionAndValues,
      List.length_singleton]
    by_cases hc : countPlaceholders (column ++ operation ++ "?") = 1
    · simp [hc]
    · simp [hc, merryAppend, merryNew]
  have hein : (q.FilterIn fmt column vs1).err = none ↔
      (q.FilterIn fmt column vs2).err = none := by
    simp only [DaoPkg.Query.FilterIn, DaoPkg.Query.appendFilterExpressionAndValues,
      DaoPkg.uniqLoop_eq, hn]
    split
    · simp [merryAppend, merryNew]
    · rfl
  refine ⟨hf, rfl, ?_, hin, ?_, ?_, (hterm _ _ hf hef).1, (hterm _ _ hf hef).2,
    (hterm _ _ hin hein).1⟩
  · simp only [DaoPkg.Query.getLogStr, hf]
  · simp only [DaoPkg.Query.FilterIn, DaoPkg.Query.appendFilterExpressionAndValues,
      DaoPkg.uniqLoop_eq, stringsTrim_repeat]
  · simp only [DaoPkg.Query.getLogStr, hin]

/-- C28, an instance: `Filter` on `age` with 18 and with 65, and `FilterIn` on `age` with the
values 1, 2, 1 and with 3, 3, 4, which both hold two distinct values. -/
theorem descriptor_is_independent_of_parameter_values_witness :
    (firstOccurrences [Value.int 1, Value.int 2, Value.int 1]).length =
      (firstOccurrences [Value.int 3, Value.int 3, Value.int 4]).length ∧
    (DaoPkg.newQuery.Filter sampleFmt "age" ">" (Value.int 18)).getLogStr = "filterage>?" ∧
    (DaoPkg.newQuery.FilterIn sampleFmt "age"
      [Value.int 1, Value.int 2, Value.int 1]).getLogStr = "filter-inage in (?,?)" ∧
    (DaoPkg.newQuery.Filter sampleFmt "age" ">" (Value.int 18)).getLogStr =
      (DaoPkg.newQuery.Filter sampleFmt "age" ">" (Value.int 65)).getLogStr ∧
    (DaoPkg.newQuery.FilterIn sampleFmt "age" [Value.int 1, Value.int 2, Value.int 1]).getLogStr =
      (DaoPkg.newQuery.FilterIn sampleFmt "age"
        [Value.int 3, Value.int 3, Value.int 4]).getLogStr :=
  ⟨by decide, by decide, by decide,
    (descriptor_is_independent_of_parameter_values sampleFmt (sampleGorm none 1)
      (sampleGorm none 1) DaoPkg.newQuery sampleUser "age" ">" (Value.int 18) (Value.int 65)
      [Value.int 1, Value.int 2, Value.int 1] [Value.int 3, Value.int 3, Value.int 4]
      (by decide)).2.2.1,
    (descriptor_is_independent_of_parameter_values sampleFmt (sampleGorm none 1)
      (sampleGorm none 1) DaoPkg.newQuery sampleUser "age" ">" (Value.int 18) (Value.int 65)
      [Value.int 1, Value.int 2, Value.int 1] [Value.int 3, Value.int 3, Value.int 4]
      (by decide)).2.2.2.2.2.1⟩

/-! ## Placeholders and parameters -/

/-- The loop of `whereExpressionAndValues` adds no placeholder of its own. -/
theorem countPlaceholders_whereLoop (es : List String) (acc : String) :
    countPlaceholders (es.foldl
      (fun (expr : String) e =>
        (if expr.length > 0 then expr ++ " and " else expr) ++ (" (" ++ e ++ ") "))
      acc) = countPlaceholders acc + (es.map countPlaceholders).sum := by
  induction es generalizing acc with
  | nil => simp
  | cons e rest ih =>
    have h1 : countPlaceholders " and " = 0 := by decide
    have h2 : countPlaceholders " (" = 0 := by decide
    have h3 : countPlaceholders ") " = 0 := by decide
    rw [List.foldl_cons, ih]
    split <;> simp [countPlaceholders_append, h1, h2, h3] <;> omega

/-- The compiled predicate holds the placeholders of the filter expressions. -/
theorem DaoPkg.countPlaceholders_where (q : DaoPkg.Query) :
    q.whereExpressionAndValues = [Value.str (joinedPredicate q.expressions)] ++ q.values ∧
    countPlaceholders (joinedPredicate q.expressions) =
      (q.expressions.map countPlaceholders).sum := by
  refine ⟨by simp only [DaoPkg.Query.whereExpressionAndValues, whereLoop_eq], ?_⟩
  rw [← whereLoop_eq, countPlaceholders_whereLoop]
  simp [countPlaceholders]

/-- A filter fragment that leaves no recorded error had as many placeholders as parameters, and
adds both to the query. -/
theorem DaoPkg.appendFilter_balance (fmt : Fmt) (q : DaoPkg.Query) (descr expression : String)
    (values : List Value)
    (h : (q.appendFilterExpressionAndValues fmt descr expression values).err = none) :
    q.err = none ∧
    DaoPkg.placeholdersOf (q.appendFilterExpressionAndValues fmt descr expression values) +
        q.values.length =
      DaoPkg.placeholdersOf q +
        (q.appendFilterExpressionAndValues fmt descr expression values).values.length := by
  by_cases hc : countPlaceholders expression = values.length
  · have he : q.err = none := by
      simpa [DaoPkg.Query.appendFilterExpressionAndValues, hc] using h
    refine ⟨he, ?_⟩
    by_cases hx : expression = ""
    · subst hx
      have h0 : values.length = 0 := by
        rw [← hc]
        rfl
      simp [DaoPkg.Query.appendFilterExpressionAndValues, DaoPkg.placeholdersOf, h0]
    · simp [DaoPkg.Query.appendFilterExpressionAndValues, DaoPkg.placeholdersOf, hx, hc]
      omega
  · simp [DaoPkg.Query.appendFilterExpressionAndValues, hc, merryAppend, merryNew] at h

/-- An ordering that leaves no recorded error had as many placeholders as parameters, and adds
both to the query. -/
theorem DaoPkg.orderBy_balance (fmt : Fmt) (q : DaoPkg.Query) (expression : String)
    (values : List Value) (h : (q.OrderByRawExpression fmt expression values).err = none) :
    q.err = none ∧
    DaoPkg.placeholdersOf (q.OrderByRawExpression fmt expression values) + q.values.length =
      DaoPkg.placeholdersOf q + (q.OrderByRawExpression fmt expression values).values.length := by
  by_cases hc : countPlaceholders expression = values.length
  · have he : q.err = none := by
      simpa [DaoPkg.Query.OrderByRawExpression, hc] using h
    refine ⟨he, ?_⟩
    simp [DaoPkg.Query.OrderByRawExpression, DaoPkg.placeholdersOf, hc]
    omega
  · simp [DaoPkg.Query.OrderByRawExpression, hc, merryAppend, merryNew] at h

/-- A builder call that leaves no recorded error found none, and adds as many placeholders as
parameters to the query. -/
theorem DaoPkg.apply_balance (fmt : Fmt) (q : DaoPkg.Query) (op : DaoPkg.BuilderOp)
    (h : (op.apply fmt q).err = none) :
    q.err = none ∧
    DaoPkg.placeholdersOf (op.apply fmt q) + q.values.length =
      DaoPkg.placeholdersOf q + (op.apply fmt q).values.length := by
  cases hf : op.fragment with
  | some f =>
    obtain ⟨expression, values⟩ := f
    rcases DaoPkg.fragment_is_checked fmt q op expression values hf with ⟨descr, ha⟩ | ha
    · rw [ha] at h ⊢
      exact DaoPkg.appendFilter_balance fmt q descr expression values h
    · rw [ha] at h ⊢
      exact DaoPkg.orderBy_balance fmt q expression values h
  | none =>
    cases op with
    | IncludeDeleted => exact ⟨h, rfl⟩
    | WithPageNoString s => exact ⟨h, rfl⟩
    | WithPageNo n => exact ⟨h, rfl⟩
    | WithMaxIntPageSize => exact ⟨h, rfl⟩
    | WithPageSize s => exact ⟨h, rfl⟩
    | WithDefaultPageSize => exact ⟨h, rfl⟩
    | WithStringPageNo n =>
      simp only [DaoPkg.BuilderOp.apply, DaoPkg.Query.WithStringPageNo] at h ⊢
      by_cases hn : n = ""
      · simp only [hn, if_true] at h ⊢
        exact ⟨h, rfl⟩
      · by_cases hp : (ParseInt n).2 = true
        · simp only [hn, hp, if_false, if_true] at h
          obtain ⟨w, hw, _, _⟩ := merryWrap_Appendf
            (.base (.text ("strconv.ParseInt: parsing " ++ fmt.quote n ++ ": " ++
              (if parseDigits (if n.toList.head? = some '-' ∨ n.toList.head? = some '+'
                  then n.toList.tail else n.toList) = none
                then "invalid syntax" else "value out of range"))))
            ("invalid page: " ++ n)
          rw [hw] at h
          exact absurd h (by simp)
        · simp only [hn, hp, if_false] at h ⊢
          exact ⟨h, rfl⟩
    | FilterRawExpression e vs => simp [DaoPkg.BuilderOp.fragment] at hf
    | Filter c o v => simp [DaoPkg.BuilderOp.fragment] at hf
    | FilterInStrings c vs => simp [DaoPkg.BuilderOp.fragment] at hf
    | FilterIsNotNull c => simp [DaoPkg.BuilderOp.fragment] at hf
    | FilterIn c vs => simp [DaoPkg.BuilderOp.fragment] at hf
    | FilterExpr e => simp [DaoPkg.BuilderOp.fragment] at hf
    | FulltextSearch c v => simp [DaoPkg.BuilderOp.fragment] at hf
    | OrderByRawExpression e vs => simp [DaoPkg.BuilderOp.fragment] at hf
    | OrderByExpression e => simp [DaoPkg.BuilderOp.fragment] at hf
    | OrderByAsc c => simp [DaoPkg.BuilderOp.fragment] at hf
    | OrderByDesc c => simp [DaoPkg.BuilderOp.fragment] at hf

/-- A query built by any sequence of builder calls that leaves no recorded error holds as many
placeholders, in its filter expressions and its orderings together, as parameters. -/
theorem DaoPkg.applyOps_balance (fmt : Fmt) (ops : List DaoPkg.BuilderOp) (q : DaoPkg.Query)
    (h : (DaoPkg.applyOps fmt q ops).err = none) :
    q.err = none ∧
    DaoPkg.placeholdersOf (DaoPkg.applyOps fmt q ops) + q.values.length =
      DaoPkg.placeholdersOf q + (DaoPkg.applyOps fmt q ops).values.length := by
  induction ops generalizing q with
  | nil => exact ⟨h, rfl⟩
  | cons op rest ih =>
    simp only [DaoPkg.applyOps, List.foldl_cons] at h ih ⊢
    obtain ⟨h1, h2⟩ := ih (op.apply fmt q) h
    obtain ⟨h3, h4⟩ := DaoPkg.apply_balance fmt q op h1
    exact ⟨h3, by omega⟩

/-- C30: what the code does. The parameters of an ordering are appended to the same list as
the parameters of the filters, while its expression goes to the orderings: after
`OrderByRawExpression("position(? in name) desc", "ann")` on a fresh query no error is recorded,
the compiled predicate is empty, with no placeholder, and `whereExpressionAndValues` returns it
with one parameter; after `Filter("age", ">", 18)` and the same ordering the predicate holds one
placeholder and comes with two parameters. In general the parameters of an ordering follow those
the query already had. -/
theorem order_parameters_are_returned_with_the_where_predicate :
    (DaoPkg.newQuery.OrderByRawExpression sampleFmt "position(? in name) desc"
      [Value.str "ann"]).err = none ∧
    (DaoPkg.newQuery.OrderByRawExpression sampleFmt "position(? in name) desc"
      [Value.str "ann"]).whereExpressionAndValues = [Value.str "", Value.str "ann"] ∧
    countPlaceholders "" = 0 ∧
    (DaoPkg.newQuery.OrderByRawExpression sampleFmt "position(? in name) desc"
      [Value.str "ann"]).prepareDb.orders = ["position(? in name) desc"] ∧
    ((DaoPkg.newQuery.Filter sampleFmt "age" ">" (Value.int 18)).OrderByRawExpression sampleFmt
      "position(? in name) desc" [Value.str "ann"]).err = none ∧
    ((DaoPkg.newQuery.Filter sampleFmt "age" ">" (Value.int 18)).OrderByRawExpression sampleFmt
      "position(? in name) desc" [Value.str "ann"]).whereExpressionAndValues =
      [Value.str " (age>?) ", Value.int 18, Value.str "ann"] ∧
    countPlaceholders " (age>?) " = 1 ∧
    (∀ (fmt : Fmt) (q : DaoPkg.Query) (expression : String) (values : List Value),
      (q.OrderByRawExpression fmt expression values).whereExpressionAndValues =
        [Value.str (joinedPredicate q.expressions)] ++ (q.values ++ values)) := by
  refine ⟨by decide, by decide, by decide, by decide, by decide, by decide, by decide, ?_⟩
  intro fmt q expression values
  simp only [DaoPkg.Query.whereExpressionAndValues, whereLoop_eq]
  rfl

/-! ## Submitting a sample -/

/-- The turn of the consuming goroutine for a sample that found more than 1000 descriptors:
it prints the forced report, leaves the table with the aggregate of the sample alone and is
back at its receive. -/
theorem StatsPkg.work_over (fd : Int → String) (c : StatsPkg.StatsCollector) (st : dbSnapshot)
    (out : List Output) (h : c.stats.length > 1000) :
    ((⟨c, .holding st, [], out⟩ : StatsPkg.Running).work fd).consumer = .receiving ∧
    ((⟨c, .holding st, [], out⟩ : StatsPkg.Running).work fd).collector.stats =
      [(st.query, recordSample queryStat.zero st)] ∧
    ((c.PrintStatsAndReset fd).2 <:+
      ((⟨c, .holding st, [], out⟩ : StatsPkg.Running).work fd).out) := by
  have h5 : c.stats.length > 500 := by omega
  refine ⟨rfl, ?_, ?_⟩
  · simp only [StatsPkg.Running.work]
    exact StatsPkg.consume_stats_over fd c st h
  · simp only [StatsPkg.Running.work, StatsPkg.StatsCollector.consume, h, h5, if_true]
    exact ⟨out ++ [Output.stderr ("too many queries " ++ toString c.stats.length ++ "\n"),
      Output.stderr ("too many queries " ++ toString c.stats.length ++ " => cleaning" ++ "\n")],
      by simp⟩

/-- C29: what the code does. The channel between `AddStats` and the consuming goroutine is
unbuffered, so the send that ends `AddStats` completes only when the consuming goroutine is at
its receive: while it is in the body of its loop, every caller of `AddStats` stays blocked. With
1001 descriptors tracked, a first sample is taken at once; a second caller is then blocked until
the consuming goroutine has printed the forced report and recorded the first sample, and only
after that is its sample taken. -/
theorem addStats_waits_for_the_consuming_goroutine :
    StatsPkg.statsChCapacity = 0 ∧
    (∀ (c : StatsPkg.StatsCollector) (st0 st : dbSnapshot) (out : List Output),
      (⟨c, .holding st0, [], out⟩ : StatsPkg.Running).AddStats st = none) ∧
    (∀ (c : StatsPkg.StatsCollector) (st : dbSnapshot) (out : List Output),
      (⟨c, .receiving, [], out⟩ : StatsPkg.Running).AddStats st =
        some ⟨c, .holding st, [], out⟩) ∧
    (⟨⟨"DB", 10, sampleFullTable, ""⟩, .receiving, [], []⟩ : StatsPkg.Running).AddStats
        ⟨"q", 5⟩ =
      some ⟨⟨"DB", 10, sampleFullTable, ""⟩, .holding ⟨"q", 5⟩, [], []⟩ ∧
    (⟨⟨"DB", 10, sampleFullTable, ""⟩, .holding ⟨"q", 5⟩, [], []⟩ : StatsPkg.Running).AddStats
        ⟨"p", 7⟩ = none ∧
    (∀ fd : Int → String,
      ((⟨⟨"DB", 10, sampleFullTable, ""⟩, .holding ⟨"q", 5⟩, [], []⟩ :
          StatsPkg.Running).work fd).consumer = .receiving ∧
      ((⟨⟨"DB", 10, sampleFullTable, ""⟩, .holding ⟨"q", 5⟩, [], []⟩ :
          StatsPkg.Running).work fd).collector.stats = [("q", ⟨"q", 1, 5, 5, 5, 5⟩)] ∧
      (((⟨"DB", 10, sampleFullTable, ""⟩ : StatsPkg.StatsCollector).PrintStatsAndReset fd).2 <:+
        ((⟨⟨"DB", 10, sampleFullTable, ""⟩, .holding ⟨"q", 5⟩, [], []⟩ :
          StatsPkg.Running).work fd).out) ∧
      (((⟨⟨"DB", 10, sampleFullTable, ""⟩, .holding ⟨"q", 5⟩, [], []⟩ :
          StatsPkg.Running).work fd).AddStats ⟨"p", 7⟩).isSome = true) := by
  refine ⟨rfl, fun _ _ _ _ => rfl, fun _ _ _ => rfl, rfl, rfl, fun fd => ?_⟩
  obtain ⟨h1, h2, h3⟩ := StatsPkg.work_over fd ⟨"DB", 10, sampleFullTable, ""⟩ ⟨"q", 5⟩ []
    (by simp [sampleFullTable])
  exact ⟨h1, h2, h3, rfl⟩

end GormDao
